import Mathlib

/-!
# Invaders From Outer Space: gameplay core

A shallow embedding of `src/game/game_state.cpp` (entity pools, the box test,
scoring, the stage sequence, wave initialisation and the collision passes of
`internal_state_update_gameplay`) together with theorems about it.

Modelling conventions.

* `f32` values are rationals (`ℚ`).  The `f32` operations of `add_score`, of the
  move speed in `stage_init` and of the advance in `update_lazer` are rounded to
  the nearest binary32 value (`f32_round`); positions, timers and delays are
  computed exactly.  Infinities and NaN are not modelled.
* `u32` counters that the code increments wrap modulo `2 ^ 32`; `s32` values
  are integers (`ℤ`), signed overflow being undefined in the source.
* `DynamicArray<T>` is a `List T`.  An access outside `index < size`, a
  division by zero and a failed `gn_assert_with_message` are reported as a
  `Fault`, so every operation that may do one of them returns `Except Fault`.
* `Math::random` and `shuffle` are taken from an `Rng` oracle indexed by the
  number of draws made so far, which is kept in the state.
-/

namespace Invaders

/-! ## Basic data -/

/-- Reasons for which the C++ code leaves its defined behaviour. -/
inductive Fault where
  | index_out_of_range
  | division_by_zero
  | assertion_failed
deriving DecidableEq, Repr

structure Vector2 where
  x : ℚ
  y : ℚ
deriving DecidableEq

structure Vector4 where
  x : ℚ
  y : ℚ
  z : ℚ
  w : ℚ
deriving DecidableEq

/-- Component-wise `operator+` of `Vector4`. -/
def Vector4.add (a b : Vector4) : Vector4 :=
  ⟨a.x + b.x, a.y + b.y, a.z + b.z, a.w + b.w⟩

/-- Component-wise `operator-` of `Vector4`. -/
def Vector4.sub (a b : Vector4) : Vector4 :=
  ⟨a.x - b.x, a.y - b.y, a.z - b.z, a.w - b.w⟩

/-- Component-wise `operator*` of `Vector4`. -/
def Vector4.mul (a b : Vector4) : Vector4 :=
  ⟨a.x * b.x, a.y * b.y, a.z * b.z, a.w * b.w⟩

/-- The union `Rect` of `engine/rect.h`: `left, top, right, bottom` share
storage with a `Vector4`. -/
structure Rect where
  left : ℚ
  top : ℚ
  right : ℚ
  bottom : ℚ
deriving DecidableEq

/-- The `v4` view of a `Rect`. -/
def Rect.v4 (r : Rect) : Vector4 := ⟨r.left, r.top, r.right, r.bottom⟩

/-- `Animation2D::Instance` of `engine/sprite.h`. -/
structure Instance where
  current_frame_index : Nat
  start_time : ℚ
  loop_count : Nat
deriving DecidableEq

/-- `AnimationData` of `game_state.h` (the field `instance` is called `inst`). -/
structure AnimationData where
  animation_index : Nat
  inst : Instance
deriving DecidableEq

/-- `EntityData` of `game_state.h`: two parallel arrays. -/
structure EntityData where
  positions : List Vector2
  animations : List AnimationData
deriving DecidableEq

inductive EnemyType where
  | FLYING
  | DROPPER
  | KAMIKAZE
deriving DecidableEq, Repr

inductive PickupType where
  | HEALTH
  | POWER_SHOT
  | EXTRA_SHOT
  | LAZER_CHARGE
  | SKULL
deriving DecidableEq, Repr

/-- The enum value of a `PickupType`, which is its animation index. -/
def PickupType.toNat : PickupType → Nat
  | .HEALTH => 18
  | .POWER_SHOT => 19
  | .EXTRA_SHOT => 20
  | .LAZER_CHARGE => 21
  | .SKULL => 22

def bullet_enemy_animation_index : Nat := 8
def player_explosion_animation_index : Nat := 9
def enemy_explosion_animation_index : Nat := 10
def power_shot_explosion_animation_index : Nat := 23

/-- The enum value `BulletType::POWER_SHOT`. -/
def BulletType_POWER_SHOT : Nat := 6

/-- The enum value `BulletType::LAZER`. -/
def BulletType_LAZER : Nat := 7

/-! ## Containers (`containers/darray.h` is not part of the sources) -/

/-- Modelled from the spec: `operator[]` of `DynamicArray`, whose precondition
is `index < size`. -/
def DynamicArray.read {α : Type} (arr : List α) (index : Nat) : Except Fault α :=
  match arr[index]? with
  | some v => .ok v
  | none => .error .index_out_of_range

/-- Modelled from the spec: `append` of `DynamicArray` adds one element at the
end. -/
def append {α : Type} (arr : List α) (v : α) : List α := arr ++ [v]

/-- Modelled from the spec: `remove_swap` of `DynamicArray` (swap with the last
element, shrink by one, order not preserved); it returns the removed element.
The precondition is `index < size`. -/
def remove_swap {α : Type} (arr : List α) (index : Nat) : Except Fault (α × List α) :=
  match arr[index]?, arr.getLast? with
  | some v, some last => .ok (v, (arr.set index last).dropLast)
  | _, _ => .error .index_out_of_range

/-- Modelled from the spec: `remove` of `DynamicArray` (order preserving
removal); it returns the removed element.  The precondition is
`index < size`. -/
def remove {α : Type} (arr : List α) (index : Nat) : Except Fault (α × List α) :=
  match arr[index]? with
  | some v => .ok (v, arr.eraseIdx index)
  | none => .error .index_out_of_range

/-- Modelled from the spec: `clear` of `DynamicArray` empties the array. -/
def clear {α : Type} (_arr : List α) : List α := []

/-! ## Animation instances (`sprite.cpp` is not part of the sources) -/

/-- Modelled from the spec: `animation_start_instance`, of which only the
declaration is in `engine/sprite.h`: "sets start_time = now,
current_frame_index = 0, loop_count = 0". -/
def animation_start_instance (time : ℚ) : Instance :=
  { current_frame_index := 0, start_time := time, loop_count := 0 }

/-! ## Entity pools -/

def entity_add (entities : EntityData) (position : Vector2) (animation_index : Nat)
    (time : ℚ) : EntityData :=
  let positions := append entities.positions position
  let inst := animation_start_instance time
  { positions := positions
    animations := append entities.animations ⟨animation_index, inst⟩ }

def entity_remove (entities : EntityData) (index : Nat) : Except Fault EntityData := do
  let r1 ← remove_swap entities.animations index
  let r2 ← remove_swap entities.positions index
  pure { positions := r2.2, animations := r1.2 }

def entity_clear (entities : EntityData) : EntityData :=
  { positions := clear entities.positions, animations := clear entities.animations }

/-! ## The box test -/

/-- Lane-wise `_mm_cmpge_ps(v, _mm_setzero_ps())` followed by
`_mm_movemask_ps`: bit `i` of the mask is set when lane `i` is `>= 0`. -/
def movemask_cmpge_zero (v : Vector4) : Nat :=
  (if 0 ≤ v.x then 1 else 0) + (if 0 ≤ v.y then 2 else 0)
    + (if 0 ≤ v.z then 4 else 0) + (if 0 ≤ v.w then 8 else 0)

def test_aabb_vs_aabb (aabb1 aabb2 : Vector4) : Bool :=
  let res := (aabb2.sub aabb1).mul ⟨1, 1, -1, -1⟩
  let mask := movemask_cmpge_zero res
  mask == 0xF

/-- The scalar four-comparison box test in the words of the spec: boxes
`(left, top, right, bottom)` overlap iff `A.right >= B.left`,
`A.bottom >= B.top`, `A.left <= B.right` and `A.top <= B.bottom`. -/
def overlaps_spec (A B : Rect) : Prop :=
  A.right ≥ B.left ∧ A.bottom ≥ B.top ∧ A.left ≤ B.right ∧ A.top ≤ B.bottom

/-- The swizzled box `(right, bottom, left, top)` which the passes hand to
`test_aabb_vs_aabb` as second argument. -/
def Rect.swizzled (r : Rect) : Vector4 := ⟨r.right, r.bottom, r.left, r.top⟩

/-! ## Settings and state -/

/-- An array indexed by `EnemyType` (`T name[(u64) EnemyType::NUM_TYPES]`). -/
structure PerType (α : Type) where
  flying : α
  dropper : α
  kamikaze : α
deriving DecidableEq

/-- Read `arr[(u64) t]`. -/
def PerType.get {α : Type} (arr : PerType α) : EnemyType → α
  | .FLYING => arr.flying
  | .DROPPER => arr.dropper
  | .KAMIKAZE => arr.kamikaze

/-- Write `arr[(u64) t] = v`. -/
def PerType.set {α : Type} (arr : PerType α) (t : EnemyType) (v : α) : PerType α :=
  match t with
  | .FLYING => { arr with flying := v }
  | .DROPPER => { arr with dropper := v }
  | .KAMIKAZE => { arr with kamikaze := v }

/-- The part of `Sprite` the game logic reads. -/
structure Sprite where
  size : Vector2
deriving DecidableEq

inductive LoopType where
  | NONE
  | CYCLE
  | PING_PONG
deriving DecidableEq, Repr

structure Animation2D where
  sprites : List Sprite
  frame_rate : ℚ
  loop_type : LoopType
deriving DecidableEq

/-- The tuning values of `namespace GameSettings` that the modelled code reads. -/
structure GameSettings where
  render_scale : Vector2 := ⟨1, 1⟩
  player_region_height : ℚ := 0
  player_shot_delay : ℚ := 0
  player_bullet_collider_size : Vector2 := ⟨0, 0⟩
  player_powered_shot_collider_size : Vector2 := ⟨0, 0⟩
  lazer_length : Nat := 0
  lazer_duration : ℚ := 0
  lazer_speed : ℚ := 0
  lazer_streak_requirement : ℤ := 0
  lazer_power_requirement : Nat := 0
  player_collider_size : Vector2 := ⟨0, 0⟩
  enemy_move_speed : Vector2 := ⟨0, 0⟩
  enemy_rearrange_delay : ℚ := 0
  enemy_kamikaze_delay : ℚ := 0
  enemy_shot_delay : ℚ := 0
  enemy_row_start_count : Nat := 0
  enemy_column_start_count : Nat := 0
  enemy_vertical_gap : ℚ := 0
  enemy_collider_size : Vector2 := ⟨0, 0⟩
  enemy_start_spawn_counts : PerType ℤ := ⟨0, 0, 0⟩
  enemy_spawn_count_increase_intervals : PerType ℤ := ⟨0, 0, 0⟩
  enemy_spawn_count_increments : PerType ℤ := ⟨0, 0, 0⟩
  max_lazer_drops : ℤ := 0
  points_per_kill : Nat := 0
  kill_streak_multiplier : ℚ := 0
  max_kill_streak_multipliers : ℤ := 0
  multi_kill_multiplier : ℚ := 0
  min_kills_for_multi_kill : Nat := 0
  low_health_multiplier : ℚ := 0
  pickup_drop_chance_health : ℚ := 0
  pickup_drop_chance_power_shot : ℚ := 0
  pickup_drop_chance_extra_shot : ℚ := 0
  pickup_drop_chance_skull : ℚ := 0
  pickup_deck_size : Nat := 0
  player_move_speed : ℚ := 0
  enemy_wiggle_speed : Vector2 := ⟨0, 0⟩
  enemy_move_range : ℚ := 0
  enemy_bullet_collider_size : Vector2 := ⟨0, 0⟩
  player_bullet_speed : ℚ := 0
  enemy_bullet_speed : ℚ := 0
  pickup_drop_speed : ℚ := 0
  pickup_collider_size : Vector2 := ⟨0, 0⟩
  power_shot_drop_ammo : Nat := 0
  power_shot_max_ammo : Nat := 0
  extra_shot_drop_ammo : Nat := 0
  extra_shot_max_ammo : Nat := 0

structure StageSettings where
  number : Nat := 0
  enemy_column_count : Nat := 0
  enemy_row_count : Nat := 0
  enemy_move_speed : Vector2 := ⟨0, 0⟩
  enemy_rearrange_delay : ℚ := 0
  enemy_kamikaze_delay : ℚ := 0
  enemy_shot_delay : ℚ := 0
  enemy_spawn_counts : PerType ℤ := ⟨0, 0, 0⟩
deriving DecidableEq

/-- The draws of `Math::random` and of `shuffle`, indexed by the number of draws
made before. -/
structure Rng where
  random : Nat → ℚ
  shuffle_pickups : Nat → List PickupType → List PickupType
  shuffle_enemies : Nat → List Nat → List Nat

namespace GameScreen

def GAME : Nat := 1
def GAME_OVER : Nat := 2
def MAIN_MENU : Nat := 4
def PAUSE_MENU : Nat := 8
def SETTINGS_MENU : Nat := 16
def HIGH_SCORE : Nat := 32

end GameScreen

/-- `ControlScheme` of `player_settings.h`. -/
inductive ControlScheme where
  | ARROW_KEYS
  | WASD
deriving DecidableEq, Repr

/-- The fields of `Settings` (`player_settings.h`) used by the modelled code. -/
structure Settings where
  control_scheme : ControlScheme := .ARROW_KEYS
  high_score : Nat := 0
deriving DecidableEq

/-- The fields of `GameState` read or written by the modelled code, together
with the file-level statics `enemy_list`, `pickup_deck`, `pickup_deck_index` and
the number `rng` of random draws made so far.  A `Coroutine` is the number of
the suspension point at which it resumes (`0`: not started); the coroutine stack
variable `last_update_time` of `lazer_co` is the field `lazer_last_update_time`;
a timer that can hold `Math::infinity` is a `WithTop ℚ`. -/
structure GameState where
  state_co : Nat := 0
  anims : List Animation2D := []
  player_lives : ℤ := 0
  player_kill_streak : ℤ := 0
  player_score : Nat := 0
  player_position : Vector2 := ⟨0, 0⟩
  player_size : Vector2 := ⟨0, 0⟩
  player_time_since_last_shot : WithTop ℚ := 0
  player_previous_animation_index : Nat := 0
  player_animation : AnimationData := ⟨0, ⟨0, 0, 0⟩⟩
  player_bullets_per_shot : Nat := 1
  player_equipped_bullet_type : Nat := 5
  player_power_shot_ammo : ℤ := 0
  player_extra_shot_ammo : ℤ := 0
  lazer_drops : ℤ := 0
  enemy_time_since_last_shot : ℚ := 0
  enemy_time_since_last_kamikaze : ℚ := 0
  enemy_time_since_last_rearrangement : ℚ := 0
  stage_co : Nat := 0
  current_stage : StageSettings := {}
  enemy_slots : PerType (List Vector2) := ⟨[], [], []⟩
  empty_slots : List Vector2 := []
  time_since_screen_shake_start : WithTop ℚ := 0
  player_bullets : EntityData := ⟨[], []⟩
  enemy_bullets : EntityData := ⟨[], []⟩
  enemies : PerType EntityData := ⟨⟨[], []⟩, ⟨[], []⟩, ⟨[], []⟩⟩
  explosions : EntityData := ⟨[], []⟩
  power_shot_explosions : EntityData := ⟨[], []⟩
  pickups : EntityData := ⟨[], []⟩
  kamikaze_enemies : EntityData := ⟨[], []⟩
  kamikaze_targets : List Vector2 := []
  lazer_chunk : AnimationData := ⟨7, ⟨0, 0, 0⟩⟩
  lazer_charge : Nat := 0
  lazer_position : Vector2 := ⟨0, 0⟩
  lazer_start : Nat := 0
  lazer_end : Nat := 0
  lazer_co : Nat := 0
  lazer_last_update_time : ℚ := 0
  is_lazer_active : Bool := false
  game_playground : Vector2 := ⟨0, 0⟩
  current_screen : Nat := 0
  player_settings : Settings := {}
  new_high_score : Bool := false
  is_debug : Bool := false
  enemy_list : List Nat := []
  pickup_deck : List PickupType := []
  pickup_deck_index : Nat := 0
  rng : Nat := 0
deriving DecidableEq

deriving instance DecidableEq for Except

/-! ## Machine integers -/

/-- Conversion of an integer value to `u32`. -/
def to_u32 (v : ℤ) : Nat := (v % 2 ^ 32).toNat

/-- Conversion of an integer value to `u64`. -/
def to_u64 (v : ℤ) : Nat := (v % 2 ^ 64).toNat

/-- Conversion of an integer value to `s32` (two's complement). -/
def to_s32 (v : ℤ) : ℤ :=
  if v % 2 ^ 32 < 2 ^ 31 then v % 2 ^ 32 else v % 2 ^ 32 - 2 ^ 32

/-- Conversion of an `f32` to `u32`: the fraction is dropped.  The conversion of
a negative or too large value is undefined in the source; the model gives `0`
for a negative value and reduces modulo `2 ^ 32`. -/
def f32_to_u32 (v : ℚ) : Nat := (Int.toNat ⌊v⌋) % 2 ^ 32

/-! ## Binary32 arithmetic -/

/-- Rounding of a real value to the nearest integer, a tie going to the even
neighbour. -/
def round_half_even (q : ℚ) : ℤ :=
  if q - ⌊q⌋ < 1 / 2 then ⌊q⌋
  else if 1 / 2 < q - ⌊q⌋ then ⌊q⌋ + 1
  else if ⌊q⌋ % 2 = 0 then ⌊q⌋ else ⌊q⌋ + 1

/-- The position of the leading bit of `n`, found by halving: `fuel` bounds the
rounds left. -/
def log2_loop : Nat → Nat → Nat
  | 0, _ => 0
  | fuel + 1, n => if n < 2 then 0 else log2_loop fuel (n / 2) + 1

/-- The whole part of the binary logarithm of a positive value. -/
def log2_floor (a : ℚ) : ℤ :=
  let c : ℤ := (log2_loop a.num.natAbs a.num.natAbs : ℤ) - (log2_loop a.den a.den : ℤ)
  if (2 : ℚ) ^ c ≤ a then c else c - 1

/-- The distance between neighbouring `f32` values at `q`: a 24-bit
significand, and the exponent of the smallest normal numbers for all smaller
values. -/
def f32_quantum (q : ℚ) : ℚ := 2 ^ (max (log2_floor |q|) (-126) - 23)

/-- The `f32` nearest to the real value `q` (IEEE 754 binary32, round to
nearest, ties to even): the result of an `f32` operation whose exact result is
`q`, and of the conversion of `q` to `f32`.  The model has no infinities: the
exponent is not bounded above. -/
def f32_round (q : ℚ) : ℚ := round_half_even (q / f32_quantum q) * f32_quantum q

/-- The value `q` is an `f32`: rounding leaves it as it is. -/
def is_f32 (q : ℚ) : Prop := f32_round q = q

instance (q : ℚ) : Decidable (is_f32 q) := by
  unfold is_f32
  infer_instance

/-- Conversion of an `f32` to `s32`: the fraction is dropped.  The conversion of
a value outside the range of `s32` is undefined in the source; the model gives
`-2 ^ 31`, the result of the x86 conversion instruction. -/
def f32_to_s32 (v : ℚ) : ℤ :=
  let t : ℤ := if 0 ≤ v then ⌊v⌋ else ⌈v⌉
  if -2 ^ 31 ≤ t ∧ t < 2 ^ 31 then t else -2 ^ 31

/-! ## Stage progression -/

/-- One call of `stage_init`: it runs from the resume point `co` to the next
`coroutine_yield` and returns the new resume point.  Resume point `0` is the
start of the function, `1` the yield after the setup, `2`..`6` the five yields
of the loop body; the statements after `coroutine_end` are behind `while (true)`.
The sum `enemy_move_speed += Vector2 { 0.15f, 0.25f }` is an `f32` sum of `f32`
constants, rounded as the machine rounds it. -/
def stage_init (gs : GameSettings) (co : Nat) (stage : StageSettings) : Nat × StageSettings :=
  let increase_rows (s : StageSettings) : StageSettings :=
    { s with enemy_row_count := min ((s.enemy_row_count + 1) % 2 ^ 32) 7
             number := (s.number + 1) % 2 ^ 32 }
  match co with
  | 0 =>
    (1, { stage with
            number := 1
            enemy_column_count := gs.enemy_column_start_count % 2 ^ 32
            enemy_row_count := gs.enemy_row_start_count % 2 ^ 32
            enemy_move_speed := gs.enemy_move_speed
            enemy_rearrange_delay := gs.enemy_rearrange_delay
            enemy_kamikaze_delay := gs.enemy_kamikaze_delay
            enemy_shot_delay := gs.enemy_shot_delay
            enemy_spawn_counts :=
              ⟨gs.enemy_start_spawn_counts.flying, gs.enemy_start_spawn_counts.dropper,
                gs.enemy_start_spawn_counts.kamikaze⟩ })
  | 1 => (2, increase_rows stage)
  | 2 =>
    (3, { stage with
            enemy_shot_delay := max (stage.enemy_shot_delay - 5 / 100) (gs.player_shot_delay - 15 / 100)
            number := (stage.number + 1) % 2 ^ 32 })
  | 3 =>
    (4, { stage with
            enemy_kamikaze_delay := max (stage.enemy_kamikaze_delay - 5 / 100) (25 / 100)
            number := (stage.number + 1) % 2 ^ 32 })
  | 4 =>
    (5, { stage with
            enemy_column_count := min ((stage.enemy_column_count + 1) % 2 ^ 32) 7
            number := (stage.number + 1) % 2 ^ 32 })
  | 5 =>
    (6, { stage with
            enemy_move_speed :=
              ⟨f32_round (stage.enemy_move_speed.x + f32_round (15 / 100)),
                f32_round (stage.enemy_move_speed.y + f32_round (25 / 100))⟩
            enemy_rearrange_delay := max (stage.enemy_rearrange_delay - 15 / 100) (25 / 100)
            number := (stage.number + 1) % 2 ^ 32 })
  | _ => (2, increase_rows stage)

/-! ## Scoring -/

/-- The body of the `for` loop of `add_score` for the index `i`.
`kill_streak_start + i` and the division are `u32` operations (`i` is a `u32`);
the quotient is converted to `f32` for `Math::floor` and cast to `s32`.  The
multiplier is an `f32`: every product is rounded to the nearest `f32`, and
`Math::pow`, which is not part of the sources, is taken as the `f32` nearest to
the power.  In `player_score += multiplier * points_per_kill` both `u32`
operands are converted to `f32`, the sum is an `f32` sum, and its conversion
back to `u32` drops the fraction. -/
def add_score_kill (gs : GameSettings) (kill_count : Nat) (kill_streak_start : ℤ) (i : Nat)
    (st : GameState) : Except Fault GameState :=
  if to_u32 gs.lazer_streak_requirement = 0 then .error .division_by_zero
  else
    let kill_streaks : ℤ :=
      min (f32_to_s32 (f32_round
          ((to_u32 (kill_streak_start + i) / to_u32 gs.lazer_streak_requirement : Nat) : ℚ)))
        gs.max_kill_streak_multipliers
    let multiplier : ℚ := f32_round (gs.kill_streak_multiplier ^ kill_streaks)
    let multiplier := f32_round (multiplier *
      (if kill_count ≥ gs.min_kills_for_multi_kill then gs.multi_kill_multiplier else 1))
    let multiplier :=
      f32_round (multiplier * (if st.player_lives = 1 then gs.low_health_multiplier else 1))
    .ok { st with
      player_score := f32_to_u32 (f32_round
        (f32_round st.player_score + f32_round (multiplier * f32_round gs.points_per_kill))) }

/-- The `for (u32 i = 0; i < kill_count; i++)` loop of `add_score`, with `n`
iterations left and the next index `i`. -/
def add_score_loop (gs : GameSettings) (kill_count : Nat) (kill_streak_start : ℤ) :
    Nat → Nat → GameState → Except Fault GameState
  | 0, _, st => .ok st
  | n + 1, i, st => do
    let st1 ← add_score_kill gs kill_count kill_streak_start i st
    add_score_loop gs kill_count kill_streak_start n (i + 1) st1

def add_score (gs : GameSettings) (st : GameState) (kill_count : Nat) : Except Fault GameState :=
  if st.player_lives ≤ 0 then .ok st
  else
    let kill_streak_start : ℤ := to_s32 (st.player_kill_streak - kill_count)
    add_score_loop gs kill_count kill_streak_start kill_count 0 st

/-- The streak tier of the spec: `min(floor(index / requirement), maxTiers)`. -/
def streak_tier_spec (gs : GameSettings) (index : ℤ) : ℤ :=
  min ⌊(index : ℚ) / (gs.lazer_streak_requirement : ℚ)⌋ gs.max_kill_streak_multipliers

/-- The price of one kill in the words of the spec:
`points_per_kill * streakMultiplier^streakTier * multiKillBonus * lowHealthBonus`. -/
def kill_price_spec (gs : GameSettings) (lives : ℤ) (kill_count : Nat) (index : ℤ) : ℚ :=
  gs.points_per_kill * gs.kill_streak_multiplier ^ (streak_tier_spec gs index)
    * (if kill_count ≥ gs.min_kills_for_multi_kill then gs.multi_kill_multiplier else 1)
    * (if lives = 1 then gs.low_health_multiplier else 1)

/-- No `f32` operation of the kill with the streak index `index` on the score
`score` rounds: the tier quotient, the power, the three products, the two
operands of the sum and the sum are `f32` values. -/
def kill_is_exact (gs : GameSettings) (lives : ℤ) (kill_count : Nat) (index : ℤ)
    (score : Nat) : Prop :=
  let power : ℚ := gs.kill_streak_multiplier ^ streak_tier_spec gs index
  let with_multi_kill : ℚ :=
    power * (if kill_count ≥ gs.min_kills_for_multi_kill then gs.multi_kill_multiplier else 1)
  let multiplier : ℚ := with_multi_kill * (if lives = 1 then gs.low_health_multiplier else 1)
  is_f32 ((⌊(index : ℚ) / (gs.lazer_streak_requirement : ℚ)⌋ : ℤ) : ℚ) ∧ is_f32 power ∧
    is_f32 with_multi_kill ∧ is_f32 multiplier ∧ is_f32 (gs.points_per_kill : ℚ) ∧
    is_f32 (multiplier * gs.points_per_kill) ∧ is_f32 (score : ℚ) ∧
    is_f32 ((score : ℚ) + multiplier * gs.points_per_kill)

instance (gs : GameSettings) (lives : ℤ) (kill_count : Nat) (index : ℤ) (score : Nat) :
    Decidable (kill_is_exact gs lives kill_count index score) := by
  unfold kill_is_exact
  infer_instance

/-! ## Pickups, explosions and enemy removal -/

def get_random_pickup_type (R : Rng) (st : GameState) : Except Fault (PickupType × GameState) := do
  let st1 :=
    if st.pickup_deck_index ≥ st.pickup_deck.length then
      { st with pickup_deck_index := 0
                pickup_deck := R.shuffle_pickups st.rng st.pickup_deck
                rng := st.rng + 1 }
    else st
  let card ← DynamicArray.read st1.pickup_deck st1.pickup_deck_index
  pure (card, { st1 with pickup_deck_index := st1.pickup_deck_index + 1 })

def spawn_explosion (st : GameState) (position : Vector2) (time : ℚ) : GameState :=
  { st with explosions := entity_add st.explosions position enemy_explosion_animation_index time
            time_since_screen_shake_start := 0 }

def remove_enemy (st : GameState) (type_index : EnemyType) (index : Nat) (time : ℚ) :
    Except Fault GameState := do
  let enemies := st.enemies.get type_index
  let enemy_position ← DynamicArray.read enemies.positions index
  let enemies1 ← entity_remove enemies index
  let r ← remove_swap (st.enemy_slots.get type_index) index
  let slot_position := r.1
  let st1 := { st with enemies := st.enemies.set type_index enemies1
                       enemy_slots := st.enemy_slots.set type_index r.2 }
  let st2 :=
    if st1.empty_slots.length = 0 then { st1 with enemy_time_since_last_rearrangement := 0 }
    else st1
  let st3 := { st2 with empty_slots := append st2.empty_slots slot_position }
  pure (spawn_explosion st3 enemy_position time)

def spawn_pickup (R : Rng) (st : GameState) (position : Vector2) (time : ℚ) :
    Except Fault GameState := do
  let r ← get_random_pickup_type R st
  pure { r.2 with pickups := entity_add r.2.pickups position r.1.toNat time }

/-! ## Collision passes of `internal_state_update_gameplay` -/

/-- The constant `enemy_aabb_coord` (swizzled: right, bottom, left, top). -/
def enemy_aabb_coord (gs : GameSettings) : Vector4 :=
  ⟨gs.render_scale.x * (1 / 2) * gs.enemy_collider_size.x,
   gs.render_scale.y * (1 / 2) * gs.enemy_collider_size.y,
   gs.render_scale.x * (-1 / 2) * gs.enemy_collider_size.x,
   gs.render_scale.y * (-1 / 2) * gs.enemy_collider_size.y⟩

/-- The local `enemy_aabb` of the passes:
`enemy_aabb_coord + Vector4 { p.x, p.y, p.x, p.y }`. -/
def enemy_aabb (gs : GameSettings) (p : Vector2) : Vector4 :=
  (enemy_aabb_coord gs).add ⟨p.x, p.y, p.x, p.y⟩

/-- The constant `bullet_aabb_coord` of the player bullets (left, top, right,
bottom). -/
def bullet_aabb_coord (gs : GameSettings) : Vector4 :=
  ⟨gs.render_scale.x * (-1 / 2) * gs.player_bullet_collider_size.x,
   gs.render_scale.y * 0 * gs.player_bullet_collider_size.y,
   gs.render_scale.x * (1 / 2) * gs.player_bullet_collider_size.x,
   gs.render_scale.y * 1 * gs.player_bullet_collider_size.y⟩

/-- The local `bullet_aabb` of the bullet pass. -/
def bullet_aabb (gs : GameSettings) (p : Vector2) : Vector4 :=
  (bullet_aabb_coord gs).add ⟨p.x, p.y, p.x, p.y⟩

/-- The local `lazer_aabb` of the lazer pass, for the scaled sprite size
`sprite_size`. -/
def lazer_aabb (st : GameState) (sprite_size : Vector2) : Vector4 :=
  ⟨st.lazer_position.x - sprite_size.x / 2,
   st.lazer_position.y - st.lazer_end * sprite_size.y,
   st.lazer_position.x + sprite_size.x / 2,
   st.lazer_position.y - st.lazer_start * sprite_size.y⟩

/-- Lazer pass, the loop `for (s64 enemy_i = size - 1; enemy_i >= 0; enemy_i--)`
over the pool of one archetype: `n` is the number of iterations left, the
index visited next is `n - 1`.  The second component is `kill_count`. -/
def lazer_scan_type (gs : GameSettings) (R : Rng) (time : ℚ) (box : Vector4)
    (enemy_type : EnemyType) : Nat → GameState × Nat → Except Fault (GameState × Nat)
  | 0, acc => .ok acc
  | enemy_i + 1, (st, kill_count) => do
    let enemy_position ← DynamicArray.read (st.enemies.get enemy_type).positions enemy_i
    if test_aabb_vs_aabb box (enemy_aabb gs enemy_position) then
      let st1 ← remove_enemy st enemy_type enemy_i time
      let st2 ← if enemy_type = .DROPPER then spawn_pickup R st1 enemy_position time else .ok st1
      lazer_scan_type gs R time box enemy_type enemy_i (st2, (kill_count + 1) % 2 ^ 32)
    else
      lazer_scan_type gs R time box enemy_type enemy_i (st, kill_count)

/-- Lazer pass, the loop over the kamikaze pool. -/
def lazer_scan_kamikaze (gs : GameSettings) (time : ℚ) (box : Vector4) :
    Nat → GameState × Nat → Except Fault (GameState × Nat)
  | 0, acc => .ok acc
  | enemy_i + 1, (st, kill_count) => do
    let enemy_position ← DynamicArray.read st.kamikaze_enemies.positions enemy_i
    if test_aabb_vs_aabb box (enemy_aabb gs enemy_position) then
      let p ← DynamicArray.read st.kamikaze_enemies.positions enemy_i
      let st1 := spawn_explosion st p time
      let pool ← entity_remove st1.kamikaze_enemies enemy_i
      let st2 := { st1 with kamikaze_enemies := pool }
      lazer_scan_kamikaze gs time box enemy_i (st2, (kill_count + 1) % 2 ^ 32)
    else
      lazer_scan_kamikaze gs time box enemy_i (st, kill_count)

/-- The scaled size of the first sprite of the lazer animation,
`render_scale * anims[(u64) BulletType::LAZER].sprites[0].size`. -/
def lazer_sprite_size (gs : GameSettings) (st : GameState) : Except Fault Vector2 := do
  let anim ← DynamicArray.read st.anims BulletType_LAZER
  let sprite ← DynamicArray.read anim.sprites 0
  pure ⟨gs.render_scale.x * sprite.size.x, gs.render_scale.y * sprite.size.y⟩

/-- The block "Test Lazer vs Enemies" up to the call of `add_score`: the state
and `kill_count` after the four scans. -/
def lazer_vs_enemies_scan (gs : GameSettings) (R : Rng) (time : ℚ) (st : GameState) :
    Except Fault (GameState × Nat) := do
  let sprite_size ← lazer_sprite_size gs st
  let box := lazer_aabb st sprite_size
  let acc0 : GameState × Nat := (st, 0)
  let acc1 ← lazer_scan_type gs R time box .FLYING
    (acc0.1.enemies.get .FLYING).positions.length acc0
  let acc2 ← lazer_scan_type gs R time box .DROPPER
    (acc1.1.enemies.get .DROPPER).positions.length acc1
  let acc3 ← lazer_scan_type gs R time box .KAMIKAZE
    (acc2.1.enemies.get .KAMIKAZE).positions.length acc2
  lazer_scan_kamikaze gs time box acc3.1.kamikaze_enemies.positions.length acc3

/-- The block "Test Lazer vs Enemies". -/
def test_lazer_vs_enemies (gs : GameSettings) (R : Rng) (time : ℚ) (st : GameState) :
    Except Fault GameState :=
  if st.is_lazer_active then do
    let acc ← lazer_vs_enemies_scan gs R time st
    add_score gs acc.1 acc.2
  else .ok st

/-- Bullet pass, the statements run for a hit of the bullet `bullet_i` on the
enemy `enemy_i` of an archetype pool, up to `kill_count++`. -/
def bullet_hit_enemy (gs : GameSettings) (R : Rng) (time : ℚ) (bullet_i : Nat)
    (enemy_type : EnemyType) (enemy_i : Nat) (enemy_position : Vector2) (st : GameState) :
    Except Fault GameState := do
  -- Trigger explosion if the bullet is a powered shot
  let bullet_anim ← DynamicArray.read st.player_bullets.animations bullet_i
  let st1 :=
    if bullet_anim.animation_index = BulletType_POWER_SHOT then
      { st with power_shot_explosions :=
          (entity_add st.power_shot_explosions enemy_position
            power_shot_explosion_animation_index time) }
    else st
  let st2 := { st1 with player_kill_streak := st1.player_kill_streak + 1 }
  -- Remove Bullet and Enemy
  let bullets ← entity_remove st2.player_bullets bullet_i
  let st3 := { st2 with player_bullets := bullets }
  let st4 ← remove_enemy st3 enemy_type enemy_i time
  if enemy_type = .DROPPER then spawn_pickup R st4 enemy_position time
  else if !st4.is_lazer_active && decide (st4.lazer_drops < gs.max_lazer_drops)
      && decide (st4.lazer_charge < gs.lazer_power_requirement) then
    if gs.lazer_streak_requirement = 0 then .error .division_by_zero
    else if Int.tmod st4.player_kill_streak gs.lazer_streak_requirement = 0 then
      -- Drop lazer if it was the last kill of the current streak
      .ok { st4 with
              pickups := (entity_add st4.pickups enemy_position PickupType.LAZER_CHARGE.toNat time)
              lazer_drops := st4.lazer_drops + 1 }
    else .ok st4
  else .ok st4

/-- Bullet pass, the innermost loop over the pool of one archetype for the
bullet `bullet_i`; it ends at the first hit (`break`). -/
def bullet_scan_type (gs : GameSettings) (R : Rng) (time : ℚ) (bullet_i : Nat) (box : Vector4)
    (enemy_type : EnemyType) : Nat → GameState × Nat → Except Fault (GameState × Nat)
  | 0, acc => .ok acc
  | enemy_i + 1, (st, kill_count) => do
    let enemy_position ← DynamicArray.read (st.enemies.get enemy_type).positions enemy_i
    if test_aabb_vs_aabb box (enemy_aabb gs enemy_position) then
      let st1 ← bullet_hit_enemy gs R time bullet_i enemy_type enemy_i enemy_position st
      .ok (st1, (kill_count + 1) % 2 ^ 32)
    else
      bullet_scan_type gs R time bullet_i box enemy_type enemy_i (st, kill_count)

/-- Bullet pass, the loop over the kamikaze pool for the bullet `bullet_i`; it
ends at the first hit (`break`). -/
def bullet_scan_kamikaze (gs : GameSettings) (time : ℚ) (bullet_i : Nat) (box : Vector4) :
    Nat → GameState × Nat → Except Fault (GameState × Nat)
  | 0, acc => .ok acc
  | enemy_i + 1, (st, kill_count) => do
    let enemy_position ← DynamicArray.read st.kamikaze_enemies.positions enemy_i
    if test_aabb_vs_aabb box (enemy_aabb gs enemy_position) then
      let p ← DynamicArray.read st.kamikaze_enemies.positions enemy_i
      let st1 := spawn_explosion st p time
      let bullets ← entity_remove st1.player_bullets bullet_i
      let st2 := { st1 with player_bullets := bullets }
      let pool ← entity_remove st2.kamikaze_enemies enemy_i
      let st3 := { st2 with kamikaze_enemies := pool }
      .ok (st3, (kill_count + 1) % 2 ^ 32)
    else
      bullet_scan_kamikaze gs time bullet_i box enemy_i (st, kill_count)

/-- Bullet pass, the body of the loop over the bullets for the bullet
`bullet_i`: the loop over the three archetypes, then the kamikaze pool. -/
def bullet_vs_all_enemies (gs : GameSettings) (R : Rng) (time : ℚ) (bullet_i : Nat)
    (acc0 : GameState × Nat) : Except Fault (GameState × Nat) := do
  let bullet_position ← DynamicArray.read acc0.1.player_bullets.positions bullet_i
  let box := bullet_aabb gs bullet_position
  let acc1 ← bullet_scan_type gs R time bullet_i box .FLYING
    (acc0.1.enemies.get .FLYING).positions.length acc0
  let acc2 ← bullet_scan_type gs R time bullet_i box .DROPPER
    (acc1.1.enemies.get .DROPPER).positions.length acc1
  let acc3 ← bullet_scan_type gs R time bullet_i box .KAMIKAZE
    (acc2.1.enemies.get .KAMIKAZE).positions.length acc2
  bullet_scan_kamikaze gs time bullet_i box acc3.1.kamikaze_enemies.positions.length acc3

/-- Bullet pass, the loop
`for (s64 bullet_i = size - 1; bullet_i >= 0; bullet_i--)`. -/
def bullets_loop (gs : GameSettings) (R : Rng) (time : ℚ) :
    Nat → GameState × Nat → Except Fault (GameState × Nat)
  | 0, acc => .ok acc
  | bullet_i + 1, acc => do
    let acc1 ← bullet_vs_all_enemies gs R time bullet_i acc
    bullets_loop gs R time bullet_i acc1

/-- The block "Test Player Bullets vs Enemies" up to the call of `add_score`. -/
def player_bullets_vs_enemies_scan (gs : GameSettings) (R : Rng) (time : ℚ) (st : GameState) :
    Except Fault (GameState × Nat) :=
  bullets_loop gs R time st.player_bullets.positions.length (st, 0)

/-- The block "Test Player Bullets vs Enemies". -/
def test_player_bullets_vs_enemies (gs : GameSettings) (R : Rng) (time : ℚ) (st : GameState) :
    Except Fault GameState := do
  let acc ← player_bullets_vs_enemies_scan gs R time st
  add_score gs acc.1 acc.2

/-! ## Wave initialisation and reset -/

def get_enemy_type_from_animation_index (index : Nat) : Except Fault EnemyType :=
  if index = 11 ∨ index = 12 then .ok .FLYING
  else if index = 13 ∨ index = 14 then .ok .KAMIKAZE
  else if index = 15 ∨ index = 16 ∨ index = 17 then .ok .DROPPER
  else .error .assertion_failed

/-- The animation index drawn for an archetype from the random number `num`:
`Math::floor((end - start) * num + 0.5f) + start`, a `u64`. -/
def get_random_enemy_index_of_type (type : EnemyType) (num : ℚ) : Nat :=
  match type with
  | .FLYING => to_u64 (⌊((12 : ℚ) - 11) * num + 1 / 2⌋ + 11)
  | .KAMIKAZE => to_u64 (⌊((14 : ℚ) - 13) * num + 1 / 2⌋ + 13)
  | .DROPPER => to_u64 (⌊((17 : ℚ) - 15) * num + 1 / 2⌋ + 15)

/-- One of the three `for (; filled < end; filled++)` loops of
`fill_enemy_list`, with `n` iterations left; the second component counts the
random draws. -/
def fill_enemy_list_loop (R : Rng) (type : EnemyType) : Nat → List Nat × Nat → List Nat × Nat
  | 0, acc => acc
  | n + 1, (list, rng) =>
    fill_enemy_list_loop R type n
      (append list (get_random_enemy_index_of_type type (R.random rng)), rng + 1)

/-- The function `fill_enemy_list`; `resize` is taken to reserve capacity
only, the list being filled by `append`. -/
def fill_enemy_list (R : Rng) (st : GameState) (num_enemies : Nat) : GameState :=
  let stage := st.current_stage
  let kamikaze_end := to_u64 (stage.enemy_spawn_counts.get .KAMIKAZE)
  let dropper_end := (to_u64 (stage.enemy_spawn_counts.get .DROPPER) + kamikaze_end) % 2 ^ 64
  let flying_end := num_enemies
  let filled := 0
  let acc : List Nat × Nat := (clear st.enemy_list, st.rng)
  -- Fill Kamikaze
  let acc := fill_enemy_list_loop R .KAMIKAZE (kamikaze_end - filled) acc
  let filled := max filled kamikaze_end
  -- Fill Droppers
  let acc := fill_enemy_list_loop R .DROPPER (dropper_end - filled) acc
  let filled := max filled dropper_end
  -- Fill Flying
  let acc := fill_enemy_list_loop R .FLYING (flying_end - filled) acc
  { st with enemy_list := R.shuffle_enemies acc.2 acc.1, rng := acc.2 + 1 }

/-- The inner loop `for (u64 x = 0; x < stage.enemy_column_count; x++)` of
`init_enemies` in the row `y`, with `n` iterations left and the next column
`x`; the second component is the local `position`. -/
def init_enemies_cells (gs : GameSettings) (time : ℚ) (x_offset : ℚ) (y : Nat) :
    Nat → Nat → GameState × Vector2 → Except Fault (GameState × Vector2)
  | 0, _, acc => .ok acc
  | n + 1, x, (st, position) => do
    let start_height : ℚ := (-1 / 2) * gs.enemy_move_speed.y
    let index := y * st.current_stage.enemy_column_count + x
    let random_enemy ← DynamicArray.read st.enemy_list index
    let enemy_type_index ← get_enemy_type_from_animation_index random_enemy
    let st1 := { st with enemy_slots := (st.enemy_slots.set enemy_type_index
      (append (st.enemy_slots.get enemy_type_index) position)) }
    let st2 := { st1 with rng := st1.rng + 1 }
    let st3 := { st2 with enemies := (st2.enemies.set enemy_type_index
      (entity_add (st2.enemies.get enemy_type_index) ⟨position.x, start_height + position.y⟩
        random_enemy time)) }
    init_enemies_cells gs time x_offset y n (x + 1) (st3, ⟨position.x + x_offset, position.y⟩)

/-- The outer loop `for (u64 y = 0; y < stage.enemy_row_count; y++)` of
`init_enemies`, with `n` iterations left and the next row `y`. -/
def init_enemies_rows (gs : GameSettings) (time : ℚ) (x_offset x_start : ℚ) :
    Nat → Nat → GameState × Vector2 → Except Fault (GameState × Vector2)
  | 0, _, acc => .ok acc
  | n + 1, y, acc => do
    let acc1 ← init_enemies_cells gs time x_offset y acc.1.current_stage.enemy_column_count 0 acc
    init_enemies_rows gs time x_offset x_start n (y + 1)
      (acc1.1, ⟨x_start, acc1.2.y + gs.enemy_vertical_gap⟩)

/-- The function `init_enemies`.  When the column count is zero no cell is
visited, so the value of `x_offset` (a division by zero in the source) is not
used. -/
def init_enemies (gs : GameSettings) (R : Rng) (time : ℚ) (st : GameState) :
    Except Fault GameState := do
  if (st.enemies.get .FLYING).positions.length ≠ 0 then throw Fault.assertion_failed
  if (st.enemies.get .DROPPER).positions.length ≠ 0 then throw Fault.assertion_failed
  if (st.enemies.get .KAMIKAZE).positions.length ≠ 0 then throw Fault.assertion_failed
  let stage := st.current_stage
  let x_offset : ℚ := min (st.game_playground.x / stage.enemy_column_count) 72
  let x_start : ℚ :=
    (1 / 2) * (st.game_playground.x - (to_u32 ((stage.enemy_column_count : ℤ) - 1) : ℚ) * x_offset)
  let position : Vector2 := ⟨x_start, 75⟩
  let st1 := { st with enemy_slots := (((st.enemy_slots.set .FLYING
    (clear (st.enemy_slots.get .FLYING))).set .DROPPER
      (clear (st.enemy_slots.get .DROPPER))).set .KAMIKAZE (clear (st.enemy_slots.get .KAMIKAZE))) }
  let num_enemies := (stage.enemy_row_count * stage.enemy_column_count) % 2 ^ 32
  let st2 := fill_enemy_list R st1 num_enemies
  let acc ← init_enemies_rows gs time x_offset x_start stage.enemy_row_count 0 (st2, position)
  let st3 := { acc.1 with empty_slots := clear acc.1.empty_slots }
  pure { st3 with enemy_time_since_last_kamikaze := 0
                  enemy_time_since_last_rearrangement := 0
                  enemy_time_since_last_shot := 0 }

def game_state_reset (gs : GameSettings) (R : Rng) (time : ℚ) (st : GameState) :
    Except Fault GameState := do
  -- Stage
  let r := stage_init gs 0 st.current_stage
  let st := { st with stage_co := r.1, current_stage := r.2 }
  -- Initialize Player Data
  let anim ← DynamicArray.read st.anims 0
  let sprite ← DynamicArray.read anim.sprites 0
  let st := { st with
    player_position := ⟨st.game_playground.x / 2,
      st.game_playground.y - gs.player_region_height / 2⟩
    player_size := sprite.size
    player_animation := ⟨0, animation_start_instance time⟩
    player_lives := 3
    player_score := 0
    player_kill_streak := 0
    is_lazer_active := false
    player_equipped_bullet_type := 5
    player_bullets_per_shot := 1
    lazer_drops := 0
    player_extra_shot_ammo := 0
    player_power_shot_ammo := 0 }
  -- Clear all entities
  let st := { st with
    player_bullets := entity_clear st.player_bullets
    enemy_bullets := entity_clear st.enemy_bullets
    explosions := entity_clear st.explosions
    power_shot_explosions := entity_clear st.power_shot_explosions
    pickups := entity_clear st.pickups
    kamikaze_enemies := entity_clear st.kamikaze_enemies
    enemies := (((st.enemies.set .FLYING (entity_clear (st.enemies.get .FLYING))).set .DROPPER
        (entity_clear (st.enemies.get .DROPPER))).set .KAMIKAZE
          (entity_clear (st.enemies.get .KAMIKAZE))) }
  -- Timers
  let st := { st with
    player_time_since_last_shot := ⊤
    time_since_screen_shake_start := ⊤
    lazer_charge := 0 }
  -- Initialize Stuff
  let st ← init_enemies gs R time st
  pure { st with state_co := 0, new_high_score := false }

/-- The number `remaining_enemies` computed by `game_state_update`. -/
def remaining_enemies (st : GameState) : Nat :=
  st.kamikaze_enemies.positions.length + (st.enemies.get .FLYING).positions.length
    + (st.enemies.get .DROPPER).positions.length + (st.enemies.get .KAMIKAZE).positions.length

/-- The statements `stage_init(state.stage_co, state.current_stage);
init_enemies(app, state);` which `game_state_update` runs when
`remaining_enemies == 0`. -/
def game_state_update_new_wave (gs : GameSettings) (R : Rng) (time : ℚ) (st : GameState) :
    Except Fault GameState :=
  let r := stage_init gs st.stage_co st.current_stage
  init_enemies gs R time { st with stage_co := r.1, current_stage := r.2 }

/-! ## Enemy behaviour blocks of `internal_state_update_gameplay` -/

/-- The block "Enemy Rearrangement" (only droppers rearrange). -/
def enemy_rearrangement (R : Rng) (delta_time : ℚ) (st : GameState) : Except Fault GameState := do
  let st := { st with enemy_time_since_last_rearrangement := (
    st.enemy_time_since_last_rearrangement + delta_time) }
  let enemies := st.enemies.get .DROPPER
  if 0 < st.player_lives ∧ 0 < st.empty_slots.length ∧ 0 < enemies.positions.length ∧
      st.enemy_time_since_last_rearrangement ≥ st.current_stage.enemy_rearrange_delay then
    let enemy_index := (Int.toNat ⌊R.random st.rng * enemies.positions.length⌋) % 2 ^ 64
    let st := { st with rng := st.rng + 1 }
    let old_slot ← DynamicArray.read (st.enemy_slots.get .DROPPER) enemy_index
    let r ← remove st.empty_slots 0
    let st := { st with
      empty_slots := r.2
      enemy_slots := st.enemy_slots.set .DROPPER ((st.enemy_slots.get .DROPPER).set enemy_index r.1) }
    let st := { st with empty_slots := append st.empty_slots old_slot }
    pure { st with enemy_time_since_last_rearrangement := 0 }
  else pure st

/-- The block "Enemy Kamikaze": the last enemy of the KAMIKAZE pool moves to
the pool of kamikaze enemies. -/
def enemy_kamikaze (delta_time time : ℚ) (st : GameState) : Except Fault GameState := do
  let st := { st with enemy_time_since_last_kamikaze := (
    st.enemy_time_since_last_kamikaze + delta_time) }
  let enemies := st.enemies.get .KAMIKAZE
  if 0 < enemies.positions.length ∧
      st.enemy_time_since_last_kamikaze ≥ st.current_stage.enemy_kamikaze_delay then
    let selected_enemy_index := enemies.positions.length - 1
    let p ← DynamicArray.read enemies.positions selected_enemy_index
    let a ← DynamicArray.read enemies.animations selected_enemy_index
    let st := { st with kamikaze_enemies := entity_add st.kamikaze_enemies p a.animation_index time }
    let st := { st with kamikaze_targets := append st.kamikaze_targets st.player_position }
    -- Don't rearrange immediately
    let st :=
      if st.empty_slots.length = 0 then { st with enemy_time_since_last_rearrangement := 0 }
      else st
    let r ← remove_swap (st.enemy_slots.get .KAMIKAZE) selected_enemy_index
    let st := { st with enemy_slots := st.enemy_slots.set .KAMIKAZE r.2 }
    let st := { st with empty_slots := append st.empty_slots r.1 }
    let pool ← entity_remove enemies selected_enemy_index
    let st := { st with enemies := st.enemies.set .KAMIKAZE pool }
    pure { st with enemy_time_since_last_kamikaze := 0 }
  else pure st

/-! ## Pool consistency -/

/-- The two arrays of a pool have the same length. -/
def EntityData.consistent (e : EntityData) : Prop :=
  e.positions.length = e.animations.length

instance (e : EntityData) : Decidable e.consistent := by
  unfold EntityData.consistent
  infer_instance

/-- The slot array of the archetype `t` has the length of the two arrays of
its pool. -/
def slots_synchronised (st : GameState) (t : EnemyType) : Prop :=
  (st.enemy_slots.get t).length = (st.enemies.get t).positions.length ∧
    (st.enemy_slots.get t).length = (st.enemies.get t).animations.length

instance (st : GameState) (t : EnemyType) : Decidable (slots_synchronised st t) := by
  unfold slots_synchronised
  infer_instance

/-- Every pool of the state has arrays of equal length and every archetype pool
is as long as its slot array. -/
def pools_consistent (st : GameState) : Prop :=
  slots_synchronised st .FLYING ∧ slots_synchronised st .DROPPER ∧
    slots_synchronised st .KAMIKAZE ∧ st.kamikaze_enemies.consistent ∧
    st.player_bullets.consistent ∧ st.enemy_bullets.consistent ∧ st.explosions.consistent ∧
    st.power_shot_explosions.consistent ∧ st.pickups.consistent

instance (st : GameState) : Decidable (pools_consistent st) := by
  unfold pools_consistent
  infer_instance

/-! ## Views of the pools used by the statements -/

/-- The entities of a pool as (position, animation) records. -/
def EntityData.records (e : EntityData) : List (Vector2 × AnimationData) :=
  e.positions.zip e.animations

/-- The enemies of the archetype `t` as (position, animation, slot) records:
the three parallel arrays are the three projections of `L`. -/
def enemies_view (st : GameState) (t : EnemyType) (L : List (Vector2 × AnimationData × Vector2)) :
    Prop :=
  (st.enemies.get t).positions = L.map (fun r => r.1) ∧
    (st.enemies.get t).animations = L.map (fun r => r.2.1) ∧
    st.enemy_slots.get t = L.map (fun r => r.2.2)

/-- The entities of a pool as a list of records `K`: the two parallel arrays
are the two projections of `K`. -/
def pool_view (e : EntityData) (K : List (Vector2 × AnimationData)) : Prop :=
  e.positions = K.map (fun r => r.1) ∧ e.animations = K.map (fun r => r.2)

/-- The box test of the lazer pass for an enemy at `p`. -/
def lazer_hits (gs : GameSettings) (box : Vector4) (p : Vector2) : Bool :=
  test_aabb_vs_aabb box (enemy_aabb gs p)
/-- The value of `kill_count` after the scans of the lazer pass as C3 states
it: the number of enemies of the four pools whose box overlaps `box`. -/
def lazer_kills (gs : GameSettings) (box : Vector4) (st : GameState) : Nat :=
  (st.enemies.get .FLYING).positions.countP (lazer_hits gs box)
    + (st.enemies.get .DROPPER).positions.countP (lazer_hits gs box)
    + (st.enemies.get .KAMIKAZE).positions.countP (lazer_hits gs box)
    + st.kamikaze_enemies.positions.countP (lazer_hits gs box)

/-- The box test of the bullet pass for a bullet at `b` and an enemy at `q`. -/
def bullet_hits (gs : GameSettings) (b q : Vector2) : Bool :=
  test_aabb_vs_aabb (bullet_aabb gs b) (enemy_aabb gs q)

/-! ## Reachable states and the record-level account of the enemy grid -/

/-- An enemy of the grid as one record: position, animation and grid slot. -/
abbrev EnemyRecord := Vector2 × AnimationData × Vector2

/-- Record-level account of the inner loop of `init_enemies`: the enemy made
for a cell and the slot of that cell are appended as one record to the list of
the cell's archetype. -/
def grid_records_cells (gs : GameSettings) (time : ℚ) (x_offset : ℚ) (enemy_list : List Nat)
    (column_count y : Nat) :
    Nat → Nat → PerType (List EnemyRecord) × Vector2 →
      Except Fault (PerType (List EnemyRecord) × Vector2)
  | 0, _, acc => .ok acc
  | n + 1, x, (G, position) => do
    let start_height : ℚ := (-1 / 2) * gs.enemy_move_speed.y
    let random_enemy ← DynamicArray.read enemy_list (y * column_count + x)
    let enemy_type_index ← get_enemy_type_from_animation_index random_enemy
    let record : EnemyRecord :=
      (⟨position.x, start_height + position.y⟩, ⟨random_enemy, animation_start_instance time⟩,
        position)
    grid_records_cells gs time x_offset enemy_list column_count y n (x + 1)
      (G.set enemy_type_index (G.get enemy_type_index ++ [record]),
        ⟨position.x + x_offset, position.y⟩)

/-- Record-level account of the outer loop of `init_enemies`. -/
def grid_records_rows (gs : GameSettings) (time : ℚ) (x_offset x_start : ℚ)
    (enemy_list : List Nat) (column_count : Nat) :
    Nat → Nat → PerType (List EnemyRecord) × Vector2 →
      Except Fault (PerType (List EnemyRecord) × Vector2)
  | 0, _, acc => .ok acc
  | n + 1, y, acc => do
    let acc1 ← grid_records_cells gs time x_offset enemy_list column_count y column_count 0 acc
    grid_records_rows gs time x_offset x_start enemy_list column_count n (y + 1)
      (acc1.1, ⟨x_start, acc1.2.y + gs.enemy_vertical_gap⟩)

/-- The records of a freshly initialised wave: every enemy of the grid
together with the slot of the cell it was made for, by archetype, in the
order of the cells.  It is computed from the stage, the playground and the
enemy list of the state. -/
def grid_records (gs : GameSettings) (time : ℚ) (st : GameState) :
    Except Fault (PerType (List EnemyRecord)) := do
  let stage := st.current_stage
  let x_offset : ℚ := min (st.game_playground.x / stage.enemy_column_count) 72
  let x_start : ℚ :=
    (1 / 2) * (st.game_playground.x - (to_u32 ((stage.enemy_column_count : ℤ) - 1) : ℚ) * x_offset)
  let acc ← grid_records_rows gs time x_offset x_start st.enemy_list stage.enemy_column_count
    stage.enemy_row_count 0 (⟨[], [], []⟩, ⟨x_start, 75⟩)
  pure acc.1

/-- Record-level account of `remove_enemy`: the record `index` of the
archetype is swap-removed. -/
def remove_record (G : PerType (List EnemyRecord)) (type_index : EnemyType) (index : Nat) :
    Except Fault (PerType (List EnemyRecord)) := do
  let r ← remove_swap (G.get type_index) index
  pure (G.set type_index r.2)

/-- Record-level account of the block "Enemy Kamikaze": when the block
converts an enemy, the last record of the KAMIKAZE archetype leaves the grid. -/
def kamikaze_records (delta_time : ℚ) (st : GameState) (G : PerType (List EnemyRecord)) :
    PerType (List EnemyRecord) :=
  if 0 < (st.enemies.get .KAMIKAZE).positions.length ∧
      st.enemy_time_since_last_kamikaze + delta_time ≥ st.current_stage.enemy_kamikaze_delay then
    G.set .KAMIKAZE (G.get .KAMIKAZE).dropLast
  else G

/-- Record-level account of the block "Enemy Rearrangement": when the block
rearranges, the chosen DROPPER record gets the first empty slot as its slot. -/
def rearrange_records (R : Rng) (delta_time : ℚ) (st : GameState)
    (G : PerType (List EnemyRecord)) : PerType (List EnemyRecord) :=
  let enemies := st.enemies.get .DROPPER
  if 0 < st.player_lives ∧ 0 < st.empty_slots.length ∧ 0 < enemies.positions.length ∧
      st.enemy_time_since_last_rearrangement + delta_time
        ≥ st.current_stage.enemy_rearrange_delay then
    let enemy_index := (Int.toNat ⌊R.random st.rng * enemies.positions.length⌋) % 2 ^ 64
    match (G.get .DROPPER)[enemy_index]?, st.empty_slots[0]? with
    | some record, some slot =>
      G.set .DROPPER ((G.get .DROPPER).set enemy_index (record.1, record.2.1, slot))
    | _, _ => G
  else G

/-- The states reachable from `game_state_reset` through wave initialisation,
enemy removal, kamikaze conversion and rearrangement. -/
inductive Reachable (gs : GameSettings) (R : Rng) : GameState → Prop
  | reset (time : ℚ) (st st' : GameState) :
      game_state_reset gs R time st = .ok st' → Reachable gs R st'
  | new_wave (time : ℚ) (st st' : GameState) :
      Reachable gs R st → remaining_enemies st = 0 →
      game_state_update_new_wave gs R time st = .ok st' → Reachable gs R st'
  | removal (type_index : EnemyType) (index : Nat) (time : ℚ) (st st' : GameState) :
      Reachable gs R st → remove_enemy st type_index index time = .ok st' → Reachable gs R st'
  | kamikaze (delta_time time : ℚ) (st st' : GameState) :
      Reachable gs R st → enemy_kamikaze delta_time time st = .ok st' → Reachable gs R st'
  | rearrangement (delta_time : ℚ) (st st' : GameState) :
      Reachable gs R st → enemy_rearrangement R delta_time st = .ok st' → Reachable gs R st'

/-- A reachable state together with the records of its grid enemies, each
operation acting on whole records. -/
inductive Tracked (gs : GameSettings) (R : Rng) :
    GameState → PerType (List EnemyRecord) → Prop
  | reset (time : ℚ) (st st' : GameState) (G : PerType (List EnemyRecord)) :
      game_state_reset gs R time st = .ok st' → grid_records gs time st' = .ok G →
      Tracked gs R st' G
  | new_wave (time : ℚ) (st st' : GameState) (G0 G : PerType (List EnemyRecord)) :
      Tracked gs R st G0 → remaining_enemies st = 0 →
      game_state_update_new_wave gs R time st = .ok st' → grid_records gs time st' = .ok G →
      Tracked gs R st' G
  | removal (type_index : EnemyType) (index : Nat) (time : ℚ) (st st' : GameState)
      (G G' : PerType (List EnemyRecord)) :
      Tracked gs R st G → remove_enemy st type_index index time = .ok st' →
      remove_record G type_index index = .ok G' → Tracked gs R st' G'
  | kamikaze (delta_time time : ℚ) (st st' : GameState) (G : PerType (List EnemyRecord)) :
      Tracked gs R st G → enemy_kamikaze delta_time time st = .ok st' →
      Tracked gs R st' (kamikaze_records delta_time st G)
  | rearrangement (delta_time : ℚ) (st st' : GameState) (G : PerType (List EnemyRecord)) :
      Tracked gs R st G → enemy_rearrangement R delta_time st = .ok st' →
      Tracked gs R st' (rearrange_records R delta_time st G)

/-! ## Runs of the stage sequence -/

/-- The resume point and the stage settings after the setup call of
`stage_init` followed by `n` further calls (advances), starting from a fresh
coroutine and the stage record `stage`. -/
def stage_run (gs : GameSettings) (stage : StageSettings) : Nat → Nat × StageSettings
  | 0 => stage_init gs 0 stage
  | n + 1 => stage_init gs (stage_run gs stage n).1 (stage_run gs stage n).2

/-- The adjustment number `k` of the cycle increase-rows, reduce-shot-delay,
reduce-kamikaze-delay, increase-columns, increase-speed-and-reduce-rearrange-delay
as the specification lists them; the wave number is left aside. -/
def stage_adjustment_spec (gs : GameSettings) (k : Nat) (s : StageSettings) : StageSettings :=
  match k with
  | 0 => { s with enemy_row_count := min ((s.enemy_row_count + 1) % 2 ^ 32) 7 }
  | 1 => { s with
      enemy_shot_delay := max (s.enemy_shot_delay - 5 / 100) (gs.player_shot_delay - 15 / 100) }
  | 2 => { s with enemy_kamikaze_delay := max (s.enemy_kamikaze_delay - 5 / 100) (25 / 100) }
  | 3 => { s with enemy_column_count := min ((s.enemy_column_count + 1) % 2 ^ 32) 7 }
  | _ => { s with
      enemy_move_speed :=
        ⟨f32_round (s.enemy_move_speed.x + f32_round (15 / 100)),
          f32_round (s.enemy_move_speed.y + f32_round (25 / 100))⟩
      enemy_rearrange_delay := max (s.enemy_rearrange_delay - 15 / 100) (25 / 100) }

/-! ## The pickup deck -/

/-- The block `Probabilties` of `settings_load_from_json`: the share of each
pickup type read from the file is added to the chance stored just before it, so
the stored chances are cumulative. -/
def settings_load_pickup_drop_chances (gs : GameSettings)
    (health power_shot extra_shot skull : ℚ) : GameSettings :=
  let gs := { gs with pickup_drop_chance_health := health }
  let gs := { gs with
    pickup_drop_chance_power_shot := power_shot + gs.pickup_drop_chance_health }
  let gs := { gs with
    pickup_drop_chance_extra_shot := extra_shot + gs.pickup_drop_chance_power_shot }
  { gs with pickup_drop_chance_skull := skull + gs.pickup_drop_chance_extra_shot }

/-- Conversion of an `f32` to `u64`: the fraction is dropped.  The conversion of
a negative or too large value is undefined in the source; the model gives `0`
for a negative value and reduces modulo `2 ^ 64`. -/
def f32_to_u64 (v : ℚ) : Nat := (Int.toNat ⌊v⌋) % 2 ^ 64

/-- The initialiser `deck_size * chance` of the `u64` boundaries of
`fill_pickup_deck`: the product is an `f32`, and its fraction is dropped. -/
def deck_boundary (deck_size : Nat) (chance : ℚ) : Nat := f32_to_u64 ((deck_size : ℚ) * chance)

/-- The loop `for (; filled < stop; filled++) append(pickup_deck, card);` with
`n` iterations left. -/
def fill_pickup_deck_loop (card : PickupType) : Nat → List PickupType → List PickupType
  | 0, pickup_deck => pickup_deck
  | n + 1, pickup_deck => fill_pickup_deck_loop card n (append pickup_deck card)

/-- The source's `fill_pickup_deck`.  Each of the four loops runs `stop - filled`
times and leaves `filled` at the larger of its old value and `stop`; `resize`
reserves room and leaves the deck empty. -/
def fill_pickup_deck (gs : GameSettings) (pickup_deck : List PickupType) : List PickupType :=
  let deck_size : Nat := gs.pickup_deck_size % 2 ^ 64
  let pickup_deck := clear pickup_deck
  let health_end : Nat := deck_boundary deck_size gs.pickup_drop_chance_health
  let power_shot_end : Nat := deck_boundary deck_size gs.pickup_drop_chance_power_shot
  let extra_shot_end : Nat := deck_boundary deck_size gs.pickup_drop_chance_extra_shot
  let skull_end : Nat := deck_size
  let filled : Nat := 0
  let pickup_deck := fill_pickup_deck_loop .HEALTH (health_end - filled) pickup_deck
  let filled := max filled health_end
  let pickup_deck := fill_pickup_deck_loop .POWER_SHOT (power_shot_end - filled) pickup_deck
  let filled := max filled power_shot_end
  let pickup_deck := fill_pickup_deck_loop .EXTRA_SHOT (extra_shot_end - filled) pickup_deck
  let filled := max filled extra_shot_end
  fill_pickup_deck_loop .SKULL (skull_end - filled) pickup_deck

/-! ## The lazer beam -/

namespace PlayerState

def NORMAL : Nat := 0
def HURT : Nat := 1
def CHARGED : Nat := 2
def LAZER_WIND_UP : Nat := 3
def LAZER_SHOOT : Nat := 4

end PlayerState

/-- The lazer activation of the block `Player Shooting` of
`internal_state_update_gameplay`; `key_z` is `Input::get_key(Key::Z)`. -/
def player_lazer_activation (gs : GameSettings) (key_z : Bool) (time : ℚ) (st : GameState) :
    GameState :=
  if key_z && !st.is_lazer_active && decide (st.lazer_charge ≥ gs.lazer_power_requirement) then
    { st with
      lazer_chunk := { st.lazer_chunk with inst := animation_start_instance time }
      lazer_co := 0
      lazer_start := 0
      lazer_end := 0
      is_lazer_active := true }
  else st

/-- The number `x` of `update_lazer`: `Math::floor(lazer_speed * (time -
last_update_time))` stored in an `s32`.  The difference and the product are
`f32` operations, each rounded to the nearest `f32`. -/
def lazer_advance (gs : GameSettings) (time : ℚ) (st : GameState) : ℤ :=
  f32_to_s32 ⌊f32_round (gs.lazer_speed * f32_round (time - st.lazer_last_update_time))⌋

/-- The part of `update_lazer` from the condition of the second `while` loop
(Retract) on; resume point `4` is the yield of that loop, `5` the end. -/
def update_lazer_retract (gs : GameSettings) (time : ℚ) (st : GameState) : GameState :=
  if st.lazer_start < st.lazer_end then
    let x := lazer_advance gs time st
    let st :=
      if x > 0 then
        { st with
          lazer_start := min (to_u32 (st.lazer_start + x)) st.lazer_end
          lazer_last_update_time := time }
      else st
    { st with lazer_co := 4 }
  else
    { st with is_lazer_active := false, lazer_charge := 0, lazer_co := 5 }

/-- Modelled from the spec: the part of `update_lazer` from
`coroutine_wait_seconds(state.lazer_co, GameSettings::lazer_duration)` (resume
point `3`) on.  `core/coroutines.h` is not part of the sources; the beam is to
"hold at full length for a fixed duration", and whether that duration has
passed at this call is the input `dwell_over`. -/
def update_lazer_dwell (gs : GameSettings) (time : ℚ) (dwell_over : Bool) (st : GameState) :
    GameState :=
  if dwell_over then
    let st :=
      if st.player_lives > 0 then
        { st with player_animation := ⟨PlayerState.NORMAL, animation_start_instance time⟩ }
      else st
    update_lazer_retract gs time { st with lazer_last_update_time := time }
  else
    { st with lazer_co := 3 }

/-- The part of `update_lazer` from the condition of the first `while` loop
(Extend) on; resume point `2` is the yield of that loop. -/
def update_lazer_extend (gs : GameSettings) (time : ℚ) (dwell_over : Bool) (st : GameState) :
    GameState :=
  if st.lazer_end < gs.lazer_length then
    let x := lazer_advance gs time st
    let st :=
      if x > 0 then
        { st with
          lazer_end := min (to_u32 (st.lazer_end + x)) gs.lazer_length
          lazer_last_update_time := time }
      else st
    { st with lazer_co := 2 }
  else
    update_lazer_dwell gs time dwell_over st

/-- Modelled from the spec: the part of `update_lazer` from
`coroutine_wait_until(state.lazer_co, loop_count > 0)` (resume point `1`) on: the
sequence stays suspended there while the condition is false. -/
def update_lazer_fire (gs : GameSettings) (time : ℚ) (dwell_over : Bool) (st : GameState) :
    GameState :=
  if st.player_animation.inst.loop_count > 0 then
    let st :=
      if st.player_lives > 0 then
        { st with player_animation := ⟨PlayerState.LAZER_SHOOT, animation_start_instance time⟩ }
      else st
    update_lazer_extend gs time dwell_over { st with lazer_last_update_time := time }
  else
    { st with lazer_co := 1 }

/-- One call of `update_lazer`: it runs from the resume point `lazer_co` to the
next suspension.  The audio calls have no effect on the game state. -/
def update_lazer (gs : GameSettings) (time : ℚ) (dwell_over : Bool) (st : GameState) :
    GameState :=
  match st.lazer_co with
  | 0 =>
    let st :=
      if st.player_lives > 0 then
        { st with player_animation := ⟨PlayerState.LAZER_WIND_UP, animation_start_instance time⟩ }
      else st
    update_lazer_fire gs time dwell_over st
  | 1 => update_lazer_fire gs time dwell_over st
  | 2 => update_lazer_extend gs time dwell_over st
  | 3 => update_lazer_dwell gs time dwell_over st
  | 4 => update_lazer_retract gs time st
  | _ => st

/-- The states of a lazer run: a lazer activation from any state, followed by
calls of `update_lazer` at any times and by other code, which writes none of
`lazer_start`, `lazer_end`, `lazer_co`. -/
inductive LazerRun (gs : GameSettings) : GameState → Prop
  | activation (time : ℚ) (st : GameState) :
      st.is_lazer_active = false → gs.lazer_power_requirement ≤ st.lazer_charge →
      LazerRun gs (player_lazer_activation gs true time st)
  | step (time : ℚ) (dwell_over : Bool) (st : GameState) :
      LazerRun gs st → LazerRun gs (update_lazer gs time dwell_over st)
  | other (st st' : GameState) :
      LazerRun gs st → st'.lazer_start = st.lazer_start → st'.lazer_end = st.lazer_end →
      st'.lazer_co = st.lazer_co → LazerRun gs st'

/-- The extent facts kept by a lazer run: the beam starts at chunk 0 until the
Extend phase is left, and is at full length afterwards. -/
def lazer_extent_ok (gs : GameSettings) (st : GameState) : Prop :=
  (st.lazer_co ≤ 2 → st.lazer_start = 0) ∧ st.lazer_start ≤ st.lazer_end ∧
    st.lazer_end ≤ gs.lazer_length ∧ (3 ≤ st.lazer_co → st.lazer_end = gs.lazer_length)

/-- The fields of a game state that belong to the three resumable sequences:
the resume points, the stage settings and the lazer fields. -/
def GameState.sequence_fields (st : GameState) :
    Nat × Nat × StageSettings × Nat × Nat × Nat × ℚ × Bool × Nat :=
  (st.state_co, st.stage_co, st.current_stage, st.lazer_co, st.lazer_start, st.lazer_end,
    st.lazer_last_update_time, st.is_lazer_active, st.lazer_charge)

/-! ## The inputs of a frame -/

/-- The keys read by the modelled code (`core/input.h` is not part of the
sources). -/
inductive Key where
  | UP
  | LEFT
  | DOWN
  | RIGHT
  | W
  | A
  | S
  | D
  | Z
  | SPACE
  | ESCAPE
  | GRAVE
deriving DecidableEq, Repr

/-- `Direction` of `player_settings.h`. -/
inductive Direction where
  | UP
  | LEFT
  | DOWN
  | RIGHT
deriving DecidableEq, Repr

/-- What one call of `game_state_update` reads from outside the game state:
`app.time`, `app.delta_time`, the keyboard through `Input::get_key` and
`Input::get_key_down`, and whether `coroutine_wait_seconds` of `update_lazer`
finds its duration over. -/
structure Frame where
  time : ℚ
  delta_time : ℚ
  get_key : Key → Bool
  get_key_down : Key → Bool
  dwell_over : Bool

/-- The functions of the engine's math library used by the gameplay pass.  Their
definitions are not part of the sources, so they are left open: `lerp` is the
call `lerp(0.0f, speed, t)` with its first argument. -/
structure Engine where
  sin : ℚ → ℚ
  cos : ℚ → ℚ
  length : Vector2 → ℚ
  normalize : Vector2 → Vector2
  clamp : ℚ → ℚ → ℚ → ℚ
  lerp : ℚ → Vector2 → ℚ → Vector2

/-- The enum value `BulletType::STANDARD`. -/
def BulletType_STANDARD : Nat := 5

/-- The function `get_direction_input` of `player_settings.h`. -/
def get_direction_input (F : Frame) (direction : Direction) (control_scheme : ControlScheme) :
    Bool :=
  match control_scheme with
  | .ARROW_KEYS =>
    F.get_key (match direction with
      | .UP => Key.UP
      | .LEFT => Key.LEFT
      | .DOWN => Key.DOWN
      | .RIGHT => Key.RIGHT)
  | .WASD =>
    F.get_key (match direction with
      | .UP => Key.W
      | .LEFT => Key.A
      | .DOWN => Key.S
      | .RIGHT => Key.D)

/-! ## Helpers of the gameplay pass -/

/-- A loop `for (i = 0; i < n; i++)` whose bound does not change: `n`
iterations are left and the next index is `i`. -/
def loop_up {σ : Type} (body : Nat → σ → Except Fault σ) : Nat → Nat → σ → Except Fault σ
  | 0, _, s => .ok s
  | n + 1, i, s => do
    let s1 ← body i s
    loop_up body n (i + 1) s1

/-- A loop `for (s64 i = size - 1; i >= 0; i--)`: `n` iterations are left and
the next index is `n - 1`. -/
def loop_down {σ : Type} (body : Nat → σ → Except Fault σ) : Nat → σ → Except Fault σ
  | 0, s => .ok s
  | n + 1, s => do
    let s1 ← body n s
    loop_down body n s1

def damage_player (st : GameState) (time : ℚ) : GameState :=
  let st := { st with player_kill_streak := 0, player_lives := st.player_lives - 1 }
  let st :=
    if st.player_animation.animation_index ≠ PlayerState.HURT ∧
        st.player_animation.animation_index ≠ player_explosion_animation_index then
      { st with player_previous_animation_index := st.player_animation.animation_index }
    else st
  { st with
    player_animation :=
      ⟨if st.player_lives > 0 then PlayerState.HURT else player_explosion_animation_index,
        animation_start_instance time⟩ }

def move_towards (E : Engine) (source destination speed : Vector2) (delta_time : ℚ) : Vector2 :=
  let direction : Vector2 := ⟨destination.x - source.x, destination.y - source.y⟩
  let len := E.length direction
  if len = 0 then source
  else
    let modified_speed := E.lerp 0 speed (E.clamp (len / 100) 0 1)
    ⟨source.x + delta_time * modified_speed.x * (direction.x / len),
      source.y + delta_time * modified_speed.y * (direction.y / len)⟩

def screen_clear_and_switch_to (st : GameState) (screen : Nat) : GameState :=
  { st with current_screen := screen % 2 ^ 32 }

def screen_switch_to (st : GameState) (screen : Nat) : GameState :=
  { st with current_screen := (st.current_screen ||| screen) % 2 ^ 32 }

/-- The function `screen_switch_off`; `~screen` is taken on the 64-bit
argument. -/
def screen_switch_off (st : GameState) (screen : Nat) : GameState :=
  { st with current_screen := (st.current_screen &&& (2 ^ 64 - 1 - screen)) % 2 ^ 32 }

/-! ## The player blocks of `internal_state_update_gameplay` -/

/-- The statement
`if (!(current_screen & ~(GAME | GAME_OVER))) time_since_screen_shake_start += delta_time;`. -/
def screen_shake_timer (F : Frame) (st : GameState) : GameState :=
  if st.current_screen &&& (2 ^ 32 - 1 - (GameScreen.GAME ||| GameScreen.GAME_OVER)) = 0 then
    { st with time_since_screen_shake_start := (
        st.time_since_screen_shake_start + (F.delta_time : WithTop ℚ)) }
  else st

/-- The block "Player Movement". -/
def player_movement (gs : GameSettings) (E : Engine) (F : Frame) (st : GameState) : GameState :=
  let scheme := st.player_settings.control_scheme
  let f32_of (b : Bool) : ℚ := if b then 1 else 0
  let input : Vector2 :=
    ⟨f32_of (get_direction_input F .RIGHT scheme) - f32_of (get_direction_input F .LEFT scheme),
      f32_of (get_direction_input F .DOWN scheme) - f32_of (get_direction_input F .UP scheme)⟩
  let n := E.normalize input
  let position : Vector2 :=
    ⟨st.player_position.x + F.delta_time * gs.player_move_speed * n.x,
      st.player_position.y + F.delta_time * gs.player_move_speed * n.y⟩
  let player_half_size : Vector2 :=
    ⟨(1 / 2) * gs.render_scale.x * st.player_size.x, (1 / 2) * gs.render_scale.y * st.player_size.y⟩
  let x := E.clamp position.x player_half_size.x (st.game_playground.x - player_half_size.x)
  let y := E.clamp position.y
    (st.game_playground.y - gs.player_region_height + player_half_size.y)
    (st.game_playground.y - player_half_size.y)
  { st with player_position := ⟨x, y⟩ }

/-- The table `x_offsets` of the block "Player Shooting"; the rows are padded
with zeros to three entries. -/
def x_offsets : List (List ℚ) := [[0, 0, 0], [-15, 15, 0], [-20, 0, 20]]

/-- The body of the loop `for (u32 i = 0; i < player_bullets_per_shot; i++)`. -/
def player_shoot_bullet (gs : GameSettings) (F : Frame) (i : Nat) (st : GameState) :
    Except Fault GameState := do
  let row ← DynamicArray.read x_offsets (to_u32 ((st.player_bullets_per_shot : ℤ) - 1))
  let x_offset ← DynamicArray.read row i
  let bullet_position : Vector2 :=
    ⟨st.player_position.x + 0 + x_offset, st.player_position.y + -gs.render_scale.y * 10⟩
  pure { st with
    player_bullets :=
      entity_add st.player_bullets bullet_position st.player_equipped_bullet_type F.time }

/-- The block "Player Shooting": the lazer activation, then the bullets. -/
def player_shooting (gs : GameSettings) (F : Frame) (st : GameState) : Except Fault GameState := do
  let st := player_lazer_activation gs (F.get_key .Z) F.time st
  if !st.is_lazer_active then
    let st := { st with player_time_since_last_shot := (
      st.player_time_since_last_shot + (F.delta_time : WithTop ℚ)) }
    if F.get_key .SPACE = true ∧
        st.player_time_since_last_shot ≥ (gs.player_shot_delay : WithTop ℚ) then
      let st ← loop_up (player_shoot_bullet gs F) st.player_bullets_per_shot 0 st
      let st : GameState :=
        if st.player_equipped_bullet_type = BulletType_POWER_SHOT then
          let st : GameState := { st with player_power_shot_ammo := st.player_power_shot_ammo - 1 }
          if st.player_power_shot_ammo ≤ 0 then
            { st with player_equipped_bullet_type := BulletType_STANDARD }
          else st
        else st
      let st : GameState :=
        if st.player_bullets_per_shot > 1 then
          let st : GameState := { st with player_extra_shot_ammo := st.player_extra_shot_ammo - 1 }
          if st.player_extra_shot_ammo ≤ 0 then { st with player_bullets_per_shot := 1 } else st
        else st
      pure { st with player_time_since_last_shot := 0 }
    else pure st
  else pure st

/-- The first block `if (state.player_lives > 0) { ... }`. -/
def player_update (gs : GameSettings) (E : Engine) (F : Frame) (st : GameState) :
    Except Fault GameState :=
  if st.player_lives > 0 then player_shooting gs F (player_movement gs E F st) else pure st

/-! ## The enemy blocks of `internal_state_update_gameplay` -/

/-- The body of the inner loop of the block "Enemy Movement" for the enemy `i`
of the archetype `enemy_type`. -/
def enemy_move (gs : GameSettings) (E : Engine) (R : Rng) (F : Frame) (x_offset y_offset : ℚ)
    (enemy_type : EnemyType) (i : Nat) (st : GameState) : Except Fault GameState := do
  let y_gitter : ℚ := 100 * R.random st.rng - 100 / 2
  let st := { st with rng := st.rng + 1 }
  let slot ← DynamicArray.read (st.enemy_slots.get enemy_type) i
  let destination : Vector2 := ⟨slot.x + x_offset, slot.y + y_offset + y_gitter⟩
  let enemies := st.enemies.get enemy_type
  let position ← DynamicArray.read enemies.positions i
  let moved := move_towards E position destination gs.enemy_move_speed F.delta_time
  pure { st with
    enemies := st.enemies.set enemy_type { enemies with positions := enemies.positions.set i moved } }

/-- The block "Enemy Movement". -/
def enemy_movement (gs : GameSettings) (E : Engine) (R : Rng) (F : Frame) (st : GameState) :
    Except Fault GameState := do
  let x_offset := gs.enemy_move_range * E.sin (F.time * gs.enemy_wiggle_speed.x)
  let y_offset := gs.enemy_move_range * E.cos (F.time * gs.enemy_wiggle_speed.y)
  let st ← loop_up (enemy_move gs E R F x_offset y_offset .FLYING)
    (st.enemies.get .FLYING).positions.length 0 st
  let st ← loop_up (enemy_move gs E R F x_offset y_offset .DROPPER)
    (st.enemies.get .DROPPER).positions.length 0 st
  loop_up (enemy_move gs E R F x_offset y_offset .KAMIKAZE)
    (st.enemies.get .KAMIKAZE).positions.length 0 st

/-- The body of the loop of the block "Kamikaze Enemy Movement" for the index
`i`. -/
def kamikaze_move (gs : GameSettings) (E : Engine) (F : Frame) (i : Nat) (st : GameState) :
    Except Fault GameState := do
  let position ← DynamicArray.read st.kamikaze_enemies.positions i
  let old_target ← DynamicArray.read st.kamikaze_targets i
  let target : Vector2 :=
    if position.y ≤ st.game_playground.y - gs.player_region_height then st.player_position
    else
      let direction : Vector2 := ⟨old_target.x - position.x, old_target.y - position.y⟩
      let n := E.normalize direction
      ⟨400 * n.x + position.x, 400 * n.y + position.y⟩
  let st := { st with kamikaze_targets := st.kamikaze_targets.set i target }
  let moved := move_towards E position target gs.enemy_move_speed F.delta_time
  let st := { st with
    kamikaze_enemies := { st.kamikaze_enemies with
      positions := st.kamikaze_enemies.positions.set i moved } }
  -- Remove enemy if it's offscreen (It can't go up)
  if moved.y - 30 ≥ st.game_playground.y ∨ moved.x - 30 ≥ st.game_playground.x ∨
      moved.x + 30 ≤ 0 then
    let pool ← entity_remove st.kamikaze_enemies i
    pure { st with kamikaze_enemies := pool }
  else pure st

/-- The loop `for (u64 i = 0; i < state.kamikaze_enemies.positions.size; i++)`
of the block "Kamikaze Enemy Movement".  The pool can shrink in the body, so the
condition is tested in every round; `n` bounds the number of rounds left, and
the size of the pool at the start is enough. -/
def kamikaze_movement_loop (gs : GameSettings) (E : Engine) (F : Frame) :
    Nat → Nat → GameState → Except Fault GameState
  | 0, _, st => .ok st
  | n + 1, i, st =>
    if i < st.kamikaze_enemies.positions.length then do
      let st1 ← kamikaze_move gs E F i st
      kamikaze_movement_loop gs E F n (i + 1) st1
    else .ok st

/-- The block "Kamikaze Enemy Movement". -/
def kamikaze_movement (gs : GameSettings) (E : Engine) (F : Frame) (st : GameState) :
    Except Fault GameState :=
  kamikaze_movement_loop gs E F st.kamikaze_enemies.positions.length 0 st

/-- The block "Enemy Shooting". -/
def enemy_shooting (gs : GameSettings) (R : Rng) (F : Frame) (st : GameState) :
    Except Fault GameState := do
  let flying_size := (st.enemies.get .FLYING).positions.length
  let kamikaze_size := (st.enemies.get .KAMIKAZE).positions.length
  let random_enemy_index :=
    f32_to_u64 (R.random st.rng * (((flying_size + kamikaze_size) % 2 ^ 64 : Nat) : ℚ))
  let st := { st with rng := st.rng + 1 }
  let type_index := if random_enemy_index < flying_size then EnemyType.FLYING else EnemyType.KAMIKAZE
  let enemies := st.enemies.get type_index
  let random_enemy_index :=
    if type_index ≠ EnemyType.FLYING then to_u64 ((random_enemy_index : ℤ) - flying_size)
    else random_enemy_index
  let st := { st with enemy_time_since_last_shot := st.enemy_time_since_last_shot + F.delta_time }
  if 0 < enemies.positions.length ∧
      st.enemy_time_since_last_shot ≥ st.current_stage.enemy_shot_delay then
    let p ← DynamicArray.read enemies.positions random_enemy_index
    let position : Vector2 := ⟨p.x + 0, p.y + gs.render_scale.y * 10⟩
    pure { st with
      enemy_bullets := entity_add st.enemy_bullets position bullet_enemy_animation_index F.time
      enemy_time_since_last_shot := 0 }
  else pure st

/-- The block `if (!(state.current_screen & GameScreen::MAIN_MENU))` with the
enemy behaviour. -/
def enemies_update (gs : GameSettings) (E : Engine) (R : Rng) (F : Frame) (st : GameState) :
    Except Fault GameState :=
  if st.current_screen &&& GameScreen.MAIN_MENU = 0 then do
    let st ← enemy_rearrangement R F.delta_time st
    let st ← enemy_movement gs E R F st
    let st ← kamikaze_movement gs E F st
    if st.player_lives > 0 then do
      let st ← enemy_shooting gs R F st
      enemy_kamikaze F.delta_time F.time st
    else pure st
  else pure st

/-! ## The update blocks of `internal_state_update_gameplay` -/

/-- The body of the first loop of the block "Update Bullets" for the player
bullet `i`. -/
def update_player_bullet (gs : GameSettings) (F : Frame) (i : Nat) (st : GameState) :
    Except Fault GameState := do
  let p ← DynamicArray.read st.player_bullets.positions i
  let position : Vector2 := ⟨p.x + 0, p.y + -gs.player_bullet_speed * F.delta_time⟩
  let st := { st with
    player_bullets := { st.player_bullets with
      positions := st.player_bullets.positions.set i position } }
  -- Remove bullet if it's offscreen
  if position.y ≤ 0 then
    let pool ← entity_remove st.player_bullets i
    pure { st with player_bullets := pool, player_kill_streak := 0 }
  else pure st

/-- The body of the second loop of the block "Update Bullets" for the enemy
bullet `i`. -/
def update_enemy_bullet (gs : GameSettings) (F : Frame) (i : Nat) (st : GameState) :
    Except Fault GameState := do
  let p ← DynamicArray.read st.enemy_bullets.positions i
  let position : Vector2 := ⟨p.x + 0, p.y + gs.enemy_bullet_speed * F.delta_time⟩
  let st := { st with
    enemy_bullets := { st.enemy_bullets with
      positions := st.enemy_bullets.positions.set i position } }
  -- Remove bullet if it's offscreen
  if position.y ≥ st.game_playground.y then
    let pool ← entity_remove st.enemy_bullets i
    pure { st with enemy_bullets := pool }
  else pure st

/-- The statement `if (state.is_lazer_active) { ... update_lazer(state, app.time); }`
of the block "Update Bullets". -/
def lazer_update (gs : GameSettings) (F : Frame) (st : GameState) : Except Fault GameState :=
  if st.is_lazer_active then do
    let anim ← DynamicArray.read st.anims PlayerState.NORMAL
    let sprite ← DynamicArray.read anim.sprites 0
    let player_size : Vector2 :=
      ⟨gs.render_scale.x * sprite.size.x, gs.render_scale.y * sprite.size.y⟩
    let st := { st with
      lazer_position := (
        if st.lazer_start = 0 then
          ⟨st.player_position.x - 0, st.player_position.y - (1 / 2) * player_size.y⟩
        else st.lazer_position) }
    pure (update_lazer gs F.time F.dwell_over st)
  else pure st

/-- The block "Update Bullets". -/
def update_bullets (gs : GameSettings) (F : Frame) (st : GameState) : Except Fault GameState := do
  let st ← loop_down (update_player_bullet gs F) st.player_bullets.positions.length st
  let st ← loop_down (update_enemy_bullet gs F) st.enemy_bullets.positions.length st
  lazer_update gs F st

/-- The body of the loop of the block "Update pickups" for the pickup `i`. -/
def update_pickup (gs : GameSettings) (F : Frame) (i : Nat) (st : GameState) :
    Except Fault GameState := do
  let p ← DynamicArray.read st.pickups.positions i
  let position : Vector2 := ⟨p.x + 0, p.y + gs.pickup_drop_speed * F.delta_time⟩
  let st := { st with
    pickups := { st.pickups with positions := st.pickups.positions.set i position } }
  -- Remove pickup if it's offscreen
  if position.y ≥ st.game_playground.y then
    let a ← DynamicArray.read st.pickups.animations i
    let st := { st with
      lazer_drops := (
        st.lazer_drops - (if a.animation_index = PickupType.LAZER_CHARGE.toNat then 1 else 0)) }
    let pool ← entity_remove st.pickups i
    pure { st with pickups := pool }
  else pure st

/-- The block "Update pickups". -/
def update_pickups (gs : GameSettings) (F : Frame) (st : GameState) : Except Fault GameState :=
  loop_down (update_pickup gs F) st.pickups.positions.length st

/-- The body of the loops of the block "Remove explosions if they have
finished playing" for the entity `i` of a pool. -/
def remove_finished_explosion (i : Nat) (entities : EntityData) : Except Fault EntityData := do
  let anim_data ← DynamicArray.read entities.animations i
  if anim_data.inst.loop_count ≥ 1 then entity_remove entities i else pure entities

/-- The block "Remove explosions if they have finished playing". -/
def remove_finished_explosions (st : GameState) : Except Fault GameState := do
  let explosions ← loop_down remove_finished_explosion st.explosions.animations.length
    st.explosions
  let st := { st with explosions := explosions }
  let power_shot_explosions ← loop_down remove_finished_explosion
    st.power_shot_explosions.animations.length st.power_shot_explosions
  pure { st with power_shot_explosions := power_shot_explosions }

/-! ## The explosion pass -/

/-- The constant `explosion_aabb_coord` (left, top, right, bottom). -/
def explosion_aabb_coord (gs : GameSettings) : Vector4 :=
  ⟨gs.render_scale.x * (-1 / 2) * gs.player_powered_shot_collider_size.x,
   gs.render_scale.y * (-1 / 2) * gs.player_powered_shot_collider_size.y,
   gs.render_scale.x * (1 / 2) * gs.player_powered_shot_collider_size.x,
   gs.render_scale.y * (1 / 2) * gs.player_powered_shot_collider_size.y⟩

/-- The body of the loop over the power-shot explosions for the explosion `i`.
The loops over the three archetype pools and over the kamikaze pool have the
same bodies as those of the lazer pass. -/
def explosion_vs_all_enemies (gs : GameSettings) (R : Rng) (time : ℚ) (i : Nat)
    (acc0 : GameState × Nat) : Except Fault (GameState × Nat) := do
  let p ← DynamicArray.read acc0.1.power_shot_explosions.positions i
  let box := (explosion_aabb_coord gs).add ⟨p.x, p.y, p.x, p.y⟩
  let acc1 ← lazer_scan_type gs R time box .FLYING
    (acc0.1.enemies.get .FLYING).positions.length acc0
  let acc2 ← lazer_scan_type gs R time box .DROPPER
    (acc1.1.enemies.get .DROPPER).positions.length acc1
  let acc3 ← lazer_scan_type gs R time box .KAMIKAZE
    (acc2.1.enemies.get .KAMIKAZE).positions.length acc2
  lazer_scan_kamikaze gs time box acc3.1.kamikaze_enemies.positions.length acc3

/-- The block "Test Powered Shot Explosion vs Enemies". -/
def test_explosions_vs_enemies (gs : GameSettings) (R : Rng) (time : ℚ) (st : GameState) :
    Except Fault GameState := do
  let acc ← loop_up (explosion_vs_all_enemies gs R time)
    st.power_shot_explosions.positions.length 0 (st, 0)
  add_score gs acc.1 acc.2

/-- The second block `if (!(state.current_screen & GameScreen::MAIN_MENU))`:
the three passes against the enemies. -/
def enemy_collisions (gs : GameSettings) (R : Rng) (F : Frame) (st : GameState) :
    Except Fault GameState :=
  if st.current_screen &&& GameScreen.MAIN_MENU = 0 then do
    let st ← test_lazer_vs_enemies gs R F.time st
    let st ← test_explosions_vs_enemies gs R F.time st
    test_player_bullets_vs_enemies gs R F.time st
  else pure st

/-! ## The passes against the player -/

/-- The constant `player_aabb_coord` (swizzled: right, bottom, left, top). -/
def player_aabb_coord (gs : GameSettings) : Vector4 :=
  ⟨gs.render_scale.x * (1 / 2) * gs.player_collider_size.x,
   gs.render_scale.y * (1 / 2) * gs.player_collider_size.y,
   gs.render_scale.x * (-1 / 2) * gs.player_collider_size.x,
   gs.render_scale.y * (-1 / 2) * gs.player_collider_size.y⟩

/-- The constant `player_aabb`, computed once before the three passes. -/
def player_aabb (gs : GameSettings) (st : GameState) : Vector4 :=
  (player_aabb_coord gs).add
    ⟨st.player_position.x, st.player_position.y, st.player_position.x, st.player_position.y⟩

/-- The constant `pickup_aabb_coord` (left, top, right, bottom). -/
def pickup_aabb_coord (gs : GameSettings) : Vector4 :=
  ⟨gs.render_scale.x * (-1 / 2) * gs.pickup_collider_size.x,
   gs.render_scale.y * (-1 / 2) * gs.pickup_collider_size.y,
   gs.render_scale.x * (1 / 2) * gs.pickup_collider_size.x,
   gs.render_scale.y * (1 / 2) * gs.pickup_collider_size.y⟩

/-- The constant `bullet_aabb_coord` of the enemy bullets (left, top, right,
bottom). -/
def enemy_bullet_aabb_coord (gs : GameSettings) : Vector4 :=
  ⟨gs.render_scale.x * (-1 / 2) * gs.enemy_bullet_collider_size.x,
   gs.render_scale.y * (-1) * gs.enemy_bullet_collider_size.y,
   gs.render_scale.x * (1 / 2) * gs.enemy_bullet_collider_size.x,
   gs.render_scale.y * 0 * gs.enemy_bullet_collider_size.y⟩

/-- The constant `enemy_aabb_coord` of the block "Test Kamikaze Enemies vs
Player" (left, top, right, bottom). -/
def kamikaze_aabb_coord (gs : GameSettings) : Vector4 :=
  ⟨gs.render_scale.x * (-1 / 2) * gs.enemy_collider_size.x,
   gs.render_scale.y * (-1 / 2) * gs.enemy_collider_size.y,
   gs.render_scale.x * (1 / 2) * gs.enemy_collider_size.x,
   gs.render_scale.y * (1 / 2) * gs.enemy_collider_size.y⟩

/-- The `switch (pickup_type)` of the block "Test Pickups vs Player";
`pickup_type` is the animation index of the pickup. -/
def collect_pickup (gs : GameSettings) (time : ℚ) (pickup_type : Nat) (st : GameState) :
    GameState :=
  if pickup_type = PickupType.HEALTH.toNat then
    { st with player_lives := min (st.player_lives + 1) 5 }
  else if pickup_type = PickupType.POWER_SHOT.toNat then
    { st with
      player_equipped_bullet_type := BulletType_POWER_SHOT
      player_power_shot_ammo := (
        to_s32 (min (to_u32 (st.player_power_shot_ammo + gs.power_shot_drop_ammo))
          gs.power_shot_max_ammo)) }
  else if pickup_type = PickupType.EXTRA_SHOT.toNat then
    { st with
      player_bullets_per_shot := min ((st.player_bullets_per_shot + 1) % 2 ^ 32) 3
      player_extra_shot_ammo := (
        to_s32 (min (to_u32 (st.player_extra_shot_ammo + gs.extra_shot_drop_ammo))
          gs.extra_shot_max_ammo)) }
  else if pickup_type = PickupType.LAZER_CHARGE.toNat then
    let st : GameState := { st with
      lazer_charge := (st.lazer_charge + 1) % 2 ^ 32
      lazer_drops := st.lazer_drops - 1 }
    if st.lazer_charge ≥ gs.lazer_power_requirement ∧ st.player_lives > 0 then
      { st with
        player_animation := ⟨PlayerState.CHARGED, animation_start_instance time⟩
        lazer_charge := gs.lazer_power_requirement }
    else st
  else if pickup_type = PickupType.SKULL.toNat then damage_player st time
  else st

/-- The body of the loop of the block "Test Pickups vs Player" for the pickup
`pickup_i`. -/
def pickup_vs_player (gs : GameSettings) (time : ℚ) (box : Vector4) (pickup_i : Nat)
    (st : GameState) : Except Fault GameState := do
  let p ← DynamicArray.read st.pickups.positions pickup_i
  let pickup_aabb := (pickup_aabb_coord gs).add ⟨p.x, p.y, p.x, p.y⟩
  if test_aabb_vs_aabb pickup_aabb box then
    let a ← DynamicArray.read st.pickups.animations pickup_i
    let st := collect_pickup gs time a.animation_index st
    let pool ← entity_remove st.pickups pickup_i
    pure { st with pickups := pool }
  else pure st

/-- The body of the loop of the block "Test Enemy Bullets vs Player" for the
bullet `bullet_i`. -/
def enemy_bullet_vs_player (gs : GameSettings) (time : ℚ) (box : Vector4) (bullet_i : Nat)
    (st : GameState) : Except Fault GameState := do
  let p ← DynamicArray.read st.enemy_bullets.positions bullet_i
  let bullet_aabb := (enemy_bullet_aabb_coord gs).add ⟨p.x, p.y, p.x, p.y⟩
  if test_aabb_vs_aabb bullet_aabb box then
    let pool ← entity_remove st.enemy_bullets bullet_i
    pure (damage_player { st with enemy_bullets := pool } time)
  else pure st

/-- The body of the loop of the block "Test Kamikaze Enemies vs Player" for the
enemy `enemy_i`. -/
def kamikaze_vs_player (gs : GameSettings) (time : ℚ) (box : Vector4) (enemy_i : Nat)
    (st : GameState) : Except Fault GameState := do
  let p ← DynamicArray.read st.kamikaze_enemies.positions enemy_i
  let enemy_aabb := (kamikaze_aabb_coord gs).add ⟨p.x, p.y, p.x, p.y⟩
  if test_aabb_vs_aabb enemy_aabb box then
    let pool ← entity_remove st.kamikaze_enemies enemy_i
    pure (damage_player { st with kamikaze_enemies := pool } time)
  else pure st

/-- The second block `if (state.player_lives > 0) { ... }`: pickups, enemy
bullets and kamikaze enemies against the player. -/
def player_collisions (gs : GameSettings) (F : Frame) (st : GameState) :
    Except Fault GameState :=
  if st.player_lives > 0 then do
    let box := player_aabb gs st
    let st ← loop_down (pickup_vs_player gs F.time box) st.pickups.positions.length st
    let st ← loop_down (enemy_bullet_vs_player gs F.time box) st.enemy_bullets.positions.length st
    loop_down (kamikaze_vs_player gs F.time box) st.kamikaze_enemies.positions.length st
  else pure st

/-! ## Animations -/

/-- The block "Player Animation Logic"; `save_settings` writes a file and
leaves the game state as it is. -/
def player_animation_logic (F : Frame) (st : GameState) : GameState :=
  if st.current_screen &&& GameScreen.GAME_OVER = 0 then
    let st : GameState :=
      if st.player_animation.animation_index = PlayerState.HURT ∧
          st.player_animation.inst.loop_count ≥ 5 then
        { st with
          player_animation :=
            ⟨st.player_previous_animation_index, animation_start_instance F.time⟩ }
      else st
    if st.player_animation.animation_index = player_explosion_animation_index ∧
        st.player_animation.inst.loop_count > 0 then
      let st : GameState := { st with
        player_animation := ⟨PlayerState.NORMAL, animation_start_instance F.time⟩ }
      let st := screen_switch_to st GameScreen.GAME_OVER
      if st.player_score > st.player_settings.high_score then
        let st : GameState := { st with
          player_settings := { st.player_settings with high_score := st.player_score }
          new_high_score := true }
        screen_switch_to st GameScreen.HIGH_SCORE
      else st
    else st
  else st

/-- Modelled from the spec: `animation_step_instance`, of which only the
declaration is in `engine/sprite.h`: "let elapsed = now - instance.start_time,
raw = floor(elapsed * frame_rate).  For NONE: frame = min(raw, frameCount-1).
For CYCLE: frame = raw mod frameCount; loop_count = raw / frameCount.  For
PING_PONG: reflect raw mod (2*(frameCount-1)) about the midpoint to get a
back-and-forth frame index; loop_count increments once per full forward+back
traversal."  The text gives no `loop_count` for NONE, which is left as it is;
the two fields are `u32`, and a modulus of zero is a fault. -/
def animation_step_instance (animation : Animation2D) (inst : Instance) (time : ℚ) :
    Except Fault Instance :=
  let elapsed := time - inst.start_time
  let raw : ℤ := ⌊elapsed * animation.frame_rate⌋
  let frame_count : ℤ := animation.sprites.length
  match animation.loop_type with
  | .NONE => .ok { inst with current_frame_index := to_u32 (min raw (frame_count - 1)) }
  | .CYCLE =>
    if frame_count = 0 then .error .division_by_zero
    else .ok { inst with
      current_frame_index := to_u32 (raw % frame_count)
      loop_count := to_u32 (raw / frame_count) }
  | .PING_PONG =>
    let period : ℤ := 2 * (frame_count - 1)
    if period = 0 then .error .division_by_zero
    else
      let r := raw % period
      .ok { inst with
        current_frame_index := to_u32 (if r < frame_count then r else period - r)
        loop_count := to_u32 (raw / period) }

/-- The body of the loop of `entity_animation_step` for the entity `i`. -/
def entity_animation_step_one (anims : List Animation2D) (time : ℚ) (i : Nat)
    (entities : EntityData) : Except Fault EntityData := do
  let a ← DynamicArray.read entities.animations i
  let animation ← DynamicArray.read anims a.animation_index
  let inst ← animation_step_instance animation a.inst time
  pure { entities with animations := entities.animations.set i { a with inst := inst } }

def entity_animation_step (anims : List Animation2D) (entities : EntityData) (time : ℚ) :
    Except Fault EntityData :=
  loop_up (entity_animation_step_one anims time) entities.animations.length 0 entities

/-- The block "Update All Animation Instances". -/
def update_animations (F : Frame) (st : GameState) : Except Fault GameState := do
  let animation ← DynamicArray.read st.anims st.player_animation.animation_index
  let inst ← animation_step_instance animation st.player_animation.inst F.time
  let st := { st with player_animation := { st.player_animation with inst := inst } }
  let animation ← DynamicArray.read st.anims BulletType_LAZER
  let inst ← animation_step_instance animation st.lazer_chunk.inst F.time
  let st := { st with lazer_chunk := { st.lazer_chunk with inst := inst } }
  let e ← entity_animation_step st.anims st.player_bullets F.time
  let st := { st with player_bullets := e }
  let e ← entity_animation_step st.anims st.enemy_bullets F.time
  let st := { st with enemy_bullets := e }
  let e ← entity_animation_step st.anims (st.enemies.get .FLYING) F.time
  let st := { st with enemies := st.enemies.set .FLYING e }
  let e ← entity_animation_step st.anims (st.enemies.get .DROPPER) F.time
  let st := { st with enemies := st.enemies.set .DROPPER e }
  let e ← entity_animation_step st.anims (st.enemies.get .KAMIKAZE) F.time
  let st := { st with enemies := st.enemies.set .KAMIKAZE e }
  let e ← entity_animation_step st.anims st.explosions F.time
  let st := { st with explosions := e }
  let e ← entity_animation_step st.anims st.power_shot_explosions F.time
  let st := { st with power_shot_explosions := e }
  let e ← entity_animation_step st.anims st.pickups F.time
  let st := { st with pickups := e }
  let e ← entity_animation_step st.anims st.kamikaze_enemies F.time
  pure { st with kamikaze_enemies := e }

/-! ## The gameplay pass and the Orchestrator -/

/-- The function `internal_state_update_gameplay`.  The audio calls have no
effect on the game state. -/
def internal_state_update_gameplay (gs : GameSettings) (E : Engine) (R : Rng) (F : Frame)
    (st : GameState) : Except Fault GameState := do
  let st := screen_shake_timer F st
  let st ← player_update gs E F st
  let st ← enemies_update gs E R F st
  let st ← update_bullets gs F st
  let st ← update_pickups gs F st
  let st ← remove_finished_explosions st
  let st ← enemy_collisions gs R F st
  let st ← player_collisions gs F st
  let st := player_animation_logic F st
  update_animations F st

/-- The statements of `game_state_update` before `coroutine_start`: the keys
GRAVE and ESCAPE and the screen flags they switch. -/
def game_state_update_screens (F : Frame) (st : GameState) : GameState :=
  let st : GameState :=
    if F.get_key_down .GRAVE then { st with is_debug := !st.is_debug } else st
  let st : GameState :=
    if st.current_screen &&&
        (GameScreen.MAIN_MENU ||| GameScreen.GAME_OVER ||| GameScreen.SETTINGS_MENU) = 0 then
      if F.get_key_down .ESCAPE then
        if st.current_screen &&& GameScreen.PAUSE_MENU ≠ 0 then
          -- Resume
          screen_clear_and_switch_to st GameScreen.GAME
        else
          -- Pause
          screen_switch_to st GameScreen.PAUSE_MENU
      else st
    else st
  if st.current_screen &&& GameScreen.SETTINGS_MENU ≠ 0 ∧ F.get_key .ESCAPE = true then
    screen_switch_off st GameScreen.SETTINGS_MENU
  else st

/-- The body of the `while (true)` loop of `game_state_update` from its top to
the next `coroutine_yield`: resume point `1` is the yield after the new wave,
`2` the yield after the gameplay pass. -/
def game_state_update_loop (gs : GameSettings) (E : Engine) (R : Rng) (F : Frame)
    (st : GameState) : Except Fault GameState :=
  if remaining_enemies st = 0 then do
    let st ← game_state_update_new_wave gs R F.time st
    pure { st with state_co := 1 }
  else do
    let st ← internal_state_update_gameplay gs E R F st
    pure { st with state_co := 2 }

/-- One call of `game_state_update`.  With an overlay flag set it returns before
`coroutine_start`; otherwise the Orchestrator runs from the resume point
`state_co` to the next `coroutine_yield`.  Resumed at point `1` it runs the
gameplay pass that follows the yield of the new wave; no other resume point is
ever stored, and for such a value the call does nothing. -/
def game_state_update (gs : GameSettings) (E : Engine) (R : Rng) (F : Frame) (st : GameState) :
    Except Fault GameState :=
  let st := game_state_update_screens F st
  if st.current_screen &&& (GameScreen.PAUSE_MENU ||| GameScreen.SETTINGS_MENU) ≠ 0 then pure st
  else
    match st.state_co with
    | 0 => game_state_update_loop gs E R F st
    | 1 => do
      let st ← internal_state_update_gameplay gs E R F st
      pure { st with state_co := 2 }
    | 2 => game_state_update_loop gs E R F st
    | _ => pure st

/-- The resume point and the settings of the stage sequence. -/
def GameState.stage_fields (st : GameState) : Nat × StageSettings :=
  (st.stage_co, st.current_stage)

/-- The number of enemies in the three archetype pools. -/
def grid_enemies (st : GameState) : Nat :=
  (st.enemies.get .FLYING).positions.length + (st.enemies.get .DROPPER).positions.length
    + (st.enemies.get .KAMIKAZE).positions.length

/-- A source of random numbers as the engine promises it: `Math::random` draws
from `[0, 1]` and `shuffle` permutes the list. -/
def Rng.well_formed (R : Rng) : Prop :=
  (∀ k, 0 ≤ R.random k ∧ R.random k ≤ 1) ∧ ∀ k l, (R.shuffle_enemies k l).Perm l

/-- An animation index that `get_enemy_type_from_animation_index` maps to an
archetype. -/
def mapped_index (index : Nat) : Prop :=
  ∃ ty, get_enemy_type_from_animation_index index = .ok ty

/-! ## Ranges of the enemy animation indices -/

/-- The constants `start` and `end` of `get_random_enemy_index_of_type` for an
archetype. -/
def enemy_index_range (type : EnemyType) : Nat × Nat :=
  match type with
  | .FLYING => (11, 12)
  | .KAMIKAZE => (13, 14)
  | .DROPPER => (15, 17)

/-- The cards returned by `k` consecutive calls of `get_random_pickup_type`, in
the order of the calls, with the state after the last call. -/
def draw_pickups (R : Rng) : Nat → GameState → Except Fault (List PickupType × GameState)
  | 0, st => pure ([], st)
  | k + 1, st => do
    let r ← get_random_pickup_type R st
    let rest ← draw_pickups R k r.2
    pure (r.1 :: rest.1, rest.2)

/-- The statements of `game_state_reset` before its call of `init_enemies`: the
stage setup, the player data, the cleared pools and the timers. -/
def game_state_reset_prepare (gs : GameSettings) (time : ℚ) (st : GameState) :
    Except Fault GameState := do
  -- Stage
  let r := stage_init gs 0 st.current_stage
  let st := { st with stage_co := r.1, current_stage := r.2 }
  -- Initialize Player Data
  let anim ← DynamicArray.read st.anims 0
  let sprite ← DynamicArray.read anim.sprites 0
  let st := { st with
    player_position := ⟨st.game_playground.x / 2,
      st.game_playground.y - gs.player_region_height / 2⟩
    player_size := sprite.size
    player_animation := ⟨0, animation_start_instance time⟩
    player_lives := 3
    player_score := 0
    player_kill_streak := 0
    is_lazer_active := false
    player_equipped_bullet_type := 5
    player_bullets_per_shot := 1
    lazer_drops := 0
    player_extra_shot_ammo := 0
    player_power_shot_ammo := 0 }
  -- Clear all entities
  let st := { st with
    player_bullets := entity_clear st.player_bullets
    enemy_bullets := entity_clear st.enemy_bullets
    explosions := entity_clear st.explosions
    power_shot_explosions := entity_clear st.power_shot_explosions
    pickups := entity_clear st.pickups
    kamikaze_enemies := entity_clear st.kamikaze_enemies
    enemies := (((st.enemies.set .FLYING (entity_clear (st.enemies.get .FLYING))).set .DROPPER
        (entity_clear (st.enemies.get .DROPPER))).set .KAMIKAZE
          (entity_clear (st.enemies.get .KAMIKAZE))) }
  -- Timers
  pure { st with
    player_time_since_last_shot := ⊤
    time_since_screen_shake_start := ⊤
    lazer_charge := 0 }

/-- The slot positions of a state: the three arrays `enemy_slots[0..2]` followed
by `empty_slots`. -/
def all_slots (st : GameState) : List Vector2 :=
  st.enemy_slots.get .FLYING ++ st.enemy_slots.get .DROPPER ++ st.enemy_slots.get .KAMIKAZE
    ++ st.empty_slots

/-- The sum `len(enemy_slots[0]) + len(enemy_slots[1]) + len(enemy_slots[2])
+ len(empty_slots)`. -/
def slot_count (st : GameState) : Nat :=
  (st.enemy_slots.get .FLYING).length + (st.enemy_slots.get .DROPPER).length
    + (st.enemy_slots.get .KAMIKAZE).length + st.empty_slots.length

/-- The number of slots in the three arrays `enemy_slots[0..2]`. -/
def grid_slots (st : GameState) : Nat :=
  (st.enemy_slots.get .FLYING).length + (st.enemy_slots.get .DROPPER).length
    + (st.enemy_slots.get .KAMIKAZE).length

/-- The number of rounds of the loop `for (u32 i = 0; i < state.player_lives;
i++)` of the block "Render lives" of `game_state_render`: the comparison
converts the `s32` value `player_lives` to `u32`. -/
def render_lives_count (st : GameState) : Nat := to_u32 st.player_lives

/-- The calls of `game_state_update` that the main loop makes for the frames
`frames`, one call a frame. -/
def run_frames (gs : GameSettings) (E : Engine) (R : Rng) :
    List Frame → GameState → Except Fault GameState
  | [], st => pure st
  | F :: frames, st => do
    let st ← game_state_update gs E R F st
    run_frames gs E R frames st

/-! ## Concrete inputs -/

/-- A pool of five entities. -/
def pool5 : EntityData :=
  { positions := [⟨0, 0⟩, ⟨1, 10⟩, ⟨2, 20⟩, ⟨3, 30⟩, ⟨4, 40⟩]
    animations := [⟨11, ⟨0, 0, 0⟩⟩, ⟨12, ⟨1, 0, 0⟩⟩, ⟨13, ⟨2, 0, 0⟩⟩, ⟨14, ⟨3, 0, 0⟩⟩, ⟨15, ⟨4, 0, 0⟩⟩] }

/-- Tuning values used by the concrete inputs. -/
def demo_settings : GameSettings :=
  { render_scale := ⟨1, 1⟩
    player_bullet_collider_size := ⟨2, 2⟩
    enemy_collider_size := ⟨4, 4⟩
    lazer_streak_requirement := 5
    lazer_power_requirement := 3
    max_lazer_drops := 1
    points_per_kill := 10
    kill_streak_multiplier := 2
    max_kill_streak_multipliers := 3
    multi_kill_multiplier := 3
    min_kills_for_multi_kill := 5
    low_health_multiplier := 2 }

/-- A source of random numbers that always draws `0` and shuffles nothing. -/
def demo_rng : Rng :=
  { random := fun _ => 0
    shuffle_pickups := fun _ l => l
    shuffle_enemies := fun _ l => l }

/-- A freshly started animation record. -/
def fresh_animation (animation_index : Nat) : AnimationData := ⟨animation_index, ⟨0, 0, 0⟩⟩

/-- Two standard bullets, the first between a FLYING and a DROPPER enemy whose
boxes both reach it, the second far away from both. -/
def two_bullets : GameState :=
  { player_lives := 3
    player_bullets := ⟨[⟨0, 0⟩, ⟨1000, 0⟩], [fresh_animation 5, fresh_animation 5]⟩
    enemies := ⟨⟨[⟨-2, 0⟩], [fresh_animation 11]⟩, ⟨[⟨2, 0⟩], [fresh_animation 15]⟩, ⟨[], []⟩⟩
    enemy_slots := ⟨[⟨-2, 0⟩], [⟨2, 0⟩], []⟩
    pickup_deck := [.HEALTH]
    current_screen := GameScreen.GAME }

/-- One standard bullet between a FLYING and a DROPPER enemy whose boxes both
reach it. -/
def one_bullet : GameState :=
  { two_bullets with player_bullets := ⟨[⟨0, 0⟩], [fresh_animation 5]⟩ }

/-- An active lazer of five segments over one FLYING enemy, the player having
a kill streak of `streak`. -/
def lazer_over_one_enemy (streak : ℤ) : GameState :=
  { player_lives := 3
    player_kill_streak := streak
    anims := List.replicate 8 ⟨[⟨⟨8, 16⟩⟩], 1, .CYCLE⟩
    is_lazer_active := true
    lazer_position := ⟨0, 100⟩
    lazer_start := 0
    lazer_end := 5
    enemies := ⟨⟨[⟨0, 50⟩], [fresh_animation 11]⟩, ⟨[], []⟩, ⟨[], []⟩⟩
    enemy_slots := ⟨[⟨0, 50⟩], [], []⟩
    pickup_deck := [.HEALTH]
    current_screen := GameScreen.GAME }

/-- Tuning values with a fractional streak multiplier. -/
def fractional_settings : GameSettings :=
  { demo_settings with
    lazer_streak_requirement := 1
    points_per_kill := 5
    kill_streak_multiplier := 3 / 2 }

/-- A living player with a kill streak of `streak` and no points. -/
def scoring_state (streak : ℤ) : GameState :=
  { player_lives := 3, player_kill_streak := streak, player_score := 0 }

/-- An active lazer of five segments over a grid with two FLYING enemies (one
under the beam), one DROPPER enemy under the beam, one KAMIKAZE enemy beside
it and one kamikaze enemy under the beam. -/
def lazer_over_grid : GameState :=
  { lazer_over_one_enemy 10 with
    enemies := ⟨⟨[⟨0, 50⟩, ⟨500, 50⟩], [fresh_animation 11, fresh_animation 12]⟩,
      ⟨[⟨0, 60⟩], [fresh_animation 15]⟩, ⟨[⟨400, 50⟩], [fresh_animation 13]⟩⟩
    enemy_slots := ⟨[⟨0, 50⟩, ⟨500, 50⟩], [⟨0, 60⟩], [⟨400, 50⟩]⟩
    kamikaze_enemies := ⟨[⟨0, 70⟩], [fresh_animation 14]⟩ }

/-- Two bullets, the first under the first of two DROPPER enemies, and one
FLYING, one KAMIKAZE and one kamikaze enemy away from both bullets. -/
def bullet_under_dropper : GameState :=
  { player_lives := 3
    player_bullets := ⟨[⟨0, 0⟩, ⟨1000, 0⟩], [fresh_animation 5, fresh_animation 5]⟩
    enemies := ⟨⟨[⟨300, 300⟩], [fresh_animation 11]⟩,
      ⟨[⟨0, 0⟩, ⟨500, 0⟩], [fresh_animation 15, fresh_animation 16]⟩,
      ⟨[⟨600, 600⟩], [fresh_animation 13]⟩⟩
    enemy_slots := ⟨[⟨300, 300⟩], [⟨0, 10⟩, ⟨500, 10⟩], [⟨600, 600⟩]⟩
    kamikaze_enemies := ⟨[⟨700, 700⟩], [fresh_animation 14]⟩
    pickup_deck := [.HEALTH, .SKULL]
    current_screen := GameScreen.GAME }

/-- Tuning values for a first wave of two rows and two columns with one
KAMIKAZE and one DROPPER enemy. -/
def wave_settings : GameSettings :=
  { demo_settings with
    enemy_row_start_count := 2
    enemy_column_start_count := 2
    enemy_vertical_gap := 40
    enemy_move_speed := ⟨10, 20⟩
    enemy_kamikaze_delay := 1
    enemy_rearrange_delay := 1
    enemy_start_spawn_counts := ⟨0, 1, 1⟩ }

/-- A state before the first reset: only the animations and the playground
are set. -/
def start_state : GameState :=
  { anims := List.replicate 8 ⟨[⟨⟨8, 16⟩⟩], 1, .CYCLE⟩
    game_playground := ⟨200, 400⟩
    pickup_deck := [.HEALTH] }

/-- The state after `game_state_reset` on `start_state`. -/
def reset_state : GameState :=
  match game_state_reset wave_settings demo_rng 0 start_state with
  | .ok st => st
  | .error _ => start_state

/-- The state after the removal of the only DROPPER enemy of `reset_state`. -/
def removed_state : GameState :=
  match remove_enemy reset_state .DROPPER 0 1 with
  | .ok st => st
  | .error _ => reset_state

/-- Settings whose grid starts with ten rows. -/
def tall_settings : GameSettings :=
  { wave_settings with
    enemy_row_start_count := 10
    enemy_shot_delay := 1
    player_shot_delay := 1 / 2 }

/-- Settings loaded with the shares 0.1, 0.2, 0.3 and 0.4 for health, power
shot, extra shot and skull, and a deck of 100 cards. -/
def deck_settings : GameSettings :=
  settings_load_pickup_drop_chances { demo_settings with pickup_deck_size := 100 }
    (1 / 10) (2 / 10) (3 / 10) (4 / 10)

/-- The same shares with a deck of 15 cards. -/
def small_deck_settings : GameSettings :=
  settings_load_pickup_drop_chances { demo_settings with pickup_deck_size := 15 }
    (1 / 10) (2 / 10) (3 / 10) (4 / 10)

/-- Settings of a lazer of five chunks growing ten chunks a second. -/
def lazer_settings : GameSettings :=
  { demo_settings with lazer_length := 5, lazer_speed := 10, lazer_duration := 2 }

/-- A charged player whose lazer is in the Extend phase with two chunks out,
the last growth having happened at time 1. -/
def extending_state : GameState :=
  { player_lives := 3
    lazer_charge := 3
    is_lazer_active := true
    lazer_co := 2
    lazer_start := 0
    lazer_end := 2
    lazer_last_update_time := 1 }

/-- A charged player whose lazer is not active; the extent fields still hold
the values of an earlier run. -/
def charged_state : GameState :=
  { player_lives := 3
    lazer_charge := 3
    lazer_co := 5
    lazer_start := 5
    lazer_end := 5 }

/-- The state of a lazer run at the start of the Dwell phase: activation at
time 0, a first `update_lazer` call, the wind-up animation finishing, and
`update_lazer` calls at the times 1, 3/2 and 2. -/
def dwelling_state : GameState :=
  update_lazer lazer_settings 2 false
    (update_lazer lazer_settings (3 / 2) false
      (update_lazer lazer_settings 1 false
        { update_lazer lazer_settings 0 false
            (player_lazer_activation lazer_settings true 0 charged_state) with
          player_animation := ⟨PlayerState.LAZER_WIND_UP, ⟨0, 0, 1⟩⟩ }))

/-- A state in the middle of a game: the stage sequence has advanced three
times, the Orchestrator is suspended after a gameplay pass, and the lazer is in
its Extend phase with three chunks out. -/
def mid_lazer_state : GameState :=
  { start_state with
    state_co := 2
    stage_co := 4
    current_stage := (stage_run wave_settings {} 3).2
    player_lives := 2
    lazer_charge := 3
    is_lazer_active := true
    lazer_co := 2
    lazer_start := 0
    lazer_end := 3
    lazer_last_update_time := 7 }

/-- The state after `game_state_reset` on `mid_lazer_state`. -/
def reset_mid_lazer_state : GameState :=
  match game_state_reset wave_settings demo_rng 8 mid_lazer_state with
  | .ok st => st
  | .error _ => mid_lazer_state

/-- The whole part of a square root, by counting up: `fuel` bounds the rounds
left and `k` is the root found so far. -/
def sqrt_floor_loop (n : Nat) : Nat → Nat → Nat
  | 0, k => k
  | fuel + 1, k => if (k + 1) * (k + 1) ≤ n then sqrt_floor_loop n fuel (k + 1) else k

/-- The whole part of the square root of `n`. -/
def sqrt_floor (n : Nat) : Nat := sqrt_floor_loop n n 0

/-- An engine whose `sin` and `cos` are frozen at the angle 0 and whose `length`
is rounded down to a whole number. -/
def demo_engine : Engine :=
  { sin := fun _ => 0
    cos := fun _ => 1
    length := fun v => (sqrt_floor (Int.toNat ⌊v.x * v.x + v.y * v.y⌋) : ℚ)
    normalize := fun v =>
      if sqrt_floor (Int.toNat ⌊v.x * v.x + v.y * v.y⌋) = 0 then ⟨0, 0⟩
      else ⟨v.x / (sqrt_floor (Int.toNat ⌊v.x * v.x + v.y * v.y⌋) : ℚ),
        v.y / (sqrt_floor (Int.toNat ⌊v.x * v.x + v.y * v.y⌋) : ℚ)⟩
    clamp := fun v lo hi => max lo (min v hi)
    lerp := fun a b t => ⟨a + (b.x - a) * t, a + (b.y - a) * t⟩ }

/-- A frame at time 1 in which no key is pressed. -/
def quiet_frame : Frame :=
  { time := 1
    delta_time := 1 / 60
    get_key := fun _ => false
    get_key_down := fun _ => false
    dwell_over := false }

/-- A running game in its first wave with one FLYING enemy left, the
Orchestrator suspended after a gameplay pass. -/
def playing_state : GameState :=
  { state_co := 2
    anims := List.replicate 24 ⟨[⟨⟨8, 16⟩⟩, ⟨⟨8, 16⟩⟩], 1, .CYCLE⟩
    player_lives := 3
    player_position := ⟨100, 380⟩
    player_size := ⟨8, 16⟩
    player_time_since_last_shot := ⊤
    time_since_screen_shake_start := ⊤
    stage_co := 1
    current_stage := (stage_run wave_settings {} 0).2
    enemies := ⟨⟨[⟨50, 50⟩], [fresh_animation 11]⟩, ⟨[], []⟩, ⟨[], []⟩⟩
    enemy_slots := ⟨[⟨50, 50⟩], [], []⟩
    empty_slots := [⟨122, 75⟩, ⟨50, 115⟩, ⟨122, 115⟩]
    game_playground := ⟨200, 400⟩
    pickup_deck := [.HEALTH]
    current_screen := GameScreen.GAME }

/-- The state `playing_state` with the last enemy gone. -/
def cleared_state : GameState :=
  { playing_state with
    enemies := ⟨⟨[], []⟩, ⟨[], []⟩, ⟨[], []⟩⟩
    enemy_slots := ⟨[], [], []⟩ }

/-- The state `playing_state` with the pause menu open. -/
def paused_state : GameState :=
  { playing_state with current_screen := GameScreen.GAME ||| GameScreen.PAUSE_MENU }

/-- A CYCLE animation of four frames at two frames a second. -/
def four_frames : Animation2D :=
  ⟨[⟨⟨8, 16⟩⟩, ⟨⟨8, 16⟩⟩, ⟨⟨8, 16⟩⟩, ⟨⟨8, 16⟩⟩], 2, .CYCLE⟩

/-- A generator whose pickup shuffle reverses the deck. -/
def reversing_rng : Rng :=
  { random := fun _ => 0
    shuffle_pickups := fun _ l => l.reverse
    shuffle_enemies := fun _ l => l }

/-- A state with a deck of three cards and the draw index at the start. -/
def deck_state : GameState :=
  { pickup_deck := [.HEALTH, .SKULL, .POWER_SHOT] }

/-- The state after the kamikaze conversion of the only KAMIKAZE enemy of
`reset_state`, two seconds after the reset. -/
def converted_state : GameState :=
  match enemy_kamikaze 2 1 reset_state with
  | .ok st => st
  | .error _ => reset_state

/-- Settings of a one-enemy wave whose enemy shoots in every frame. -/
def salvo_settings : GameSettings :=
  { demo_settings with
    player_region_height := 100
    player_collider_size := ⟨16, 16⟩
    enemy_row_start_count := 1
    enemy_column_start_count := 1
    enemy_vertical_gap := 40
    enemy_move_speed := ⟨10, 20⟩
    enemy_start_spawn_counts := ⟨1, 0, 0⟩
    enemy_shot_delay := 0
    enemy_kamikaze_delay := 1
    enemy_rearrange_delay := 1
    enemy_bullet_speed := 100
    enemy_bullet_collider_size := ⟨4, 8⟩ }

/-- A state before the first reset, on the game screen. -/
def boot_state : GameState :=
  { anims := List.replicate 24 ⟨[⟨⟨8, 16⟩⟩, ⟨⟨8, 16⟩⟩], 1, .CYCLE⟩
    game_playground := ⟨200, 400⟩
    current_screen := GameScreen.GAME
    pickup_deck := [.HEALTH] }

/-- A frame at `time` that lasted `delta_time`, with no key pressed. -/
def idle_frame (time delta_time : ℚ) : Frame :=
  { time := time
    delta_time := delta_time
    get_key := fun _ => false
    get_key_down := fun _ => false
    dwell_over := false }

/-- Four frames of a hundredth of a second and one of 2.7 seconds. -/
def salvo_frames : List Frame :=
  [idle_frame (1 / 100) (1 / 100), idle_frame (2 / 100) (1 / 100),
    idle_frame (3 / 100) (1 / 100), idle_frame (4 / 100) (1 / 100),
    idle_frame (274 / 100) (27 / 10)]

/-- Settings of a wave of two KAMIKAZE enemies in one column, one of which
turns kamikaze in every frame. -/
def dive_settings : GameSettings :=
  { demo_settings with
    player_region_height := 100
    player_collider_size := ⟨16, 16⟩
    enemy_row_start_count := 2
    enemy_column_start_count := 1
    enemy_vertical_gap := 40
    enemy_move_speed := ⟨100, 200⟩
    enemy_start_spawn_counts := ⟨0, 0, 2⟩
    enemy_shot_delay := 1000
    enemy_kamikaze_delay := 0
    enemy_rearrange_delay := 1000 }

/-- A frame of a hundredth of a second and one of 1.67 seconds. -/
def dive_frames : List Frame :=
  [idle_frame (1 / 100) (1 / 100), idle_frame (168 / 100) (167 / 100)]

/-- A living player with a kill streak of 1 and a score above `2 ^ 24`. -/
def high_score_state : GameState :=
  { player_lives := 3, player_kill_streak := 1, player_score := 16777217 }

/-- The state `bullet_under_dropper` with a score above `2 ^ 24`. -/
def rich_bullet_under_dropper : GameState :=
  { bullet_under_dropper with player_score := 16777217 }

/-- The demo tuning values with a streak requirement of zero. -/
def zero_requirement_settings : GameSettings :=
  { demo_settings with lazer_streak_requirement := 0 }

/-- The demo tuning values with a negative number of streak tiers. -/
def negative_tier_settings : GameSettings :=
  { demo_settings with max_kill_streak_multipliers := -1 }

/-- Settings of a lazer of ten chunks whose speed is the `f32` nearest to 0.7
chunks a second. -/
def slow_lazer_settings : GameSettings :=
  { demo_settings with lazer_length := 10, lazer_speed := 11744051 / 16777216, lazer_duration := 2 }

/-- A charged player whose lazer enters the Extend phase at time 0 with no chunk
out. -/
def retracted_state : GameState :=
  { extending_state with lazer_end := 0, lazer_last_update_time := 0 }

/-! ## Theorems -/

/-! ## Binary32 rounding -/

theorem log2_loop_spec : ∀ (fuel n : Nat), n ≤ fuel → 0 < n →
    2 ^ log2_loop fuel n ≤ n ∧ n < 2 ^ (log2_loop fuel n + 1) := by
  intro fuel
  induction fuel with
  | zero => intro n h hn; omega
  | succ fuel ih =>
    intro n h hn
    unfold log2_loop
    by_cases h2 : n < 2
    · rw [if_pos h2]
      simp only [pow_zero, zero_add, pow_one]
      omega
    · rw [if_neg h2]
      obtain ⟨k1, k2⟩ := ih (n / 2) (by omega) (by omega)
      rw [pow_succ, pow_succ]
      generalize 2 ^ log2_loop fuel (n / 2) = p at k1 k2 ⊢
      rw [pow_succ] at k2
      omega

theorem log2_floor_spec (a : ℚ) (ha : 0 < a) :
    (2 : ℚ) ^ log2_floor a ≤ a ∧ a < (2 : ℚ) ^ (log2_floor a + 1) := by
  have hnum : 0 < a.num := Rat.num_pos.mpr ha
  have hn0 : 0 < a.num.natAbs := Int.natAbs_pos.mpr (ne_of_gt hnum)
  obtain ⟨n1, n2⟩ := log2_loop_spec a.num.natAbs a.num.natAbs (le_refl _) hn0
  obtain ⟨d1, d2⟩ := log2_loop_spec a.den a.den (le_refl _) a.den_pos
  generalize hln : log2_loop a.num.natAbs a.num.natAbs = ln at n1 n2
  generalize hld : log2_loop a.den a.den = ld at d1 d2
  have hnq : ((a.num.natAbs : ℕ) : ℚ) = (a.num : ℚ) := by
    rw [← Int.cast_natCast, Int.natAbs_of_nonneg (le_of_lt hnum)]
  have hdpos : (0 : ℚ) < a.den := by exact_mod_cast a.den_pos
  have haeq : a = (a.num.natAbs : ℚ) / (a.den : ℚ) := by
    rw [hnq]
    exact (Rat.num_div_den a).symm
  have N1 : (2 : ℚ) ^ ln ≤ (a.num.natAbs : ℚ) := by exact_mod_cast n1
  have N2 : ((a.num.natAbs : ℕ) : ℚ) < (2 : ℚ) ^ (ln + 1) := by exact_mod_cast n2
  have D1 : (2 : ℚ) ^ ld ≤ (a.den : ℚ) := by exact_mod_cast d1
  have D2 : ((a.den : ℕ) : ℚ) < (2 : ℚ) ^ (ld + 1) := by exact_mod_cast d2
  have hp : ∀ k : ℕ, (0 : ℚ) < 2 ^ k := fun k => by positivity
  -- upper bound
  have hup : a < (2 : ℚ) ^ ((ln : ℤ) - ld + 1) := by
    have e : (2 : ℚ) ^ ((ln : ℤ) - ld + 1) = (2 : ℚ) ^ (ln + 1) / (2 : ℚ) ^ ld := by
      rw [show (ln : ℤ) - ld + 1 = ((ln + 1 : ℕ) : ℤ) - (ld : ℕ) by push_cast; ring,
        zpow_sub₀ (by norm_num), zpow_natCast, zpow_natCast]
    rw [e, haeq, div_lt_div_iff₀ hdpos (hp ld)]
    calc (a.num.natAbs : ℚ) * 2 ^ ld ≤ (a.num.natAbs : ℚ) * a.den :=
          mul_le_mul_of_nonneg_left D1 (Nat.cast_nonneg _)
      _ < 2 ^ (ln + 1) * a.den := mul_lt_mul_of_pos_right N2 hdpos
  have hlow : (2 : ℚ) ^ ((ln : ℤ) - ld - 1) ≤ a := by
    have e : (2 : ℚ) ^ ((ln : ℤ) - ld - 1) = (2 : ℚ) ^ ln / (2 : ℚ) ^ (ld + 1) := by
      rw [show (ln : ℤ) - ld - 1 = ((ln : ℕ) : ℤ) - ((ld + 1 : ℕ) : ℤ) by push_cast; ring,
        zpow_sub₀ (by norm_num), zpow_natCast, zpow_natCast]
    rw [e, haeq, div_le_div_iff₀ (hp (ld + 1)) hdpos]
    calc (2 : ℚ) ^ ln * a.den ≤ (a.num.natAbs : ℚ) * a.den :=
          mul_le_mul_of_nonneg_right N1 (le_of_lt hdpos)
      _ ≤ (a.num.natAbs : ℚ) * 2 ^ (ld + 1) :=
          mul_le_mul_of_nonneg_left (le_of_lt D2) (Nat.cast_nonneg _)
  unfold log2_floor
  simp only [hln, hld]
  by_cases hc : (2 : ℚ) ^ ((ln : ℤ) - ld) ≤ a
  · rw [if_pos hc]
    exact ⟨hc, hup⟩
  · rw [if_neg hc]
    refine ⟨hlow, ?_⟩
    rw [sub_add_cancel]
    exact lt_of_not_le hc

theorem log2_floor_unique (a : ℚ) (e : ℤ) (h1 : (2 : ℚ) ^ e ≤ a) (h2 : a < (2 : ℚ) ^ (e + 1)) :
    log2_floor a = e := by
  have ha : 0 < a := lt_of_lt_of_le (by positivity) h1
  obtain ⟨k1, k2⟩ := log2_floor_spec a ha
  have l1 : (2 : ℚ) ^ e < (2 : ℚ) ^ (log2_floor a + 1) := lt_of_le_of_lt h1 k2
  have l2 : (2 : ℚ) ^ log2_floor a < (2 : ℚ) ^ (e + 1) := lt_of_le_of_lt k1 h2
  have m1 := (zpow_lt_zpow_iff_right₀ (by norm_num : (1 : ℚ) < 2)).mp l1
  have m2 := (zpow_lt_zpow_iff_right₀ (by norm_num : (1 : ℚ) < 2)).mp l2
  omega

theorem round_half_even_intCast (n : ℤ) : round_half_even (n : ℚ) = n := by
  unfold round_half_even
  rw [Int.floor_intCast, sub_self, if_pos (by norm_num)]

/-- The quantum of a positive value in the binade `[2 ^ e, 2 ^ (e + 1))` with
`e` at least `-126`. -/
theorem f32_quantum_of_binade (z : ℚ) (e : ℤ) (he : -126 ≤ e) (h1 : (2 : ℚ) ^ e ≤ z)
    (h2 : z < (2 : ℚ) ^ (e + 1)) : f32_quantum z = 2 ^ (e - 23) := by
  have hz : 0 < z := lt_of_lt_of_le (by positivity) h1
  unfold f32_quantum
  rw [abs_of_pos hz, log2_floor_unique z e h1 h2, max_eq_left he]

/-- A value `m * 2 ^ (e - 23)` with `2 ^ 23 <= m < 2 ^ 24` is an `f32`. -/
theorem f32_round_of_significand (m : ℤ) (e : ℤ) (he : -126 ≤ e) (hm1 : 2 ^ 23 ≤ m)
    (hm2 : m < 2 ^ 24) : f32_round ((m : ℚ) * 2 ^ (e - 23)) = (m : ℚ) * 2 ^ (e - 23) := by
  have hq : (0 : ℚ) < 2 ^ (e - 23) := by positivity
  have hsplit : (2 : ℚ) ^ e = 2 ^ (23 : ℤ) * 2 ^ (e - 23) := by
    rw [← zpow_add₀ (by norm_num)]
    congr 1
    ring
  have hsplit2 : (2 : ℚ) ^ (e + 1) = 2 ^ (24 : ℤ) * 2 ^ (e - 23) := by
    rw [← zpow_add₀ (by norm_num)]
    congr 1
    ring
  have h1 : (2 : ℚ) ^ e ≤ (m : ℚ) * 2 ^ (e - 23) := by
    rw [hsplit]
    apply mul_le_mul_of_nonneg_right _ (le_of_lt hq)
    have hc : (2 : ℚ) ^ (23 : ℤ) = ((2 ^ 23 : ℤ) : ℚ) := by norm_num
    rw [hc]
    exact_mod_cast hm1
  have h2 : (m : ℚ) * 2 ^ (e - 23) < (2 : ℚ) ^ (e + 1) := by
    rw [hsplit2]
    apply mul_lt_mul_of_pos_right _ hq
    have hc : (2 : ℚ) ^ (24 : ℤ) = ((2 ^ 24 : ℤ) : ℚ) := by norm_num
    rw [hc]
    exact_mod_cast hm2
  unfold f32_round
  rw [f32_quantum_of_binade _ e he h1 h2, mul_div_assoc, div_self (ne_of_gt hq), mul_one,
    round_half_even_intCast]

theorem f32_round_zero : f32_round 0 = 0 := by
  unfold f32_round
  rw [zero_div]
  have h := round_half_even_intCast 0
  rw [Int.cast_zero] at h
  rw [h, Int.cast_zero, zero_mul]

/-- Every whole number up to `2 ^ 24` is an `f32`. -/
theorem f32_round_natCast (n : Nat) (hn : n ≤ 2 ^ 24) : f32_round (n : ℚ) = n := by
  rcases Nat.eq_zero_or_pos n with h0 | hpos
  · subst h0
    rw [Nat.cast_zero]
    exact f32_round_zero
  rcases Nat.lt_or_ge n (2 ^ 24) with hlt | hge
  · have hnq : (0 : ℚ) < n := by exact_mod_cast hpos
    obtain ⟨s1, s2⟩ := log2_floor_spec (n : ℚ) hnq
    have hone : (2 : ℚ) ^ (0 : ℤ) ≤ n := by
      rw [zpow_zero]
      exact_mod_cast hpos
    have l0 : 0 ≤ log2_floor (n : ℚ) := by
      have := lt_of_le_of_lt hone s2
      have := (zpow_lt_zpow_iff_right₀ (by norm_num : (1 : ℚ) < 2)).mp this
      omega
    have l23 : log2_floor (n : ℚ) ≤ 23 := by
      have h24 : (n : ℚ) < (2 : ℚ) ^ (24 : ℤ) := by
        have e : (2 : ℚ) ^ (24 : ℤ) = ((2 ^ 24 : ℕ) : ℚ) := by norm_num
        rw [e]
        exact_mod_cast hlt
      have := lt_of_le_of_lt s1 h24
      have := (zpow_lt_zpow_iff_right₀ (by norm_num : (1 : ℚ) < 2)).mp this
      omega
    obtain ⟨k, hk⟩ := Int.eq_ofNat_of_zero_le l0
    rw [hk] at s1 s2 l23
    have hk23 : k ≤ 23 := by omega
    have s1' : 2 ^ k ≤ n := by
      rw [zpow_natCast] at s1
      exact_mod_cast s1
    have s2' : n < 2 ^ (k + 1) := by
      have : (n : ℚ) < (2 : ℚ) ^ ((k + 1 : ℕ) : ℤ) := by
        rw [Nat.cast_add, Nat.cast_one]
        exact s2
      rw [zpow_natCast] at this
      exact_mod_cast this
    have hpk : 2 ^ k * 2 ^ (23 - k) = 2 ^ 23 := by
      rw [← pow_add]
      congr 1
      omega
    have hpk1 : 2 ^ (k + 1) * 2 ^ (23 - k) = 2 ^ 24 := by
      rw [← pow_add]
      congr 1
      omega
    have hpos2 : 0 < 2 ^ (23 - k) := Nat.pow_pos (by norm_num)
    have hm1 : (2 : ℤ) ^ 23 ≤ ((n * 2 ^ (23 - k) : ℕ) : ℤ) := by
      have : 2 ^ 23 ≤ n * 2 ^ (23 - k) := by
        rw [← hpk]
        exact Nat.mul_le_mul_right _ s1'
      exact_mod_cast this
    have hm2 : ((n * 2 ^ (23 - k) : ℕ) : ℤ) < (2 : ℤ) ^ 24 := by
      have : n * 2 ^ (23 - k) < 2 ^ 24 := by
        rw [← hpk1]
        exact Nat.mul_lt_mul_of_pos_right s2' hpos2
      exact_mod_cast this
    have hform : (((n * 2 ^ (23 - k) : ℕ) : ℤ) : ℚ) * 2 ^ ((k : ℤ) - 23) = n := by
      have e1 : (2 : ℚ) ^ ((k : ℤ) - 23) = ((2 : ℚ) ^ (23 - k))⁻¹ := by
        rw [← zpow_natCast, ← zpow_neg]
        congr 1
        omega
      have hne : ((2 : ℚ) ^ (23 - k)) ≠ 0 := by positivity
      rw [e1]
      push_cast
      rw [mul_assoc, mul_inv_cancel₀ hne, mul_one]
    have h := f32_round_of_significand ((n * 2 ^ (23 - k) : ℕ) : ℤ) (k : ℤ) (by omega) hm1 hm2
    rw [hform] at h
    exact h
  · have hn24 : n = 2 ^ 24 := le_antisymm hn hge
    subst hn24
    have h := f32_round_of_significand (2 ^ 23) 24 (by norm_num) (le_refl _) (by norm_num)
    have e : (((2 : ℤ) ^ 23 : ℤ) : ℚ) * 2 ^ ((24 : ℤ) - 23) = ((2 ^ 24 : ℕ) : ℚ) := by norm_num
    rw [e] at h
    exact h

theorem movemask_eq_15 (v : Vector4) :
    movemask_cmpge_zero v = 15 ↔ 0 ≤ v.x ∧ 0 ≤ v.y ∧ 0 ≤ v.z ∧ 0 ≤ v.w := by
  unfold movemask_cmpge_zero
  by_cases hx : 0 ≤ v.x <;> by_cases hy : 0 ≤ v.y <;> by_cases hz : 0 ≤ v.z <;>
    by_cases hw : 0 ≤ v.w <;> simp [hx, hy, hz, hw]

theorem test_aabb_iff (a b : Vector4) :
    test_aabb_vs_aabb a b = true ↔ a.x ≤ b.x ∧ a.y ≤ b.y ∧ b.z ≤ a.z ∧ b.w ≤ a.w := by
  unfold test_aabb_vs_aabb
  simp only [beq_iff_eq]
  rw [show (0xF : Nat) = 15 from rfl, movemask_eq_15]
  simp [Vector4.sub, Vector4.mul]

/-- C7: the four-lane box test applied to `A` and the swizzled `B` is true
exactly when the scalar reference comparison holds; boxes sharing one edge
(`A.right = B.left`, vertical ranges overlapping) test true and boxes separated
by a positive gap on either axis test false. -/
theorem test_aabb_vs_aabb_eq_scalar :
    (∀ A B : Rect, test_aabb_vs_aabb A.v4 B.swizzled = true ↔
        (A.right ≥ B.left ∧ A.bottom ≥ B.top ∧ A.left ≤ B.right ∧ A.top ≤ B.bottom)) ∧
    (∀ A B : Rect, test_aabb_vs_aabb A.v4 B.swizzled = true ↔ overlaps_spec A B) ∧
    (∀ A B : Rect, A.right = B.left → A.left ≤ A.right → B.left ≤ B.right →
        A.top ≤ B.bottom → B.top ≤ A.bottom →
        test_aabb_vs_aabb A.v4 B.swizzled = true) ∧
    (∀ A B : Rect, (A.right < B.left ∨ B.right < A.left ∨ A.bottom < B.top ∨ B.bottom < A.top) →
        test_aabb_vs_aabb A.v4 B.swizzled = false) := by
  have key : ∀ A B : Rect, test_aabb_vs_aabb A.v4 B.swizzled = true ↔
      (A.right ≥ B.left ∧ A.bottom ≥ B.top ∧ A.left ≤ B.right ∧ A.top ≤ B.bottom) := by
    intro A B
    rw [test_aabb_iff]
    simp only [Rect.v4, Rect.swizzled, ge_iff_le]
    tauto
  refine ⟨key, key, ?_, ?_⟩
  · intro A B h1 h2 h3 h4 h5
    rw [key]
    exact ⟨h1 ▸ le_refl _, h5, le_trans h2 (h1 ▸ h3), h4⟩
  · intro A B h
    rw [← Bool.not_eq_true, key]
    rintro ⟨h1, h2, h3, h4⟩
    rcases h with h | h | h | h
    · exact absurd h1 (not_le.mpr h)
    · exact absurd h3 (not_le.mpr h)
    · exact absurd h2 (not_le.mpr h)
    · exact absurd h4 (not_le.mpr h)

theorem remove_swap_error {α : Type} (l : List α) (i : Nat) (h : l.length ≤ i) :
    remove_swap l i = .error .index_out_of_range := by
  unfold remove_swap
  rw [List.getElem?_eq_none h]

theorem remove_swap_last {α : Type} (l : List α) (a : α) :
    remove_swap (l ++ [a]) l.length = .ok (a, l) := by
  simp [remove_swap]

theorem remove_swap_mid {α : Type} (l1 l2 : List α) (x a : α) :
    remove_swap (l1 ++ x :: (l2 ++ [a])) l1.length = .ok (x, l1 ++ a :: l2) := by
  have h : (l1 ++ x :: (l2 ++ [a])).getLast? = some a := by
    rw [show l1 ++ x :: (l2 ++ [a]) = (l1 ++ x :: l2) ++ [a] by simp]
    exact List.getLast?_append_of_ne_nil _ (by simp) |>.trans (by simp)
  have h1 : (l1 ++ x :: (l2 ++ [a]))[l1.length]? = some x := by
    rw [List.getElem?_append_right (le_refl _)]
    simp
  simp only [remove_swap, h, h1]
  simp
  rw [show a :: (l2 ++ [a]) = (a :: l2) ++ [a] by simp, List.dropLast_concat]

theorem split_at_index {α : Type} (l : List α) (i : Nat) (h : i < l.length) :
    (∃ l1 a, l = l1 ++ [a] ∧ i = l1.length) ∨
    (∃ l1 x l2 a, l = l1 ++ x :: (l2 ++ [a]) ∧ i = l1.length) := by
  induction l using List.reverseRecOn with
  | nil => simp at h
  | append_singleton l a _ =>
    by_cases hi : i = l.length
    · exact Or.inl ⟨l, a, rfl, hi⟩
    · right
      have hlt : i < l.length := by
        simp at h; omega
      refine ⟨l.take i, l[i], l.drop (i + 1), a, ?_, ?_⟩
      · have h2 : List.take i l ++ l[i] :: List.drop (i + 1) l = l := by
          simp
        calc l ++ [a] = (List.take i l ++ l[i] :: List.drop (i + 1) l) ++ [a] := by rw [h2]
          _ = List.take i l ++ l[i] :: (List.drop (i + 1) l ++ [a]) := by
            rw [List.append_assoc, List.cons_append]
      · simp; omega

theorem remove_swap_map {α β : Type} (f : α → β) (l : List α) (i : Nat) :
    remove_swap (l.map f) i =
      (match remove_swap l i with
       | .ok r => .ok (f r.1, r.2.map f)
       | .error e => .error e) := by
  by_cases h : i < l.length
  · rcases split_at_index l i h with ⟨l1, a, rfl, rfl⟩ | ⟨l1, x, l2, a, rfl, rfl⟩
    · rw [remove_swap_last]
      have := remove_swap_last (l1.map f) (f a)
      simpa using this
    · rw [remove_swap_mid]
      have := remove_swap_mid (l1.map f) (l2.map f) (f x) (f a)
      simpa using this
  · rw [remove_swap_error l i (by omega), remove_swap_error _ i (by simp; omega)]

theorem remove_swap_spec {α : Type} (l : List α) (i : Nat) (h : i < l.length) :
    ∃ v r, remove_swap l i = .ok (v, r) ∧ l[i]? = some v ∧ r.length = l.length - 1 ∧
      (i < l.length - 1 → r[i]? = l[l.length - 1]?) ∧
      (∀ j, j < l.length - 1 → j ≠ i → r[j]? = l[j]?) ∧
      (i = l.length - 1 → r = l.dropLast) := by
  rcases split_at_index l i h with ⟨l1, a, rfl, rfl⟩ | ⟨l1, x, l2, a, rfl, rfl⟩
  · refine ⟨a, l1, remove_swap_last l1 a, by simp, by simp, by simp, ?_, by simp⟩
    intro j hj _
    simp at hj
    simp [List.getElem?_append_left hj]
  · refine ⟨x, l1 ++ a :: l2, remove_swap_mid l1 l2 x a, ?_, by simp, ?_, ?_, ?_⟩
    · rw [List.getElem?_append_right (le_refl _)]; simp
    · intro _
      rw [List.getElem?_append_right (le_refl _)]
      have : (l1 ++ x :: (l2 ++ [a])).length - 1 = l1.length + (l2.length + 1) := by
        simp
      rw [this, List.getElem?_append_right (by omega)]
      simp
    · intro j hj hne
      by_cases hlt : j < l1.length
      · rw [List.getElem?_append_left hlt, List.getElem?_append_left hlt]
      · have hge : l1.length ≤ j := by omega
        rw [List.getElem?_append_right hge, List.getElem?_append_right hge]
        obtain ⟨k, hk⟩ : ∃ k, j - l1.length = k + 1 := ⟨j - l1.length - 1, by omega⟩
        rw [hk]
        simp only [List.getElem?_cons_succ]
        have hk2 : k < l2.length := by
          simp at hj; omega
        rw [List.getElem?_append_left hk2]
    · intro hi
      simp at hi

/-- C8: `entity_add`, `entity_remove` (for an index below the size) and
`entity_clear` keep `len(positions) = len(animations)`; `entity_add` appends the
new position and a freshly started animation as last element, so the common
length grows by one, and `entity_clear` makes both lengths zero. -/
theorem entity_pool_invariant (e : EntityData)
    (h : e.positions.length = e.animations.length) :
    (∀ (position : Vector2) (animation_index : Nat) (time : ℚ),
      (entity_add e position animation_index time).positions = e.positions ++ [position] ∧
      (entity_add e position animation_index time).animations =
        e.animations ++ [⟨animation_index, ⟨0, time, 0⟩⟩] ∧
      (entity_add e position animation_index time).positions.length = e.positions.length + 1 ∧
      (entity_add e position animation_index time).positions.length =
        (entity_add e position animation_index time).animations.length) ∧
    (∀ index : Nat, index < e.positions.length →
      ∃ e', entity_remove e index = .ok e' ∧ e'.positions.length = e'.animations.length ∧
        e'.positions.length = e.positions.length - 1) ∧
    (entity_clear e).positions.length = 0 ∧ (entity_clear e).animations.length = 0 ∧
    (entity_clear e).positions.length = (entity_clear e).animations.length := by
  refine ⟨?_, ?_, rfl, rfl, rfl⟩
  · intro position animation_index time
    simp [entity_add, append, animation_start_instance, h]
  · intro index hi
    obtain ⟨p, ps, h1, -, hl1, -⟩ := remove_swap_spec e.positions index hi
    obtain ⟨a, as, h2, -, hl2, -⟩ := remove_swap_spec e.animations index (h ▸ hi)
    refine ⟨⟨ps, as⟩, ?_, ?_, hl1⟩
    · simp only [entity_remove, h1, h2]
      rfl
    · simp only [hl1, hl2, h]

/-- C9: `entity_remove(pool, i)` on a pool of size `n >= 1` with `i < n` gives a
pool of size `n - 1`; when `i < n - 1` slot `i` holds the former last position
and animation record, every other slot `j < n - 1` is unchanged, and when
`i = n - 1` the first `n - 1` elements are unchanged. -/
theorem entity_remove_swaps_last (e : EntityData) (n i : Nat)
    (hp : e.positions.length = n) (ha : e.animations.length = n) (_hn : 1 ≤ n) (hi : i < n) :
    ∃ e', entity_remove e i = .ok e' ∧
      e'.positions.length = n - 1 ∧ e'.animations.length = n - 1 ∧
      (i < n - 1 → e'.positions[i]? = e.positions[n - 1]? ∧
        e'.animations[i]? = e.animations[n - 1]?) ∧
      (∀ j, j < n - 1 → j ≠ i → e'.positions[j]? = e.positions[j]? ∧
        e'.animations[j]? = e.animations[j]?) ∧
      (i = n - 1 → e'.positions = e.positions.take (n - 1) ∧
        e'.animations = e.animations.take (n - 1)) := by
  obtain ⟨p, ps, h1, -, hl1, hs1, ho1, hd1⟩ := remove_swap_spec e.positions i (hp ▸ hi)
  obtain ⟨a, as, h2, -, hl2, hs2, ho2, hd2⟩ := remove_swap_spec e.animations i (ha ▸ hi)
  rw [hp] at hl1 hs1 ho1 hd1
  rw [ha] at hl2 hs2 ho2 hd2
  refine ⟨⟨ps, as⟩, ?_, hl1, hl2, fun h => ⟨hs1 h, hs2 h⟩,
    fun j hj hne => ⟨ho1 j hj hne, ho2 j hj hne⟩, fun h => ⟨?_, ?_⟩⟩
  · simp only [entity_remove, h1, h2]
    rfl
  · rw [hd1 h, List.dropLast_eq_take, hp]
  · rw [hd2 h, List.dropLast_eq_take, ha]

theorem entity_remove_swaps_last_witness :
    ∃ e', entity_remove pool5 1 = .ok e' ∧
      e'.positions.length = 5 - 1 ∧ e'.animations.length = 5 - 1 ∧
      (1 < 5 - 1 → e'.positions[1]? = pool5.positions[5 - 1]? ∧
        e'.animations[1]? = pool5.animations[5 - 1]?) ∧
      (∀ j, j < 5 - 1 → j ≠ 1 → e'.positions[j]? = pool5.positions[j]? ∧
        e'.animations[j]? = pool5.animations[j]?) ∧
      (1 = 5 - 1 → e'.positions = pool5.positions.take (5 - 1) ∧
        e'.animations = pool5.animations.take (5 - 1)) :=
  entity_remove_swaps_last pool5 5 1 rfl rfl (by decide) (by decide)

theorem entity_pool_invariant_witness :
    pool5.positions.length = pool5.animations.length ∧
    (entity_add pool5 ⟨7, 7⟩ 11 3).positions.length = 6 ∧
    ∃ e', entity_remove pool5 4 = .ok e' ∧ e'.positions.length = e'.animations.length :=
  ⟨rfl, ((entity_pool_invariant pool5 rfl).1 ⟨7, 7⟩ 11 3).2.2.1,
    (((entity_pool_invariant pool5 rfl).2.1 4 (by decide)).imp fun _ h => ⟨h.1, h.2.1⟩)⟩

/-- C1: evaluation of the bullet pass on `two_bullets`.  The box of the first
bullet overlaps one FLYING and one DROPPER enemy, the box of the second bullet
overlaps no enemy; the pass kills both enemies (`kill_count = 2`) and removes
both bullets, so the first bullet alone destroyed two enemies. -/
theorem bullet_destroys_two_enemies :
    pools_consistent two_bullets ∧
    bullet_hits demo_settings ⟨0, 0⟩ ⟨-2, 0⟩ = true ∧
    bullet_hits demo_settings ⟨0, 0⟩ ⟨2, 0⟩ = true ∧
    bullet_hits demo_settings ⟨1000, 0⟩ ⟨-2, 0⟩ = false ∧
    bullet_hits demo_settings ⟨1000, 0⟩ ⟨2, 0⟩ = false ∧
    (player_bullets_vs_enemies_scan demo_settings demo_rng 0 two_bullets).map
      (fun acc => (acc.1.enemies.get .FLYING, acc.1.enemies.get .DROPPER, acc.1.player_bullets,
        acc.2)) = .ok (⟨[], []⟩, ⟨[], []⟩, ⟨[], []⟩, 2) := by
  decide!

/-- C2: evaluation of the bullet pass on `one_bullet`, a state with consistent
pools.  After the hit on the FLYING enemy has removed the only bullet, the hit
on the DROPPER enemy reads `player_bullets.animations[0]` of an empty pool: the
pass leaves the precondition `index < size`. -/
theorem bullet_pass_reads_removed_bullet :
    pools_consistent one_bullet ∧
    bullet_hits demo_settings ⟨0, 0⟩ ⟨-2, 0⟩ = true ∧
    bullet_hits demo_settings ⟨0, 0⟩ ⟨2, 0⟩ = true ∧
    test_player_bullets_vs_enemies demo_settings demo_rng 0 one_bullet
      = .error .index_out_of_range := by
  decide!

/-- C6: evaluation of the lazer pass on a sweep that kills one enemy.  With a
kill streak of 10 and a requirement of 5 the kill is priced at tier
`(10 - 1) / 5 = 1` (20 points) where the running tier `10 / 5 = 2` gives 40;
with a kill streak of 0 the index `0 - 1` wraps as a `u32` and the kill is
priced at the highest tier 3 (80 points) where tier 0 gives 10.  The pass
leaves the kill streak unchanged. -/
theorem lazer_sweep_priced_below_streak :
    (lazer_vs_enemies_scan demo_settings demo_rng 0 (lazer_over_one_enemy 10)).map (fun acc => acc.2)
      = .ok 1 ∧
    (test_lazer_vs_enemies demo_settings demo_rng 0 (lazer_over_one_enemy 10)).map
      (fun s => (s.player_score, s.player_kill_streak)) = .ok (20, 10) ∧
    kill_price_spec demo_settings 3 1 (10 + 0) = 40 ∧
    (test_lazer_vs_enemies demo_settings demo_rng 0 (lazer_over_one_enemy 0)).map
      (fun s => (s.player_score, s.player_kill_streak)) = .ok (80, 0) ∧
    kill_price_spec demo_settings 3 1 (0 + 0) = 10 := by
  decide!

theorem to_s32_of_range (v : ℤ) (h0 : 0 ≤ v) (h1 : v < 2 ^ 31) : to_s32 v = v := by
  unfold to_s32
  have h : v % 2 ^ 32 = v := Int.emod_eq_of_lt h0 (by omega)
  rw [h, if_pos h1]

theorem to_u32_of_range (v : ℤ) (h0 : 0 ≤ v) (h1 : v < 2 ^ 32) : to_u32 v = v.toNat := by
  unfold to_u32
  rw [Int.emod_eq_of_lt h0 h1]

theorem f32_to_s32_intCast (n : ℤ) (h0 : -2 ^ 31 ≤ n) (h1 : n < 2 ^ 31) :
    f32_to_s32 (n : ℚ) = n := by
  unfold f32_to_s32
  simp only [Int.floor_intCast, Int.ceil_intCast, ite_self]
  rw [if_pos ⟨h0, h1⟩]

/-- The tier computed by `add_score` is the tier of the spec when the index is
a non-negative `s32`, the requirement a positive `s32` and the quotient an
`f32`. -/
theorem code_tier_eq_spec (gs : GameSettings) (start : ℤ) (i : Nat)
    (hr : 0 < gs.lazer_streak_requirement) (hr2 : gs.lazer_streak_requirement < 2 ^ 31)
    (h0 : 0 ≤ start) (h1 : start + i < 2 ^ 31)
    (hex : is_f32 ((⌊((start + i : ℤ) : ℚ) / (gs.lazer_streak_requirement : ℚ)⌋ : ℤ) : ℚ)) :
    min (f32_to_s32 (f32_round
          ((to_u32 (start + i) / to_u32 gs.lazer_streak_requirement : Nat) : ℚ)))
        gs.max_kill_streak_multipliers = streak_tier_spec gs (start + i) := by
  unfold streak_tier_spec
  have hu : to_u32 (start + i) = (start + i).toNat := to_u32_of_range _ (by omega) (by omega)
  have hq : to_u32 gs.lazer_streak_requirement = gs.lazer_streak_requirement.toNat :=
    to_u32_of_range _ (by omega) (by omega)
  have hfloor : ⌊((start + i : ℤ) : ℚ) / (gs.lazer_streak_requirement : ℚ)⌋
      = (start + i) / gs.lazer_streak_requirement := by
    obtain ⟨r, hr'⟩ := Int.eq_ofNat_of_zero_le (le_of_lt hr)
    rw [hr', Int.cast_natCast]
    exact Rat.floor_intCast_div_natCast (start + i) r
  rw [hfloor] at hex ⊢
  rw [hu, hq]
  have hdiv : (((start + i).toNat / gs.lazer_streak_requirement.toNat : Nat) : ℤ)
      = (start + i) / gs.lazer_streak_requirement := by
    rw [Int.ofNat_ediv, Int.toNat_of_nonneg (by omega), Int.toNat_of_nonneg (le_of_lt hr)]
  have hcast : (((start + i).toNat / gs.lazer_streak_requirement.toNat : Nat) : ℚ)
      = (((start + i) / gs.lazer_streak_requirement : ℤ) : ℚ) := by
    rw [← hdiv, Int.cast_natCast]
  rw [hcast]
  have hnn : 0 ≤ (start + i) / gs.lazer_streak_requirement :=
    Int.ediv_nonneg (by omega) (le_of_lt hr)
  have hle : (start + i) / gs.lazer_streak_requirement ≤ start + i :=
    Int.ediv_le_self _ (by omega)
  have hex' : f32_round (((start + i) / gs.lazer_streak_requirement : ℤ) : ℚ)
      = (((start + i) / gs.lazer_streak_requirement : ℤ) : ℚ) := hex
  rw [hex', f32_to_s32_intCast _ (by omega) (by omega)]

theorem add_score_kill_eq (gs : GameSettings) (k : Nat) (start : ℤ) (i : Nat) (st : GameState)
    (hr : 0 < gs.lazer_streak_requirement) (hr2 : gs.lazer_streak_requirement < 2 ^ 31)
    (h0 : 0 ≤ start) (h1 : start + i < 2 ^ 31)
    (hpos : 0 ≤ kill_price_spec gs st.player_lives k (start + i))
    (hno : st.player_score + ⌊kill_price_spec gs st.player_lives k (start + i)⌋.toNat < 2 ^ 32)
    (hex : kill_is_exact gs st.player_lives k (start + i) st.player_score) :
    add_score_kill gs k start i st = .ok { st with
      player_score := st.player_score + ⌊kill_price_spec gs st.player_lives k (start + i)⌋.toNat } := by
  have hq : to_u32 gs.lazer_streak_requirement ≠ 0 := by
    rw [to_u32_of_range _ (by omega) (by omega)]
    omega
  unfold kill_is_exact at hex
  dsimp only at hex
  obtain ⟨e1, e2, e3, e4, e5, e6, e7, e8⟩ := hex
  unfold is_f32 at e2 e3 e4 e5 e6 e7 e8
  unfold add_score_kill
  rw [if_neg hq]
  simp only [code_tier_eq_spec gs start i hr hr2 h0 h1 e1]
  rw [e2, e3, e4, e5, e6, e7, e8]
  have hprice : gs.kill_streak_multiplier ^ streak_tier_spec gs (start + i)
      * (if k ≥ gs.min_kills_for_multi_kill then gs.multi_kill_multiplier else 1)
      * (if st.player_lives = 1 then gs.low_health_multiplier else 1) * (gs.points_per_kill : ℚ)
      = kill_price_spec gs st.player_lives k (start + i) := by
    unfold kill_price_spec
    ring
  rw [hprice]
  have hfl : 0 ≤ ⌊kill_price_spec gs st.player_lives k (start + i)⌋ := Int.floor_nonneg.mpr hpos
  have hsum : f32_to_u32 ((st.player_score : ℚ) + kill_price_spec gs st.player_lives k (start + i))
      = st.player_score + ⌊kill_price_spec gs st.player_lives k (start + i)⌋.toNat := by
    unfold f32_to_u32
    rw [Int.floor_nat_add]
    have : ((st.player_score : ℤ) + ⌊kill_price_spec gs st.player_lives k (start + i)⌋).toNat
        = st.player_score + ⌊kill_price_spec gs st.player_lives k (start + i)⌋.toNat := by
      omega
    rw [this]
    exact Nat.mod_eq_of_lt hno
  rw [hsum]

theorem add_score_loop_eq (gs : GameSettings) (k : Nat) (start : ℤ) (lives : ℤ)
    (hr : 0 < gs.lazer_streak_requirement) (hr2 : gs.lazer_streak_requirement < 2 ^ 31)
    (h0 : 0 ≤ start) :
    ∀ (n i0 : Nat) (st : GameState), st.player_lives = lives →
      start + i0 + n ≤ 2 ^ 31 →
      (∀ i, i < n → 0 ≤ kill_price_spec gs lives k (start + (i0 + i : Nat))) →
      st.player_score + ∑ i in Finset.range n,
        ⌊kill_price_spec gs lives k (start + (i0 + i : Nat))⌋.toNat < 2 ^ 32 →
      (∀ i, i < n → kill_is_exact gs lives k (start + (i0 + i : Nat))
        (st.player_score + ∑ j in Finset.range i,
          ⌊kill_price_spec gs lives k (start + (i0 + j : Nat))⌋.toNat)) →
      add_score_loop gs k start n i0 st = .ok { st with
        player_score := st.player_score + ∑ i in Finset.range n,
          ⌊kill_price_spec gs lives k (start + (i0 + i : Nat))⌋.toNat } := by
  intro n
  induction n with
  | zero =>
    intro i0 st _ _ _ _ _
    simp [add_score_loop]
  | succ n ih =>
    intro i0 st hl hb hpos hno hex
    subst hl
    rw [Finset.sum_range_succ'] at hno ⊢
    simp only [Nat.add_zero] at hno ⊢
    have hex0 := hex 0 (Nat.succ_pos n)
    simp only [Finset.range_zero, Finset.sum_empty, Nat.add_zero] at hex0
    have hk := add_score_kill_eq gs k start i0 st hr hr2 h0 (by omega)
      (by simpa using hpos 0 (Nat.succ_pos n)) (by omega) hex0
    unfold add_score_loop
    rw [hk]
    have hih := ih (i0 + 1) { st with
      player_score := st.player_score + ⌊kill_price_spec gs st.player_lives k (start + i0)⌋.toNat } rfl
      (by push_cast; omega)
      (fun i hi => by
        have := hpos (i + 1) (by omega)
        rwa [show i0 + 1 + i = i0 + (i + 1) by omega])
      (by
        simp only [show ∀ i, i0 + 1 + i = i0 + (i + 1) by intro i; omega]
        omega)
      (fun i hi => by
        have := hex (i + 1) (by omega)
        rw [Finset.sum_range_succ'] at this
        simp only [Nat.add_zero] at this
        simp only [show ∀ j, i0 + 1 + j = i0 + (j + 1) by intro j; omega]
        have e : st.player_score + ⌊kill_price_spec gs st.player_lives k (start + i0)⌋.toNat
            + ∑ j in Finset.range i,
              ⌊kill_price_spec gs st.player_lives k (start + ((i0 + (j + 1) : Nat) : ℤ))⌋.toNat
            = st.player_score + (∑ j in Finset.range i,
              ⌊kill_price_spec gs st.player_lives k (start + ((i0 + (j + 1) : Nat) : ℤ))⌋.toNat
              + ⌊kill_price_spec gs st.player_lives k (start + i0)⌋.toNat) := by omega
        show kill_is_exact gs st.player_lives k _ (_ + _)
        rw [e]
        exact this)
    simp only [show ∀ i, i0 + 1 + i = i0 + (i + 1) by intro i; omega] at hih
    show add_score_loop gs k start n (i0 + 1) _ = _
    rw [hih]
    simp only [Nat.add_assoc, Nat.add_comm]
/-- C5 (as stated, refuted): with `points_per_kill = 5`, a streak multiplier of
`3 / 2`, a requirement of 1 and a kill streak of 2, the single kill of
`add_score(1)` has tier 1 and the price `5 * 3 / 2 = 15 / 2`, yet the score, a
`u32`, grows by 7.  With `points_per_kill = 10` and a score of 16777217, a kill
of tier 0 has the price 10, yet the score, which passes through an `f32`, grows
by 9. -/
theorem add_score_drops_fraction :
    (1 : ℤ) ≤ (scoring_state 2).player_lives ∧
    (0 : ℤ) < fractional_settings.lazer_streak_requirement ∧
    ((1 : Nat) : ℤ) ≤ (scoring_state 2).player_kill_streak ∧
    kill_price_spec fractional_settings (scoring_state 2).player_lives 1
      ((scoring_state 2).player_kill_streak - 1 + 0) = 15 / 2 ∧
    (add_score fractional_settings (scoring_state 2) 1).map (fun s => s.player_score) = .ok 7 ∧
    (7 : ℚ) ≠ (scoring_state 2).player_score +
      kill_price_spec fractional_settings (scoring_state 2).player_lives 1
        ((scoring_state 2).player_kill_streak - 1 + 0) ∧
    (1 : ℤ) ≤ high_score_state.player_lives ∧
    (0 : ℤ) < demo_settings.lazer_streak_requirement ∧
    ((1 : Nat) : ℤ) ≤ high_score_state.player_kill_streak ∧
    high_score_state.player_score = 16777217 ∧
    kill_price_spec demo_settings high_score_state.player_lives 1
      (high_score_state.player_kill_streak - 1 + 0) = 10 ∧
    (add_score demo_settings high_score_state 1).map (fun s => s.player_score)
      = .ok 16777226 := by
  decide!

/-- C5 (amended): `add_score` leaves the state unchanged when
`player_lives <= 0`.  With `player_lives >= 1`, a positive requirement, a kill
streak `s >= k` (both `s32`), non-negative prices, a final score below
`2 ^ 32`, and no `f32` operation of the burst rounding (for each kill the tier
quotient, the power, the products, the score and the sum are `f32` values), the
`i`-th kill of the burst adds the integer part of
`points_per_kill * kill_streak_multiplier ^ t_i * M * L` with
`t_i = min(floor((s - k + i) / requirement), max_kill_streak_multipliers)`, and
the score after the burst is the old score plus the sum of these integer
parts. -/
theorem add_score_prices_each_kill :
    (∀ (gs : GameSettings) (st : GameState) (k : Nat),
      st.player_lives ≤ 0 → add_score gs st k = .ok st) ∧
    (∀ (gs : GameSettings) (st : GameState) (k : Nat),
      1 ≤ st.player_lives →
      0 < gs.lazer_streak_requirement → gs.lazer_streak_requirement < 2 ^ 31 →
      (k : ℤ) ≤ st.player_kill_streak → st.player_kill_streak < 2 ^ 31 →
      (∀ i, i < k →
        0 ≤ kill_price_spec gs st.player_lives k (st.player_kill_streak - k + (i : Nat))) →
      st.player_score + ∑ i in Finset.range k,
        ⌊kill_price_spec gs st.player_lives k (st.player_kill_streak - k + (i : Nat))⌋.toNat
          < 2 ^ 32 →
      (∀ i, i < k →
        kill_is_exact gs st.player_lives k (st.player_kill_streak - k + (i : Nat))
          (st.player_score + ∑ j in Finset.range i,
            ⌊kill_price_spec gs st.player_lives k
              (st.player_kill_streak - k + (j : Nat))⌋.toNat)) →
      (∀ i, i < k → ∃ before,
        add_score_loop gs k (to_s32 (st.player_kill_streak - k)) i 0 st = .ok before ∧
        add_score_kill gs k (to_s32 (st.player_kill_streak - k)) i before = .ok { before with
          player_score := before.player_score +
            ⌊kill_price_spec gs st.player_lives k (st.player_kill_streak - k + (i : Nat))⌋.toNat }) ∧
      add_score gs st k = .ok { st with
        player_score := st.player_score + ∑ i in Finset.range k,
          ⌊kill_price_spec gs st.player_lives k
            (st.player_kill_streak - k + (i : Nat))⌋.toNat }) := by
  refine ⟨fun gs st k h => by simp [add_score, h], ?_⟩
  intro gs st k hl hr hr2 hs hs2 hpos hno hex
  have hstart : to_s32 (st.player_kill_streak - k) = st.player_kill_streak - k :=
    to_s32_of_range _ (by omega) (by omega)
  rw [hstart]
  have hmono : ∀ j, j ≤ k →
      ∑ i in Finset.range j,
        ⌊kill_price_spec gs st.player_lives k (st.player_kill_streak - k + (i : Nat))⌋.toNat
      ≤ ∑ i in Finset.range k,
        ⌊kill_price_spec gs st.player_lives k (st.player_kill_streak - k + (i : Nat))⌋.toNat :=
    fun j hj => Finset.sum_le_sum_of_subset (Finset.range_mono hj)
  have hloop : ∀ j, j ≤ k →
      add_score_loop gs k (st.player_kill_streak - k) j 0 st = .ok { st with
        player_score := st.player_score + ∑ i in Finset.range j,
          ⌊kill_price_spec gs st.player_lives k
            (st.player_kill_streak - k + (i : Nat))⌋.toNat } := by
    intro j hj
    have h := add_score_loop_eq gs k (st.player_kill_streak - k) st.player_lives hr hr2
      (by omega) j 0 st rfl (by push_cast; omega)
      (fun i hi => by simpa using hpos i (by omega))
      (by
        simp only [Nat.zero_add]
        have := hmono j hj
        omega)
      (fun i hi => by simpa only [Nat.zero_add] using hex i (by omega))
    simpa only [Nat.zero_add] using h
  refine ⟨?_, ?_⟩
  · intro i hi
    refine ⟨_, hloop i (le_of_lt hi), ?_⟩
    have hsucc := hmono (i + 1) hi
    rw [Finset.sum_range_succ] at hsucc
    have hlt : st.player_score + ∑ x in Finset.range i,
        ⌊kill_price_spec gs st.player_lives k (st.player_kill_streak - k + (x : Nat))⌋.toNat
        + ⌊kill_price_spec gs st.player_lives k (st.player_kill_streak - k + (i : Nat))⌋.toNat
        < 2 ^ 32 := by omega
    exact add_score_kill_eq gs k (st.player_kill_streak - k) i _ hr hr2 (by omega) (by omega)
      (hpos i hi) hlt (hex i hi)
  · have hne : ¬ st.player_lives ≤ 0 := by omega
    simp only [add_score, if_neg hne, hstart]
    exact hloop k (le_refl k)

theorem add_score_prices_each_kill_witness :
    add_score demo_settings (scoring_state 7) 2 = .ok { scoring_state 7 with
        player_score := (scoring_state 7).player_score + ∑ i in Finset.range 2,
          ⌊kill_price_spec demo_settings (scoring_state 7).player_lives 2
            ((scoring_state 7).player_kill_streak - (2 : Nat) + (i : Nat))⌋.toNat } ∧
      add_score fractional_settings (scoring_state 2) 1 = .ok { scoring_state 2 with
        player_score := (scoring_state 2).player_score + ∑ i in Finset.range 1,
          ⌊kill_price_spec fractional_settings (scoring_state 2).player_lives 1
            ((scoring_state 2).player_kill_streak - (1 : Nat) + (i : Nat))⌋.toNat } :=
  ⟨(add_score_prices_each_kill.2 demo_settings (scoring_state 7) 2 (by decide) (by decide)
      (by decide) (by decide) (by decide) (by decide!) (by decide!) (by decide!)).2,
    (add_score_prices_each_kill.2 fractional_settings (scoring_state 2) 1 (by decide)
      (by decide) (by decide) (by decide) (by decide) (by decide!) (by decide!) (by decide!)).2⟩

@[simp] theorem ok_bind {α β : Type} (a : α) (f : α → Except Fault β) :
    (Except.ok a >>= f) = f a := rfl

@[simp] theorem error_bind {α β : Type} (e : Fault) (f : α → Except Fault β) :
    ((Except.error e : Except Fault α) >>= f) = Except.error e := rfl

@[simp] theorem pure_eq_ok {α : Type} (a : α) : (pure a : Except Fault α) = Except.ok a := rfl

@[simp] theorem PerType.get_set_same {α : Type} (arr : PerType α) (t : EnemyType) (v : α) :
    (arr.set t v).get t = v := by
  cases t <;> rfl

theorem PerType.get_set_ne {α : Type} (arr : PerType α) (t t' : EnemyType) (v : α)
    (h : t' ≠ t) : (arr.set t v).get t' = arr.get t' := by
  cases t <;> cases t' <;> first | rfl | exact absurd rfl h

theorem read_map_append_cons {α β : Type} (f : α → β) (L1 : List α) (x : α) (Rt : List α) :
    DynamicArray.read ((L1 ++ x :: Rt).map f) L1.length = .ok (f x) := by
  unfold DynamicArray.read
  have h : ((L1 ++ x :: Rt).map f)[L1.length]? = some (f x) := by
    rw [List.map_append, List.getElem?_append_right (by simp)]
    simp
  rw [h]

theorem remove_swap_append_cons {α : Type} (L1 : List α) (x : α) (Rt : List α) :
    ∃ Rt', remove_swap (L1 ++ x :: Rt) L1.length = .ok (x, L1 ++ Rt') ∧ Rt'.Perm Rt := by
  induction Rt using List.reverseRecOn with
  | nil => exact ⟨[], by simpa using remove_swap_last L1 x, List.Perm.refl _⟩
  | append_singleton R' a _ =>
    exact ⟨a :: R', remove_swap_mid L1 R' x a, (List.perm_append_singleton a R').symm⟩

theorem remove_swap_map_append_cons {α β : Type} (f : α → β) (L1 : List α) (x : α)
    (Rt Rt' : List α) (h : remove_swap (L1 ++ x :: Rt) L1.length = .ok (x, L1 ++ Rt')) :
    remove_swap ((L1 ++ x :: Rt).map f) L1.length = .ok (f x, (L1 ++ Rt').map f) := by
  rw [remove_swap_map, h]

theorem remove_enemy_view (st : GameState) (t : EnemyType) (time : ℚ)
    (L1 : List (Vector2 × AnimationData × Vector2)) (x : Vector2 × AnimationData × Vector2)
    (Rt : List (Vector2 × AnimationData × Vector2)) (hv : enemies_view st t (L1 ++ x :: Rt)) :
    ∃ st1 Rt', remove_enemy st t L1.length time = .ok st1 ∧ Rt'.Perm Rt ∧
      enemies_view st1 t (L1 ++ Rt') ∧
      (∀ t', t' ≠ t → st1.enemies.get t' = st.enemies.get t' ∧
        st1.enemy_slots.get t' = st.enemy_slots.get t') ∧
      st1.kamikaze_enemies = st.kamikaze_enemies ∧ st1.pickup_deck = st.pickup_deck ∧
      st1.pickup_deck_index = st.pickup_deck_index ∧ st1.player_bullets = st.player_bullets ∧
      st1.pickups = st.pickups ∧
      st1.explosions = entity_add st.explosions x.1 enemy_explosion_animation_index time ∧
      st1.empty_slots = st.empty_slots ++ [x.2.2] ∧ st1.anims = st.anims ∧
      remove_swap (L1 ++ x :: Rt) L1.length = .ok (x, L1 ++ Rt') := by
  obtain ⟨hp, ha, hs⟩ := hv
  obtain ⟨Rt', hrs, hperm⟩ := remove_swap_append_cons L1 x Rt
  have h1 := read_map_append_cons (fun r : Vector2 × AnimationData × Vector2 => r.1) L1 x Rt
  have h2 := remove_swap_map_append_cons (fun r : Vector2 × AnimationData × Vector2 => r.1)
    L1 x Rt Rt' hrs
  have h3 := remove_swap_map_append_cons (fun r : Vector2 × AnimationData × Vector2 => r.2.1)
    L1 x Rt Rt' hrs
  have h4 := remove_swap_map_append_cons (fun r : Vector2 × AnimationData × Vector2 => r.2.2)
    L1 x Rt Rt' hrs
  rw [← hp] at h1 h2
  rw [← ha] at h3
  rw [← hs] at h4
  simp only [remove_enemy, entity_remove, h1, h2, h3, h4, ok_bind, pure_eq_ok]
  refine ⟨_, Rt', rfl, hperm, ?_⟩
  · refine ⟨⟨?_, ?_, ?_⟩, ?_, ?_⟩
    · split <;> simp [spawn_explosion]
    · split <;> simp [spawn_explosion]
    · split <;> simp [spawn_explosion]
    · intro t' ht'
      split <;> simp [spawn_explosion, PerType.get_set_ne _ _ _ _ ht']
    · split <;> simp [spawn_explosion, append, hrs]
theorem read_of_lt {α : Type} (l : List α) (i : Nat) (h : i < l.length) :
    DynamicArray.read l i = .ok l[i] := by
  unfold DynamicArray.read
  rw [List.getElem?_eq_getElem h]

theorem spawn_pickup_spec (R : Rng) (st : GameState) (p : Vector2) (time : ℚ)
    (hdeck : st.pickup_deck ≠ [])
    (hsh : ∀ n l, (R.shuffle_pickups n l).length = l.length) :
    ∃ card deck index rng, spawn_pickup R st p time = .ok { st with
        pickups := entity_add st.pickups p (PickupType.toNat card) time
        pickup_deck := deck
        pickup_deck_index := index
        rng := rng } ∧ deck ≠ [] := by
  have hlen : 0 < st.pickup_deck.length := List.length_pos.mpr hdeck
  by_cases h : st.pickup_deck_index ≥ st.pickup_deck.length
  · have h0 : 0 < (R.shuffle_pickups st.rng st.pickup_deck).length := by rw [hsh]; exact hlen
    refine ⟨(R.shuffle_pickups st.rng st.pickup_deck)[0], R.shuffle_pickups st.rng st.pickup_deck,
      1, st.rng + 1, ?_, List.length_pos.mp h0⟩
    simp only [spawn_pickup, get_random_pickup_type, if_pos h, read_of_lt _ 0 h0, ok_bind,
      pure_eq_ok]
  · have h1 : st.pickup_deck_index < st.pickup_deck.length := by omega
    refine ⟨st.pickup_deck[st.pickup_deck_index], st.pickup_deck, st.pickup_deck_index + 1,
      st.rng, ?_, hdeck⟩
    simp only [spawn_pickup, get_random_pickup_type, if_neg h, read_of_lt _ _ h1, ok_bind,
      pure_eq_ok]

theorem lazer_scan_type_spec (gs : GameSettings) (R : Rng) (time : ℚ) (box : Vector4)
    (t : EnemyType) (hsh : ∀ n l, (R.shuffle_pickups n l).length = l.length) :
    ∀ (L1 Rt : List (Vector2 × AnimationData × Vector2)) (st : GameState) (kc : Nat),
      enemies_view st t (L1 ++ Rt) → (∀ x ∈ Rt, lazer_hits gs box x.1 = false) →
      st.pickup_deck ≠ [] → kc < 2 ^ 32 →
      ∃ st' L', lazer_scan_type gs R time box t L1.length (st, kc)
          = .ok (st', (kc + L1.countP (fun x => lazer_hits gs box x.1)) % 2 ^ 32) ∧
        enemies_view st' t L' ∧
        L'.Perm (L1.filter (fun x => !lazer_hits gs box x.1) ++ Rt) ∧
        (∀ t', t' ≠ t → st'.enemies.get t' = st.enemies.get t' ∧
          st'.enemy_slots.get t' = st.enemy_slots.get t') ∧
        st'.kamikaze_enemies = st.kamikaze_enemies ∧ st'.pickup_deck ≠ [] ∧
        st'.anims = st.anims := by
  intro L1
  induction L1 using List.reverseRecOn with
  | nil =>
    intro Rt st kc hv _ hd hkc
    exact ⟨st, Rt, by simp only [lazer_scan_type, List.length_nil, List.countP_nil, Nat.add_zero,
        Nat.mod_eq_of_lt hkc], by simpa using hv,
      by simp, fun _ _ => ⟨rfl, rfl⟩, rfl, hd, rfl⟩
  | append_singleton L1 x ih =>
    intro Rt st kc hv hRt hd hkc
    have hv' : enemies_view st t (L1 ++ x :: Rt) := by simpa using hv
    have hread := read_map_append_cons (fun r : Vector2 × AnimationData × Vector2 => r.1) L1 x Rt
    rw [← hv'.1] at hread
    rw [List.length_append, List.length_singleton]
    unfold lazer_scan_type
    simp only [hread, ok_bind]
    by_cases hx : lazer_hits gs box x.1 = true
    · have hx' : test_aabb_vs_aabb box (enemy_aabb gs x.1) = true := hx
      simp only [hx', if_true]
      obtain ⟨st1, Rt', hre, hperm, hv1, hfr1, hk1, hd1, -, -, -, -, -, ha1, -⟩ :=
        remove_enemy_view st t time L1 x Rt hv'
      have hnot : ∀ y ∈ Rt', lazer_hits gs box y.1 = false :=
        fun y hy => hRt y (hperm.subset hy)
      have hcount : (kc + 1) % 2 ^ 32 + L1.countP (fun x => lazer_hits gs box x.1)
          ≡ kc + (L1 ++ [x]).countP (fun x => lazer_hits gs box x.1) [MOD 2 ^ 32] := by
        rw [List.countP_append, List.countP_singleton, if_pos hx]
        have : kc + (L1.countP (fun x => lazer_hits gs box x.1) + 1)
            = (kc + 1) + L1.countP (fun x => lazer_hits gs box x.1) := by omega
        rw [this]
        exact Nat.ModEq.add_right _ (Nat.mod_modEq _ _)
      have hfilter : (L1 ++ [x]).filter (fun x => !lazer_hits gs box x.1)
          = L1.filter (fun x => !lazer_hits gs box x.1) := by
        simp [List.filter_append, hx]
      rw [hre]
      simp only [ok_bind]
      by_cases ht : t = EnemyType.DROPPER
      · have hd1' : st1.pickup_deck ≠ [] := by rw [hd1]; exact hd
        obtain ⟨card, deck, index, rng, hsp, hdk⟩ := spawn_pickup_spec R st1 x.1 time hd1' hsh
        simp only [if_pos ht, hsp, ok_bind]
        obtain ⟨st', L', hscan, hv2, hp2, hfr2, hk2, hd2, ha2⟩ :=
          ih Rt' { st1 with
            pickups := entity_add st1.pickups x.1 (PickupType.toNat card) time
            pickup_deck := deck
            pickup_deck_index := index
            rng := rng } ((kc + 1) % 2 ^ 32) hv1 hnot hdk (Nat.mod_lt _ (by norm_num))
        refine ⟨st', L', ?_, hv2, ?_, ?_, ?_, hd2, ?_⟩
        · rw [hscan]
          exact congrArg (fun n => Except.ok (st', n)) hcount
        · rw [hfilter]
          exact hp2.trans (List.Perm.append_left _ hperm)
        · intro t' ht'
          exact ⟨(hfr2 t' ht').1.trans (hfr1 t' ht').1, (hfr2 t' ht').2.trans (hfr1 t' ht').2⟩
        · exact hk2.trans hk1
        · exact ha2.trans ha1
      · simp only [if_neg ht, ok_bind]
        obtain ⟨st', L', hscan, hv2, hp2, hfr2, hk2, hd2, ha2⟩ :=
          ih Rt' st1 ((kc + 1) % 2 ^ 32) hv1 hnot (by rw [hd1]; exact hd)
            (Nat.mod_lt _ (by norm_num))
        refine ⟨st', L', ?_, hv2, ?_, ?_, ?_, hd2, ?_⟩
        · rw [hscan]
          exact congrArg (fun n => Except.ok (st', n)) hcount
        · rw [hfilter]
          exact hp2.trans (List.Perm.append_left _ hperm)
        · intro t' ht'
          exact ⟨(hfr2 t' ht').1.trans (hfr1 t' ht').1, (hfr2 t' ht').2.trans (hfr1 t' ht').2⟩
        · exact hk2.trans hk1
        · exact ha2.trans ha1
    · have hx' : test_aabb_vs_aabb box (enemy_aabb gs x.1) = false := by
        simpa [lazer_hits] using hx
      have hxf : lazer_hits gs box x.1 = false := by simpa using hx
      simp only [hx']
      obtain ⟨st', L', hscan, hv2, hp2, hfr2, hk2, hd2, ha2⟩ :=
        ih (x :: Rt) st kc hv' (by
          intro y hy
          rcases List.mem_cons.mp hy with rfl | hy
          · exact hxf
          · exact hRt y hy) hd hkc
      refine ⟨st', L', ?_, hv2, ?_, hfr2, hk2, hd2, ha2⟩
      · rw [if_neg (by simp), hscan, List.countP_append, List.countP_singleton, if_neg hx,
          Nat.add_zero]
      · rw [List.filter_append]
        simpa [hxf] using hp2
theorem entity_remove_view (e : EntityData) (K1 : List (Vector2 × AnimationData))
    (x : Vector2 × AnimationData) (Kt : List (Vector2 × AnimationData))
    (hv : pool_view e (K1 ++ x :: Kt)) :
    ∃ e' Kt', entity_remove e K1.length = .ok e' ∧ Kt'.Perm Kt ∧ pool_view e' (K1 ++ Kt') := by
  obtain ⟨hp, ha⟩ := hv
  obtain ⟨Kt', hrs, hperm⟩ := remove_swap_append_cons K1 x Kt
  have h2 := remove_swap_map_append_cons (fun r : Vector2 × AnimationData => r.1) K1 x Kt Kt' hrs
  have h3 := remove_swap_map_append_cons (fun r : Vector2 × AnimationData => r.2) K1 x Kt Kt' hrs
  rw [← hp] at h2
  rw [← ha] at h3
  simp only [entity_remove, h2, h3, ok_bind, pure_eq_ok]
  exact ⟨_, Kt', rfl, hperm, rfl, rfl⟩

theorem lazer_scan_kamikaze_spec (gs : GameSettings) (time : ℚ) (box : Vector4) :
    ∀ (K1 Kt : List (Vector2 × AnimationData)) (st : GameState) (kc : Nat),
      pool_view st.kamikaze_enemies (K1 ++ Kt) → (∀ x ∈ Kt, lazer_hits gs box x.1 = false) →
      kc < 2 ^ 32 →
      ∃ st' K', lazer_scan_kamikaze gs time box K1.length (st, kc)
          = .ok (st', (kc + K1.countP (fun x => lazer_hits gs box x.1)) % 2 ^ 32) ∧
        pool_view st'.kamikaze_enemies K' ∧
        K'.Perm (K1.filter (fun x => !lazer_hits gs box x.1) ++ Kt) ∧
        st'.enemies = st.enemies ∧ st'.enemy_slots = st.enemy_slots := by
  intro K1
  induction K1 using List.reverseRecOn with
  | nil =>
    intro Kt st kc hv _ hkc
    exact ⟨st, Kt, by simp only [lazer_scan_kamikaze, List.length_nil, List.countP_nil,
        Nat.add_zero, Nat.mod_eq_of_lt hkc], by simpa using hv, by simp, rfl, rfl⟩
  | append_singleton K1 x ih =>
    intro Kt st kc hv hKt hkc
    have hv' : pool_view st.kamikaze_enemies (K1 ++ x :: Kt) := by simpa using hv
    have hread := read_map_append_cons (fun r : Vector2 × AnimationData => r.1) K1 x Kt
    rw [← hv'.1] at hread
    rw [List.length_append, List.length_singleton]
    unfold lazer_scan_kamikaze
    simp only [hread, ok_bind]
    by_cases hx : lazer_hits gs box x.1 = true
    · have hx' : test_aabb_vs_aabb box (enemy_aabb gs x.1) = true := hx
      simp only [hx', if_true]
      obtain ⟨e', Kt', hre, hperm, hv1⟩ := entity_remove_view st.kamikaze_enemies K1 x Kt hv'
      have hre' : entity_remove (spawn_explosion st x.1 time).kamikaze_enemies K1.length
          = .ok e' := hre
      rw [hre']
      simp only [ok_bind]
      have hnot : ∀ y ∈ Kt', lazer_hits gs box y.1 = false :=
        fun y hy => hKt y (hperm.subset hy)
      have hcount : (kc + 1) % 2 ^ 32 + K1.countP (fun x => lazer_hits gs box x.1)
          ≡ kc + (K1 ++ [x]).countP (fun x => lazer_hits gs box x.1) [MOD 2 ^ 32] := by
        rw [List.countP_append, List.countP_singleton, if_pos hx]
        have : kc + (K1.countP (fun x => lazer_hits gs box x.1) + 1)
            = (kc + 1) + K1.countP (fun x => lazer_hits gs box x.1) := by omega
        rw [this]
        exact Nat.ModEq.add_right _ (Nat.mod_modEq _ _)
      have hfilter : (K1 ++ [x]).filter (fun x => !lazer_hits gs box x.1)
          = K1.filter (fun x => !lazer_hits gs box x.1) := by
        simp [List.filter_append, hx]
      obtain ⟨st', K', hscan, hv2, hp2, he2, hs2⟩ :=
        ih Kt' { spawn_explosion st x.1 time with kamikaze_enemies := e' } ((kc + 1) % 2 ^ 32)
          hv1 hnot (Nat.mod_lt _ (by norm_num))
      refine ⟨st', K', ?_, hv2, ?_, he2, hs2⟩
      · rw [hscan]
        exact congrArg (fun n => Except.ok (st', n)) hcount
      · rw [hfilter]
        exact hp2.trans (List.Perm.append_left _ hperm)
    · have hx' : test_aabb_vs_aabb box (enemy_aabb gs x.1) = false := by
        simpa [lazer_hits] using hx
      have hxf : lazer_hits gs box x.1 = false := by simpa using hx
      simp only [hx']
      obtain ⟨st', K', hscan, hv2, hp2, he2, hs2⟩ :=
        ih (x :: Kt) st kc hv' (by
          intro y hy
          rcases List.mem_cons.mp hy with rfl | hy
          · exact hxf
          · exact hKt y hy) hkc
      refine ⟨st', K', ?_, hv2, ?_, he2, hs2⟩
      · rw [if_neg (by simp), hscan, List.countP_append, List.countP_singleton, if_neg hx,
          Nat.add_zero]
      · rw [List.filter_append]
        simpa [hxf] using hp2

theorem add_score_loop_ok (gs : GameSettings) (k : Nat) (start : ℤ)
    (hq : to_u32 gs.lazer_streak_requirement ≠ 0) :
    ∀ (n i : Nat) (st : GameState),
      ∃ score, add_score_loop gs k start n i st = .ok { st with player_score := score } := by
  intro n
  induction n with
  | zero => exact fun i st => ⟨st.player_score, rfl⟩
  | succ n ih =>
    intro i st
    unfold add_score_loop
    simp only [add_score_kill, if_neg hq, ok_bind]
    exact ih (i + 1) _

theorem add_score_ok (gs : GameSettings) (st : GameState) (k : Nat)
    (hq : to_u32 gs.lazer_streak_requirement ≠ 0) :
    ∃ score, add_score gs st k = .ok { st with player_score := score } := by
  unfold add_score
  split
  · exact ⟨st.player_score, rfl⟩
  · exact add_score_loop_ok gs k _ hq k 0 st

theorem zip3_projections {α β γ : Type} :
    ∀ (a : List α) (b : List β) (c : List γ), c.length = a.length → c.length = b.length →
      (a.zip (b.zip c)).map (fun r => r.1) = a ∧ (a.zip (b.zip c)).map (fun r => r.2.1) = b ∧
        (a.zip (b.zip c)).map (fun r => r.2.2) = c := by
  intro a
  induction a with
  | nil =>
    intro b c h1 h2
    have hc : c = [] := List.length_eq_zero.mp h1
    subst hc
    have hb : b = [] := List.length_eq_zero.mp h2.symm
    subst hb
    simp
  | cons x a ih =>
    intro b c h1 h2
    cases c with
    | nil => simp at h1
    | cons z c =>
      cases b with
      | nil => simp at h2
      | cons y b =>
        obtain ⟨i1, i2, i3⟩ := ih b c (by simpa using h1) (by simpa using h2)
        simp only [List.zip_cons_cons, List.map_cons, i1, i2, i3, and_self]

theorem zip2_projections {α β : Type} :
    ∀ (a : List α) (b : List β), a.length = b.length →
      (a.zip b).map (fun r => r.1) = a ∧ (a.zip b).map (fun r => r.2) = b := by
  intro a
  induction a with
  | nil =>
    intro b h
    have hb : b = [] := List.length_eq_zero.mp h.symm
    subst hb
    simp
  | cons x a ih =>
    intro b h
    cases b with
    | nil => simp at h
    | cons y b =>
      obtain ⟨i1, i2⟩ := ih b (by simpa using h)
      simp only [List.zip_cons_cons, List.map_cons, i1, i2, and_self]

theorem enemies_view_of_synchronised (st : GameState) (t : EnemyType)
    (h : slots_synchronised st t) :
    enemies_view st t
      ((st.enemies.get t).positions.zip ((st.enemies.get t).animations.zip (st.enemy_slots.get t))) := by
  obtain ⟨h1, h2⟩ := h
  obtain ⟨i1, i2, i3⟩ := zip3_projections (st.enemies.get t).positions
    (st.enemies.get t).animations (st.enemy_slots.get t) h1 h2
  exact ⟨i1.symm, i2.symm, i3.symm⟩

theorem pool_view_of_consistent (e : EntityData) (h : e.consistent) : pool_view e e.records := by
  obtain ⟨i1, i2⟩ := zip2_projections e.positions e.animations h
  exact ⟨i1.symm, i2.symm⟩

theorem zip_projections_pairs {α β : Type} (K : List (α × β)) :
    (K.map (fun r => r.1)).zip (K.map (fun r => r.2)) = K := by
  induction K with
  | nil => rfl
  | cons x K ih => simp only [List.map_cons, List.zip_cons_cons, ih]

theorem zip_projections_triples {α β γ : Type} (L : List (α × β × γ)) :
    (L.map (fun r => r.1)).zip (L.map (fun r => r.2.1)) = L.map (fun r => (r.1, r.2.1)) := by
  induction L with
  | nil => rfl
  | cons x L ih => simp only [List.map_cons, List.zip_cons_cons, ih]

theorem records_of_pool_view (e : EntityData) (K : List (Vector2 × AnimationData))
    (h : pool_view e K) : e.records = K ∧ e.consistent := by
  obtain ⟨h1, h2⟩ := h
  unfold EntityData.records EntityData.consistent
  rw [h1, h2]
  exact ⟨zip_projections_pairs K, by simp⟩

theorem records_of_enemies_view (st : GameState) (t : EnemyType)
    (L : List (Vector2 × AnimationData × Vector2)) (h : enemies_view st t L) :
    (st.enemies.get t).records = L.map (fun r => (r.1, r.2.1)) ∧ slots_synchronised st t := by
  obtain ⟨h1, h2, h3⟩ := h
  unfold EntityData.records slots_synchronised
  rw [h1, h2, h3]
  exact ⟨zip_projections_triples L, by simp, by simp⟩
theorem enemies_view_congr (st st' : GameState) (t : EnemyType)
    (L : List (Vector2 × AnimationData × Vector2))
    (h1 : st'.enemies.get t = st.enemies.get t) (h2 : st'.enemy_slots.get t = st.enemy_slots.get t)
    (hv : enemies_view st t L) : enemies_view st' t L := by
  unfold enemies_view at *
  rw [h1, h2]
  exact hv

theorem records_perm_of_view (gs : GameSettings) (box : Vector4) (st st' : GameState)
    (t : EnemyType) (L L' : List (Vector2 × AnimationData × Vector2))
    (hv : enemies_view st t L) (hv' : enemies_view st' t L')
    (hp : L'.Perm (L.filter (fun x => !lazer_hits gs box x.1) ++ [])) :
    slots_synchronised st' t ∧
      (st'.enemies.get t).records.Perm
        ((st.enemies.get t).records.filter (fun r => !lazer_hits gs box r.1)) := by
  obtain ⟨hr', hs'⟩ := records_of_enemies_view st' t L' hv'
  obtain ⟨hr, -⟩ := records_of_enemies_view st t L hv
  refine ⟨hs', ?_⟩
  rw [hr', hr, List.filter_map]
  rw [List.append_nil] at hp
  exact hp.map _

theorem countP_of_view (gs : GameSettings) (box : Vector4) (st : GameState) (t : EnemyType)
    (L : List (Vector2 × AnimationData × Vector2)) (hv : enemies_view st t L) :
    L.countP (fun x => lazer_hits gs box x.1)
      = (st.enemies.get t).positions.countP (lazer_hits gs box) := by
  rw [hv.1, List.countP_map]
  rfl

/-- C3: for a state with the lazer active, consistent pools, a non-empty pickup
deck (kept so by `shuffle`), a positive streak requirement and fewer than
`2 ^ 32` overlapping enemies, the lazer pass returns; the records (position and
animation) left in each archetype pool and in the kamikaze pool are, up to
order, exactly those whose box did not overlap the lazer box, so every
overlapping enemy is removed exactly once and no other, the pools stay
consistent, and `kill_count` is the number of overlapping enemies. -/
theorem lazer_pass_removes_exactly_overlapping (gs : GameSettings) (R : Rng) (time : ℚ)
    (st : GameState) (size : Vector2)
    (hactive : st.is_lazer_active = true)
    (hsize : lazer_sprite_size gs st = .ok size)
    (hcons : pools_consistent st)
    (hdeck : st.pickup_deck ≠ [])
    (hsh : ∀ n l, (R.shuffle_pickups n l).length = l.length)
    (hreq : 0 < gs.lazer_streak_requirement) (hreq2 : gs.lazer_streak_requirement < 2 ^ 31)
    (hkills : lazer_kills gs (lazer_aabb st size) st < 2 ^ 32) :
    ∃ mid final,
      lazer_vs_enemies_scan gs R time st = .ok (mid, lazer_kills gs (lazer_aabb st size) st) ∧
      test_lazer_vs_enemies gs R time st = .ok final ∧
      (∀ t : EnemyType, slots_synchronised final t ∧
        (final.enemies.get t).records.Perm
          ((st.enemies.get t).records.filter
            (fun r => !lazer_hits gs (lazer_aabb st size) r.1))) ∧
      final.kamikaze_enemies.consistent ∧
      final.kamikaze_enemies.records.Perm
        (st.kamikaze_enemies.records.filter
          (fun r => !lazer_hits gs (lazer_aabb st size) r.1)) := by
  obtain ⟨hcF, hcD, hcK, hck, -⟩ := hcons
  have hvF := enemies_view_of_synchronised st .FLYING hcF
  have hvD := enemies_view_of_synchronised st .DROPPER hcD
  have hvK := enemies_view_of_synchronised st .KAMIKAZE hcK
  have hvk := pool_view_of_consistent st.kamikaze_enemies hck
  generalize hLF : (st.enemies.get .FLYING).positions.zip
    ((st.enemies.get .FLYING).animations.zip (st.enemy_slots.get .FLYING)) = LF at hvF
  generalize hLD : (st.enemies.get .DROPPER).positions.zip
    ((st.enemies.get .DROPPER).animations.zip (st.enemy_slots.get .DROPPER)) = LD at hvD
  generalize hLK : (st.enemies.get .KAMIKAZE).positions.zip
    ((st.enemies.get .KAMIKAZE).animations.zip (st.enemy_slots.get .KAMIKAZE)) = LK at hvK
  generalize hbox : lazer_aabb st size = box at *
  unfold lazer_kills at hkills ⊢
  have hcntF := countP_of_view gs box st .FLYING LF hvF
  have hcntD := countP_of_view gs box st .DROPPER LD hvD
  have hcntK := countP_of_view gs box st .KAMIKAZE LK hvK
  have hcntk : st.kamikaze_enemies.records.countP (fun x => lazer_hits gs box x.1)
      = st.kamikaze_enemies.positions.countP (lazer_hits gs box) := by
    conv_rhs => rw [hvk.1, List.countP_map]
    rfl
  -- the scan of the FLYING pool
  obtain ⟨st1, LF', hs1, hv1, hp1, hfr1, hk1, hd1, -⟩ :=
    lazer_scan_type_spec gs R time box .FLYING hsh LF [] st 0 (by simpa using hvF)
      (by simp) hdeck (by norm_num)
  rw [hcntF, Nat.zero_add, Nat.mod_eq_of_lt (by omega)] at hs1
  -- the scan of the DROPPER pool
  have hvD1 : enemies_view st1 .DROPPER (LD ++ []) := by
    rw [List.append_nil]
    exact enemies_view_congr st st1 _ LD (hfr1 _ (by decide)).1 (hfr1 _ (by decide)).2 hvD
  obtain ⟨st2, LD', hs2, hv2, hp2, hfr2, hk2, hd2, -⟩ :=
    lazer_scan_type_spec gs R time box .DROPPER hsh LD [] st1
      ((st.enemies.get .FLYING).positions.countP (lazer_hits gs box)) hvD1
      (by simp) hd1 (by omega)
  rw [hcntD, Nat.mod_eq_of_lt (by omega)] at hs2
  -- the scan of the KAMIKAZE pool
  have hvK2 : enemies_view st2 .KAMIKAZE (LK ++ []) := by
    rw [List.append_nil]
    exact enemies_view_congr st st2 _ LK
      ((hfr2 _ (by decide)).1.trans (hfr1 _ (by decide)).1)
      ((hfr2 _ (by decide)).2.trans (hfr1 _ (by decide)).2) hvK
  obtain ⟨st3, LK', hs3, hv3, hp3, hfr3, hk3, hd3, -⟩ :=
    lazer_scan_type_spec gs R time box .KAMIKAZE hsh LK [] st2
      ((st.enemies.get .FLYING).positions.countP (lazer_hits gs box)
        + (st.enemies.get .DROPPER).positions.countP (lazer_hits gs box)) hvK2
      (by simp) hd2 (by omega)
  rw [hcntK, Nat.mod_eq_of_lt (by omega)] at hs3
  -- the scan of the kamikaze pool
  have hvk3 : pool_view st3.kamikaze_enemies (st.kamikaze_enemies.records ++ []) := by
    rw [List.append_nil, hk3, hk2, hk1]
    exact hvk
  obtain ⟨st4, K', hs4, hv4, hp4, he4, hsl4⟩ :=
    lazer_scan_kamikaze_spec gs time box st.kamikaze_enemies.records [] st3
      ((st.enemies.get .FLYING).positions.countP (lazer_hits gs box)
        + (st.enemies.get .DROPPER).positions.countP (lazer_hits gs box)
        + (st.enemies.get .KAMIKAZE).positions.countP (lazer_hits gs box)) hvk3
      (by simp) (by omega)
  rw [hcntk, Nat.mod_eq_of_lt hkills] at hs4
  have hnF : (st.enemies.get .FLYING).positions.length = LF.length := by
    rw [hvF.1, List.length_map]
  have hnD : (st1.enemies.get .DROPPER).positions.length = LD.length := by
    rw [hvD1.1, List.length_map, List.append_nil]
  have hnK : (st2.enemies.get .KAMIKAZE).positions.length = LK.length := by
    rw [hvK2.1, List.length_map, List.append_nil]
  have hnk : st3.kamikaze_enemies.positions.length = st.kamikaze_enemies.records.length := by
    rw [hvk3.1, List.length_map, List.append_nil]
  have hscan : lazer_vs_enemies_scan gs R time st = .ok (st4,
      (st.enemies.get .FLYING).positions.countP (lazer_hits gs box)
        + (st.enemies.get .DROPPER).positions.countP (lazer_hits gs box)
        + (st.enemies.get .KAMIKAZE).positions.countP (lazer_hits gs box)
        + st.kamikaze_enemies.positions.countP (lazer_hits gs box)) := by
    simp only [lazer_vs_enemies_scan, hsize, ok_bind, hbox, hnF, hs1, hnD, hs2, hnK, hs3, hnk]
    exact hs4
  obtain ⟨score, hadd⟩ := add_score_ok gs st4
    ((st.enemies.get .FLYING).positions.countP (lazer_hits gs box)
      + (st.enemies.get .DROPPER).positions.countP (lazer_hits gs box)
      + (st.enemies.get .KAMIKAZE).positions.countP (lazer_hits gs box)
      + st.kamikaze_enemies.positions.countP (lazer_hits gs box))
    (by rw [to_u32_of_range _ (by omega) (by omega)]; omega)
  refine ⟨st4, { st4 with player_score := score }, hscan, ?_, ?_, ?_, ?_⟩
  · simp only [test_lazer_vs_enemies, hactive, if_true, hscan, ok_bind]
    exact hadd
  · intro t
    cases t
    · exact records_perm_of_view gs box st _ _ LF LF' hvF
        (enemies_view_congr st1 _ _ LF'
          (show st4.enemies.get .FLYING = _ by
            rw [he4, (hfr3 _ (by decide)).1, (hfr2 _ (by decide)).1])
          (show st4.enemy_slots.get .FLYING = _ by
            rw [hsl4, (hfr3 _ (by decide)).2, (hfr2 _ (by decide)).2]) hv1) hp1
    · exact records_perm_of_view gs box st _ _ LD LD' hvD
        (enemies_view_congr st2 _ _ LD'
          (show st4.enemies.get .DROPPER = _ by rw [he4, (hfr3 _ (by decide)).1])
          (show st4.enemy_slots.get .DROPPER = _ by rw [hsl4, (hfr3 _ (by decide)).2]) hv2) hp2
    · exact records_perm_of_view gs box st _ _ LK LK' hvK
        (enemies_view_congr st3 _ _ LK'
          (show st4.enemies.get .KAMIKAZE = _ by rw [he4])
          (show st4.enemy_slots.get .KAMIKAZE = _ by rw [hsl4]) hv3) hp3
  · exact (records_of_pool_view _ K' hv4).2
  · show st4.kamikaze_enemies.records.Perm _
    rw [(records_of_pool_view _ K' hv4).1]
    simpa using hp4

theorem lazer_pass_removes_exactly_overlapping_witness :
    ∃ mid final,
      lazer_vs_enemies_scan demo_settings demo_rng 0 lazer_over_grid
        = .ok (mid, lazer_kills demo_settings (lazer_aabb lazer_over_grid ⟨8, 16⟩) lazer_over_grid) ∧
      test_lazer_vs_enemies demo_settings demo_rng 0 lazer_over_grid = .ok final ∧
      (∀ t : EnemyType, slots_synchronised final t ∧
        (final.enemies.get t).records.Perm
          ((lazer_over_grid.enemies.get t).records.filter
            (fun r => !lazer_hits demo_settings (lazer_aabb lazer_over_grid ⟨8, 16⟩) r.1))) ∧
      final.kamikaze_enemies.consistent ∧
      final.kamikaze_enemies.records.Perm
        (lazer_over_grid.kamikaze_enemies.records.filter
          (fun r => !lazer_hits demo_settings (lazer_aabb lazer_over_grid ⟨8, 16⟩) r.1)) :=
  lazer_pass_removes_exactly_overlapping demo_settings demo_rng 0 lazer_over_grid ⟨8, 16⟩
    rfl (by decide!) (by decide!) (by decide) (fun _ _ => rfl) (by decide) (by decide)
    (by decide!)

theorem remove_swap_index_spec {α : Type} (l : List α) (i : Nat) (h : i < l.length) :
    ∃ v r, remove_swap l i = .ok (v, r) ∧ l[i]? = some v ∧ (v :: r).Perm l ∧
      (∀ j, j < i → r[j]? = l[j]?) ∧ r.length + 1 = l.length := by
  rcases split_at_index l i h with ⟨l1, a, rfl, rfl⟩ | ⟨l1, x, l2, a, rfl, rfl⟩
  · refine ⟨a, l1, remove_swap_last l1 a, by simp, ?_, ?_, by simp⟩
    · exact (List.perm_append_singleton a l1).symm
    · intro j hj
      rw [List.getElem?_append_left hj]
  · refine ⟨x, l1 ++ a :: l2, remove_swap_mid l1 l2 x a, ?_, ?_, ?_, by simp; omega⟩
    · rw [List.getElem?_append_right (le_refl _)]; simp
    · have h1 : (x :: (l1 ++ a :: l2)).Perm (l1 ++ x :: a :: l2) := by
        exact (List.perm_middle).symm
      have h2 : (a :: l2).Perm (l2 ++ [a]) := (List.perm_append_singleton a l2).symm
      exact h1.trans (List.Perm.append_left l1 (List.Perm.cons x h2))
    · intro j hj
      rw [List.getElem?_append_left hj, List.getElem?_append_left hj]

theorem entity_remove_index_spec (e : EntityData) (i : Nat) (hc : e.consistent)
    (hi : i < e.positions.length) :
    ∃ p a e', entity_remove e i = .ok e' ∧ e.positions[i]? = some p ∧
      e.animations[i]? = some a ∧ (∀ q, q ∈ e'.positions → q ∈ e.positions) ∧
      (∀ j, j < i → e'.positions[j]? = e.positions[j]?) ∧ e'.consistent ∧
      e'.positions.length + 1 = e.positions.length := by
  obtain ⟨p, ps, h1, hp, hperm, hlow, hlen⟩ := remove_swap_index_spec e.positions i hi
  obtain ⟨a, as, h2, ha, -, -, hlen2⟩ := remove_swap_index_spec e.animations i (hc ▸ hi)
  refine ⟨p, a, ⟨ps, as⟩, ?_, hp, ha, ?_, hlow, ?_, hlen⟩
  · simp only [entity_remove, h1, h2, ok_bind, pure_eq_ok]
  · intro q hq
    exact hperm.subset (List.mem_cons_of_mem _ hq)
  · unfold EntityData.consistent at *
    show ps.length = as.length
    omega

theorem remove_enemy_eq (st : GameState) (t : EnemyType) (i : Nat) (time : ℚ) (p : Vector2)
    (e' : EntityData) (slot : Vector2) (slots' : List Vector2)
    (h1 : (st.enemies.get t).positions[i]? = some p)
    (h2 : entity_remove (st.enemies.get t) i = .ok e')
    (h3 : remove_swap (st.enemy_slots.get t) i = .ok (slot, slots')) :
    remove_enemy st t i time = .ok { st with
      enemies := st.enemies.set t e'
      enemy_slots := st.enemy_slots.set t slots'
      enemy_time_since_last_rearrangement :=
        (if st.empty_slots.length = 0 then 0 else st.enemy_time_since_last_rearrangement)
      empty_slots := st.empty_slots ++ [slot]
      explosions := entity_add st.explosions p enemy_explosion_animation_index time
      time_since_screen_shake_start := 0 } := by
  have hr : DynamicArray.read (st.enemies.get t).positions i = .ok p := by
    unfold DynamicArray.read
    rw [h1]
  simp only [remove_enemy, hr, h2, h3, ok_bind, pure_eq_ok, spawn_explosion, append]
  split <;> rfl

theorem bullet_scan_type_no_hit (gs : GameSettings) (R : Rng) (time : ℚ) (bi : Nat)
    (box : Vector4) (t : EnemyType) (st : GameState) (kc : Nat)
    (hno : ∀ q, q ∈ (st.enemies.get t).positions → test_aabb_vs_aabb box (enemy_aabb gs q) = false) :
    ∀ n, n ≤ (st.enemies.get t).positions.length →
      bullet_scan_type gs R time bi box t n (st, kc) = .ok (st, kc) := by
  intro n
  induction n with
  | zero => intro _; rfl
  | succ n ih =>
    intro hn
    have hlt : n < (st.enemies.get t).positions.length := by omega
    unfold bullet_scan_type
    simp only [read_of_lt _ n hlt, ok_bind, hno _ (List.getElem_mem hlt)]
    rw [if_neg (by simp)]
    exact ih (by omega)

theorem bullet_scan_kamikaze_no_hit (gs : GameSettings) (time : ℚ) (bi : Nat)
    (box : Vector4) (st : GameState) (kc : Nat)
    (hno : ∀ q, q ∈ st.kamikaze_enemies.positions →
      test_aabb_vs_aabb box (enemy_aabb gs q) = false) :
    ∀ n, n ≤ st.kamikaze_enemies.positions.length →
      bullet_scan_kamikaze gs time bi box n (st, kc) = .ok (st, kc) := by
  intro n
  induction n with
  | zero => intro _; rfl
  | succ n ih =>
    intro hn
    have hlt : n < st.kamikaze_enemies.positions.length := by omega
    unfold bullet_scan_kamikaze
    simp only [read_of_lt _ n hlt, ok_bind, hno _ (List.getElem_mem hlt)]
    rw [if_neg (by simp)]
    exact ih (by omega)

theorem bullet_scan_type_first_hit (gs : GameSettings) (R : Rng) (time : ℚ) (bi : Nat)
    (box : Vector4) (t : EnemyType) (st st1 : GameState) (kc ej : Nat) (q : Vector2)
    (hq : (st.enemies.get t).positions[ej]? = some q)
    (hhit : test_aabb_vs_aabb box (enemy_aabb gs q) = true)
    (hno : ∀ e q', ej < e → (st.enemies.get t).positions[e]? = some q' →
      test_aabb_vs_aabb box (enemy_aabb gs q') = false)
    (hst1 : bullet_hit_enemy gs R time bi t ej q st = .ok st1) :
    ∀ n, ej < n → n ≤ (st.enemies.get t).positions.length →
      bullet_scan_type gs R time bi box t n (st, kc) = .ok (st1, (kc + 1) % 2 ^ 32) := by
  intro n
  induction n with
  | zero => intro h; omega
  | succ n ih =>
    intro hlt hn
    have hlen : n < (st.enemies.get t).positions.length := by omega
    unfold bullet_scan_type
    by_cases hne : n = ej
    · subst hne
      have hr : DynamicArray.read (st.enemies.get t).positions n = .ok q := by
        unfold DynamicArray.read
        rw [hq]
      simp only [hr, ok_bind, hhit, if_true, hst1]
    · have hf := hno n _ (by omega) (List.getElem?_eq_getElem hlen)
      simp only [read_of_lt _ n hlen, ok_bind, hf]
      rw [if_neg (by simp)]
      exact ih (by omega) (by omega)
theorem bullet_hit_dropper_spec (gs : GameSettings) (R : Rng) (time : ℚ) (bi ej : Nat)
    (q : Vector2) (st : GameState) (bullets' dropper' : EntityData) (slot : Vector2)
    (slots' : List Vector2)
    (hba : bi < st.player_bullets.animations.length)
    (hb : entity_remove st.player_bullets bi = .ok bullets')
    (hq : (st.enemies.get .DROPPER).positions[ej]? = some q)
    (he : entity_remove (st.enemies.get .DROPPER) ej = .ok dropper')
    (hs : remove_swap (st.enemy_slots.get .DROPPER) ej = .ok (slot, slots'))
    (hdeck : st.pickup_deck ≠ [])
    (hsh : ∀ n l, (R.shuffle_pickups n l).length = l.length) :
    ∃ st1 card, bullet_hit_enemy gs R time bi .DROPPER ej q st = .ok st1 ∧
      st1.player_bullets = bullets' ∧
      st1.enemies = st.enemies.set .DROPPER dropper' ∧
      st1.enemy_slots = st.enemy_slots.set .DROPPER slots' ∧
      st1.empty_slots = st.empty_slots ++ [slot] ∧
      st1.pickups = entity_add st.pickups q (PickupType.toNat card) time ∧
      st1.explosions = entity_add st.explosions q enemy_explosion_animation_index time ∧
      st1.kamikaze_enemies = st.kamikaze_enemies ∧
      st1.player_kill_streak = st.player_kill_streak + 1 ∧
      st1.player_lives = st.player_lives ∧ st1.player_score = st.player_score := by
  unfold bullet_hit_enemy
  simp only [read_of_lt _ bi hba, ok_bind]
  by_cases hps : st.player_bullets.animations[bi].animation_index = BulletType_POWER_SHOT
  · have h := remove_enemy_eq { st with
        power_shot_explosions := (entity_add st.power_shot_explosions q
          power_shot_explosion_animation_index time)
        player_kill_streak := st.player_kill_streak + 1
        player_bullets := bullets' } .DROPPER ej time q dropper' slot slots' hq he hs
    simp only [if_pos hps, hb, ok_bind]
    rw [h]
    simp only [ok_bind, if_true]
    obtain ⟨card, deck, index, rng, hsp, -⟩ := spawn_pickup_spec R { st with
        power_shot_explosions := (entity_add st.power_shot_explosions q
          power_shot_explosion_animation_index time)
        player_kill_streak := st.player_kill_streak + 1
        player_bullets := bullets'
        enemies := st.enemies.set .DROPPER dropper'
        enemy_slots := st.enemy_slots.set .DROPPER slots'
        enemy_time_since_last_rearrangement :=
          (if st.empty_slots.length = 0 then 0 else st.enemy_time_since_last_rearrangement)
        empty_slots := st.empty_slots ++ [slot]
        explosions := entity_add st.explosions q enemy_explosion_animation_index time
        time_since_screen_shake_start := 0 } q time hdeck hsh
    exact ⟨_, card, hsp, rfl, rfl, rfl, rfl, rfl, rfl, rfl, rfl, rfl, rfl⟩
  · have h := remove_enemy_eq { st with
        player_kill_streak := st.player_kill_streak + 1
        player_bullets := bullets' } .DROPPER ej time q dropper' slot slots' hq he hs
    simp only [if_neg hps, hb, ok_bind]
    rw [h]
    simp only [ok_bind, if_true]
    obtain ⟨card, deck, index, rng, hsp, -⟩ := spawn_pickup_spec R { st with
        player_kill_streak := st.player_kill_streak + 1
        player_bullets := bullets'
        enemies := st.enemies.set .DROPPER dropper'
        enemy_slots := st.enemy_slots.set .DROPPER slots'
        enemy_time_since_last_rearrangement :=
          (if st.empty_slots.length = 0 then 0 else st.enemy_time_since_last_rearrangement)
        empty_slots := st.empty_slots ++ [slot]
        explosions := entity_add st.explosions q enemy_explosion_animation_index time
        time_since_screen_shake_start := 0 } q time hdeck hsh
    exact ⟨_, card, hsp, rfl, rfl, rfl, rfl, rfl, rfl, rfl, rfl, rfl, rfl⟩
theorem bullet_vs_all_enemies_no_hit (gs : GameSettings) (R : Rng) (time : ℚ) (b : Nat)
    (st : GameState) (kc : Nat) (p : Vector2)
    (hp : st.player_bullets.positions[b]? = some p)
    (hno : ∀ t q, q ∈ (st.enemies.get t).positions → bullet_hits gs p q = false)
    (hnok : ∀ q, q ∈ st.kamikaze_enemies.positions → bullet_hits gs p q = false) :
    bullet_vs_all_enemies gs R time b (st, kc) = .ok (st, kc) := by
  have hr : DynamicArray.read st.player_bullets.positions b = .ok p := by
    unfold DynamicArray.read
    rw [hp]
  unfold bullet_vs_all_enemies
  simp only [hr, ok_bind]
  rw [bullet_scan_type_no_hit gs R time b _ .FLYING st kc (hno .FLYING) _ (le_refl _)]
  simp only [ok_bind]
  rw [bullet_scan_type_no_hit gs R time b _ .DROPPER st kc (hno .DROPPER) _ (le_refl _)]
  simp only [ok_bind]
  rw [bullet_scan_type_no_hit gs R time b _ .KAMIKAZE st kc (hno .KAMIKAZE) _ (le_refl _)]
  simp only [ok_bind]
  exact bullet_scan_kamikaze_no_hit gs time b _ st kc hnok _ (le_refl _)

theorem bullets_loop_skip (gs : GameSettings) (R : Rng) (time : ℚ) (st : GameState) (kc m : Nat) :
    ∀ n, m ≤ n → n ≤ st.player_bullets.positions.length →
      (∀ b p, m ≤ b → b < n → st.player_bullets.positions[b]? = some p →
        (∀ t q, q ∈ (st.enemies.get t).positions → bullet_hits gs p q = false) ∧
        (∀ q, q ∈ st.kamikaze_enemies.positions → bullet_hits gs p q = false)) →
      bullets_loop gs R time n (st, kc) = bullets_loop gs R time m (st, kc) := by
  intro n
  induction n with
  | zero =>
    intro hm _ _
    have : m = 0 := by omega
    rw [this]
  | succ n ih =>
    intro hm hn hno
    by_cases hmn : m = n + 1
    · rw [hmn]
    · have hlt : n < st.player_bullets.positions.length := by omega
      have h := hno n _ (by omega) (by omega) (List.getElem?_eq_getElem hlt)
      conv_lhs => unfold bullets_loop
      rw [bullet_vs_all_enemies_no_hit gs R time n st kc _ (List.getElem?_eq_getElem hlt) h.1 h.2]
      simp only [ok_bind]
      exact ih (by omega) (by omega) (fun b p h1 h2 h3 => hno b p h1 (by omega) h3)

theorem kill_price_at_tier_zero (gs : GameSettings) (lives : ℤ)
    (hlives : 2 ≤ lives) (hmulti : 1 < gs.min_kills_for_multi_kill)
    (hmax : 0 ≤ gs.max_kill_streak_multipliers) :
    kill_price_spec gs lives 1 (0 + (0 : Nat)) = gs.points_per_kill := by
  have ht : streak_tier_spec gs (0 + (0 : Nat)) = 0 := by
    unfold streak_tier_spec
    simp [hmax]
  unfold kill_price_spec
  rw [ht, if_neg (by omega), if_neg (by omega)]
  simp

theorem add_score_single_kill (gs : GameSettings) (st : GameState)
    (hlives : 2 ≤ st.player_lives) (hstreak : st.player_kill_streak = 1)
    (hmulti : 1 < gs.min_kills_for_multi_kill)
    (hreq : 0 < gs.lazer_streak_requirement) (hreq2 : gs.lazer_streak_requirement < 2 ^ 31)
    (hmax : 0 ≤ gs.max_kill_streak_multipliers)
    (hscore : st.player_score + gs.points_per_kill ≤ 2 ^ 24) :
    add_score gs st 1 = .ok { st with player_score := st.player_score + gs.points_per_kill } := by
  have hne : ¬ st.player_lives ≤ 0 := by omega
  have hprice := kill_price_at_tier_zero gs st.player_lives hlives hmulti hmax
  have hfloor : ⌊kill_price_spec gs st.player_lives 1 (0 + (0 : Nat))⌋.toNat
      = gs.points_per_kill := by
    rw [hprice]
    simp
  have hex : kill_is_exact gs st.player_lives 1 (0 + (0 : Nat)) st.player_score := by
    have ht : streak_tier_spec gs (0 + (0 : Nat)) = 0 := by
      unfold streak_tier_spec
      simp [hmax]
    have h1 : is_f32 1 := by
      have := f32_round_natCast 1 (by norm_num)
      rw [Nat.cast_one] at this
      exact this
    have h0 : is_f32 ((⌊(((0 : ℤ) + ((0 : Nat) : ℤ) : ℤ) : ℚ)
        / (gs.lazer_streak_requirement : ℚ)⌋ : ℤ) : ℚ) := by
      have e : ⌊(((0 : ℤ) + ((0 : Nat) : ℤ) : ℤ) : ℚ) / (gs.lazer_streak_requirement : ℚ)⌋ = 0 := by
        simp
      rw [e, Int.cast_zero]
      exact f32_round_zero
    have hm : ¬ 1 ≥ gs.min_kills_for_multi_kill := by omega
    have hl : ¬ st.player_lives = 1 := by omega
    unfold kill_is_exact
    simp only [ht, zpow_zero, if_neg hm, if_neg hl, mul_one, one_mul]
    refine ⟨h0, h1, h1, h1, f32_round_natCast _ (by omega), f32_round_natCast _ (by omega),
      f32_round_natCast _ (by omega), ?_⟩
    have := f32_round_natCast (st.player_score + gs.points_per_kill) hscore
    rw [Nat.cast_add] at this
    exact this
  have h232 : (2 : Nat) ^ 24 < 2 ^ 32 := by norm_num
  have hk := add_score_kill_eq gs 1 0 0 st hreq hreq2 (le_refl _) (by norm_num)
    (by rw [hprice]; exact Nat.cast_nonneg _) (by rw [hfloor]; omega) hex
  rw [hfloor] at hk
  have hs : to_s32 (st.player_kill_streak - ((1 : Nat) : ℤ)) = 0 := by
    rw [hstreak]
    decide
  simp only [add_score, if_neg hne, hs, add_score_loop, hk, ok_bind]
/-- C4 (as stated, refuted): in `rich_bullet_under_dropper`, where one bullet
overlaps one DROPPER enemy and the score is 16777217, the bullet pass with
`points_per_kill = 10` leaves the score at 16777226: the sum is an `f32` sum, and
16777217 is not an `f32`.  In `bullet_under_dropper` with the same tuning values
but `max_kill_streak_multipliers = -1` the tier of the kill is `-1`, not 0, and
the pass adds 5 to the score; with `lazer_streak_requirement = 0` the tier
quotient of `add_score` is a division by zero. -/
theorem bullet_hit_score_rounds :
    rich_bullet_under_dropper.player_lives = 3 ∧
    rich_bullet_under_dropper.player_kill_streak = 0 ∧
    rich_bullet_under_dropper.player_score = 16777217 ∧
    demo_settings.points_per_kill = 10 ∧
    (test_player_bullets_vs_enemies demo_settings demo_rng 0 rich_bullet_under_dropper).map
      (fun s => (s.player_score, s.player_kill_streak,
        (s.enemies.get .DROPPER).positions.length, s.player_bullets.positions.length))
        = .ok (16777226, 1, 1, 1) ∧
    bullet_under_dropper.player_score = 0 ∧
    negative_tier_settings.points_per_kill = 10 ∧
    negative_tier_settings.max_kill_streak_multipliers = -1 ∧
    (test_player_bullets_vs_enemies negative_tier_settings demo_rng 0 bullet_under_dropper).map
      (fun s => (s.player_score, s.player_kill_streak,
        (s.enemies.get .DROPPER).positions.length, s.player_bullets.positions.length))
        = .ok (5, 1, 1, 1) ∧
    zero_requirement_settings.lazer_streak_requirement = 0 ∧
    (test_player_bullets_vs_enemies zero_requirement_settings demo_rng 0
      bullet_under_dropper).map (fun s => s.player_score) = .error .division_by_zero := by
  decide!

/-- C4 (amended): end-to-end bullet hit.  In a state with consistent pools, a
living player with at least two lives (no low-health bonus), kill streak 0, a
multi-kill minimum above 1, a non-negative `max_kill_streak_multipliers`, and a
score for which `score + points_per_kill` is at most `2 ^ 24` (the range in
which every whole number is an `f32`), in which the bullet `bi` overlaps the
DROPPER enemy `ej` and no other bullet and enemy overlap, the bullet pass
swap-removes that enemy and its slot from the DROPPER pool, appends the slot to
the empty slots, spawns one pickup at the enemy's position, swap-removes that
bullet, adds exactly `points_per_kill` to the score, and leaves the FLYING pool,
the KAMIKAZE pool and the kamikaze enemies unchanged. -/
theorem bullet_hit_on_dropper (gs : GameSettings) (R : Rng) (time : ℚ) (st : GameState)
    (bi ej : Nat) (pb q : Vector2)
    (hlives : 2 ≤ st.player_lives) (hstreak : st.player_kill_streak = 0)
    (hmulti : 1 < gs.min_kills_for_multi_kill)
    (hreq : 0 < gs.lazer_streak_requirement) (hreq2 : gs.lazer_streak_requirement < 2 ^ 31)
    (hmax : 0 ≤ gs.max_kill_streak_multipliers)
    (hscore : st.player_score + gs.points_per_kill ≤ 2 ^ 24)
    (hcons : pools_consistent st) (hdeck : st.pickup_deck ≠ [])
    (hsh : ∀ n l, (R.shuffle_pickups n l).length = l.length)
    (hpb : st.player_bullets.positions[bi]? = some pb)
    (hq : (st.enemies.get .DROPPER).positions[ej]? = some q)
    (hhit : bullet_hits gs pb q = true)
    (hunique : ∀ b p t e q', st.player_bullets.positions[b]? = some p →
      (st.enemies.get t).positions[e]? = some q' → bullet_hits gs p q' = true →
      b = bi ∧ t = .DROPPER ∧ e = ej)
    (hkam : ∀ p q', p ∈ st.player_bullets.positions → q' ∈ st.kamikaze_enemies.positions →
      bullet_hits gs p q' = false) :
    ∃ final slot card,
      test_player_bullets_vs_enemies gs R time st = .ok final ∧
      entity_remove (st.enemies.get .DROPPER) ej = .ok (final.enemies.get .DROPPER) ∧
      remove_swap (st.enemy_slots.get .DROPPER) ej = .ok (slot, final.enemy_slots.get .DROPPER) ∧
      final.empty_slots = st.empty_slots ++ [slot] ∧
      final.pickups = entity_add st.pickups q (PickupType.toNat card) time ∧
      entity_remove st.player_bullets bi = .ok final.player_bullets ∧
      final.player_score = st.player_score + gs.points_per_kill ∧
      final.player_kill_streak = 1 ∧
      final.enemies.get .FLYING = st.enemies.get .FLYING ∧
      final.enemy_slots.get .FLYING = st.enemy_slots.get .FLYING ∧
      final.enemies.get .KAMIKAZE = st.enemies.get .KAMIKAZE ∧
      final.enemy_slots.get .KAMIKAZE = st.enemy_slots.get .KAMIKAZE ∧
      final.kamikaze_enemies = st.kamikaze_enemies := by
  obtain ⟨-, hcD, -, -, hcb, -⟩ := hcons
  have hbi : bi < st.player_bullets.positions.length := (List.getElem?_eq_some.mp hpb).1
  have hej : ej < (st.enemies.get .DROPPER).positions.length := (List.getElem?_eq_some.mp hq).1
  -- no bullet other than `bi` overlaps anything
  have hother : ∀ b p, b ≠ bi → st.player_bullets.positions[b]? = some p →
      (∀ t q', q' ∈ (st.enemies.get t).positions → bullet_hits gs p q' = false) ∧
      (∀ q', q' ∈ st.kamikaze_enemies.positions → bullet_hits gs p q' = false) := by
    intro b p hne hp
    refine ⟨fun t q' hq' => ?_, fun q' hq' => hkam p q' (List.getElem?_mem hp) hq'⟩
    obtain ⟨e, he⟩ := List.getElem?_of_mem hq'
    by_contra hcon
    exact hne (hunique b p t e q' hp he (by simpa using hcon)).1
  -- the removals
  obtain ⟨-, -, bullets', hrb, -, -, -, hblow, -, -⟩ :=
    entity_remove_index_spec st.player_bullets bi hcb hbi
  obtain ⟨-, -, dropper', hre, -, -, hdsub, -, -, -⟩ :=
    entity_remove_index_spec (st.enemies.get .DROPPER) ej (hcD.1.symm.trans hcD.2) hej
  obtain ⟨slot, slots', hrs, -⟩ :=
    remove_swap_index_spec (st.enemy_slots.get .DROPPER) ej (hcD.1 ▸ hej)
  obtain ⟨st1, card, hhit1, h1b, h1e, h1s, h1es, h1p, -, h1k, h1ks, h1l, h1sc⟩ :=
    bullet_hit_dropper_spec gs R time bi ej q st bullets' dropper' slot slots'
      (hcb ▸ hbi) hrb hq hre hrs hdeck hsh
  -- the iterations above `bi`
  have hA := bullets_loop_skip gs R time st 0 (bi + 1) st.player_bullets.positions.length
    (by omega) (le_refl _) (fun b p h1 _ hp => hother b p (by omega) hp)
  -- the iteration `bi`
  have hB : bullet_vs_all_enemies gs R time bi (st, 0) = .ok (st1, 1) := by
    have hr : DynamicArray.read st.player_bullets.positions bi = .ok pb := by
      unfold DynamicArray.read
      rw [hpb]
    have hnoF : ∀ q', q' ∈ (st.enemies.get .FLYING).positions →
        test_aabb_vs_aabb (bullet_aabb gs pb) (enemy_aabb gs q') = false := by
      intro q' hq'
      obtain ⟨e, he⟩ := List.getElem?_of_mem hq'
      by_contra hcon
      have := (hunique bi pb .FLYING e q' hpb he (by simpa [bullet_hits] using hcon)).2.1
      exact absurd this (by decide)
    have hnoK : ∀ q', q' ∈ (st1.enemies.get .KAMIKAZE).positions →
        test_aabb_vs_aabb (bullet_aabb gs pb) (enemy_aabb gs q') = false := by
      intro q' hq'
      rw [h1e, PerType.get_set_ne _ _ _ _ (by decide)] at hq'
      obtain ⟨e, he⟩ := List.getElem?_of_mem hq'
      by_contra hcon
      have := (hunique bi pb .KAMIKAZE e q' hpb he (by simpa [bullet_hits] using hcon)).2.1
      exact absurd this (by decide)
    have hnoD : ∀ e q', ej < e → (st.enemies.get .DROPPER).positions[e]? = some q' →
        test_aabb_vs_aabb (bullet_aabb gs pb) (enemy_aabb gs q') = false := by
      intro e q' hlt he
      by_contra hcon
      have := (hunique bi pb .DROPPER e q' hpb he (by simpa [bullet_hits] using hcon)).2.2
      omega
    unfold bullet_vs_all_enemies
    simp only [hr, ok_bind]
    rw [bullet_scan_type_no_hit gs R time bi _ .FLYING st 0 hnoF _ (le_refl _)]
    simp only [ok_bind]
    rw [bullet_scan_type_first_hit gs R time bi _ .DROPPER st st1 0 ej q hq hhit hnoD hhit1 _
      hej (le_refl _)]
    simp only [ok_bind]
    rw [bullet_scan_type_no_hit gs R time bi _ .KAMIKAZE st1 _ hnoK _ (le_refl _)]
    simp only [ok_bind]
    exact bullet_scan_kamikaze_no_hit gs time bi _ st1 _
      (fun q' hq' => hkam pb q' (List.getElem?_mem hpb) (h1k ▸ hq')) _ (le_refl _)
  -- the iterations below `bi`
  have hC := bullets_loop_skip gs R time st1 1 0 bi (Nat.zero_le _)
    (by
      obtain ⟨-, -, e', he', -, -, -, -, -, hlen⟩ :=
        entity_remove_index_spec st.player_bullets bi hcb hbi
      rw [hrb] at he'
      cases he'
      rw [h1b]
      omega)
    (by
      intro b p _ hlt hp
      rw [h1b, hblow b hlt] at hp
      obtain ⟨hen, hkm⟩ := hother b p (by omega) hp
      refine ⟨fun t q' hq' => ?_, fun q' hq' => hkm q' (h1k ▸ hq')⟩
      rw [h1e] at hq'
      cases t
      · exact hen .FLYING q' (by rwa [PerType.get_set_ne _ _ _ _ (by decide)] at hq')
      · exact hen .DROPPER q' (hdsub q' (by rwa [PerType.get_set_same] at hq'))
      · exact hen .KAMIKAZE q' (by rwa [PerType.get_set_ne _ _ _ _ (by decide)] at hq'))
  have hscan : player_bullets_vs_enemies_scan gs R time st = .ok (st1, 1) := by
    unfold player_bullets_vs_enemies_scan
    rw [hA]
    conv_lhs => unfold bullets_loop
    rw [hB]
    simp only [ok_bind]
    rw [hC]
    rfl
  have hadd := add_score_single_kill gs st1 (h1l ▸ hlives) (by rw [h1ks, hstreak]; rfl) hmulti
    hreq hreq2 hmax (h1sc ▸ hscore)
  refine ⟨{ st1 with player_score := st1.player_score + gs.points_per_kill }, slot, card,
    ?_, ?_, ?_, h1es, h1p, ?_, ?_, ?_, ?_, ?_, ?_, ?_, h1k⟩
  · simp only [test_player_bullets_vs_enemies, hscan, ok_bind]
    exact hadd
  · show entity_remove _ ej = .ok (st1.enemies.get .DROPPER)
    rw [h1e, PerType.get_set_same]
    exact hre
  · show remove_swap _ ej = .ok (slot, st1.enemy_slots.get .DROPPER)
    rw [h1s, PerType.get_set_same]
    exact hrs
  · show entity_remove _ bi = .ok st1.player_bullets
    rw [h1b]
    exact hrb
  · show st1.player_score + gs.points_per_kill = _
    rw [h1sc]
  · show st1.player_kill_streak = 1
    rw [h1ks, hstreak]
    rfl
  · show st1.enemies.get .FLYING = _
    rw [h1e, PerType.get_set_ne _ _ _ _ (by decide)]
  · show st1.enemy_slots.get .FLYING = _
    rw [h1s, PerType.get_set_ne _ _ _ _ (by decide)]
  · show st1.enemies.get .KAMIKAZE = _
    rw [h1e, PerType.get_set_ne _ _ _ _ (by decide)]
  · show st1.enemy_slots.get .KAMIKAZE = _
    rw [h1s, PerType.get_set_ne _ _ _ _ (by decide)]
theorem bullet_hit_on_dropper_witness :
    ∃ final slot card,
      test_player_bullets_vs_enemies demo_settings demo_rng 0 bullet_under_dropper = .ok final ∧
      entity_remove (bullet_under_dropper.enemies.get .DROPPER) 0
        = .ok (final.enemies.get .DROPPER) ∧
      remove_swap (bullet_under_dropper.enemy_slots.get .DROPPER) 0
        = .ok (slot, final.enemy_slots.get .DROPPER) ∧
      final.empty_slots = bullet_under_dropper.empty_slots ++ [slot] ∧
      final.pickups = entity_add bullet_under_dropper.pickups ⟨0, 0⟩ (PickupType.toNat card) 0 ∧
      entity_remove bullet_under_dropper.player_bullets 0 = .ok final.player_bullets ∧
      final.player_score = bullet_under_dropper.player_score + demo_settings.points_per_kill ∧
      final.player_kill_streak = 1 ∧
      final.enemies.get .FLYING = bullet_under_dropper.enemies.get .FLYING ∧
      final.enemy_slots.get .FLYING = bullet_under_dropper.enemy_slots.get .FLYING ∧
      final.enemies.get .KAMIKAZE = bullet_under_dropper.enemies.get .KAMIKAZE ∧
      final.enemy_slots.get .KAMIKAZE = bullet_under_dropper.enemy_slots.get .KAMIKAZE ∧
      final.kamikaze_enemies = bullet_under_dropper.kamikaze_enemies :=
  bullet_hit_on_dropper demo_settings demo_rng 0 bullet_under_dropper 0 0 ⟨0, 0⟩ ⟨0, 0⟩
    (by decide) rfl (by decide) (by decide) (by decide) (by decide) (by decide) (by decide!)
    (by decide) (fun _ _ => rfl) rfl rfl (by decide!)
    (by
      intro b p t e q' hp he hh
      have hb : b < 2 := (List.getElem?_eq_some.mp hp).1
      have hp' : p = ⟨0, 0⟩ ∨ p = ⟨1000, 0⟩ := by
        have := List.getElem?_mem hp
        simpa [bullet_under_dropper] using this
      cases t
      · have hq' : q' = ⟨300, 300⟩ := by
          have := List.getElem?_mem he
          simpa [bullet_under_dropper, PerType.get] using this
        subst hq'
        rcases hp' with rfl | rfl <;> exact absurd hh (by decide!)
      · have he' : e < 2 := (List.getElem?_eq_some.mp he).1
        interval_cases b <;> interval_cases e <;>
          simp [bullet_under_dropper, PerType.get] at hp he <;> subst hp <;> subst he <;>
          first
            | exact ⟨rfl, rfl, rfl⟩
            | exact absurd hh (by decide!)
      · have hq' : q' = ⟨600, 600⟩ := by
          have := List.getElem?_mem he
          simpa [bullet_under_dropper, PerType.get] using this
        subst hq'
        rcases hp' with rfl | rfl <;> exact absurd hh (by decide!))
    (by
      intro p q' hp hq'
      have hp' : p = ⟨0, 0⟩ ∨ p = ⟨1000, 0⟩ := by
        simpa [bullet_under_dropper] using hp
      have hq'' : q' = ⟨700, 700⟩ := by
        simpa [bullet_under_dropper] using hq'
      subst hq''
      rcases hp' with rfl | rfl <;> decide!)

theorem enemies_view_append (st : GameState) (t ty : EnemyType) (G : PerType (List EnemyRecord))
    (position : Vector2) (p : Vector2) (a : AnimationData) (rng : Nat)
    (hv : ∀ t, enemies_view st t (G.get t)) :
    enemies_view { st with
        enemy_slots := st.enemy_slots.set ty (append (st.enemy_slots.get ty) position)
        rng := rng
        enemies := st.enemies.set ty
          ⟨append (st.enemies.get ty).positions p, append (st.enemies.get ty).animations a⟩ }
      t ((G.set ty (G.get ty ++ [(p, a, position)])).get t) := by
  by_cases h : t = ty
  · subst h
    obtain ⟨h1, h2, h3⟩ := hv t
    refine ⟨?_, ?_, ?_⟩ <;> simp [append, h1, h2, h3]
  · obtain ⟨h1, h2, h3⟩ := hv t
    refine ⟨?_, ?_, ?_⟩ <;> simp [PerType.get_set_ne _ _ _ _ h, h1, h2, h3]

theorem init_enemies_cells_records (gs : GameSettings) (time : ℚ) (x_offset : ℚ) (y : Nat) :
    ∀ (n x : Nat) (st st' : GameState) (position position' : Vector2)
      (G : PerType (List EnemyRecord)),
      (∀ t, enemies_view st t (G.get t)) →
      init_enemies_cells gs time x_offset y n x (st, position) = .ok (st', position') →
      ∃ G', grid_records_cells gs time x_offset st.enemy_list
          st.current_stage.enemy_column_count y n x (G, position) = .ok (G', position') ∧
        (∀ t, enemies_view st' t (G'.get t)) ∧ st'.enemy_list = st.enemy_list ∧
        st'.current_stage = st.current_stage ∧ st'.game_playground = st.game_playground := by
  intro n
  induction n with
  | zero =>
    intro x st st' position position' G hv h
    simp only [init_enemies_cells, Except.ok.injEq, Prod.mk.injEq] at h
    obtain ⟨rfl, rfl⟩ := h
    exact ⟨G, rfl, hv, rfl, rfl, rfl⟩
  | succ n ih =>
    intro x st st' position position' G hv h
    unfold init_enemies_cells at h
    unfold grid_records_cells
    cases hread : DynamicArray.read st.enemy_list
        (y * st.current_stage.enemy_column_count + x) with
    | error e => simp [hread] at h
    | ok random_enemy =>
      cases hty : get_enemy_type_from_animation_index random_enemy with
      | error e => simp [hread, hty] at h
      | ok ty =>
        simp only [hread, hty, ok_bind] at h ⊢
        obtain ⟨G', hG', hv', h1, h2, h3⟩ := ih (x + 1) _ st' _ position' _
          (enemies_view_append st · ty G position
            ⟨position.x, (-1 / 2) * gs.enemy_move_speed.y + position.y⟩
            ⟨random_enemy, animation_start_instance time⟩ (st.rng + 1) hv) h
        exact ⟨G', hG', hv', h1, h2, h3⟩
theorem init_enemies_rows_records (gs : GameSettings) (time : ℚ) (x_offset x_start : ℚ) :
    ∀ (n y : Nat) (st st' : GameState) (position position' : Vector2)
      (G : PerType (List EnemyRecord)),
      (∀ t, enemies_view st t (G.get t)) →
      init_enemies_rows gs time x_offset x_start n y (st, position) = .ok (st', position') →
      ∃ G', grid_records_rows gs time x_offset x_start st.enemy_list
          st.current_stage.enemy_column_count n y (G, position) = .ok (G', position') ∧
        (∀ t, enemies_view st' t (G'.get t)) ∧ st'.enemy_list = st.enemy_list ∧
        st'.current_stage = st.current_stage ∧ st'.game_playground = st.game_playground := by
  intro n
  induction n with
  | zero =>
    intro y st st' position position' G hv h
    simp only [init_enemies_rows, Except.ok.injEq, Prod.mk.injEq] at h
    obtain ⟨rfl, rfl⟩ := h
    exact ⟨G, rfl, hv, rfl, rfl, rfl⟩
  | succ n ih =>
    intro y st st' position position' G hv h
    unfold init_enemies_rows at h
    unfold grid_records_rows
    cases hcells : init_enemies_cells gs time x_offset y st.current_stage.enemy_column_count 0
        (st, position) with
    | error e => simp [hcells] at h
    | ok acc1 =>
      obtain ⟨st1, position1⟩ := acc1
      obtain ⟨G1, hG1, hv1, h1, h2, h3⟩ :=
        init_enemies_cells_records gs time x_offset y _ 0 st st1 position position1 G hv hcells
      simp only [hcells, ok_bind] at h
      obtain ⟨G', hG', hv', h1', h2', h3'⟩ := ih (y + 1) st1 st' _ position' G1 hv1 h
      rw [h1, h2] at hG'
      simp only [hG1, ok_bind]
      exact ⟨G', hG', hv', h1'.trans h1, h2'.trans h2, h3'.trans h3⟩

theorem bind_eq_ok {α β : Type} {x : Except Fault α} {f : α → Except Fault β} {b : β}
    (h : (x >>= f) = .ok b) : ∃ a, x = .ok a ∧ f a = .ok b := by
  cases x with
  | error e => simp at h
  | ok a => exact ⟨a, rfl, h⟩

theorem fill_enemy_list_frame (R : Rng) (st : GameState) (n : Nat) :
    (fill_enemy_list R st n).enemies = st.enemies ∧
    (fill_enemy_list R st n).enemy_slots = st.enemy_slots ∧
    (fill_enemy_list R st n).current_stage = st.current_stage ∧
    (fill_enemy_list R st n).game_playground = st.game_playground :=
  ⟨rfl, rfl, rfl, rfl⟩

/-- A successful `init_enemies` on a state whose archetype pools hold no
animation gives a state whose pools are the projections of `grid_records`. -/
theorem init_enemies_records (gs : GameSettings) (R : Rng) (time : ℚ) (st st' : GameState)
    (ha : ∀ t, (st.enemies.get t).animations = [])
    (h : init_enemies gs R time st = .ok st') :
    ∃ G, grid_records gs time st' = .ok G ∧ ∀ t, enemies_view st' t (G.get t) := by
  unfold init_enemies at h
  by_cases hF : (st.enemies.get .FLYING).positions.length ≠ 0
  · simp [hF, throw, throwThe, MonadExceptOf.throw] at h
  by_cases hD : (st.enemies.get .DROPPER).positions.length ≠ 0
  · simp [hF, hD, throw, throwThe, MonadExceptOf.throw] at h
  by_cases hK : (st.enemies.get .KAMIKAZE).positions.length ≠ 0
  · simp [hF, hD, hK, throw, throwThe, MonadExceptOf.throw] at h
  push_neg at hF hD hK
  simp only [hF, hD, hK, ne_eq, not_true_eq_false, if_false, ite_false, pure_eq_ok, ok_bind] at h
  obtain ⟨acc, hrows, hfin⟩ := bind_eq_ok h
  obtain ⟨stR, posR⟩ := acc
  simp only [Except.ok.injEq] at hfin
  have hv0 : ∀ t, enemies_view (fill_enemy_list R { st with enemy_slots :=
      (((st.enemy_slots.set .FLYING (clear (st.enemy_slots.get .FLYING))).set .DROPPER
        (clear (st.enemy_slots.get .DROPPER))).set .KAMIKAZE
          (clear (st.enemy_slots.get .KAMIKAZE))) }
      ((st.current_stage.enemy_row_count * st.current_stage.enemy_column_count) % 2 ^ 32)) t
      ((⟨[], [], []⟩ : PerType (List EnemyRecord)).get t) := by
    intro t
    have hp : (st.enemies.get t).positions = [] := by
      cases t
      · exact List.length_eq_zero.mp hF
      · exact List.length_eq_zero.mp hD
      · exact List.length_eq_zero.mp hK
    refine ⟨?_, ?_, ?_⟩
    · show (st.enemies.get t).positions = _
      rw [hp]
      cases t <;> rfl
    · show (st.enemies.get t).animations = _
      rw [ha t]
      cases t <;> rfl
    · cases t <;> rfl
  obtain ⟨G, hG, hv, h1, h2, h3⟩ := init_enemies_rows_records gs time _ _ _ 0 _ stR _ posR _ hv0 hrows
  refine ⟨G, ?_, ?_⟩
  · subst hfin
    simp only [grid_records]
    have e1 : stR.current_stage = st.current_stage := h2
    have e2 : stR.game_playground = st.game_playground := h3
    simp only [e1, e2]
    have hG' := hG
    rw [← h1] at hG'
    simp only [(fill_enemy_list_frame R _ _).2.2.1] at hG'
    rw [hG']
    rfl
  · subst hfin
    intro t
    exact hv t
theorem game_state_reset_records (gs : GameSettings) (R : Rng) (time : ℚ) (st st' : GameState)
    (h : game_state_reset gs R time st = .ok st') :
    ∃ G, grid_records gs time st' = .ok G ∧ ∀ t, enemies_view st' t (G.get t) := by
  unfold game_state_reset at h
  obtain ⟨anim, -, h⟩ := bind_eq_ok h
  obtain ⟨sprite, -, h⟩ := bind_eq_ok h
  obtain ⟨st2, hinit, h⟩ := bind_eq_ok h
  simp only [pure_eq_ok, Except.ok.injEq] at h
  obtain ⟨G, hG, hv⟩ := init_enemies_records gs R time _ st2 (by intro t; cases t <;> rfl) hinit
  subst h
  exact ⟨G, hG, hv⟩

theorem new_wave_records (gs : GameSettings) (R : Rng) (time : ℚ) (st st' : GameState)
    (hs : ∀ t, slots_synchronised st t) (hrem : remaining_enemies st = 0)
    (h : game_state_update_new_wave gs R time st = .ok st') :
    ∃ G, grid_records gs time st' = .ok G ∧ ∀ t, enemies_view st' t (G.get t) := by
  unfold game_state_update_new_wave at h
  refine init_enemies_records gs R time _ st' ?_ h
  intro t
  unfold remaining_enemies at hrem
  have hlen : (st.enemies.get t).positions.length = 0 := by
    cases t <;> omega
  obtain ⟨h1, h2⟩ := hs t
  exact List.length_eq_zero.mp (by rw [← h2, h1, hlen])

theorem remove_enemy_records (st st' : GameState) (t : EnemyType) (i : Nat) (time : ℚ)
    (L : List EnemyRecord) (hv : enemies_view st t L)
    (h : remove_enemy st t i time = .ok st') :
    ∃ x L', remove_swap L i = .ok (x, L') ∧ enemies_view st' t L' ∧
      ∀ t', t' ≠ t → st'.enemies.get t' = st.enemies.get t' ∧
        st'.enemy_slots.get t' = st.enemy_slots.get t' := by
  have hi : i < L.length := by
    by_contra hcon
    have hge : (st.enemies.get t).positions.length ≤ i := by
      rw [hv.1, List.length_map]
      omega
    unfold remove_enemy at h
    have : DynamicArray.read (st.enemies.get t).positions i = .error .index_out_of_range := by
      unfold DynamicArray.read
      rw [List.getElem?_eq_none hge]
    simp [this] at h
  have hsplit : L = L.take i ++ L[i] :: L.drop (i + 1) := by simp
  have hlen : (L.take i).length = i := by
    rw [List.length_take]
    omega
  obtain ⟨st1, Rt', hre, -, hv1, hfr, -, -, -, -, -, -, -, -, hrs⟩ :=
    remove_enemy_view st t time (L.take i) L[i] (L.drop (i + 1)) (hsplit ▸ hv)
  rw [hlen] at hre hrs
  rw [← hsplit] at hrs
  rw [h] at hre
  cases hre
  exact ⟨L[i], _, hrs, hv1, hfr⟩

theorem enemy_kamikaze_records (delta_time time : ℚ) (st st' : GameState)
    (G : PerType (List EnemyRecord)) (hv : ∀ t, enemies_view st t (G.get t))
    (h : enemy_kamikaze delta_time time st = .ok st') :
    ∀ t, enemies_view st' t ((kamikaze_records delta_time st G).get t) := by
  unfold enemy_kamikaze at h
  unfold kamikaze_records
  by_cases hc : 0 < (st.enemies.get .KAMIKAZE).positions.length ∧
      st.enemy_time_since_last_kamikaze + delta_time ≥ st.current_stage.enemy_kamikaze_delay
  · simp only [hc, and_self, if_true, ge_iff_le, pure_eq_ok] at h ⊢
    by_cases he : st.empty_slots.length = 0
    all_goals
      simp only [he, if_true, if_false] at h
      obtain ⟨p, -, h⟩ := bind_eq_ok h
      obtain ⟨a, -, h⟩ := bind_eq_ok h
      obtain ⟨r, hr, h⟩ := bind_eq_ok h
      obtain ⟨pool, hpool, h⟩ := bind_eq_ok h
      simp only [Except.ok.injEq] at h
      subst h
      obtain ⟨h1, h2, h3⟩ := hv .KAMIKAZE
      have hpos : 0 < (G.get .KAMIKAZE).length := by
        have := hc.1
        rw [h1, List.length_map] at this
        exact this
      obtain ⟨L0, x, hL⟩ : ∃ L0 x, G.get .KAMIKAZE = L0 ++ [x] := by
        rcases List.eq_nil_or_concat (G.get .KAMIKAZE) with hnil | ⟨L0, x, hx⟩
        · rw [hnil] at hpos
          simp at hpos
        · exact ⟨L0, x, by rw [hx, List.concat_eq_append]⟩
      have hsel : (st.enemies.get .KAMIKAZE).positions.length - 1 = L0.length := by
        rw [h1, hL]
        simp
      rw [hsel] at hr hpool
      have e1 := remove_swap_map_append_cons (fun r : EnemyRecord => r.1) L0 x [] []
        (by simpa using remove_swap_last L0 x)
      have e2 := remove_swap_map_append_cons (fun r : EnemyRecord => r.2.1) L0 x [] []
        (by simpa using remove_swap_last L0 x)
      have e3 := remove_swap_map_append_cons (fun r : EnemyRecord => r.2.2) L0 x [] []
        (by simpa using remove_swap_last L0 x)
      rw [← hL] at e1 e2 e3
      rw [← h1] at e1
      rw [← h2] at e2
      rw [← h3] at e3
      have hr' : remove_swap (st.enemy_slots.get .KAMIKAZE) L0.length = .ok r := hr
      rw [e3] at hr'
      simp only [Except.ok.injEq] at hr'
      simp only [entity_remove, e1, e2, ok_bind, pure_eq_ok, Except.ok.injEq] at hpool
      intro t
      by_cases ht : t = .KAMIKAZE
      · subst ht
        rw [PerType.get_set_same, hL, List.dropLast_concat]
        refine ⟨?_, ?_, ?_⟩
        · show ((st.enemies.set .KAMIKAZE pool).get .KAMIKAZE).positions = _
          rw [PerType.get_set_same, ← hpool]
          simp
        · show ((st.enemies.set .KAMIKAZE pool).get .KAMIKAZE).animations = _
          rw [PerType.get_set_same, ← hpool]
          simp
        · show (st.enemy_slots.set .KAMIKAZE r.2).get .KAMIKAZE = _
          rw [PerType.get_set_same, ← hr']
          simp
      · rw [PerType.get_set_ne _ _ _ _ ht]
        obtain ⟨g1, g2, g3⟩ := hv t
        refine ⟨?_, ?_, ?_⟩
        · show ((st.enemies.set .KAMIKAZE pool).get t).positions = _
          rw [PerType.get_set_ne _ _ _ _ ht]
          exact g1
        · show ((st.enemies.set .KAMIKAZE pool).get t).animations = _
          rw [PerType.get_set_ne _ _ _ _ ht]
          exact g2
        · show (st.enemy_slots.set .KAMIKAZE r.2).get t = _
          rw [PerType.get_set_ne _ _ _ _ ht]
          exact g3
  · simp only [hc, if_false, ge_iff_le, pure_eq_ok, Except.ok.injEq] at h ⊢
    subst h
    exact hv
theorem set_of_getElem? {α : Type} (l : List α) (i : Nat) (v : α) (h : l[i]? = some v) :
    l.set i v = l := by
  apply List.ext_getElem?
  intro j
  rw [List.getElem?_set]
  by_cases hij : i = j
  · subst hij
    rw [if_pos rfl, h, if_pos (List.getElem?_eq_some.mp h).1]
  · rw [if_neg hij]

theorem remove_ok {α : Type} (l : List α) (i : Nat) (r : α × List α)
    (h : remove l i = .ok r) : l[i]? = some r.1 := by
  unfold remove at h
  split at h
  · next v hv =>
    simp only [Except.ok.injEq] at h
    rw [hv, ← h]
  · simp at h

theorem read_ok {α : Type} (l : List α) (i : Nat) (v : α)
    (h : DynamicArray.read l i = .ok v) : l[i]? = some v := by
  unfold DynamicArray.read at h
  split at h
  · next v' hv =>
    simp only [Except.ok.injEq] at h
    rw [hv, h]
  · simp at h

theorem enemy_rearrangement_records (R : Rng) (delta_time : ℚ) (st st' : GameState)
    (G : PerType (List EnemyRecord)) (hv : ∀ t, enemies_view st t (G.get t))
    (h : enemy_rearrangement R delta_time st = .ok st') :
    ∀ t, enemies_view st' t ((rearrange_records R delta_time st G).get t) := by
  unfold enemy_rearrangement at h
  unfold rearrange_records
  by_cases hc : 0 < st.player_lives ∧ 0 < st.empty_slots.length ∧
      0 < (st.enemies.get .DROPPER).positions.length ∧
      st.enemy_time_since_last_rearrangement + delta_time
        ≥ st.current_stage.enemy_rearrange_delay
  · simp only [hc, and_self, if_true, ge_iff_le, pure_eq_ok] at h ⊢
    generalize (Int.toNat
      ⌊R.random st.rng * ((st.enemies.get .DROPPER).positions.length : ℚ)⌋) % 2 ^ 64 = idx at h ⊢
    obtain ⟨old_slot, hold, h⟩ := bind_eq_ok h
    obtain ⟨r, hr, h⟩ := bind_eq_ok h
    simp only [Except.ok.injEq] at h
    subst h
    obtain ⟨h1, h2, h3⟩ := hv .DROPPER
    have hslot := remove_ok _ _ _ hr
    have hold' := read_ok _ _ _ hold
    have hold'' : (st.enemy_slots.get .DROPPER)[idx]? = some old_slot := hold'
    have hslot' : st.empty_slots[0]? = some r.1 := hslot
    rw [h3, List.getElem?_map] at hold''
    cases hrec : (G.get .DROPPER)[idx]? with
    | none => simp [hrec] at hold''
    | some record =>
      simp only [hrec, hslot']
      intro t
      by_cases ht : t = .DROPPER
      · subst ht
        rw [PerType.get_set_same]
        refine ⟨?_, ?_, ?_⟩
        · show (st.enemies.get .DROPPER).positions = _
          rw [List.map_set, ← h1]
          exact (set_of_getElem? _ _ _ (by rw [h1, List.getElem?_map, hrec]; rfl)).symm
        · show (st.enemies.get .DROPPER).animations = _
          rw [List.map_set, ← h2]
          exact (set_of_getElem? _ _ _ (by rw [h2, List.getElem?_map, hrec]; rfl)).symm
        · show (st.enemy_slots.set .DROPPER _).get .DROPPER = _
          rw [PerType.get_set_same, List.map_set, ← h3]
      · rw [PerType.get_set_ne _ _ _ _ ht]
        obtain ⟨g1, g2, g3⟩ := hv t
        refine ⟨g1, g2, ?_⟩
        show (st.enemy_slots.set .DROPPER _).get t = _
        rw [PerType.get_set_ne _ _ _ _ ht]
        exact g3
  · simp only [hc, if_false, ge_iff_le, pure_eq_ok, Except.ok.injEq] at h ⊢
    subst h
    exact hv
theorem tracked_views (gs : GameSettings) (R : Rng) (st : GameState)
    (h : Reachable gs R st) : ∃ G, Tracked gs R st G ∧ ∀ t, enemies_view st t (G.get t) := by
  induction h with
  | reset time st st' hreset =>
    obtain ⟨G, hG, hv⟩ := game_state_reset_records gs R time st st' hreset
    exact ⟨G, Tracked.reset time st st' G hreset hG, hv⟩
  | new_wave time st st' _ hrem hwave ih =>
    obtain ⟨G0, hT, hv0⟩ := ih
    obtain ⟨G, hG, hv⟩ := new_wave_records gs R time st st'
      (fun t => (records_of_enemies_view st t _ (hv0 t)).2) hrem hwave
    exact ⟨G, Tracked.new_wave time st st' G0 G hT hrem hwave hG, hv⟩
  | removal type_index index time st st' _ hremove ih =>
    obtain ⟨G, hT, hv⟩ := ih
    obtain ⟨x, L', hrs, hv', hfr⟩ :=
      remove_enemy_records st st' type_index index time _ (hv type_index) hremove
    have hrec : remove_record G type_index index = .ok (G.set type_index L') := by
      simp only [remove_record, hrs, ok_bind, pure_eq_ok]
    refine ⟨_, Tracked.removal type_index index time st st' G _ hT hremove hrec, ?_⟩
    intro t
    by_cases ht : t = type_index
    · subst ht
      rw [PerType.get_set_same]
      exact hv'
    · rw [PerType.get_set_ne _ _ _ _ ht]
      exact enemies_view_congr st st' t _ (hfr t ht).1 (hfr t ht).2 (hv t)
  | kamikaze delta_time time st st' _ hk ih =>
    obtain ⟨G, hT, hv⟩ := ih
    exact ⟨_, Tracked.kamikaze delta_time time st st' G hT hk,
      enemy_kamikaze_records delta_time time st st' G hv hk⟩
  | rearrangement delta_time st st' _ hr ih =>
    obtain ⟨G, hT, hv⟩ := ih
    exact ⟨_, Tracked.rearrangement delta_time st st' G hT hr,
      enemy_rearrangement_records R delta_time st st' G hv hr⟩

/-- C10: in every state reachable from `game_state_reset` through wave
initialisation, `remove_enemy`, kamikaze conversion and rearrangement, for each
archetype the slot array has the length of the position and of the animation
array, and the three arrays are the three projections of one list of records
(position, animation, slot) that starts as the records of the grid cells and
on which every operation acts record by record: entry `i` of `enemy_slots[t]`
is the slot of the enemy stored at index `i`. -/
theorem enemy_slots_stay_synchronised (gs : GameSettings) (R : Rng) (st : GameState)
    (h : Reachable gs R st) :
    (∀ t, slots_synchronised st t) ∧
      ∃ G, Tracked gs R st G ∧ ∀ t, enemies_view st t (G.get t) := by
  obtain ⟨G, hT, hv⟩ := tracked_views gs R st h
  exact ⟨fun t => (records_of_enemies_view st t _ (hv t)).2, G, hT, hv⟩

theorem enemy_slots_stay_synchronised_witness :
    (∀ t, slots_synchronised removed_state t) ∧
      ∃ G, Tracked wave_settings demo_rng removed_state G ∧
        ∀ t, enemies_view removed_state t (G.get t) :=
  enemy_slots_stay_synchronised wave_settings demo_rng removed_state
    (Reachable.removal .DROPPER 0 1 reset_state removed_state
      (Reachable.reset 0 start_state reset_state (by decide!)) (by decide!))

/-! ## Stage progression -/

theorem stage_run_resume_point (gs : GameSettings) (stage : StageSettings) (n : Nat) :
    (stage_run gs stage n).1 = if n = 0 then 1 else (n - 1) % 5 + 2 := by
  induction n with
  | zero => rfl
  | succ m ih =>
    simp only [stage_run, ih]
    by_cases hm : m = 0
    · subst hm; rfl
    · simp only [hm, if_false, Nat.add_sub_cancel, Nat.succ_ne_zero]
      have h5 : (m - 1) % 5 < 5 := Nat.mod_lt _ (by decide)
      have hmod : m % 5 = ((m - 1) % 5 + 1) % 5 := by omega
      rw [hmod]
      generalize (m - 1) % 5 = j at h5
      interval_cases j <;> rfl

theorem stage_run_succ_adjustment (gs : GameSettings) (stage : StageSettings) (m : Nat) :
    (stage_run gs stage (m + 1)).2
      = { stage_adjustment_spec gs (m % 5) (stage_run gs stage m).2 with
          number := ((stage_run gs stage m).2.number + 1) % 2 ^ 32 } := by
  rw [stage_run, stage_run_resume_point]
  by_cases hm : m = 0
  · subst hm; rfl
  · simp only [hm, if_false]
    have h5 : (m - 1) % 5 < 5 := Nat.mod_lt _ (by decide)
    have hmod : m % 5 = ((m - 1) % 5 + 1) % 5 := by omega
    rw [hmod]
    generalize (m - 1) % 5 = j at h5
    generalize (stage_run gs stage m).2 = s
    interval_cases j <;> rfl

/-- C11: for every `n ≥ 1` the `n`-th advance of `stage_init` after the setup
applies the adjustment number `(n - 1) mod 5` of the cycle increase-rows,
reduce-shot-delay, reduce-kamikaze-delay, increase-columns,
increase-speed-and-reduce-rearrange-delay to the stage settings reached by the
`n - 1` advances before it, adds one to the wave number and changes nothing
else. -/
theorem stage_advance_applies_cycle (gs : GameSettings) (stage : StageSettings) (n : Nat)
    (hn : 1 ≤ n) :
    (stage_run gs stage n).2
      = { stage_adjustment_spec gs ((n - 1) % 5) (stage_run gs stage (n - 1)).2 with
          number := ((stage_run gs stage (n - 1)).2.number + 1) % 2 ^ 32 } := by
  obtain ⟨m, rfl⟩ : ∃ m, n = m + 1 := ⟨n - 1, by omega⟩
  simp only [Nat.add_sub_cancel]
  exact stage_run_succ_adjustment gs stage m

theorem stage_advance_applies_cycle_witness :
    1 ≤ 6 ∧ (stage_run tall_settings {} 6).2
      = { stage_adjustment_spec tall_settings 0 (stage_run tall_settings {} 5).2 with
          number := ((stage_run tall_settings {} 5).2.number + 1) % 2 ^ 32 } :=
  ⟨by decide, stage_advance_applies_cycle tall_settings {} 6 (by decide)⟩
theorem stage_run_number_mod (gs : GameSettings) (stage : StageSettings) (n : Nat) :
    (stage_run gs stage n).2.number = (1 + n) % 2 ^ 32 := by
  induction n with
  | zero => rfl
  | succ m ih =>
    rw [stage_run_succ_adjustment]
    show ((stage_run gs stage m).2.number + 1) % 2 ^ 32 = _
    rw [ih]
    omega

/-- C12: the setup call of `stage_init` sets the wave number to 1 and each
later advance adds exactly one to it, so after the setup and `n` advances the
wave number is `1 + n`, as long as `1 + n` fits the 32-bit counter. -/
theorem stage_number_counts_advances (gs : GameSettings) (stage : StageSettings) (n : Nat)
    (hn : 1 + n < 2 ^ 32) :
    (stage_run gs stage 0).2.number = 1 ∧
    (∀ m, m < n →
      (stage_run gs stage (m + 1)).2.number = (stage_run gs stage m).2.number + 1) ∧
    (stage_run gs stage n).2.number = 1 + n := by
  refine ⟨rfl, ?_, ?_⟩
  · intro m hm
    rw [stage_run_number_mod, stage_run_number_mod, Nat.mod_eq_of_lt, Nat.mod_eq_of_lt] <;> omega
  · rw [stage_run_number_mod, Nat.mod_eq_of_lt hn]

theorem stage_number_counts_advances_witness :
    1 + 7 < 2 ^ 32 ∧ (stage_run tall_settings {} 0).2.number = 1 ∧
    (∀ m, m < 7 →
      (stage_run tall_settings {} (m + 1)).2.number
        = (stage_run tall_settings {} m).2.number + 1) ∧
    (stage_run tall_settings {} 7).2.number = 1 + 7 :=
  ⟨by decide, stage_number_counts_advances tall_settings {} 7 (by decide)⟩
theorem stage_adjustment_spec_rows (gs : GameSettings) (k : Nat) (s : StageSettings) :
    (stage_adjustment_spec gs k s).enemy_row_count
      = if k = 0 then min ((s.enemy_row_count + 1) % 2 ^ 32) 7 else s.enemy_row_count := by
  rcases k with _ | _ | _ | _ | _ <;> rfl

theorem stage_run_succ_rows (gs : GameSettings) (stage : StageSettings) (m : Nat) :
    (stage_run gs stage (m + 1)).2.enemy_row_count
      = if m % 5 = 0 then min (((stage_run gs stage m).2.enemy_row_count + 1) % 2 ^ 32) 7
        else (stage_run gs stage m).2.enemy_row_count := by
  rw [stage_run_succ_adjustment]
  exact stage_adjustment_spec_rows gs _ _

theorem stage_run_rows_le (gs : GameSettings) (stage : StageSettings) (n : Nat) :
    (stage_run gs stage (n + 1)).2.enemy_row_count ≤ 7 := by
  induction n with
  | zero => rw [stage_run_succ_rows]; simp
  | succ m ih =>
    rw [stage_run_succ_rows]
    split
    · exact min_le_right _ _
    · exact ih

/-- C13 (as stated, refuted): the setup copies the configured row count
unclamped, so with ten configured rows the stage reached by the setup and zero
advances has ten rows. -/
theorem stage_rows_above_seven_after_setup :
    (stage_run tall_settings {} 0).2.enemy_row_count = 10 := by
  decide

/-- C13 (amended): in every stage state reached by the setup and at least one
advance the enemy row count is at most 7, and when the configured start count
is at most 7 this also holds right after the setup. -/
theorem stage_rows_at_most_seven (gs : GameSettings) (stage : StageSettings) (n : Nat)
    (h : 1 ≤ n ∨ gs.enemy_row_start_count ≤ 7) :
    (stage_run gs stage n).2.enemy_row_count ≤ 7 := by
  rcases n with _ | m
  · rcases h with h | h
    · omega
    · show gs.enemy_row_start_count % 2 ^ 32 ≤ 7
      exact le_trans (Nat.mod_le _ _) h
  · exact stage_run_rows_le gs stage m

theorem stage_rows_at_most_seven_witness :
    (1 ≤ 1 ∨ tall_settings.enemy_row_start_count ≤ 7) ∧
    (stage_run tall_settings {} 1).2.enemy_row_count ≤ 7 :=
  ⟨Or.inl (le_refl 1), stage_rows_at_most_seven tall_settings {} 1 (Or.inl (le_refl 1))⟩
theorem fill_pickup_deck_loop_eq (card : PickupType) (n : Nat) (deck : List PickupType) :
    fill_pickup_deck_loop card n deck = deck ++ List.replicate n card := by
  induction n generalizing deck with
  | zero => simp [fill_pickup_deck_loop]
  | succ m ih =>
    rw [fill_pickup_deck_loop, ih, append, List.append_assoc]
    rfl

/-- C20 (as stated, refuted): with the shares 0.1, 0.2, 0.3, 0.4 and a
deck of 100 cards the deck holds 20 POWER_SHOT cards, not 10. -/
theorem pickup_deck_has_twenty_power_shots :
    (fill_pickup_deck deck_settings []).count PickupType.POWER_SHOT = 20 ∧
    (fill_pickup_deck deck_settings []).count PickupType.POWER_SHOT ≠ 10 := by
  decide!

/-- C20 (amended): the deck built by `fill_pickup_deck` is a run of HEALTH cards
up to the health boundary, then POWER_SHOT cards up to the power-shot boundary,
then EXTRA_SHOT cards up to the extra-shot boundary, then SKULL cards up to the
deck size, each boundary being the cumulative chance times the deck size with
the fraction dropped.  With the shares 0.1, 0.2, 0.3, 0.4 and 100 cards that is
10 HEALTH, 20 POWER_SHOT, 30 EXTRA_SHOT and 40 SKULL cards; with 15 cards the
boundaries 1.5 and 4.5 are cut to 1 and 4, giving 1, 3, 5 and 6 cards. -/
theorem pickup_deck_composition (gs : GameSettings) (deck : List PickupType) :
    fill_pickup_deck gs deck
      = List.replicate
          (deck_boundary (gs.pickup_deck_size % 2 ^ 64) gs.pickup_drop_chance_health)
          PickupType.HEALTH
        ++ List.replicate
          (deck_boundary (gs.pickup_deck_size % 2 ^ 64) gs.pickup_drop_chance_power_shot
            - deck_boundary (gs.pickup_deck_size % 2 ^ 64) gs.pickup_drop_chance_health)
          PickupType.POWER_SHOT
        ++ List.replicate
          (deck_boundary (gs.pickup_deck_size % 2 ^ 64) gs.pickup_drop_chance_extra_shot
            - max (deck_boundary (gs.pickup_deck_size % 2 ^ 64) gs.pickup_drop_chance_health)
                (deck_boundary (gs.pickup_deck_size % 2 ^ 64) gs.pickup_drop_chance_power_shot))
          PickupType.EXTRA_SHOT
        ++ List.replicate
          (gs.pickup_deck_size % 2 ^ 64
            - max (max (deck_boundary (gs.pickup_deck_size % 2 ^ 64) gs.pickup_drop_chance_health)
                (deck_boundary (gs.pickup_deck_size % 2 ^ 64) gs.pickup_drop_chance_power_shot))
                (deck_boundary (gs.pickup_deck_size % 2 ^ 64) gs.pickup_drop_chance_extra_shot))
          PickupType.SKULL ∧
    fill_pickup_deck deck_settings deck
      = List.replicate 10 PickupType.HEALTH ++ List.replicate 20 PickupType.POWER_SHOT
        ++ List.replicate 30 PickupType.EXTRA_SHOT ++ List.replicate 40 PickupType.SKULL ∧
    fill_pickup_deck small_deck_settings deck
      = List.replicate 1 PickupType.HEALTH ++ List.replicate 3 PickupType.POWER_SHOT
        ++ List.replicate 5 PickupType.EXTRA_SHOT ++ List.replicate 6 PickupType.SKULL := by
  refine ⟨?_, ?_, ?_⟩
  · simp only [fill_pickup_deck, fill_pickup_deck_loop_eq, clear, Nat.sub_zero, List.nil_append,
      Nat.zero_max]
  · show fill_pickup_deck deck_settings [] = _
    decide!
  · show fill_pickup_deck small_deck_settings [] = _
    decide!

/-! ## The lazer beam -/

theorem to_s32_of_signed_range (v : ℤ) (hlo : -2 ^ 31 ≤ v) (hhi : v < 2 ^ 31) : to_s32 v = v := by
  unfold to_s32
  split <;> omega

theorem update_lazer_retract_extent (gs : GameSettings) (time : ℚ) (st : GameState)
    (h1 : st.lazer_start ≤ st.lazer_end) (h2 : st.lazer_end = gs.lazer_length) :
    lazer_extent_ok gs (update_lazer_retract gs time st) := by
  unfold update_lazer_retract lazer_extent_ok
  by_cases hlt : st.lazer_start < st.lazer_end
  · by_cases hx : lazer_advance gs time st > 0
    · simp only [hlt, hx, if_true]
      refine ⟨fun h => ?_, min_le_right _ _, le_of_eq h2, fun _ => h2⟩
      simp at h
    · simp only [hlt, hx, if_true, if_false]
      refine ⟨fun h => ?_, h1, le_of_eq h2, fun _ => h2⟩
      simp at h
  · simp only [hlt, if_false]
    refine ⟨fun h => ?_, h1, le_of_eq h2, fun _ => h2⟩
    simp at h

theorem update_lazer_dwell_extent (gs : GameSettings) (time : ℚ) (dwell_over : Bool)
    (st : GameState) (h1 : st.lazer_start ≤ st.lazer_end) (h2 : st.lazer_end = gs.lazer_length) :
    lazer_extent_ok gs (update_lazer_dwell gs time dwell_over st) := by
  unfold update_lazer_dwell
  split
  · apply update_lazer_retract_extent
    · split <;> exact h1
    · split <;> exact h2
  · refine ⟨fun h => ?_, h1, le_of_eq h2, fun _ => h2⟩
    simp at h

theorem update_lazer_extend_extent (gs : GameSettings) (time : ℚ) (dwell_over : Bool)
    (st : GameState) (h0 : st.lazer_start = 0) (h2 : st.lazer_end ≤ gs.lazer_length) :
    lazer_extent_ok gs (update_lazer_extend gs time dwell_over st) := by
  unfold update_lazer_extend
  by_cases hlt : st.lazer_end < gs.lazer_length
  · unfold lazer_extent_ok
    by_cases hx : lazer_advance gs time st > 0
    · simp only [hlt, hx, if_true]
      refine ⟨fun _ => h0, ?_, min_le_right _ _, fun h => ?_⟩
      · rw [h0]; exact Nat.zero_le _
      · simp at h
    · simp only [hlt, hx, if_true, if_false]
      refine ⟨fun _ => h0, ?_, h2, fun h => ?_⟩
      · rw [h0]; exact Nat.zero_le _
      · simp at h
  · simp only [hlt, if_false]
    apply update_lazer_dwell_extent
    · rw [h0]; exact Nat.zero_le _
    · omega

theorem update_lazer_fire_extent (gs : GameSettings) (time : ℚ) (dwell_over : Bool)
    (st : GameState) (h0 : st.lazer_start = 0) (h2 : st.lazer_end ≤ gs.lazer_length) :
    lazer_extent_ok gs (update_lazer_fire gs time dwell_over st) := by
  unfold update_lazer_fire
  split
  · apply update_lazer_extend_extent
    · split <;> exact h0
    · split <;> exact h2
  · refine ⟨fun _ => h0, ?_, h2, fun h => ?_⟩
    · show st.lazer_start ≤ _
      rw [h0]; exact Nat.zero_le _
    · simp at h

theorem update_lazer_extent (gs : GameSettings) (time : ℚ) (dwell_over : Bool) (st : GameState)
    (h : lazer_extent_ok gs st) : lazer_extent_ok gs (update_lazer gs time dwell_over st) := by
  obtain ⟨h0, h1, h2, h3⟩ := h
  unfold update_lazer
  split
  · rename_i hco
    apply update_lazer_fire_extent
    · split <;> exact h0 (by omega)
    · split <;> exact h2
  · rename_i hco
    exact update_lazer_fire_extent gs time dwell_over st (h0 (by omega)) h2
  · rename_i hco
    exact update_lazer_extend_extent gs time dwell_over st (h0 (by omega)) h2
  · rename_i hco
    exact update_lazer_dwell_extent gs time dwell_over st h1 (h3 (by omega))
  · rename_i hco
    exact update_lazer_retract_extent gs time st h1 (h3 (by omega))
  · exact ⟨h0, h1, h2, h3⟩

/-- C16: in every state of a lazer run, that is after a lazer activation (which
sets `lazer_start = lazer_end = 0`) followed by any number of `update_lazer`
steps at any times, in particular non-decreasing ones, `lazer_start ≤ lazer_end
≤ lazer_length`, and once the Extend phase is left (resume point `3` or later)
`lazer_end = lazer_length`. -/
theorem lazer_extent_invariant (gs : GameSettings) (st : GameState) (h : LazerRun gs st) :
    st.lazer_start ≤ st.lazer_end ∧ st.lazer_end ≤ gs.lazer_length ∧
    (3 ≤ st.lazer_co → st.lazer_end = gs.lazer_length) := by
  have key : lazer_extent_ok gs st := by
    induction h with
    | activation time st hact hcharge =>
      unfold player_lazer_activation
      simp only [hact, decide_eq_true hcharge, Bool.not_false, Bool.and_self, if_true]
      refine ⟨fun _ => rfl, le_refl _, Nat.zero_le _, fun h => ?_⟩
      simp at h
    | step time dwell_over st _ ih => exact update_lazer_extent gs time dwell_over st ih
    | other st st' _ hs he hc ih =>
      unfold lazer_extent_ok at ih ⊢
      rw [hs, he, hc]
      exact ih
  exact ⟨key.2.1, key.2.2.1, key.2.2.2⟩
theorem lazer_extent_invariant_witness :
    LazerRun lazer_settings dwelling_state ∧
    (dwelling_state.lazer_start ≤ dwelling_state.lazer_end ∧
      dwelling_state.lazer_end ≤ lazer_settings.lazer_length ∧
      (3 ≤ dwelling_state.lazer_co → dwelling_state.lazer_end = lazer_settings.lazer_length)) ∧
    dwelling_state.lazer_co = 3 ∧ dwelling_state.lazer_end = 5 := by
  have hrun : LazerRun lazer_settings dwelling_state :=
    LazerRun.step _ _ _ (LazerRun.step _ _ _ (LazerRun.step _ _ _
      (LazerRun.other _ _
        (LazerRun.step 0 false _ (LazerRun.activation 0 charged_state rfl (by decide)))
        rfl rfl rfl)))
  exact ⟨hrun, lazer_extent_invariant lazer_settings dwelling_state hrun, by decide!, by decide!⟩

/-- C17 (as stated, refuted): with `lazer_speed = 0.7f` (the `f32` nearest to
0.7), reference time 0 and time 10, all of them `f32` values,
`floor(lazer_speed * (now - last))` is 6, yet the step of the Extend phase
computes the product in `f32`, where it rounds to 7, and the beam grows by 7. -/
theorem lazer_advance_rounds_up :
    slow_lazer_settings.lazer_speed = f32_round (7 / 10) ∧
    is_f32 slow_lazer_settings.lazer_speed ∧ is_f32 10 ∧
    is_f32 retracted_state.lazer_last_update_time ∧
    retracted_state.lazer_co = 2 ∧ retracted_state.lazer_end = 0 ∧
    slow_lazer_settings.lazer_length = 10 ∧
    ⌊slow_lazer_settings.lazer_speed * (10 - retracted_state.lazer_last_update_time)⌋ = 6 ∧
    update_lazer slow_lazer_settings 10 false retracted_state
      = { retracted_state with lazer_end := 7, lazer_last_update_time := 10 } := by
  decide!

/-- C17 (amended): a step of the Extend phase (resume point `2`, `lazer_end <
lazer_length`) at time `time` with reference time `lazer_last_update_time`
computes `advance` as the floor of the `f32` product of `lazer_speed` and the
`f32` difference `time - lazer_last_update_time`, each of the two operations
rounded to the nearest `f32`; when neither of them rounds, this is
`floor(lazer_speed * (time - lazer_last_update_time))`.  If `advance ≤ 0` the
state, with `lazer_end` and the reference time, is unchanged; if `advance > 0`
then `lazer_end` becomes `min(lazer_end + advance, lazer_length)`, the reference
time becomes `time`, and nothing else changes.  The numbers are assumed to fit
their 32-bit types. -/
theorem lazer_extend_step_quantised (gs : GameSettings) (time : ℚ) (dwell_over : Bool)
    (st : GameState) (hco : st.lazer_co = 2) (hext : st.lazer_end < gs.lazer_length)
    (hlo : -2 ^ 31 ≤ ⌊f32_round (gs.lazer_speed * f32_round (time - st.lazer_last_update_time))⌋)
    (hhi : ⌊f32_round (gs.lazer_speed * f32_round (time - st.lazer_last_update_time))⌋ < 2 ^ 31)
    (hsum : (st.lazer_end : ℤ)
      + ⌊f32_round (gs.lazer_speed * f32_round (time - st.lazer_last_update_time))⌋ < 2 ^ 32) :
    (⌊f32_round (gs.lazer_speed * f32_round (time - st.lazer_last_update_time))⌋ ≤ 0 →
      update_lazer gs time dwell_over st = st) ∧
    (0 < ⌊f32_round (gs.lazer_speed * f32_round (time - st.lazer_last_update_time))⌋ →
      update_lazer gs time dwell_over st
        = { st with
            lazer_end :=
              min (st.lazer_end + (⌊f32_round
                  (gs.lazer_speed * f32_round (time - st.lazer_last_update_time))⌋).toNat)
                gs.lazer_length
            lazer_last_update_time := time }) ∧
    (is_f32 (time - st.lazer_last_update_time) →
      is_f32 (gs.lazer_speed * (time - st.lazer_last_update_time)) →
      ⌊f32_round (gs.lazer_speed * f32_round (time - st.lazer_last_update_time))⌋
        = ⌊gs.lazer_speed * (time - st.lazer_last_update_time)⌋) := by
  have hx : lazer_advance gs time st
      = ⌊f32_round (gs.lazer_speed * f32_round (time - st.lazer_last_update_time))⌋ :=
    f32_to_s32_intCast _ hlo hhi
  have hstep : update_lazer gs time dwell_over st = update_lazer_extend gs time dwell_over st := by
    unfold update_lazer
    rw [hco]
  rw [hstep]
  unfold update_lazer_extend
  simp only [hext, if_true, hx]
  refine ⟨?_, ?_, ?_⟩
  · generalize ⌊f32_round (gs.lazer_speed * f32_round (time - st.lazer_last_update_time))⌋ = x
      at hsum
    intro hle
    have hn : ¬ x > 0 := by omega
    simp only [hn, if_false]
    rw [← hco]
  · generalize ⌊f32_round (gs.lazer_speed * f32_round (time - st.lazer_last_update_time))⌋ = x
      at hsum
    intro hpos
    have hu : to_u32 ((st.lazer_end : ℤ) + x) = st.lazer_end + x.toNat := by
      rw [to_u32_of_range _ (by omega) hsum]
      omega
    simp only [gt_iff_lt, hpos, if_true, hu]
    rw [← hco]
  · intro h1 h2
    unfold is_f32 at h1 h2
    rw [h1, h2]

theorem lazer_extend_step_quantised_witness :
    (update_lazer lazer_settings (1 + 1 / 20) false extending_state = extending_state) ∧
    (update_lazer lazer_settings (1 + 3 / 25) false extending_state
      = { extending_state with lazer_end := 3, lazer_last_update_time := 1 + 3 / 25 }) ∧
    ⌊f32_round (lazer_settings.lazer_speed
        * f32_round (3 / 2 - extending_state.lazer_last_update_time))⌋
      = ⌊lazer_settings.lazer_speed * (3 / 2 - extending_state.lazer_last_update_time)⌋ := by
  have h1 := (lazer_extend_step_quantised lazer_settings (1 + 1 / 20) false extending_state rfl
    (by decide) (by decide!) (by decide!) (by decide!)).1 (by decide!)
  have h2 := (lazer_extend_step_quantised lazer_settings (1 + 3 / 25) false extending_state rfl
    (by decide) (by decide!) (by decide!) (by decide!)).2.1 (by decide!)
  have h3 := (lazer_extend_step_quantised lazer_settings (3 / 2) false extending_state rfl
    (by decide) (by decide!) (by decide!) (by decide!)).2.2 (by decide!) (by decide!)
  refine ⟨h1, h2.trans ?_, h3⟩
  decide!

/-! ## Reset of the resumable sequences -/

theorem init_enemies_cells_sequence_fields (gs : GameSettings) (time : ℚ) (x_offset : ℚ)
    (y : Nat) :
    ∀ (n x : Nat) (st st' : GameState) (position position' : Vector2),
      init_enemies_cells gs time x_offset y n x (st, position) = .ok (st', position') →
      st'.sequence_fields = st.sequence_fields := by
  intro n
  induction n with
  | zero =>
    intro x st st' position position' h
    simp only [init_enemies_cells, Except.ok.injEq, Prod.mk.injEq] at h
    rw [h.1]
  | succ n ih =>
    intro x st st' position position' h
    unfold init_enemies_cells at h
    obtain ⟨random_enemy, -, h⟩ := bind_eq_ok h
    obtain ⟨ty, -, h⟩ := bind_eq_ok h
    have h2 := ih _ _ _ _ _ h
    exact h2

theorem init_enemies_rows_sequence_fields (gs : GameSettings) (time : ℚ) (x_offset x_start : ℚ) :
    ∀ (n y : Nat) (st st' : GameState) (position position' : Vector2),
      init_enemies_rows gs time x_offset x_start n y (st, position) = .ok (st', position') →
      st'.sequence_fields = st.sequence_fields := by
  intro n
  induction n with
  | zero =>
    intro y st st' position position' h
    simp only [init_enemies_rows, Except.ok.injEq, Prod.mk.injEq] at h
    rw [h.1]
  | succ n ih =>
    intro y st st' position position' h
    unfold init_enemies_rows at h
    obtain ⟨⟨st1, p1⟩, h1, h⟩ := bind_eq_ok h
    have h2 := ih _ _ _ _ _ h
    exact h2.trans (init_enemies_cells_sequence_fields _ _ _ _ _ _ _ _ _ _ h1)

theorem init_enemies_sequence_fields (gs : GameSettings) (R : Rng) (time : ℚ)
    (st st' : GameState) (h : init_enemies gs R time st = .ok st') :
    st'.sequence_fields = st.sequence_fields := by
  unfold init_enemies at h
  by_cases hF : (st.enemies.get .FLYING).positions.length ≠ 0
  · simp [hF, throw, throwThe, MonadExceptOf.throw] at h
  by_cases hD : (st.enemies.get .DROPPER).positions.length ≠ 0
  · simp [hF, hD, throw, throwThe, MonadExceptOf.throw] at h
  by_cases hK : (st.enemies.get .KAMIKAZE).positions.length ≠ 0
  · simp [hF, hD, hK, throw, throwThe, MonadExceptOf.throw] at h
  push_neg at hF hD hK
  simp only [hF, hD, hK, ne_eq, not_true_eq_false, if_false, ite_false, pure_eq_ok, ok_bind] at h
  obtain ⟨⟨stR, posR⟩, hrows, hfin⟩ := bind_eq_ok h
  simp only [Except.ok.injEq] at hfin
  have hr := init_enemies_rows_sequence_fields _ _ _ _ _ _ _ _ _ _ hrows
  rw [← hfin]
  exact hr
/-- C15 (as stated, refuted): a reset in the middle of a lazer run leaves
the lazer sequence where it was, at the resume point of its Extend phase with
three chunks out; only the lazer's activity flag is cleared. -/
theorem reset_leaves_lazer_sequence_mid_run :
    game_state_reset wave_settings demo_rng 8 mid_lazer_state = .ok reset_mid_lazer_state ∧
    reset_mid_lazer_state.lazer_co = 2 ∧ reset_mid_lazer_state.lazer_end = 3 ∧
    reset_mid_lazer_state.is_lazer_active = false := by
  decide!

/-- C15 (amended): one call of `game_state_reset` puts the Stage Progression
(`stage_co`) at its post-setup state with wave number 1 and the base
configuration and the Orchestrator (`state_co`) at its start, and it makes the
lazer inactive with no charge; it leaves `lazer_co`, `lazer_start` and
`lazer_end` as they were.  These three are put back to their start by the next
lazer activation, which is possible only while the lazer is inactive. -/
theorem reset_restarts_stage_and_orchestrator (gs : GameSettings) (R : Rng) (time : ℚ)
    (st st' : GameState) (h : game_state_reset gs R time st = .ok st') :
    st'.stage_co = 1 ∧
    st'.current_stage
      = { number := 1
          enemy_column_count := gs.enemy_column_start_count % 2 ^ 32
          enemy_row_count := gs.enemy_row_start_count % 2 ^ 32
          enemy_move_speed := gs.enemy_move_speed
          enemy_rearrange_delay := gs.enemy_rearrange_delay
          enemy_kamikaze_delay := gs.enemy_kamikaze_delay
          enemy_shot_delay := gs.enemy_shot_delay
          enemy_spawn_counts := gs.enemy_start_spawn_counts } ∧
    st'.state_co = 0 ∧ st'.is_lazer_active = false ∧ st'.lazer_charge = 0 ∧
    st'.lazer_co = st.lazer_co ∧ st'.lazer_start = st.lazer_start ∧
    st'.lazer_end = st.lazer_end ∧
    (∀ (time2 : ℚ) (s : GameState), s.is_lazer_active = false →
      gs.lazer_power_requirement ≤ s.lazer_charge →
      (player_lazer_activation gs true time2 s).lazer_co = 0 ∧
      (player_lazer_activation gs true time2 s).lazer_start = 0 ∧
      (player_lazer_activation gs true time2 s).lazer_end = 0 ∧
      (player_lazer_activation gs true time2 s).is_lazer_active = true) := by
  unfold game_state_reset at h
  obtain ⟨anim, -, h⟩ := bind_eq_ok h
  obtain ⟨sprite, -, h⟩ := bind_eq_ok h
  obtain ⟨stI, hI, h⟩ := bind_eq_ok h
  simp only [pure_eq_ok, Except.ok.injEq] at h
  have hf := init_enemies_sequence_fields _ _ _ _ _ hI
  simp only [GameState.sequence_fields, Prod.mk.injEq] at hf
  obtain ⟨-, h2, h3, h4, h5, h6, -, h8, h9⟩ := hf
  subst h
  refine ⟨h2, h3, rfl, h8, h9, h4, h5, h6, ?_⟩
  intro time2 s hs hc
  unfold player_lazer_activation
  simp only [hs, decide_eq_true hc, Bool.not_false, Bool.and_self, if_true, and_self]

theorem reset_restarts_stage_and_orchestrator_witness :
    reset_mid_lazer_state.stage_co = 1 ∧
    reset_mid_lazer_state.current_stage
      = { number := 1
          enemy_column_count := wave_settings.enemy_column_start_count % 2 ^ 32
          enemy_row_count := wave_settings.enemy_row_start_count % 2 ^ 32
          enemy_move_speed := wave_settings.enemy_move_speed
          enemy_rearrange_delay := wave_settings.enemy_rearrange_delay
          enemy_kamikaze_delay := wave_settings.enemy_kamikaze_delay
          enemy_shot_delay := wave_settings.enemy_shot_delay
          enemy_spawn_counts := wave_settings.enemy_start_spawn_counts } ∧
    reset_mid_lazer_state.state_co = 0 ∧ reset_mid_lazer_state.is_lazer_active = false ∧
    reset_mid_lazer_state.lazer_charge = 0 ∧
    reset_mid_lazer_state.lazer_co = mid_lazer_state.lazer_co ∧
    reset_mid_lazer_state.lazer_start = mid_lazer_state.lazer_start ∧
    reset_mid_lazer_state.lazer_end = mid_lazer_state.lazer_end ∧
    (∀ (time2 : ℚ) (s : GameState), s.is_lazer_active = false →
      wave_settings.lazer_power_requirement ≤ s.lazer_charge →
      (player_lazer_activation wave_settings true time2 s).lazer_co = 0 ∧
      (player_lazer_activation wave_settings true time2 s).lazer_start = 0 ∧
      (player_lazer_activation wave_settings true time2 s).lazer_end = 0 ∧
      (player_lazer_activation wave_settings true time2 s).is_lazer_active = true) :=
  reset_restarts_stage_and_orchestrator wave_settings demo_rng 8 mid_lazer_state
    reset_mid_lazer_state (by decide!)

/-! ## The gameplay pass leaves the stage sequence alone -/

theorem loop_up_keeps {σ π : Type} (proj : σ → π) (body : Nat → σ → Except Fault σ)
    (hbody : ∀ i s s', body i s = .ok s' → proj s' = proj s) :
    ∀ (n i : Nat) (s s' : σ), loop_up body n i s = .ok s' → proj s' = proj s := by
  intro n
  induction n with
  | zero =>
    intro i s s' h
    simp only [loop_up, Except.ok.injEq] at h
    rw [h]
  | succ n ih =>
    intro i s s' h
    unfold loop_up at h
    obtain ⟨s1, h1, h⟩ := bind_eq_ok h
    exact (ih _ _ _ h).trans (hbody _ _ _ h1)

theorem loop_down_keeps {σ π : Type} (proj : σ → π) (body : Nat → σ → Except Fault σ)
    (hbody : ∀ i s s', body i s = .ok s' → proj s' = proj s) :
    ∀ (n : Nat) (s s' : σ), loop_down body n s = .ok s' → proj s' = proj s := by
  intro n
  induction n with
  | zero =>
    intro s s' h
    simp only [loop_down, Except.ok.injEq] at h
    rw [h]
  | succ n ih =>
    intro s s' h
    unfold loop_down at h
    obtain ⟨s1, h1, h⟩ := bind_eq_ok h
    exact (ih _ _ h).trans (hbody _ _ _ h1)

theorem screen_shake_timer_stage (F : Frame) (st : GameState) :
    (screen_shake_timer F st).stage_fields = st.stage_fields := by
  unfold screen_shake_timer
  split <;> rfl

theorem player_lazer_activation_stage (gs : GameSettings) (key_z : Bool) (time : ℚ)
    (st : GameState) :
    (player_lazer_activation gs key_z time st).stage_fields = st.stage_fields := by
  unfold player_lazer_activation
  split <;> rfl

theorem player_shoot_bullet_stage (gs : GameSettings) (F : Frame) (i : Nat) (st st' : GameState)
    (h : player_shoot_bullet gs F i st = .ok st') : st'.stage_fields = st.stage_fields := by
  unfold player_shoot_bullet at h
  obtain ⟨row, -, h⟩ := bind_eq_ok h
  obtain ⟨off, -, h⟩ := bind_eq_ok h
  simp only [pure_eq_ok, Except.ok.injEq] at h
  subst h
  rfl

theorem player_shooting_stage (gs : GameSettings) (F : Frame) (st st' : GameState)
    (h : player_shooting gs F st = .ok st') : st'.stage_fields = st.stage_fields := by
  unfold player_shooting at h
  dsimp only at h
  have h0 := player_lazer_activation_stage gs (F.get_key .Z) F.time st
  generalize player_lazer_activation gs (F.get_key .Z) F.time st = s0 at h h0
  split at h
  · split at h
    · obtain ⟨s1, h1, h⟩ := bind_eq_ok h
      have h2 := loop_up_keeps GameState.stage_fields _ (player_shoot_bullet_stage gs F) _ _ _ _ h1
      simp only [pure_eq_ok, Except.ok.injEq] at h
      subst h
      refine Eq.trans ?_ (h2.trans h0)
      dsimp only
      split <;> split <;> (try split) <;> (try split) <;> rfl
    · simp only [pure_eq_ok, Except.ok.injEq] at h
      subst h
      exact h0
  · simp only [pure_eq_ok, Except.ok.injEq] at h
    subst h
    exact h0

theorem player_update_stage (gs : GameSettings) (E : Engine) (F : Frame) (st st' : GameState)
    (h : player_update gs E F st = .ok st') : st'.stage_fields = st.stage_fields := by
  unfold player_update at h
  split at h
  · have h2 := player_shooting_stage gs F _ _ h
    exact h2
  · simp only [pure_eq_ok, Except.ok.injEq] at h
    subst h
    rfl
theorem enemy_rearrangement_stage (R : Rng) (delta_time : ℚ) (st st' : GameState)
    (h : enemy_rearrangement R delta_time st = .ok st') : st'.stage_fields = st.stage_fields := by
  unfold enemy_rearrangement at h
  dsimp only at h
  split at h
  · obtain ⟨old_slot, -, h⟩ := bind_eq_ok h
    obtain ⟨r, -, h⟩ := bind_eq_ok h
    simp only [pure_eq_ok, Except.ok.injEq] at h
    subst h
    rfl
  · simp only [pure_eq_ok, Except.ok.injEq] at h
    subst h
    rfl

theorem enemy_move_stage (gs : GameSettings) (E : Engine) (R : Rng) (F : Frame)
    (x_offset y_offset : ℚ) (enemy_type : EnemyType) (i : Nat) (st st' : GameState)
    (h : enemy_move gs E R F x_offset y_offset enemy_type i st = .ok st') :
    st'.stage_fields = st.stage_fields := by
  unfold enemy_move at h
  dsimp only at h
  obtain ⟨slot, -, h⟩ := bind_eq_ok h
  obtain ⟨position, -, h⟩ := bind_eq_ok h
  simp only [pure_eq_ok, Except.ok.injEq] at h
  subst h
  rfl

theorem enemy_movement_stage (gs : GameSettings) (E : Engine) (R : Rng) (F : Frame)
    (st st' : GameState) (h : enemy_movement gs E R F st = .ok st') :
    st'.stage_fields = st.stage_fields := by
  unfold enemy_movement at h
  dsimp only at h
  obtain ⟨s1, h1, h⟩ := bind_eq_ok h
  obtain ⟨s2, h2, h⟩ := bind_eq_ok h
  have k1 := loop_up_keeps GameState.stage_fields _
    (enemy_move_stage gs E R F _ _ .FLYING) _ _ _ _ h1
  have k2 := loop_up_keeps GameState.stage_fields _
    (enemy_move_stage gs E R F _ _ .DROPPER) _ _ _ _ h2
  have k3 := loop_up_keeps GameState.stage_fields _
    (enemy_move_stage gs E R F _ _ .KAMIKAZE) _ _ _ _ h
  exact k3.trans (k2.trans k1)

theorem kamikaze_move_stage (gs : GameSettings) (E : Engine) (F : Frame) (i : Nat)
    (st st' : GameState) (h : kamikaze_move gs E F i st = .ok st') :
    st'.stage_fields = st.stage_fields := by
  unfold kamikaze_move at h
  dsimp only at h
  obtain ⟨position, -, h⟩ := bind_eq_ok h
  obtain ⟨old_target, -, h⟩ := bind_eq_ok h
  split at h <;> split at h <;>
    first
    | (obtain ⟨pool, -, h⟩ := bind_eq_ok h
       simp only [pure_eq_ok, Except.ok.injEq] at h
       subst h
       rfl)
    | (simp only [pure_eq_ok, Except.ok.injEq] at h
       subst h
       rfl)

theorem kamikaze_movement_loop_stage (gs : GameSettings) (E : Engine) (F : Frame) :
    ∀ (n i : Nat) (st st' : GameState), kamikaze_movement_loop gs E F n i st = .ok st' →
      st'.stage_fields = st.stage_fields := by
  intro n
  induction n with
  | zero =>
    intro i st st' h
    simp only [kamikaze_movement_loop, Except.ok.injEq] at h
    rw [h]
  | succ n ih =>
    intro i st st' h
    unfold kamikaze_movement_loop at h
    split at h
    · obtain ⟨s1, h1, h⟩ := bind_eq_ok h
      exact (ih _ _ _ h).trans (kamikaze_move_stage gs E F _ _ _ h1)
    · simp only [Except.ok.injEq] at h
      rw [h]

theorem enemy_shooting_stage (gs : GameSettings) (R : Rng) (F : Frame) (st st' : GameState)
    (h : enemy_shooting gs R F st = .ok st') : st'.stage_fields = st.stage_fields := by
  unfold enemy_shooting at h
  dsimp only at h
  repeat' split at h
  all_goals
    first
    | (obtain ⟨p, -, h⟩ := bind_eq_ok h
       simp only [pure_eq_ok, Except.ok.injEq] at h
       subst h
       rfl)
    | (simp only [pure_eq_ok, Except.ok.injEq] at h
       subst h
       rfl)

theorem enemy_kamikaze_stage (delta_time time : ℚ) (st st' : GameState)
    (h : enemy_kamikaze delta_time time st = .ok st') : st'.stage_fields = st.stage_fields := by
  unfold enemy_kamikaze at h
  dsimp only at h
  split at h
  · obtain ⟨p, -, h⟩ := bind_eq_ok h
    obtain ⟨a, -, h⟩ := bind_eq_ok h
    obtain ⟨r, -, h⟩ := bind_eq_ok h
    obtain ⟨pool, -, h⟩ := bind_eq_ok h
    simp only [pure_eq_ok, Except.ok.injEq] at h
    subst h
    split <;> rfl
  · simp only [pure_eq_ok, Except.ok.injEq] at h
    subst h
    rfl

theorem enemies_update_stage (gs : GameSettings) (E : Engine) (R : Rng) (F : Frame)
    (st st' : GameState) (h : enemies_update gs E R F st = .ok st') :
    st'.stage_fields = st.stage_fields := by
  unfold enemies_update at h
  split at h
  · obtain ⟨s1, h1, h⟩ := bind_eq_ok h
    obtain ⟨s2, h2, h⟩ := bind_eq_ok h
    obtain ⟨s3, h3, h⟩ := bind_eq_ok h
    have k1 := enemy_rearrangement_stage _ _ _ _ h1
    have k2 := enemy_movement_stage _ _ _ _ _ _ h2
    have k3 := kamikaze_movement_loop_stage _ _ _ _ _ _ _ h3
    split at h
    · obtain ⟨s4, h4, h⟩ := bind_eq_ok h
      have k4 := enemy_shooting_stage _ _ _ _ _ h4
      have k5 := enemy_kamikaze_stage _ _ _ _ h
      exact k5.trans (k4.trans (k3.trans (k2.trans k1)))
    · simp only [pure_eq_ok, Except.ok.injEq] at h
      subst h
      exact k3.trans (k2.trans k1)
  · simp only [pure_eq_ok, Except.ok.injEq] at h
    subst h
    rfl
theorem update_player_bullet_stage (gs : GameSettings) (F : Frame) (i : Nat)
    (st st' : GameState) (h : update_player_bullet gs F i st = .ok st') :
    st'.stage_fields = st.stage_fields := by
  unfold update_player_bullet at h
  dsimp only at h
  obtain ⟨p, -, h⟩ := bind_eq_ok h
  split at h
  · obtain ⟨pool, -, h⟩ := bind_eq_ok h
    simp only [pure_eq_ok, Except.ok.injEq] at h
    subst h
    rfl
  · simp only [pure_eq_ok, Except.ok.injEq] at h
    subst h
    rfl

theorem update_enemy_bullet_stage (gs : GameSettings) (F : Frame) (i : Nat)
    (st st' : GameState) (h : update_enemy_bullet gs F i st = .ok st') :
    st'.stage_fields = st.stage_fields := by
  unfold update_enemy_bullet at h
  dsimp only at h
  obtain ⟨p, -, h⟩ := bind_eq_ok h
  split at h
  · obtain ⟨pool, -, h⟩ := bind_eq_ok h
    simp only [pure_eq_ok, Except.ok.injEq] at h
    subst h
    rfl
  · simp only [pure_eq_ok, Except.ok.injEq] at h
    subst h
    rfl

theorem update_lazer_retract_stage (gs : GameSettings) (time : ℚ) (st : GameState) :
    (update_lazer_retract gs time st).stage_fields = st.stage_fields := by
  unfold update_lazer_retract
  dsimp only
  repeat' split
  all_goals rfl

theorem update_lazer_dwell_stage (gs : GameSettings) (time : ℚ) (dwell_over : Bool)
    (st : GameState) :
    (update_lazer_dwell gs time dwell_over st).stage_fields = st.stage_fields := by
  unfold update_lazer_dwell
  dsimp only
  split
  · rw [update_lazer_retract_stage]
    split <;> rfl
  · rfl

theorem update_lazer_extend_stage (gs : GameSettings) (time : ℚ) (dwell_over : Bool)
    (st : GameState) :
    (update_lazer_extend gs time dwell_over st).stage_fields = st.stage_fields := by
  unfold update_lazer_extend
  dsimp only
  split
  · split <;> rfl
  · exact update_lazer_dwell_stage gs time dwell_over st

theorem update_lazer_fire_stage (gs : GameSettings) (time : ℚ) (dwell_over : Bool)
    (st : GameState) :
    (update_lazer_fire gs time dwell_over st).stage_fields = st.stage_fields := by
  unfold update_lazer_fire
  dsimp only
  split
  · rw [update_lazer_extend_stage]
    split <;> rfl
  · rfl

theorem update_lazer_stage (gs : GameSettings) (time : ℚ) (dwell_over : Bool) (st : GameState) :
    (update_lazer gs time dwell_over st).stage_fields = st.stage_fields := by
  unfold update_lazer
  split
  · dsimp only
    rw [update_lazer_fire_stage]
    split <;> rfl
  · exact update_lazer_fire_stage gs time dwell_over st
  · exact update_lazer_extend_stage gs time dwell_over st
  · exact update_lazer_dwell_stage gs time dwell_over st
  · exact update_lazer_retract_stage gs time st
  · rfl

theorem lazer_update_stage (gs : GameSettings) (F : Frame) (st st' : GameState)
    (h : lazer_update gs F st = .ok st') : st'.stage_fields = st.stage_fields := by
  unfold lazer_update at h
  split at h
  · obtain ⟨anim, -, h⟩ := bind_eq_ok h
    obtain ⟨sprite, -, h⟩ := bind_eq_ok h
    simp only [pure_eq_ok, Except.ok.injEq] at h
    subst h
    rw [update_lazer_stage]
    rfl
  · simp only [pure_eq_ok, Except.ok.injEq] at h
    subst h
    rfl

theorem update_bullets_stage (gs : GameSettings) (F : Frame) (st st' : GameState)
    (h : update_bullets gs F st = .ok st') : st'.stage_fields = st.stage_fields := by
  unfold update_bullets at h
  obtain ⟨s1, h1, h⟩ := bind_eq_ok h
  obtain ⟨s2, h2, h⟩ := bind_eq_ok h
  have k1 := loop_down_keeps GameState.stage_fields _ (update_player_bullet_stage gs F) _ _ _ h1
  have k2 := loop_down_keeps GameState.stage_fields _ (update_enemy_bullet_stage gs F) _ _ _ h2
  have k3 := lazer_update_stage _ _ _ _ h
  exact k3.trans (k2.trans k1)

theorem update_pickup_stage (gs : GameSettings) (F : Frame) (i : Nat) (st st' : GameState)
    (h : update_pickup gs F i st = .ok st') : st'.stage_fields = st.stage_fields := by
  unfold update_pickup at h
  dsimp only at h
  obtain ⟨p, -, h⟩ := bind_eq_ok h
  split at h
  · obtain ⟨a, -, h⟩ := bind_eq_ok h
    obtain ⟨pool, -, h⟩ := bind_eq_ok h
    simp only [pure_eq_ok, Except.ok.injEq] at h
    subst h
    rfl
  · simp only [pure_eq_ok, Except.ok.injEq] at h
    subst h
    rfl

theorem update_pickups_stage (gs : GameSettings) (F : Frame) (st st' : GameState)
    (h : update_pickups gs F st = .ok st') : st'.stage_fields = st.stage_fields :=
  loop_down_keeps GameState.stage_fields _ (update_pickup_stage gs F) _ _ _ h

theorem remove_finished_explosions_stage (st st' : GameState)
    (h : remove_finished_explosions st = .ok st') : st'.stage_fields = st.stage_fields := by
  unfold remove_finished_explosions at h
  obtain ⟨e1, -, h⟩ := bind_eq_ok h
  obtain ⟨e2, -, h⟩ := bind_eq_ok h
  simp only [pure_eq_ok, Except.ok.injEq] at h
  subst h
  rfl
theorem add_score_kill_stage (gs : GameSettings) (kill_count : Nat) (kill_streak_start : ℤ)
    (i : Nat) (st st' : GameState)
    (h : add_score_kill gs kill_count kill_streak_start i st = .ok st') :
    st'.stage_fields = st.stage_fields := by
  unfold add_score_kill at h
  split at h
  · simp at h
  · simp only [Except.ok.injEq] at h
    subst h
    rfl

theorem add_score_loop_stage (gs : GameSettings) (kill_count : Nat) (kill_streak_start : ℤ) :
    ∀ (n i : Nat) (st st' : GameState),
      add_score_loop gs kill_count kill_streak_start n i st = .ok st' →
      st'.stage_fields = st.stage_fields := by
  intro n
  induction n with
  | zero =>
    intro i st st' h
    simp only [add_score_loop, Except.ok.injEq] at h
    rw [h]
  | succ n ih =>
    intro i st st' h
    unfold add_score_loop at h
    obtain ⟨s1, h1, h⟩ := bind_eq_ok h
    exact (ih _ _ _ h).trans (add_score_kill_stage _ _ _ _ _ _ h1)

theorem add_score_stage (gs : GameSettings) (st : GameState) (kill_count : Nat)
    (st' : GameState) (h : add_score gs st kill_count = .ok st') :
    st'.stage_fields = st.stage_fields := by
  unfold add_score at h
  split at h
  · simp only [Except.ok.injEq] at h
    rw [h]
  · exact add_score_loop_stage _ _ _ _ _ _ _ h

theorem get_random_pickup_type_stage (R : Rng) (st : GameState) (r : PickupType × GameState)
    (h : get_random_pickup_type R st = .ok r) : r.2.stage_fields = st.stage_fields := by
  unfold get_random_pickup_type at h
  dsimp only at h
  obtain ⟨card, -, h⟩ := bind_eq_ok h
  simp only [pure_eq_ok, Except.ok.injEq] at h
  subst h
  dsimp only
  split <;> rfl

theorem spawn_pickup_stage (R : Rng) (st : GameState) (position : Vector2) (time : ℚ)
    (st' : GameState) (h : spawn_pickup R st position time = .ok st') :
    st'.stage_fields = st.stage_fields := by
  unfold spawn_pickup at h
  obtain ⟨r, hr, h⟩ := bind_eq_ok h
  simp only [pure_eq_ok, Except.ok.injEq] at h
  subst h
  exact get_random_pickup_type_stage R st r hr

theorem remove_enemy_stage (st : GameState) (type_index : EnemyType) (index : Nat) (time : ℚ)
    (st' : GameState) (h : remove_enemy st type_index index time = .ok st') :
    st'.stage_fields = st.stage_fields := by
  unfold remove_enemy at h
  dsimp only at h
  obtain ⟨enemy_position, -, h⟩ := bind_eq_ok h
  obtain ⟨enemies1, -, h⟩ := bind_eq_ok h
  obtain ⟨r, -, h⟩ := bind_eq_ok h
  simp only [pure_eq_ok, Except.ok.injEq] at h
  subst h
  unfold spawn_explosion
  dsimp only
  split <;> rfl

theorem lazer_scan_type_stage (gs : GameSettings) (R : Rng) (time : ℚ) (box : Vector4)
    (enemy_type : EnemyType) :
    ∀ (n : Nat) (acc acc' : GameState × Nat),
      lazer_scan_type gs R time box enemy_type n acc = .ok acc' →
      acc'.1.stage_fields = acc.1.stage_fields := by
  intro n
  induction n with
  | zero =>
    intro acc acc' h
    simp only [lazer_scan_type, Except.ok.injEq] at h
    rw [h]
  | succ n ih =>
    intro acc acc' h
    obtain ⟨st, kill_count⟩ := acc
    unfold lazer_scan_type at h
    obtain ⟨enemy_position, -, h⟩ := bind_eq_ok h
    split at h
    · obtain ⟨st1, h1, h⟩ := bind_eq_ok h
      have k1 := remove_enemy_stage _ _ _ _ _ h1
      dsimp only at h
      split at h
      · obtain ⟨st2, h2, h⟩ := bind_eq_ok h
        have k2 := spawn_pickup_stage _ _ _ _ _ h2
        have k3 := ih _ _ h
        exact k3.trans (k2.trans k1)
      · obtain ⟨st2, h2, h⟩ := bind_eq_ok h
        simp only [Except.ok.injEq] at h2
        subst h2
        have k3 := ih _ _ h
        exact k3.trans k1
    · exact ih _ _ h

theorem lazer_scan_kamikaze_stage (gs : GameSettings) (time : ℚ) (box : Vector4) :
    ∀ (n : Nat) (acc acc' : GameState × Nat),
      lazer_scan_kamikaze gs time box n acc = .ok acc' →
      acc'.1.stage_fields = acc.1.stage_fields := by
  intro n
  induction n with
  | zero =>
    intro acc acc' h
    simp only [lazer_scan_kamikaze, Except.ok.injEq] at h
    rw [h]
  | succ n ih =>
    intro acc acc' h
    obtain ⟨st, kill_count⟩ := acc
    unfold lazer_scan_kamikaze at h
    obtain ⟨enemy_position, -, h⟩ := bind_eq_ok h
    split at h
    · obtain ⟨p, -, h⟩ := bind_eq_ok h
      obtain ⟨pool, -, h⟩ := bind_eq_ok h
      have k3 := ih _ _ h
      exact k3
    · exact ih _ _ h

theorem four_scans_stage (gs : GameSettings) (R : Rng) (time : ℚ) (box : Vector4)
    (acc0 acc' : GameState × Nat)
    (h : (do
      let acc1 ← lazer_scan_type gs R time box .FLYING
        (acc0.1.enemies.get .FLYING).positions.length acc0
      let acc2 ← lazer_scan_type gs R time box .DROPPER
        (acc1.1.enemies.get .DROPPER).positions.length acc1
      let acc3 ← lazer_scan_type gs R time box .KAMIKAZE
        (acc2.1.enemies.get .KAMIKAZE).positions.length acc2
      lazer_scan_kamikaze gs time box acc3.1.kamikaze_enemies.positions.length acc3) = .ok acc') :
    acc'.1.stage_fields = acc0.1.stage_fields := by
  obtain ⟨acc1, h1, h⟩ := bind_eq_ok h
  obtain ⟨acc2, h2, h⟩ := bind_eq_ok h
  obtain ⟨acc3, h3, h⟩ := bind_eq_ok h
  have k1 := lazer_scan_type_stage _ _ _ _ _ _ _ _ h1
  have k2 := lazer_scan_type_stage _ _ _ _ _ _ _ _ h2
  have k3 := lazer_scan_type_stage _ _ _ _ _ _ _ _ h3
  have k4 := lazer_scan_kamikaze_stage _ _ _ _ _ _ h
  exact k4.trans (k3.trans (k2.trans k1))

theorem test_lazer_vs_enemies_stage (gs : GameSettings) (R : Rng) (time : ℚ)
    (st st' : GameState) (h : test_lazer_vs_enemies gs R time st = .ok st') :
    st'.stage_fields = st.stage_fields := by
  unfold test_lazer_vs_enemies at h
  split at h
  · obtain ⟨acc, hacc, h⟩ := bind_eq_ok h
    unfold lazer_vs_enemies_scan at hacc
    obtain ⟨sprite_size, -, hacc⟩ := bind_eq_ok hacc
    have k1 := four_scans_stage _ _ _ _ _ _ hacc
    exact (add_score_stage _ _ _ _ h).trans k1
  · simp only [Except.ok.injEq] at h
    rw [h]

theorem explosion_vs_all_enemies_stage (gs : GameSettings) (R : Rng) (time : ℚ) (i : Nat)
    (acc0 acc' : GameState × Nat) (h : explosion_vs_all_enemies gs R time i acc0 = .ok acc') :
    acc'.1.stage_fields = acc0.1.stage_fields := by
  unfold explosion_vs_all_enemies at h
  obtain ⟨p, -, h⟩ := bind_eq_ok h
  exact four_scans_stage _ _ _ _ _ _ h

theorem test_explosions_vs_enemies_stage (gs : GameSettings) (R : Rng) (time : ℚ)
    (st st' : GameState) (h : test_explosions_vs_enemies gs R time st = .ok st') :
    st'.stage_fields = st.stage_fields := by
  unfold test_explosions_vs_enemies at h
  obtain ⟨acc, hacc, h⟩ := bind_eq_ok h
  have k1 := loop_up_keeps (fun acc : GameState × Nat => acc.1.stage_fields) _
    (explosion_vs_all_enemies_stage gs R time) _ _ _ _ hacc
  exact (add_score_stage _ _ _ _ h).trans k1
theorem bullet_hit_enemy_stage (gs : GameSettings) (R : Rng) (time : ℚ) (bullet_i : Nat)
    (enemy_type : EnemyType) (enemy_i : Nat) (enemy_position : Vector2) (st st' : GameState)
    (h : bullet_hit_enemy gs R time bullet_i enemy_type enemy_i enemy_position st = .ok st') :
    st'.stage_fields = st.stage_fields := by
  unfold bullet_hit_enemy at h
  dsimp only at h
  obtain ⟨bullet_anim, -, h⟩ := bind_eq_ok h
  obtain ⟨bullets, -, h⟩ := bind_eq_ok h
  obtain ⟨st4, h4, h⟩ := bind_eq_ok h
  have k4 := remove_enemy_stage _ _ _ _ _ h4
  have k0 : st4.stage_fields = st.stage_fields := by
    rw [k4]
    split <;> rfl
  clear h4 k4
  repeat' split at h
  all_goals
    first
    | exact (spawn_pickup_stage _ _ _ _ _ h).trans k0
    | (simp only [Except.ok.injEq] at h
       subst h
       exact k0)
    | simp at h

theorem bullet_scan_type_stage (gs : GameSettings) (R : Rng) (time : ℚ) (bullet_i : Nat)
    (box : Vector4) (enemy_type : EnemyType) :
    ∀ (n : Nat) (acc acc' : GameState × Nat),
      bullet_scan_type gs R time bullet_i box enemy_type n acc = .ok acc' →
      acc'.1.stage_fields = acc.1.stage_fields := by
  intro n
  induction n with
  | zero =>
    intro acc acc' h
    simp only [bullet_scan_type, Except.ok.injEq] at h
    rw [h]
  | succ n ih =>
    intro acc acc' h
    obtain ⟨st, kill_count⟩ := acc
    unfold bullet_scan_type at h
    obtain ⟨enemy_position, -, h⟩ := bind_eq_ok h
    split at h
    · obtain ⟨st1, h1, h⟩ := bind_eq_ok h
      simp only [Except.ok.injEq] at h
      subst h
      exact bullet_hit_enemy_stage _ _ _ _ _ _ _ _ _ h1
    · exact ih _ _ h

theorem bullet_scan_kamikaze_stage (gs : GameSettings) (time : ℚ) (bullet_i : Nat)
    (box : Vector4) :
    ∀ (n : Nat) (acc acc' : GameState × Nat),
      bullet_scan_kamikaze gs time bullet_i box n acc = .ok acc' →
      acc'.1.stage_fields = acc.1.stage_fields := by
  intro n
  induction n with
  | zero =>
    intro acc acc' h
    simp only [bullet_scan_kamikaze, Except.ok.injEq] at h
    rw [h]
  | succ n ih =>
    intro acc acc' h
    obtain ⟨st, kill_count⟩ := acc
    unfold bullet_scan_kamikaze at h
    obtain ⟨enemy_position, -, h⟩ := bind_eq_ok h
    split at h
    · obtain ⟨p, -, h⟩ := bind_eq_ok h
      obtain ⟨bullets, -, h⟩ := bind_eq_ok h
      obtain ⟨pool, -, h⟩ := bind_eq_ok h
      simp only [Except.ok.injEq] at h
      subst h
      rfl
    · exact ih _ _ h

theorem bullet_vs_all_enemies_stage (gs : GameSettings) (R : Rng) (time : ℚ) (bullet_i : Nat)
    (acc0 acc' : GameState × Nat) (h : bullet_vs_all_enemies gs R time bullet_i acc0 = .ok acc') :
    acc'.1.stage_fields = acc0.1.stage_fields := by
  unfold bullet_vs_all_enemies at h
  obtain ⟨bullet_position, -, h⟩ := bind_eq_ok h
  obtain ⟨acc1, h1, h⟩ := bind_eq_ok h
  obtain ⟨acc2, h2, h⟩ := bind_eq_ok h
  obtain ⟨acc3, h3, h⟩ := bind_eq_ok h
  have k1 := bullet_scan_type_stage _ _ _ _ _ _ _ _ _ h1
  have k2 := bullet_scan_type_stage _ _ _ _ _ _ _ _ _ h2
  have k3 := bullet_scan_type_stage _ _ _ _ _ _ _ _ _ h3
  have k4 := bullet_scan_kamikaze_stage _ _ _ _ _ _ _ h
  exact k4.trans (k3.trans (k2.trans k1))

theorem bullets_loop_stage (gs : GameSettings) (R : Rng) (time : ℚ) :
    ∀ (n : Nat) (acc acc' : GameState × Nat), bullets_loop gs R time n acc = .ok acc' →
      acc'.1.stage_fields = acc.1.stage_fields := by
  intro n
  induction n with
  | zero =>
    intro acc acc' h
    simp only [bullets_loop, Except.ok.injEq] at h
    rw [h]
  | succ n ih =>
    intro acc acc' h
    unfold bullets_loop at h
    obtain ⟨acc1, h1, h⟩ := bind_eq_ok h
    exact (ih _ _ h).trans (bullet_vs_all_enemies_stage _ _ _ _ _ _ h1)

theorem test_player_bullets_vs_enemies_stage (gs : GameSettings) (R : Rng) (time : ℚ)
    (st st' : GameState) (h : test_player_bullets_vs_enemies gs R time st = .ok st') :
    st'.stage_fields = st.stage_fields := by
  unfold test_player_bullets_vs_enemies at h
  obtain ⟨acc, hacc, h⟩ := bind_eq_ok h
  unfold player_bullets_vs_enemies_scan at hacc
  have k1 := bullets_loop_stage _ _ _ _ _ _ hacc
  exact (add_score_stage _ _ _ _ h).trans k1

theorem enemy_collisions_stage (gs : GameSettings) (R : Rng) (F : Frame) (st st' : GameState)
    (h : enemy_collisions gs R F st = .ok st') : st'.stage_fields = st.stage_fields := by
  unfold enemy_collisions at h
  split at h
  · obtain ⟨s1, h1, h⟩ := bind_eq_ok h
    obtain ⟨s2, h2, h⟩ := bind_eq_ok h
    have k1 := test_lazer_vs_enemies_stage _ _ _ _ _ h1
    have k2 := test_explosions_vs_enemies_stage _ _ _ _ _ h2
    have k3 := test_player_bullets_vs_enemies_stage _ _ _ _ _ h
    exact k3.trans (k2.trans k1)
  · simp only [pure_eq_ok, Except.ok.injEq] at h
    subst h
    rfl

theorem damage_player_stage (st : GameState) (time : ℚ) :
    (damage_player st time).stage_fields = st.stage_fields := by
  unfold damage_player
  dsimp only
  split <;> rfl

theorem collect_pickup_stage (gs : GameSettings) (time : ℚ) (pickup_type : Nat)
    (st : GameState) : (collect_pickup gs time pickup_type st).stage_fields = st.stage_fields := by
  unfold collect_pickup
  dsimp only
  repeat' split
  all_goals first | rfl | exact damage_player_stage st time

theorem pickup_vs_player_stage (gs : GameSettings) (time : ℚ) (box : Vector4) (pickup_i : Nat)
    (st st' : GameState) (h : pickup_vs_player gs time box pickup_i st = .ok st') :
    st'.stage_fields = st.stage_fields := by
  unfold pickup_vs_player at h
  dsimp only at h
  obtain ⟨p, -, h⟩ := bind_eq_ok h
  split at h
  · obtain ⟨a, -, h⟩ := bind_eq_ok h
    obtain ⟨pool, -, h⟩ := bind_eq_ok h
    simp only [pure_eq_ok, Except.ok.injEq] at h
    subst h
    exact collect_pickup_stage gs time a.animation_index st
  · simp only [pure_eq_ok, Except.ok.injEq] at h
    subst h
    rfl

theorem enemy_bullet_vs_player_stage (gs : GameSettings) (time : ℚ) (box : Vector4)
    (bullet_i : Nat) (st st' : GameState)
    (h : enemy_bullet_vs_player gs time box bullet_i st = .ok st') :
    st'.stage_fields = st.stage_fields := by
  unfold enemy_bullet_vs_player at h
  dsimp only at h
  obtain ⟨p, -, h⟩ := bind_eq_ok h
  split at h
  · obtain ⟨pool, -, h⟩ := bind_eq_ok h
    simp only [pure_eq_ok, Except.ok.injEq] at h
    subst h
    rw [damage_player_stage]
    rfl
  · simp only [pure_eq_ok, Except.ok.injEq] at h
    subst h
    rfl

theorem kamikaze_vs_player_stage (gs : GameSettings) (time : ℚ) (box : Vector4)
    (enemy_i : Nat) (st st' : GameState)
    (h : kamikaze_vs_player gs time box enemy_i st = .ok st') :
    st'.stage_fields = st.stage_fields := by
  unfold kamikaze_vs_player at h
  dsimp only at h
  obtain ⟨p, -, h⟩ := bind_eq_ok h
  split at h
  · obtain ⟨pool, -, h⟩ := bind_eq_ok h
    simp only [pure_eq_ok, Except.ok.injEq] at h
    subst h
    rw [damage_player_stage]
    rfl
  · simp only [pure_eq_ok, Except.ok.injEq] at h
    subst h
    rfl

theorem player_collisions_stage (gs : GameSettings) (F : Frame) (st st' : GameState)
    (h : player_collisions gs F st = .ok st') : st'.stage_fields = st.stage_fields := by
  unfold player_collisions at h
  split at h
  · obtain ⟨s1, h1, h⟩ := bind_eq_ok h
    obtain ⟨s2, h2, h⟩ := bind_eq_ok h
    have k1 := loop_down_keeps GameState.stage_fields _ (pickup_vs_player_stage gs F.time _) _ _ _ h1
    have k2 := loop_down_keeps GameState.stage_fields _
      (enemy_bullet_vs_player_stage gs F.time _) _ _ _ h2
    have k3 := loop_down_keeps GameState.stage_fields _
      (kamikaze_vs_player_stage gs F.time _) _ _ _ h
    exact k3.trans (k2.trans k1)
  · simp only [pure_eq_ok, Except.ok.injEq] at h
    subst h
    rfl

theorem player_animation_logic_stage (F : Frame) (st : GameState) :
    (player_animation_logic F st).stage_fields = st.stage_fields := by
  unfold player_animation_logic screen_switch_to
  dsimp only
  repeat' split
  all_goals rfl

theorem update_animations_stage (F : Frame) (st st' : GameState)
    (h : update_animations F st = .ok st') : st'.stage_fields = st.stage_fields := by
  unfold update_animations at h
  dsimp only at h
  obtain ⟨a1, -, h⟩ := bind_eq_ok h
  obtain ⟨i1, -, h⟩ := bind_eq_ok h
  obtain ⟨a2, -, h⟩ := bind_eq_ok h
  obtain ⟨i2, -, h⟩ := bind_eq_ok h
  obtain ⟨e1, -, h⟩ := bind_eq_ok h
  obtain ⟨e2, -, h⟩ := bind_eq_ok h
  obtain ⟨e3, -, h⟩ := bind_eq_ok h
  obtain ⟨e4, -, h⟩ := bind_eq_ok h
  obtain ⟨e5, -, h⟩ := bind_eq_ok h
  obtain ⟨e6, -, h⟩ := bind_eq_ok h
  obtain ⟨e7, -, h⟩ := bind_eq_ok h
  obtain ⟨e8, -, h⟩ := bind_eq_ok h
  obtain ⟨e9, -, h⟩ := bind_eq_ok h
  simp only [pure_eq_ok, Except.ok.injEq] at h
  subst h
  rfl

/-- A gameplay pass writes neither `stage_co` nor `current_stage`. -/
theorem internal_state_update_gameplay_stage (gs : GameSettings) (E : Engine) (R : Rng)
    (F : Frame) (st st' : GameState) (h : internal_state_update_gameplay gs E R F st = .ok st') :
    st'.stage_fields = st.stage_fields := by
  unfold internal_state_update_gameplay at h
  obtain ⟨s1, h1, h⟩ := bind_eq_ok h
  obtain ⟨s2, h2, h⟩ := bind_eq_ok h
  obtain ⟨s3, h3, h⟩ := bind_eq_ok h
  obtain ⟨s4, h4, h⟩ := bind_eq_ok h
  obtain ⟨s5, h5, h⟩ := bind_eq_ok h
  obtain ⟨s6, h6, h⟩ := bind_eq_ok h
  obtain ⟨s7, h7, h⟩ := bind_eq_ok h
  have k1 := (player_update_stage _ _ _ _ _ h1).trans (screen_shake_timer_stage F st)
  have k2 := enemies_update_stage _ _ _ _ _ _ h2
  have k3 := update_bullets_stage _ _ _ _ h3
  have k4 := update_pickups_stage _ _ _ _ h4
  have k5 := remove_finished_explosions_stage _ _ h5
  have k6 := enemy_collisions_stage _ _ _ _ _ h6
  have k7 := player_collisions_stage _ _ _ _ h7
  have k8 := (update_animations_stage _ _ _ h).trans (player_animation_logic_stage F s7)
  exact k8.trans (k7.trans (k6.trans (k5.trans (k4.trans (k3.trans (k2.trans k1))))))

/-! ## The Orchestrator -/

theorem enemies_total_add (enemies : PerType EntityData) (ty : EnemyType) (p : Vector2)
    (a : Nat) (time : ℚ) :
    ((enemies.set ty (entity_add (enemies.get ty) p a time)).get .FLYING).positions.length
      + ((enemies.set ty (entity_add (enemies.get ty) p a time)).get .DROPPER).positions.length
      + ((enemies.set ty (entity_add (enemies.get ty) p a time)).get .KAMIKAZE).positions.length
      = (enemies.get .FLYING).positions.length + (enemies.get .DROPPER).positions.length
        + (enemies.get .KAMIKAZE).positions.length + 1 := by
  cases ty <;>
    simp only [PerType.set, PerType.get, entity_add, append, List.length_append,
      List.length_singleton] <;> omega

theorem init_enemies_cells_count (gs : GameSettings) (time : ℚ) (x_offset : ℚ) (y : Nat) :
    ∀ (n x : Nat) (st st' : GameState) (position position' : Vector2),
      init_enemies_cells gs time x_offset y n x (st, position) = .ok (st', position') →
      grid_enemies st' = grid_enemies st + n ∧ st'.kamikaze_enemies = st.kamikaze_enemies := by
  intro n
  induction n with
  | zero =>
    intro x st st' position position' h
    simp only [init_enemies_cells, Except.ok.injEq, Prod.mk.injEq] at h
    rw [h.1]
    exact ⟨rfl, rfl⟩
  | succ n ih =>
    intro x st st' position position' h
    unfold init_enemies_cells at h
    obtain ⟨random_enemy, -, h⟩ := bind_eq_ok h
    obtain ⟨ty, -, h⟩ := bind_eq_ok h
    obtain ⟨k1, k2⟩ := ih _ _ _ _ _ h
    refine ⟨?_, k2⟩
    rw [k1]
    simp only [grid_enemies]
    rw [enemies_total_add]
    omega

theorem init_enemies_rows_count (gs : GameSettings) (time : ℚ) (x_offset x_start : ℚ) :
    ∀ (n y : Nat) (st st' : GameState) (position position' : Vector2),
      init_enemies_rows gs time x_offset x_start n y (st, position) = .ok (st', position') →
      grid_enemies st' = grid_enemies st + n * st.current_stage.enemy_column_count ∧
      st'.kamikaze_enemies = st.kamikaze_enemies := by
  intro n
  induction n with
  | zero =>
    intro y st st' position position' h
    simp only [init_enemies_rows, Except.ok.injEq, Prod.mk.injEq] at h
    rw [h.1]
    exact ⟨by simp, rfl⟩
  | succ n ih =>
    intro y st st' position position' h
    unfold init_enemies_rows at h
    obtain ⟨⟨st1, p1⟩, h1, h⟩ := bind_eq_ok h
    have k1 := init_enemies_cells_count _ _ _ _ _ _ _ _ _ _ h1
    dsimp only at k1
    have f1 := init_enemies_cells_sequence_fields _ _ _ _ _ _ _ _ _ _ h1
    have hs : st1.current_stage = st.current_stage := congrArg (fun t => t.2.2.1) f1
    have k2 := ih _ _ _ _ _ h
    dsimp only at k2
    rw [hs] at k2
    refine ⟨?_, k2.2.trans k1.2⟩
    rw [k2.1, k1.1, Nat.succ_mul]
    omega

theorem init_enemies_count (gs : GameSettings) (R : Rng) (time : ℚ) (st st' : GameState)
    (h : init_enemies gs R time st = .ok st') :
    grid_enemies st'
      = st.current_stage.enemy_row_count * st.current_stage.enemy_column_count ∧
    st'.kamikaze_enemies = st.kamikaze_enemies := by
  unfold init_enemies at h
  by_cases hF : (st.enemies.get .FLYING).positions.length ≠ 0
  · simp [hF, throw, throwThe, MonadExceptOf.throw] at h
  by_cases hD : (st.enemies.get .DROPPER).positions.length ≠ 0
  · simp [hF, hD, throw, throwThe, MonadExceptOf.throw] at h
  by_cases hK : (st.enemies.get .KAMIKAZE).positions.length ≠ 0
  · simp [hF, hD, hK, throw, throwThe, MonadExceptOf.throw] at h
  push_neg at hF hD hK
  simp only [hF, hD, hK, ne_eq, not_true_eq_false, if_false, ite_false, pure_eq_ok, ok_bind] at h
  obtain ⟨⟨stR, posR⟩, hrows, hfin⟩ := bind_eq_ok h
  simp only [Except.ok.injEq] at hfin
  have hr := init_enemies_rows_count _ _ _ _ _ _ _ _ _ _ hrows
  rw [← hfin]
  have h0 : grid_enemies st = 0 := by
    unfold grid_enemies
    omega
  refine ⟨?_, hr.2⟩
  show grid_enemies stR = _
  rw [hr.1]
  show grid_enemies st + _ = _
  rw [h0, Nat.zero_add]
  rfl
theorem floor_half_cases (r : ℚ) (h0 : 0 ≤ r) (h1 : r ≤ 1) :
    ⌊r + 1 / 2⌋ = 0 ∨ ⌊r + 1 / 2⌋ = 1 := by
  have ha : (0 : ℤ) ≤ ⌊r + 1 / 2⌋ := Int.floor_nonneg.mpr (by linarith)
  have hb : ⌊r + 1 / 2⌋ < 2 := Int.floor_lt.mpr (by push_cast; linarith)
  omega

theorem floor_two_half_cases (r : ℚ) (h0 : 0 ≤ r) (h1 : r ≤ 1) :
    ⌊2 * r + 1 / 2⌋ = 0 ∨ ⌊2 * r + 1 / 2⌋ = 1 ∨ ⌊2 * r + 1 / 2⌋ = 2 := by
  have ha : (0 : ℤ) ≤ ⌊2 * r + 1 / 2⌋ := Int.floor_nonneg.mpr (by linarith)
  have hb : ⌊2 * r + 1 / 2⌋ < 3 := Int.floor_lt.mpr (by push_cast; linarith)
  omega

theorem get_random_enemy_index_round_trip (t : EnemyType) (r : ℚ) (h0 : 0 ≤ r) (h1 : r ≤ 1) :
    get_enemy_type_from_animation_index (get_random_enemy_index_of_type t r) = .ok t := by
  cases t
  · have h : ((12 : ℚ) - 11) * r + 1 / 2 = r + 1 / 2 := by ring
    unfold get_random_enemy_index_of_type
    dsimp only
    rw [h]
    rcases floor_half_cases r h0 h1 with h | h <;> rw [h] <;> decide
  · have h : ((17 : ℚ) - 15) * r + 1 / 2 = 2 * r + 1 / 2 := by ring
    unfold get_random_enemy_index_of_type
    dsimp only
    rw [h]
    rcases floor_two_half_cases r h0 h1 with h | h | h <;> rw [h] <;> decide
  · have h : ((14 : ℚ) - 13) * r + 1 / 2 = r + 1 / 2 := by ring
    unfold get_random_enemy_index_of_type
    dsimp only
    rw [h]
    rcases floor_half_cases r h0 h1 with h | h <;> rw [h] <;> decide

theorem fill_enemy_list_loop_spec (R : Rng) (hR : ∀ k, 0 ≤ R.random k ∧ R.random k ≤ 1)
    (type : EnemyType) :
    ∀ (n : Nat) (acc : List Nat × Nat), (∀ e ∈ acc.1, mapped_index e) →
      (∀ e ∈ (fill_enemy_list_loop R type n acc).1, mapped_index e) ∧
      (fill_enemy_list_loop R type n acc).1.length = acc.1.length + n := by
  intro n
  induction n with
  | zero =>
    intro acc h
    exact ⟨h, rfl⟩
  | succ n ih =>
    intro acc h
    obtain ⟨list, rng⟩ := acc
    unfold fill_enemy_list_loop
    have h2 := ih (append list (get_random_enemy_index_of_type type (R.random rng)), rng + 1)
      (by
        intro e he
        simp only [append, List.mem_append, List.mem_singleton] at he
        rcases he with he | he
        · exact h e he
        · rw [he]
          exact ⟨type, get_random_enemy_index_round_trip type _ (hR rng).1 (hR rng).2⟩)
    refine ⟨h2.1, ?_⟩
    rw [h2.2]
    simp only [append, List.length_append, List.length_singleton]
    omega

theorem fill_enemy_list_spec (R : Rng) (hR : R.well_formed) (st : GameState) (num : Nat) :
    (∀ e ∈ (fill_enemy_list R st num).enemy_list, mapped_index e) ∧
    num ≤ (fill_enemy_list R st num).enemy_list.length := by
  unfold fill_enemy_list
  dsimp only
  generalize to_u64 (st.current_stage.enemy_spawn_counts.get .KAMIKAZE) = k
  generalize (to_u64 (st.current_stage.enemy_spawn_counts.get .DROPPER) + k) % 2 ^ 64 = d
  have s1 := fill_enemy_list_loop_spec R hR.1 .KAMIKAZE (k - 0) (clear st.enemy_list, st.rng)
    (by intro e he; simp [clear] at he)
  have s2 := fill_enemy_list_loop_spec R hR.1 .DROPPER (d - max 0 k)
    (fill_enemy_list_loop R .KAMIKAZE (k - 0) (clear st.enemy_list, st.rng)) s1.1
  have s3 := fill_enemy_list_loop_spec R hR.1 .FLYING (num - max (max 0 k) d)
    (fill_enemy_list_loop R .DROPPER (d - max 0 k)
      (fill_enemy_list_loop R .KAMIKAZE (k - 0) (clear st.enemy_list, st.rng))) s2.1
  constructor
  · intro e he
    exact s3.1 e ((hR.2 _ _).mem_iff.mp he)
  · rw [(hR.2 _ _).length_eq, s3.2, s2.2, s1.2]
    simp only [clear, List.length_nil]
    omega
theorem init_enemies_cells_total (gs : GameSettings) (time : ℚ) (x_offset : ℚ) (y : Nat) :
    ∀ (n x : Nat) (st : GameState) (position : Vector2),
      (∀ e ∈ st.enemy_list, mapped_index e) →
      y * st.current_stage.enemy_column_count + x + n ≤ st.enemy_list.length →
      ∃ st' position', init_enemies_cells gs time x_offset y n x (st, position)
          = .ok (st', position') ∧
        st'.enemy_list = st.enemy_list ∧ st'.current_stage = st.current_stage := by
  intro n
  induction n with
  | zero =>
    intro x st position _ _
    exact ⟨st, position, rfl, rfl, rfl⟩
  | succ n ih =>
    intro x st position hlist hlen
    have hlt : y * st.current_stage.enemy_column_count + x < st.enemy_list.length := by omega
    obtain ⟨ty, hty⟩ := hlist _ (List.getElem_mem hlt)
    unfold init_enemies_cells
    simp only [read_of_lt _ _ hlt, hty, ok_bind]
    obtain ⟨st', position', h1, h2, h3⟩ := ih (x + 1)
      { st with
        enemy_slots := st.enemy_slots.set ty (append (st.enemy_slots.get ty) position)
        rng := st.rng + 1
        enemies := st.enemies.set ty (entity_add (st.enemies.get ty)
          ⟨position.x, (-1 / 2) * gs.enemy_move_speed.y + position.y⟩
          st.enemy_list[y * st.current_stage.enemy_column_count + x] time) }
      ⟨position.x + x_offset, position.y⟩ hlist (by dsimp only; omega)
    exact ⟨st', position', h1, h2, h3⟩

theorem init_enemies_rows_total (gs : GameSettings) (time : ℚ) (x_offset x_start : ℚ) :
    ∀ (n y : Nat) (st : GameState) (position : Vector2),
      (∀ e ∈ st.enemy_list, mapped_index e) →
      (y + n) * st.current_stage.enemy_column_count ≤ st.enemy_list.length →
      ∃ acc, init_enemies_rows gs time x_offset x_start n y (st, position) = .ok acc := by
  intro n
  induction n with
  | zero =>
    intro y st position _ _
    exact ⟨(st, position), rfl⟩
  | succ n ih =>
    intro y st position hlist hlen
    have hrow : y * st.current_stage.enemy_column_count + 0
        + st.current_stage.enemy_column_count ≤ st.enemy_list.length := by
      have h1 : (y + 1) * st.current_stage.enemy_column_count
          ≤ (y + (n + 1)) * st.current_stage.enemy_column_count :=
        Nat.mul_le_mul_right _ (by omega)
      rw [Nat.succ_mul] at h1
      omega
    obtain ⟨st1, p1, h1, h2, h3⟩ := init_enemies_cells_total gs time x_offset y
      st.current_stage.enemy_column_count 0 st position hlist hrow
    unfold init_enemies_rows
    dsimp only
    rw [h1]
    simp only [ok_bind]
    apply ih
    · rw [h2]
      exact hlist
    · rw [h2, h3]
      have e : y + 1 + n = y + (n + 1) := by omega
      rw [e]
      exact hlen

theorem init_enemies_total (gs : GameSettings) (R : Rng) (time : ℚ) (st : GameState)
    (hR : R.well_formed) (hclear : grid_enemies st = 0)
    (hsize : st.current_stage.enemy_row_count * st.current_stage.enemy_column_count < 2 ^ 32) :
    ∃ st', init_enemies gs R time st = .ok st' := by
  unfold grid_enemies at hclear
  have hF : (st.enemies.get .FLYING).positions.length = 0 := by omega
  have hD : (st.enemies.get .DROPPER).positions.length = 0 := by omega
  have hK : (st.enemies.get .KAMIKAZE).positions.length = 0 := by omega
  unfold init_enemies
  simp only [hF, hD, hK, ne_eq, not_true_eq_false, if_false, ite_false, pure_eq_ok, ok_bind]
  have hfill := fill_enemy_list_spec R hR
    { st with enemy_slots := (((st.enemy_slots.set .FLYING
      (clear (st.enemy_slots.get .FLYING))).set .DROPPER
        (clear (st.enemy_slots.get .DROPPER))).set .KAMIKAZE (clear (st.enemy_slots.get .KAMIKAZE))) }
    ((st.current_stage.enemy_row_count * st.current_stage.enemy_column_count) % 2 ^ 32)
  rw [Nat.mod_eq_of_lt hsize] at hfill ⊢
  obtain ⟨acc, hacc⟩ := init_enemies_rows_total gs time
    (min (st.game_playground.x / st.current_stage.enemy_column_count) 72)
    ((1 / 2) * (st.game_playground.x - (to_u32 ((st.current_stage.enemy_column_count : ℤ) - 1) : ℚ)
      * min (st.game_playground.x / st.current_stage.enemy_column_count) 72))
    st.current_stage.enemy_row_count 0 _
    ⟨(1 / 2) * (st.game_playground.x - (to_u32 ((st.current_stage.enemy_column_count : ℤ) - 1) : ℚ)
      * min (st.game_playground.x / st.current_stage.enemy_column_count) 72), 75⟩
    hfill.1 (by
      have h := hfill.2
      rw [Nat.zero_add]
      exact h)
  rw [hacc]
  exact ⟨_, rfl⟩
theorem lor_eq_zero (a b : Nat) (h : a ||| b = 0) : a = 0 ∧ b = 0 := by
  have key : ∀ i, a.testBit i = false ∧ b.testBit i = false := by
    intro i
    have h2 := congrArg (fun n => n.testBit i) h
    simp only [Nat.testBit_or, Nat.zero_testBit, Bool.or_eq_false_iff] at h2
    exact h2
  constructor
  · apply Nat.eq_of_testBit_eq
    intro i
    rw [(key i).1, Nat.zero_testBit]
  · apply Nat.eq_of_testBit_eq
    intro i
    rw [(key i).2, Nat.zero_testBit]

theorem overlay_flag_set (screen : Nat)
    (h : screen &&& GameScreen.PAUSE_MENU ≠ 0 ∨ screen &&& GameScreen.SETTINGS_MENU ≠ 0) :
    screen &&& (GameScreen.PAUSE_MENU ||| GameScreen.SETTINGS_MENU) ≠ 0 := by
  intro h0
  rw [Nat.and_or_distrib_left] at h0
  have h1 := lor_eq_zero _ _ h0
  rcases h with h | h
  · exact h h1.1
  · exact h h1.2

theorem game_state_update_screens_quiet (F : Frame) (st : GameState)
    (hkey : ∀ k, F.get_key k = false) (hdown : ∀ k, F.get_key_down k = false) :
    game_state_update_screens F st = st := by
  unfold game_state_update_screens
  simp [hkey, hdown]

/-- C19: for every state whose `current_screen` has the PAUSE_MENU or the
SETTINGS_MENU flag set, a call of `game_state_update` in which no key is pressed
returns before the Orchestrator runs and leaves the whole game state, entity
pools, player stats, stage settings, lazer fields, timers and resume points
included, as it was. -/
theorem overlay_gates_orchestrator (gs : GameSettings) (E : Engine) (R : Rng) (F : Frame)
    (st : GameState)
    (hov : st.current_screen &&& GameScreen.PAUSE_MENU ≠ 0 ∨
      st.current_screen &&& GameScreen.SETTINGS_MENU ≠ 0)
    (hkey : ∀ k, F.get_key k = false) (hdown : ∀ k, F.get_key_down k = false) :
    game_state_update gs E R F st = .ok st := by
  unfold game_state_update
  dsimp only
  rw [game_state_update_screens_quiet F st hkey hdown, if_pos (overlay_flag_set _ hov)]
  rfl
theorem game_state_update_screens_fields (F : Frame) (st : GameState) :
    (game_state_update_screens F st).state_co = st.state_co ∧
    (game_state_update_screens F st).stage_co = st.stage_co ∧
    (game_state_update_screens F st).current_stage = st.current_stage ∧
    (game_state_update_screens F st).enemies = st.enemies ∧
    (game_state_update_screens F st).kamikaze_enemies = st.kamikaze_enemies := by
  unfold game_state_update_screens screen_clear_and_switch_to screen_switch_to screen_switch_off
  dsimp only
  repeat' split
  all_goals exact ⟨rfl, rfl, rfl, rfl, rfl⟩

theorem game_state_update_checks (gs : GameSettings) (E : Engine) (R : Rng) (F : Frame)
    (st : GameState)
    (hov : (game_state_update_screens F st).current_screen &&&
      (GameScreen.PAUSE_MENU ||| GameScreen.SETTINGS_MENU) = 0)
    (hco : st.state_co = 0 ∨ st.state_co = 2) :
    game_state_update gs E R F st
      = game_state_update_loop gs E R F (game_state_update_screens F st) := by
  have hs := (game_state_update_screens_fields F st).1
  unfold game_state_update
  dsimp only
  rw [if_neg (not_not.mpr hov), hs]
  rcases hco with h | h <;> rw [h]

theorem new_wave_result (gs : GameSettings) (R : Rng) (time : ℚ) (st st' : GameState)
    (hk : st.kamikaze_enemies.positions.length = 0)
    (h : game_state_update_new_wave gs R time st = .ok st') :
    (st'.stage_co, st'.current_stage) = stage_init gs st.stage_co st.current_stage ∧
    remaining_enemies st'
      = st'.current_stage.enemy_row_count * st'.current_stage.enemy_column_count := by
  unfold game_state_update_new_wave at h
  dsimp only at h
  have hf := init_enemies_sequence_fields _ _ _ _ _ h
  have hc := init_enemies_count _ _ _ _ _ h
  simp only [GameState.sequence_fields, Prod.mk.injEq] at hf
  obtain ⟨-, h2, h3, -⟩ := hf
  refine ⟨by rw [h2, h3], ?_⟩
  have hr : remaining_enemies st' = st'.kamikaze_enemies.positions.length + grid_enemies st' := by
    unfold remaining_enemies grid_enemies
    omega
  rw [hr, hc.2, hc.1, h3]
  show st.kamikaze_enemies.positions.length + _ = _
  rw [hk, Nat.zero_add]

/-- C18: on a call of `game_state_update` with no overlay flag set after the key
handling and the Orchestrator at a point where it makes its wave-clear check
(resume point `0` or `2`): if the three archetype pools and the kamikaze pool
hold no enemy, the result is that of one `stage_init` step followed by
`init_enemies`, suspended at the yield of the new wave, so no gameplay pass
runs, the stage sequence has advanced exactly one step and the pools hold
rows x columns enemies, and with a well-formed random source and a grid
that fits 32 bits the call does return such a state; if some enemy is left, the
result is that of exactly one gameplay pass, which leaves the stage settings and
the stage resume point unchanged. -/
theorem orchestrator_wave_clear_step (gs : GameSettings) (E : Engine) (R : Rng) (F : Frame)
    (st : GameState)
    (hov : (game_state_update_screens F st).current_screen &&&
      (GameScreen.PAUSE_MENU ||| GameScreen.SETTINGS_MENU) = 0)
    (hco : st.state_co = 0 ∨ st.state_co = 2) :
    (remaining_enemies st = 0 →
      game_state_update gs E R F st
        = (game_state_update_new_wave gs R F.time (game_state_update_screens F st) >>=
            fun s => pure { s with state_co := 1 }) ∧
      (∀ st', game_state_update gs E R F st = .ok st' →
        st'.state_co = 1 ∧
        (st'.stage_co, st'.current_stage) = stage_init gs st.stage_co st.current_stage ∧
        remaining_enemies st'
          = st'.current_stage.enemy_row_count * st'.current_stage.enemy_column_count) ∧
      (R.well_formed →
        (stage_init gs st.stage_co st.current_stage).2.enemy_row_count
          * (stage_init gs st.stage_co st.current_stage).2.enemy_column_count < 2 ^ 32 →
        ∃ st', game_state_update gs E R F st = .ok st')) ∧
    (remaining_enemies st ≠ 0 →
      game_state_update gs E R F st
        = (internal_state_update_gameplay gs E R F (game_state_update_screens F st) >>=
            fun s => pure { s with state_co := 2 }) ∧
      ∀ st', game_state_update gs E R F st = .ok st' →
        st'.state_co = 2 ∧ st'.stage_co = st.stage_co ∧ st'.current_stage = st.current_stage) := by
  obtain ⟨f1, f2, f3, f4, f5⟩ := game_state_update_screens_fields F st
  have hrem : remaining_enemies (game_state_update_screens F st) = remaining_enemies st := by
    unfold remaining_enemies
    rw [f4, f5]
  have hstep := game_state_update_checks gs E R F st hov hco
  constructor
  · intro hzero
    have hloop : game_state_update gs E R F st
        = (game_state_update_new_wave gs R F.time (game_state_update_screens F st) >>=
            fun s => pure { s with state_co := 1 }) := by
      rw [hstep]
      unfold game_state_update_loop
      rw [if_pos (hrem.trans hzero)]
    have hk : (game_state_update_screens F st).kamikaze_enemies.positions.length = 0 := by
      rw [f5]
      unfold remaining_enemies at hzero
      omega
    refine ⟨hloop, ?_, ?_⟩
    · intro st' h
      rw [hloop] at h
      obtain ⟨s1, h1, h⟩ := bind_eq_ok h
      simp only [pure_eq_ok, Except.ok.injEq] at h
      subst h
      have hw := new_wave_result gs R F.time _ _ hk h1
      rw [f2, f3] at hw
      exact ⟨rfl, hw.1, hw.2⟩
    · intro hR hsize
      rw [hloop]
      unfold game_state_update_new_wave
      dsimp only
      rw [f2, f3]
      obtain ⟨s1, h1⟩ := init_enemies_total gs R F.time
        { game_state_update_screens F st with
          stage_co := (stage_init gs st.stage_co st.current_stage).1
          current_stage := (stage_init gs st.stage_co st.current_stage).2 } hR
        (by
          show grid_enemies (game_state_update_screens F st) = 0
          unfold grid_enemies
          rw [f4]
          unfold remaining_enemies at hzero
          omega)
        hsize
      rw [h1]
      exact ⟨_, rfl⟩
  · intro hne
    have hloop : game_state_update gs E R F st
        = (internal_state_update_gameplay gs E R F (game_state_update_screens F st) >>=
            fun s => pure { s with state_co := 2 }) := by
      rw [hstep]
      unfold game_state_update_loop
      rw [if_neg (fun h => hne (hrem.symm.trans h))]
    refine ⟨hloop, ?_⟩
    intro st' h
    rw [hloop] at h
    obtain ⟨s1, h1, h⟩ := bind_eq_ok h
    simp only [pure_eq_ok, Except.ok.injEq] at h
    subst h
    have hs := internal_state_update_gameplay_stage gs E R F _ _ h1
    simp only [GameState.stage_fields, Prod.mk.injEq] at hs
    exact ⟨rfl, hs.1.trans f2, hs.2.trans f3⟩
theorem overlay_gates_orchestrator_witness :
    (paused_state.current_screen &&& GameScreen.PAUSE_MENU ≠ 0 ∨
      paused_state.current_screen &&& GameScreen.SETTINGS_MENU ≠ 0) ∧
    game_state_update wave_settings demo_engine demo_rng quiet_frame paused_state
      = .ok paused_state :=
  ⟨Or.inl (by decide),
    overlay_gates_orchestrator wave_settings demo_engine demo_rng quiet_frame paused_state
      (Or.inl (by decide)) (fun _ => rfl) (fun _ => rfl)⟩

theorem demo_rng_well_formed : demo_rng.well_formed :=
  ⟨fun _ => ⟨le_refl 0, zero_le_one⟩, fun _ l => List.Perm.refl l⟩

theorem orchestrator_wave_clear_step_witness :
    (remaining_enemies cleared_state = 0 ∧
      ∃ st', game_state_update wave_settings demo_engine demo_rng quiet_frame cleared_state
          = .ok st' ∧
        st'.state_co = 1 ∧
        (st'.stage_co, st'.current_stage)
          = stage_init wave_settings cleared_state.stage_co cleared_state.current_stage ∧
        remaining_enemies st'
          = st'.current_stage.enemy_row_count * st'.current_stage.enemy_column_count ∧
        remaining_enemies st' = 6) ∧
    (remaining_enemies playing_state ≠ 0 ∧
      ∃ st', game_state_update wave_settings demo_engine demo_rng quiet_frame playing_state
          = .ok st' ∧
        st'.state_co = 2 ∧ st'.stage_co = playing_state.stage_co ∧
        st'.current_stage = playing_state.current_stage ∧ remaining_enemies st' = 1) := by
  have hc := orchestrator_wave_clear_step wave_settings demo_engine demo_rng quiet_frame
    cleared_state (by decide!) (Or.inr rfl)
  have hp := orchestrator_wave_clear_step wave_settings demo_engine demo_rng quiet_frame
    playing_state (by decide!) (Or.inr rfl)
  constructor
  · obtain ⟨-, hall, hex⟩ := hc.1 (by decide)
    obtain ⟨st', h⟩ := hex demo_rng_well_formed (by decide!)
    have hn : (game_state_update wave_settings demo_engine demo_rng quiet_frame cleared_state >>=
        fun s => pure (remaining_enemies s)) = .ok 6 := by decide!
    rw [h] at hn
    simp only [ok_bind, pure_eq_ok, Except.ok.injEq] at hn
    obtain ⟨h1, h2, h3⟩ := hall st' h
    exact ⟨by decide, st', h, h1, h2, h3, hn⟩
  · obtain ⟨-, hall⟩ := hp.2 (by decide)
    have hn : (game_state_update wave_settings demo_engine demo_rng quiet_frame playing_state >>=
        fun s => pure (remaining_enemies s)) = .ok 1 := by decide!
    obtain ⟨st', h, hr⟩ := bind_eq_ok hn
    simp only [pure_eq_ok, Except.ok.injEq] at hr
    obtain ⟨h1, h2, h3⟩ := hall st' h
    exact ⟨by decide, st', h, h1, h2, h3, hr⟩

/-! ## Spawn counts, reduce steps, enemy indices, animation stepping -/

theorem stage_adjustment_spec_spawn_counts (gs : GameSettings) (k : Nat) (s : StageSettings) :
    (stage_adjustment_spec gs k s).enemy_spawn_counts = s.enemy_spawn_counts := by
  rcases k with _ | _ | _ | _ | _ <;> rfl

/-- C28: a call of `stage_init` returns at the suspension it reaches, so after
the setup and any number `n` of advances the stage sequence is suspended at one
of its six yields, never behind the adjustment loop where the increment
statements stand, and the per-archetype `enemy_spawn_counts` are the
`enemy_start_spawn_counts` of the settings. -/
theorem stage_spawn_counts_frozen (gs : GameSettings) (stage : StageSettings) (n : Nat) :
    (stage_run gs stage n).2.enemy_spawn_counts = gs.enemy_start_spawn_counts ∧
    1 ≤ (stage_run gs stage n).1 ∧ (stage_run gs stage n).1 ≤ 6 := by
  constructor
  · induction n with
    | zero => rfl
    | succ m ih =>
      rw [stage_run_succ_adjustment]
      exact (stage_adjustment_spec_spawn_counts gs _ _).trans ih
  · rw [stage_run_resume_point]
    split <;> omega

/-- C30: for every archetype `t` and every random value `r` in `[0, 1]` the
animation index chosen by `get_random_enemy_index_of_type` lies in the range of
`t` (11..12 for FLYING, 15..17 for DROPPER, 13..14 for KAMIKAZE) and
`get_enemy_type_from_animation_index` maps it back to `t`; so with a random
source that draws from `[0, 1]` and shuffles by permuting, every index that
`fill_enemy_list` puts in the enemy list is mapped to an archetype. -/
theorem enemy_type_round_trip (t : EnemyType) (r : ℚ) (h0 : 0 ≤ r) (h1 : r ≤ 1) :
    (enemy_index_range t).1 ≤ get_random_enemy_index_of_type t r ∧
    get_random_enemy_index_of_type t r ≤ (enemy_index_range t).2 ∧
    get_enemy_type_from_animation_index (get_random_enemy_index_of_type t r) = .ok t ∧
    ∀ (R : Rng) (st : GameState) (num : Nat), R.well_formed →
      ∀ e ∈ (fill_enemy_list R st num).enemy_list,
        ∃ ty, get_enemy_type_from_animation_index e = .ok ty := by
  refine ⟨?_, ?_, get_random_enemy_index_round_trip t r h0 h1,
    fun R st num hR => (fill_enemy_list_spec R hR st num).1⟩
  · cases t
    · have h : ((12 : ℚ) - 11) * r + 1 / 2 = r + 1 / 2 := by ring
      unfold get_random_enemy_index_of_type
      dsimp only
      rw [h]
      rcases floor_half_cases r h0 h1 with h | h <;> rw [h] <;> decide
    · have h : ((17 : ℚ) - 15) * r + 1 / 2 = 2 * r + 1 / 2 := by ring
      unfold get_random_enemy_index_of_type
      dsimp only
      rw [h]
      rcases floor_two_half_cases r h0 h1 with h | h | h <;> rw [h] <;> decide
    · have h : ((14 : ℚ) - 13) * r + 1 / 2 = r + 1 / 2 := by ring
      unfold get_random_enemy_index_of_type
      dsimp only
      rw [h]
      rcases floor_half_cases r h0 h1 with h | h <;> rw [h] <;> decide
  · cases t
    · have h : ((12 : ℚ) - 11) * r + 1 / 2 = r + 1 / 2 := by ring
      unfold get_random_enemy_index_of_type
      dsimp only
      rw [h]
      rcases floor_half_cases r h0 h1 with h | h <;> rw [h] <;> decide
    · have h : ((17 : ℚ) - 15) * r + 1 / 2 = 2 * r + 1 / 2 := by ring
      unfold get_random_enemy_index_of_type
      dsimp only
      rw [h]
      rcases floor_two_half_cases r h0 h1 with h | h | h <;> rw [h] <;> decide
    · have h : ((14 : ℚ) - 13) * r + 1 / 2 = r + 1 / 2 := by ring
      unfold get_random_enemy_index_of_type
      dsimp only
      rw [h]
      rcases floor_half_cases r h0 h1 with h | h <;> rw [h] <;> decide

theorem enemy_type_round_trip_witness :
    (0 : ℚ) ≤ 3 / 4 ∧ (3 / 4 : ℚ) ≤ 1 ∧
    ((enemy_index_range .DROPPER).1 ≤ get_random_enemy_index_of_type .DROPPER (3 / 4) ∧
    get_random_enemy_index_of_type .DROPPER (3 / 4) ≤ (enemy_index_range .DROPPER).2 ∧
    get_enemy_type_from_animation_index (get_random_enemy_index_of_type .DROPPER (3 / 4))
      = .ok .DROPPER ∧
    ∀ (R : Rng) (st : GameState) (num : Nat), R.well_formed →
      ∀ e ∈ (fill_enemy_list R st num).enemy_list,
        ∃ ty, get_enemy_type_from_animation_index e = .ok ty) :=
  ⟨by norm_num, by norm_num, enemy_type_round_trip .DROPPER (3 / 4) (by norm_num) (by norm_num)⟩
/-- C24: for a CYCLE animation with `frameCount ≥ 1` frames stepped at a time
`now` not before `start_time`, with `raw = floor((now - start_time) *
frame_rate)`, a positive frame rate and a frame count and a loop count that fit
32 bits,
`animation_step_instance` sets `current_frame_index = raw mod frameCount` and
`loop_count = raw div frameCount` and leaves `start_time` as it is. -/
theorem animation_step_cycle (animation : Animation2D) (inst : Instance) (now : ℚ)
    (hloop : animation.loop_type = .CYCLE) (hframes : 1 ≤ animation.sprites.length)
    (hcount : animation.sprites.length < 2 ^ 32)
    (hrate : 0 < animation.frame_rate) (hnow : inst.start_time ≤ now)
    (hfit : ⌊(now - inst.start_time) * animation.frame_rate⌋ / animation.sprites.length
      < 2 ^ 32) :
    animation_step_instance animation inst now
      = .ok { inst with
          current_frame_index :=
            Int.toNat (⌊(now - inst.start_time) * animation.frame_rate⌋
              % animation.sprites.length)
          loop_count :=
            Int.toNat (⌊(now - inst.start_time) * animation.frame_rate⌋
              / animation.sprites.length) } := by
  have hraw : 0 ≤ ⌊(now - inst.start_time) * animation.frame_rate⌋ :=
    Int.floor_nonneg.mpr (mul_nonneg (by linarith) (le_of_lt hrate))
  have hn : (0 : ℤ) < animation.sprites.length := by exact_mod_cast hframes
  have hne : ¬ ((animation.sprites.length : ℤ) = 0) := by omega
  unfold animation_step_instance
  simp only [hloop, hne, if_false]
  generalize ⌊(now - inst.start_time) * animation.frame_rate⌋ = raw at hraw hfit
  have hm0 : 0 ≤ raw % (animation.sprites.length : ℤ) := Int.emod_nonneg _ (by omega)
  have hm1 : raw % (animation.sprites.length : ℤ) < animation.sprites.length :=
    Int.emod_lt_of_pos _ hn
  have hm2 : raw % (animation.sprites.length : ℤ) < 2 ^ 32 := by
    have hc : (animation.sprites.length : ℤ) < 2 ^ 32 := by exact_mod_cast hcount
    omega
  have hd0 : 0 ≤ raw / (animation.sprites.length : ℤ) := Int.ediv_nonneg hraw (by omega)
  rw [to_u32_of_range _ hm0 hm2, to_u32_of_range _ hd0 hfit]

theorem animation_step_cycle_witness :
    animation_step_instance four_frames ⟨3, 10, 7⟩ 10 = .ok ⟨0, 10, 0⟩ ∧
    animation_step_instance four_frames ⟨3, 10, 7⟩ (10 + 49 / 100) = .ok ⟨0, 10, 0⟩ ∧
    animation_step_instance four_frames ⟨3, 10, 7⟩ (10 + 1 / 2) = .ok ⟨1, 10, 0⟩ ∧
    animation_step_instance four_frames ⟨3, 10, 7⟩ (10 + 2) = .ok ⟨0, 10, 1⟩ := by
  have h1 := animation_step_cycle four_frames ⟨3, 10, 7⟩ 10 rfl (by decide) (by decide)
    (by decide!) (by decide!) (by decide!)
  have h2 := animation_step_cycle four_frames ⟨3, 10, 7⟩ (10 + 49 / 100) rfl (by decide)
    (by decide) (by decide!) (by decide!) (by decide!)
  have h3 := animation_step_cycle four_frames ⟨3, 10, 7⟩ (10 + 1 / 2) rfl (by decide)
    (by decide) (by decide!) (by decide!) (by decide!)
  have h4 := animation_step_cycle four_frames ⟨3, 10, 7⟩ (10 + 2) rfl (by decide) (by decide)
    (by decide!) (by decide!) (by decide!)
  exact ⟨h1.trans (by decide!), h2.trans (by decide!), h3.trans (by decide!),
    h4.trans (by decide!)⟩

/-! ## The pickup deck -/

theorem get_random_pickup_type_in_deck (R : Rng) (st : GameState)
    (h : st.pickup_deck_index < st.pickup_deck.length) :
    get_random_pickup_type R st
      = .ok (st.pickup_deck[st.pickup_deck_index],
          { st with pickup_deck_index := st.pickup_deck_index + 1 }) := by
  have h1 : ¬ st.pickup_deck_index ≥ st.pickup_deck.length := by omega
  simp only [get_random_pickup_type, if_neg h1, read_of_lt _ _ h, ok_bind, pure_eq_ok]

theorem get_random_pickup_type_exhausted (R : Rng) (st : GameState)
    (h : st.pickup_deck.length ≤ st.pickup_deck_index)
    (h0 : 0 < (R.shuffle_pickups st.rng st.pickup_deck).length) :
    get_random_pickup_type R st
      = .ok ((R.shuffle_pickups st.rng st.pickup_deck)[0],
          { st with pickup_deck_index := 1
                    pickup_deck := R.shuffle_pickups st.rng st.pickup_deck
                    rng := st.rng + 1 }) := by
  have h1 : st.pickup_deck_index ≥ st.pickup_deck.length := h
  simp only [get_random_pickup_type, if_pos h1, read_of_lt _ 0 h0, ok_bind, pure_eq_ok]

theorem draw_pickups_in_deck (R : Rng) :
    ∀ (k : Nat) (st : GameState), st.pickup_deck_index + k ≤ st.pickup_deck.length →
      draw_pickups R k st
        = .ok ((st.pickup_deck.drop st.pickup_deck_index).take k,
            { st with pickup_deck_index := st.pickup_deck_index + k }) := by
  intro k
  induction k with
  | zero => intro st _; simp [draw_pickups]
  | succ k ih =>
    intro st h
    have h1 : st.pickup_deck_index < st.pickup_deck.length := by omega
    have h2 := ih { st with pickup_deck_index := st.pickup_deck_index + 1 }
      (by show st.pickup_deck_index + 1 + k ≤ st.pickup_deck.length; omega)
    simp only [draw_pickups, get_random_pickup_type_in_deck R st h1, ok_bind, h2, pure_eq_ok]
    congr 2
    · rw [List.drop_eq_getElem_cons h1, List.take_succ_cons]
    · show ({ st with pickup_deck_index := st.pickup_deck_index + 1 + k } : GameState)
        = { st with pickup_deck_index := st.pickup_deck_index + (k + 1) }
      rw [Nat.add_assoc, Nat.add_comm 1 k]

theorem get_random_pickup_type_index_le (R : Rng) (st : GameState)
    (hperm : ∀ n l, (R.shuffle_pickups n l).Perm l)
    (hN : 0 < st.pickup_deck.length) (hle : st.pickup_deck_index ≤ st.pickup_deck.length) :
    ∃ card st', get_random_pickup_type R st = .ok (card, st') ∧
      st'.pickup_deck.Perm st.pickup_deck ∧ st'.pickup_deck_index ≤ st'.pickup_deck.length := by
  by_cases h : st.pickup_deck_index < st.pickup_deck.length
  · exact ⟨_, _, get_random_pickup_type_in_deck R st h, List.Perm.refl _, h⟩
  · have h0 : 0 < (R.shuffle_pickups st.rng st.pickup_deck).length := by
      rw [(hperm _ _).length_eq]; exact hN
    exact ⟨_, _, get_random_pickup_type_exhausted R st (by omega) h0, hperm _ _, h0⟩

theorem draw_pickups_index_le (R : Rng) (hperm : ∀ n l, (R.shuffle_pickups n l).Perm l) :
    ∀ (k : Nat) (st : GameState), 0 < st.pickup_deck.length →
      st.pickup_deck_index ≤ st.pickup_deck.length →
      ∃ cards st', draw_pickups R k st = .ok (cards, st') ∧ cards.length = k ∧
        st'.pickup_deck.Perm st.pickup_deck ∧
        st'.pickup_deck_index ≤ st'.pickup_deck.length := by
  intro k
  induction k with
  | zero => intro st _ hle; exact ⟨[], st, rfl, rfl, List.Perm.refl _, hle⟩
  | succ k ih =>
    intro st hN hle
    obtain ⟨card, st1, h1, hp1, hl1⟩ := get_random_pickup_type_index_le R st hperm hN hle
    obtain ⟨cards, st2, h2, hc2, hp2, hl2⟩ := ih st1 (by rw [hp1.length_eq]; exact hN) hl1
    refine ⟨card :: cards, st2, ?_, by simp [hc2], hp2.trans hp1, hl2⟩
    simp only [draw_pickups, h1, ok_bind, h2, pure_eq_ok]

/-- C21: with a deck of N > 0 cards, the draw index at 0 and a shuffle that
permutes the deck, N consecutive calls of `get_random_pickup_type` return the
cards of the deck, each position once (so the drawn multiset is the deck's), and
leave the deck and the shuffle counter untouched with the index at N; the next
call reshuffles, returns the card at index 0 of the reshuffled deck and leaves
the index at 1; after any number of calls the index is at most N. -/
theorem deck_draw_cycle (R : Rng) (st : GameState)
    (hperm : ∀ n l, (R.shuffle_pickups n l).Perm l)
    (hN : 0 < st.pickup_deck.length) (h0 : st.pickup_deck_index = 0) :
    (∃ cards st', draw_pickups R st.pickup_deck.length st = .ok (cards, st') ∧
      cards = st.pickup_deck ∧ Multiset.ofList cards = Multiset.ofList st.pickup_deck ∧
      st'.pickup_deck = st.pickup_deck ∧ st'.rng = st.rng ∧
      st'.pickup_deck_index = st.pickup_deck.length ∧
      ∃ card st'', get_random_pickup_type R st' = .ok (card, st'') ∧
        st''.pickup_deck = R.shuffle_pickups st.rng st.pickup_deck ∧
        st''.rng = st.rng + 1 ∧
        st''.pickup_deck[0]? = some card ∧ st''.pickup_deck_index = 1) ∧
    (∀ k, k ≤ st.pickup_deck.length → ∃ cards st', draw_pickups R k st = .ok (cards, st') ∧
      cards = st.pickup_deck.take k ∧ st'.pickup_deck = st.pickup_deck ∧ st'.rng = st.rng) ∧
    ∀ k, ∃ cards st', draw_pickups R k st = .ok (cards, st') ∧
      st'.pickup_deck.length = st.pickup_deck.length ∧
      st'.pickup_deck_index ≤ st.pickup_deck.length := by
  refine ⟨?_, ?_, ?_⟩
  · have h := draw_pickups_in_deck R st.pickup_deck.length st (by omega)
    rw [h0, List.drop_zero, List.take_length, Nat.zero_add] at h
    refine ⟨_, _, h, rfl, rfl, rfl, rfl, rfl, ?_⟩
    have h1 : 0 < (R.shuffle_pickups st.rng st.pickup_deck).length := by
      rw [(hperm _ _).length_eq]; exact hN
    have h2 := get_random_pickup_type_exhausted R
      { st with pickup_deck_index := st.pickup_deck.length } (Nat.le_refl _) h1
    exact ⟨_, _, h2, rfl, rfl, List.getElem?_eq_getElem h1, rfl⟩
  · intro k hk
    have h := draw_pickups_in_deck R k st (by omega)
    rw [h0, List.drop_zero] at h
    exact ⟨_, _, h, rfl, rfl, rfl⟩
  · intro k
    obtain ⟨cards, st', h, _, hp, hl⟩ := draw_pickups_index_le R hperm k st hN (by omega)
    exact ⟨cards, st', h, hp.length_eq, by rw [← hp.length_eq]; exact hl⟩

theorem deck_draw_cycle_witness :
    draw_pickups reversing_rng 3 deck_state
        = .ok ([.HEALTH, .SKULL, .POWER_SHOT], { deck_state with pickup_deck_index := 3 }) ∧
      get_random_pickup_type reversing_rng { deck_state with pickup_deck_index := 3 }
        = .ok (.POWER_SHOT, { deck_state with
            pickup_deck := [.POWER_SHOT, .SKULL, .HEALTH]
            pickup_deck_index := 1
            rng := 1 }) ∧
      ((∃ cards st', draw_pickups reversing_rng deck_state.pickup_deck.length deck_state
            = .ok (cards, st') ∧
          cards = deck_state.pickup_deck ∧
          Multiset.ofList cards = Multiset.ofList deck_state.pickup_deck ∧
          st'.pickup_deck = deck_state.pickup_deck ∧ st'.rng = deck_state.rng ∧
          st'.pickup_deck_index = deck_state.pickup_deck.length ∧
          ∃ card st'', get_random_pickup_type reversing_rng st' = .ok (card, st'') ∧
            st''.pickup_deck = reversing_rng.shuffle_pickups deck_state.rng deck_state.pickup_deck ∧
            st''.rng = deck_state.rng + 1 ∧
            st''.pickup_deck[0]? = some card ∧ st''.pickup_deck_index = 1) ∧
        (∀ k, k ≤ deck_state.pickup_deck.length → ∃ cards st',
          draw_pickups reversing_rng k deck_state = .ok (cards, st') ∧
          cards = deck_state.pickup_deck.take k ∧ st'.pickup_deck = deck_state.pickup_deck ∧
          st'.rng = deck_state.rng) ∧
        ∀ k, ∃ cards st', draw_pickups reversing_rng k deck_state = .ok (cards, st') ∧
          st'.pickup_deck.length = deck_state.pickup_deck.length ∧
          st'.pickup_deck_index ≤ deck_state.pickup_deck.length) :=
  ⟨rfl, rfl, deck_draw_cycle reversing_rng deck_state (fun _ l => List.reverse_perm l)
    (by decide) rfl⟩

/-! ## The assertions of `init_enemies` -/

theorem game_state_reset_factors (gs : GameSettings) (R : Rng) (time : ℚ) (st : GameState) :
    game_state_reset gs R time st
      = (game_state_reset_prepare gs time st >>= fun s =>
          init_enemies gs R time s >>= fun s' =>
            pure { s' with state_co := 0, new_high_score := false }) := by
  unfold game_state_reset game_state_reset_prepare
  dsimp only
  cases DynamicArray.read st.anims 0 with
  | error e => rfl
  | ok anim =>
    simp only [ok_bind]
    cases DynamicArray.read anim.sprites 0 with
    | error e => rfl
    | ok sprite => rfl

theorem game_state_reset_prepare_pools (gs : GameSettings) (time : ℚ) (st s : GameState)
    (h : game_state_reset_prepare gs time st = .ok s) :
    (s.enemies.get .FLYING).positions.length = 0 ∧
    (s.enemies.get .DROPPER).positions.length = 0 ∧
    (s.enemies.get .KAMIKAZE).positions.length = 0 ∧
    s.kamikaze_enemies.positions.length = 0 := by
  unfold game_state_reset_prepare at h
  obtain ⟨anim, -, h⟩ := bind_eq_ok h
  obtain ⟨sprite, -, h⟩ := bind_eq_ok h
  simp only [pure_eq_ok, Except.ok.injEq] at h
  subst h
  exact ⟨rfl, rfl, rfl, rfl⟩

theorem init_enemies_assertion (gs : GameSettings) (R : Rng) (time : ℚ) (s : GameState)
    (h : grid_enemies s ≠ 0) : init_enemies gs R time s = .error .assertion_failed := by
  unfold init_enemies
  by_cases hF : (s.enemies.get .FLYING).positions.length ≠ 0
  · rw [if_pos hF]; rfl
  by_cases hD : (s.enemies.get .DROPPER).positions.length ≠ 0
  · rw [if_neg hF, if_pos hD]; rfl
  by_cases hK : (s.enemies.get .KAMIKAZE).positions.length ≠ 0
  · rw [if_neg hF, if_neg hD, if_pos hK]; rfl
  · exfalso
    apply h
    unfold grid_enemies
    push_neg at hF hD hK
    omega

/-- C23: `init_enemies` is called from two places.  `game_state_reset` calls it
on the state left by its own statements, which have cleared the three archetype
pools; the Orchestrator in `game_state_update` calls it only in the branch
`remaining_enemies == 0`, on the state whose pools are those counted, so all of
them are empty.  The assertions of `init_enemies` fail on a state with an enemy
in one of the three pools, and at both call sites no pool holds one; with a
well-formed random source and a grid that fits 32 bits the call returns. -/
theorem new_wave_assertion_unreachable (gs : GameSettings) (E : Engine) (R : Rng) (F : Frame)
    (time : ℚ) (st : GameState) :
    (game_state_reset gs R time st
        = (game_state_reset_prepare gs time st >>= fun s =>
            init_enemies gs R time s >>= fun s' =>
              pure { s' with state_co := 0, new_high_score := false }) ∧
      ∀ s, game_state_reset_prepare gs time st = .ok s →
        (s.enemies.get .FLYING).positions.length = 0 ∧
        (s.enemies.get .DROPPER).positions.length = 0 ∧
        (s.enemies.get .KAMIKAZE).positions.length = 0 ∧
        (R.well_formed →
          s.current_stage.enemy_row_count * s.current_stage.enemy_column_count < 2 ^ 32 →
          ∃ s', init_enemies gs R time s = .ok s')) ∧
    (game_state_update_loop gs E R F st
        = (if remaining_enemies st = 0 then
            init_enemies gs R F.time { st with
              stage_co := (stage_init gs st.stage_co st.current_stage).1
              current_stage := (stage_init gs st.stage_co st.current_stage).2 } >>= fun s =>
                pure { s with state_co := 1 }
          else
            internal_state_update_gameplay gs E R F st >>= fun s =>
              pure { s with state_co := 2 }) ∧
      (remaining_enemies st = 0 →
        (st.enemies.get .FLYING).positions.length = 0 ∧
        (st.enemies.get .DROPPER).positions.length = 0 ∧
        (st.enemies.get .KAMIKAZE).positions.length = 0 ∧
        (R.well_formed →
          (stage_init gs st.stage_co st.current_stage).2.enemy_row_count
            * (stage_init gs st.stage_co st.current_stage).2.enemy_column_count < 2 ^ 32 →
          ∃ s', init_enemies gs R F.time { st with
            stage_co := (stage_init gs st.stage_co st.current_stage).1
            current_stage := (stage_init gs st.stage_co st.current_stage).2 } = .ok s'))) ∧
    ∀ s, ((s.enemies.get .FLYING).positions.length ≠ 0 ∨
        (s.enemies.get .DROPPER).positions.length ≠ 0 ∨
        (s.enemies.get .KAMIKAZE).positions.length ≠ 0) →
      init_enemies gs R time s = .error .assertion_failed := by
  refine ⟨⟨game_state_reset_factors gs R time st, ?_⟩, ⟨rfl, ?_⟩, ?_⟩
  · intro s hs
    obtain ⟨h1, h2, h3, -⟩ := game_state_reset_prepare_pools gs time st s hs
    refine ⟨h1, h2, h3, fun hR hsize => init_enemies_total gs R time s hR ?_ hsize⟩
    unfold grid_enemies
    omega
  · intro h
    unfold remaining_enemies at h
    refine ⟨by omega, by omega, by omega, fun hR hsize => init_enemies_total gs R F.time _ hR ?_ hsize⟩
    show (st.enemies.get .FLYING).positions.length + (st.enemies.get .DROPPER).positions.length
      + (st.enemies.get .KAMIKAZE).positions.length = 0
    omega
  · intro s h
    apply init_enemies_assertion
    unfold grid_enemies
    omega

/-! ## Conservation of the grid slots -/

theorem slot_count_eq_length (st : GameState) : slot_count st = (all_slots st).length := by
  simp only [slot_count, all_slots, List.length_append]

theorem slots_moved_perm (slots : PerType (List Vector2)) (t : EnemyType) (v : Vector2)
    (r empty : List Vector2) (h : (v :: r).Perm (slots.get t)) :
    (((slots.set t r).get .FLYING) ++ ((slots.set t r).get .DROPPER)
        ++ ((slots.set t r).get .KAMIKAZE) ++ append empty v).Perm
      (slots.get .FLYING ++ slots.get .DROPPER ++ slots.get .KAMIKAZE ++ empty) := by
  rw [List.perm_iff_count]
  intro a
  have hc := h.count_eq a
  cases t <;>
    simp only [PerType.set, PerType.get, append, List.count_append, List.count_cons,
      List.count_nil] at hc ⊢ <;> omega

theorem set_perm {α : Type} [DecidableEq α] (l : List α) (i : Nat) (x old : α)
    (h : l[i]? = some old) : (old :: l.set i x).Perm (x :: l) := by
  induction l generalizing i with
  | nil => simp at h
  | cons a l ih =>
    cases i with
    | zero =>
      simp only [List.getElem?_cons_zero, Option.some.injEq] at h
      subst h
      simp only [List.set_cons_zero]
      exact List.Perm.swap _ _ _
    | succ i =>
      simp only [List.getElem?_cons_succ] at h
      simp only [List.set_cons_succ]
      exact (List.Perm.swap _ _ _).trans (((ih i h).cons a).trans (List.Perm.swap _ _ _))

theorem remove_enemy_slots (st st' : GameState) (t : EnemyType) (i : Nat) (time : ℚ)
    (h : remove_enemy st t i time = .ok st') :
    (all_slots st').Perm (all_slots st) ∧ st'.current_stage = st.current_stage := by
  have hs := congrArg Prod.snd (remove_enemy_stage st t i time st' h)
  refine ⟨?_, hs⟩
  unfold remove_enemy at h
  dsimp only at h
  obtain ⟨enemy_position, -, h⟩ := bind_eq_ok h
  obtain ⟨enemies1, -, h⟩ := bind_eq_ok h
  obtain ⟨r, hr, h⟩ := bind_eq_ok h
  simp only [pure_eq_ok, Except.ok.injEq] at h
  subst h
  have hi : i < (st.enemy_slots.get t).length := by
    by_contra hcon
    rw [remove_swap_error _ _ (by omega)] at hr
    cases hr
  obtain ⟨v, r', hr', -, hperm, -, -⟩ := remove_swap_index_spec _ _ hi
  rw [hr'] at hr
  cases hr
  have key := slots_moved_perm st.enemy_slots t v r' st.empty_slots hperm
  unfold spawn_explosion all_slots
  dsimp only
  split <;> exact key

theorem enemy_kamikaze_slots (delta_time time : ℚ) (st st' : GameState)
    (h : enemy_kamikaze delta_time time st = .ok st') :
    (all_slots st').Perm (all_slots st) ∧ st'.current_stage = st.current_stage := by
  have hs := congrArg Prod.snd (enemy_kamikaze_stage delta_time time st st' h)
  refine ⟨?_, hs⟩
  unfold enemy_kamikaze at h
  dsimp only at h
  split at h
  · obtain ⟨p, -, h⟩ := bind_eq_ok h
    obtain ⟨a, -, h⟩ := bind_eq_ok h
    obtain ⟨r, hr, h⟩ := bind_eq_ok h
    obtain ⟨pool, -, h⟩ := bind_eq_ok h
    simp only [pure_eq_ok, Except.ok.injEq] at h
    subst h
    have hr2 : remove_swap (st.enemy_slots.get .KAMIKAZE)
        ((st.enemies.get .KAMIKAZE).positions.length - 1) = .ok r := by
      revert hr
      split <;> exact id
    have hi : (st.enemies.get .KAMIKAZE).positions.length - 1
        < (st.enemy_slots.get .KAMIKAZE).length := by
      by_contra hcon
      rw [remove_swap_error _ _ (by omega)] at hr2
      cases hr2
    obtain ⟨v, r', hr', -, hperm, -, -⟩ := remove_swap_index_spec _ _ hi
    rw [hr'] at hr2
    cases hr2
    have key := slots_moved_perm st.enemy_slots .KAMIKAZE v r' st.empty_slots hperm
    unfold all_slots
    dsimp only
    split <;> exact key
  · simp only [pure_eq_ok, Except.ok.injEq] at h
    subst h
    exact List.Perm.refl _

theorem enemy_rearrangement_arrays (R : Rng) (delta_time : ℚ) (st st' : GameState)
    (h : enemy_rearrangement R delta_time st = .ok st') :
    (st'.enemy_slots = st.enemy_slots ∧ st'.empty_slots = st.empty_slots) ∨
    ∃ idx old e0 rest, st.empty_slots = e0 :: rest ∧
      (st.enemy_slots.get .DROPPER)[idx]? = some old ∧
      st'.enemy_slots = st.enemy_slots.set .DROPPER ((st.enemy_slots.get .DROPPER).set idx e0) ∧
      st'.empty_slots = rest ++ [old] := by
  unfold enemy_rearrangement at h
  dsimp only at h
  split at h
  · obtain ⟨old_slot, ho, h⟩ := bind_eq_ok h
    obtain ⟨r, hr, h⟩ := bind_eq_ok h
    simp only [pure_eq_ok, Except.ok.injEq] at h
    subst h
    right
    unfold remove at hr
    cases he : st.empty_slots with
    | nil => rw [he] at hr; simp at hr
    | cons e0 rest =>
      rw [he] at hr
      simp only [List.getElem?_cons_zero, List.eraseIdx_cons_zero, Except.ok.injEq] at hr
      subst hr
      unfold DynamicArray.read at ho
      split at ho
      · rename_i v hv
        simp only [Except.ok.injEq] at ho
        subst ho
        exact ⟨_, _, _, _, rfl, hv, rfl, rfl⟩
      · cases ho
  · simp only [pure_eq_ok, Except.ok.injEq] at h
    subst h
    exact Or.inl ⟨rfl, rfl⟩

theorem enemy_rearrangement_slots (R : Rng) (delta_time : ℚ) (st st' : GameState)
    (h : enemy_rearrangement R delta_time st = .ok st') :
    (all_slots st').Perm (all_slots st) ∧ st'.empty_slots.length = st.empty_slots.length ∧
      st'.current_stage = st.current_stage := by
  have hs := congrArg Prod.snd (enemy_rearrangement_stage R delta_time st st' h)
  rcases enemy_rearrangement_arrays R delta_time st st' h with
    ⟨h1, h2⟩ | ⟨idx, old, e0, rest, he, hv, h1, h2⟩
  · refine ⟨?_, by rw [h2], hs⟩
    unfold all_slots
    rw [h1, h2]
  · refine ⟨?_, by rw [h2, he]; simp, hs⟩
    have hp := set_perm _ _ e0 _ hv
    unfold all_slots
    rw [h1, h2, he]
    rw [List.perm_iff_count] at hp ⊢
    intro a
    have hc := hp a
    simp only [PerType.set, PerType.get, List.count_append, List.count_cons,
      List.count_nil] at hc ⊢
    omega

theorem slots_total_add (slots : PerType (List Vector2)) (ty : EnemyType) (p : Vector2) :
    ((slots.set ty (append (slots.get ty) p)).get .FLYING).length
      + ((slots.set ty (append (slots.get ty) p)).get .DROPPER).length
      + ((slots.set ty (append (slots.get ty) p)).get .KAMIKAZE).length
      = (slots.get .FLYING).length + (slots.get .DROPPER).length
        + (slots.get .KAMIKAZE).length + 1 := by
  cases ty <;>
    simp only [PerType.set, PerType.get, append, List.length_append,
      List.length_singleton] <;> omega

theorem init_enemies_cells_slots (gs : GameSettings) (time : ℚ) (x_offset : ℚ) (y : Nat) :
    ∀ (n x : Nat) (st st' : GameState) (position position' : Vector2),
      init_enemies_cells gs time x_offset y n x (st, position) = .ok (st', position') →
      grid_slots st' = grid_slots st + n := by
  intro n
  induction n with
  | zero =>
    intro x st st' position position' h
    simp only [init_enemies_cells, Except.ok.injEq, Prod.mk.injEq] at h
    rw [h.1]
    rfl
  | succ n ih =>
    intro x st st' position position' h
    unfold init_enemies_cells at h
    obtain ⟨random_enemy, -, h⟩ := bind_eq_ok h
    obtain ⟨ty, -, h⟩ := bind_eq_ok h
    have k1 := ih _ _ _ _ _ h
    rw [k1]
    simp only [grid_slots]
    rw [slots_total_add]
    omega

theorem init_enemies_rows_slots (gs : GameSettings) (time : ℚ) (x_offset x_start : ℚ) :
    ∀ (n y : Nat) (st st' : GameState) (position position' : Vector2),
      init_enemies_rows gs time x_offset x_start n y (st, position) = .ok (st', position') →
      grid_slots st' = grid_slots st + n * st.current_stage.enemy_column_count := by
  intro n
  induction n with
  | zero =>
    intro y st st' position position' h
    simp only [init_enemies_rows, Except.ok.injEq, Prod.mk.injEq] at h
    rw [h.1]
    simp
  | succ n ih =>
    intro y st st' position position' h
    unfold init_enemies_rows at h
    obtain ⟨⟨st1, p1⟩, h1, h⟩ := bind_eq_ok h
    have k1 := init_enemies_cells_slots _ _ _ _ _ _ _ _ _ _ h1
    dsimp only at k1
    have f1 := init_enemies_cells_sequence_fields _ _ _ _ _ _ _ _ _ _ h1
    have hs : st1.current_stage = st.current_stage := congrArg (fun t => t.2.2.1) f1
    have k2 := ih _ _ _ _ _ h
    dsimp only at k2
    rw [hs] at k2
    rw [k2, k1, Nat.succ_mul]
    omega

theorem init_enemies_slots (gs : GameSettings) (R : Rng) (time : ℚ) (st st' : GameState)
    (h : init_enemies gs R time st = .ok st') :
    slot_count st' = st'.current_stage.enemy_row_count * st'.current_stage.enemy_column_count := by
  have hf := init_enemies_sequence_fields _ _ _ _ _ h
  simp only [GameState.sequence_fields, Prod.mk.injEq] at hf
  obtain ⟨-, -, h3, -⟩ := hf
  rw [h3]
  unfold init_enemies at h
  by_cases hF : (st.enemies.get .FLYING).positions.length ≠ 0
  · simp [hF, throw, throwThe, MonadExceptOf.throw] at h
  by_cases hD : (st.enemies.get .DROPPER).positions.length ≠ 0
  · simp [hF, hD, throw, throwThe, MonadExceptOf.throw] at h
  by_cases hK : (st.enemies.get .KAMIKAZE).positions.length ≠ 0
  · simp [hF, hD, hK, throw, throwThe, MonadExceptOf.throw] at h
  push_neg at hF hD hK
  simp only [hF, hD, hK, ne_eq, not_true_eq_false, if_false, ite_false, pure_eq_ok, ok_bind] at h
  obtain ⟨⟨stR, posR⟩, hrows, hfin⟩ := bind_eq_ok h
  simp only [Except.ok.injEq] at hfin
  have hr := init_enemies_rows_slots _ _ _ _ _ _ _ _ _ _ hrows
  rw [← hfin]
  show grid_slots stR + 0 = _
  rw [hr, Nat.add_zero]
  show 0 + _ = _
  rw [Nat.zero_add]
  rfl

/-- C29: in every state reached from `game_state_reset` through new waves,
enemy removals (`remove_enemy`), kamikaze conversions and rearrangements, the
lengths of `enemy_slots[0]`, `enemy_slots[1]`, `enemy_slots[2]` and
`empty_slots` add up to `enemy_row_count * enemy_column_count` of the current
stage, which is the stage of the wave, as none of the three operations changes
it; each of the three operations permutes the slot positions (so it keeps their
multiset), and a rearrangement also keeps the length of `empty_slots`. -/
theorem grid_slots_conserved (gs : GameSettings) (R : Rng) (st : GameState)
    (h : Reachable gs R st) :
    slot_count st = st.current_stage.enemy_row_count * st.current_stage.enemy_column_count ∧
    (∀ delta_time st', enemy_rearrangement R delta_time st = .ok st' →
      st'.empty_slots.length = st.empty_slots.length ∧
      (all_slots st').Perm (all_slots st) ∧
      Multiset.ofList (all_slots st') = Multiset.ofList (all_slots st) ∧
      st'.current_stage = st.current_stage ∧ slot_count st' = slot_count st) ∧
    (∀ type_index index time st', remove_enemy st type_index index time = .ok st' →
      (all_slots st').Perm (all_slots st) ∧
      st'.current_stage = st.current_stage ∧ slot_count st' = slot_count st) ∧
    (∀ delta_time time st', enemy_kamikaze delta_time time st = .ok st' →
      (all_slots st').Perm (all_slots st) ∧
      st'.current_stage = st.current_stage ∧ slot_count st' = slot_count st) := by
  refine ⟨?_, ?_, ?_, ?_⟩
  · induction h with
    | reset time st st' h =>
      rw [game_state_reset_factors] at h
      obtain ⟨s, -, h⟩ := bind_eq_ok h
      obtain ⟨s', hi, h⟩ := bind_eq_ok h
      simp only [pure_eq_ok, Except.ok.injEq] at h
      subst h
      exact init_enemies_slots gs R time s s' hi
    | new_wave time st st' _ _ h _ =>
      exact init_enemies_slots gs R time _ st' h
    | removal type_index index time st st' _ h ih =>
      obtain ⟨hp, hs⟩ := remove_enemy_slots st st' type_index index time h
      rw [slot_count_eq_length, hp.length_eq, ← slot_count_eq_length, hs]
      exact ih
    | kamikaze delta_time time st st' _ h ih =>
      obtain ⟨hp, hs⟩ := enemy_kamikaze_slots delta_time time st st' h
      rw [slot_count_eq_length, hp.length_eq, ← slot_count_eq_length, hs]
      exact ih
    | rearrangement delta_time st st' _ h ih =>
      obtain ⟨hp, -, hs⟩ := enemy_rearrangement_slots R delta_time st st' h
      rw [slot_count_eq_length, hp.length_eq, ← slot_count_eq_length, hs]
      exact ih
  · intro delta_time st' h'
    obtain ⟨hp, hl, hs⟩ := enemy_rearrangement_slots R delta_time st st' h'
    refine ⟨hl, hp, Multiset.coe_eq_coe.mpr hp, hs, ?_⟩
    rw [slot_count_eq_length, hp.length_eq, ← slot_count_eq_length]
  · intro type_index index time st' h'
    obtain ⟨hp, hs⟩ := remove_enemy_slots st st' type_index index time h'
    refine ⟨hp, hs, ?_⟩
    rw [slot_count_eq_length, hp.length_eq, ← slot_count_eq_length]
  · intro delta_time time st' h'
    obtain ⟨hp, hs⟩ := enemy_kamikaze_slots delta_time time st st' h'
    refine ⟨hp, hs, ?_⟩
    rw [slot_count_eq_length, hp.length_eq, ← slot_count_eq_length]

theorem grid_slots_conserved_witness :
    slot_count converted_state = 4 ∧ converted_state.empty_slots = [⟨64, 75⟩] ∧
    (slot_count converted_state
        = converted_state.current_stage.enemy_row_count
          * converted_state.current_stage.enemy_column_count ∧
      (∀ delta_time st', enemy_rearrangement demo_rng delta_time converted_state = .ok st' →
        st'.empty_slots.length = converted_state.empty_slots.length ∧
        (all_slots st').Perm (all_slots converted_state) ∧
        Multiset.ofList (all_slots st') = Multiset.ofList (all_slots converted_state) ∧
        st'.current_stage = converted_state.current_stage ∧
        slot_count st' = slot_count converted_state) ∧
      (∀ type_index index time st',
        remove_enemy converted_state type_index index time = .ok st' →
        (all_slots st').Perm (all_slots converted_state) ∧
        st'.current_stage = converted_state.current_stage ∧
        slot_count st' = slot_count converted_state) ∧
      (∀ delta_time time st', enemy_kamikaze delta_time time converted_state = .ok st' →
        (all_slots st').Perm (all_slots converted_state) ∧
        st'.current_stage = converted_state.current_stage ∧
        slot_count st' = slot_count converted_state)) :=
  ⟨by decide!, by decide!,
    grid_slots_conserved wave_settings demo_rng converted_state
      (Reachable.kamikaze 2 1 reset_state converted_state
        (Reachable.reset 0 start_state reset_state (by decide!)) (by decide!))⟩

/-! ## The player bullets and the kill streak -/

/-- C26: evaluation of `game_state_reset` followed by five calls of
`game_state_update`.  The enemy shoots in each of the first four frames, which
leaves `player_lives` at 3; in the fifth frame the four bullets reach the
player in the same pass, each hit calls `damage_player`, and `player_lives` is
`-1`.  The loop that renders the lives then runs 4294967295 rounds. -/
theorem lives_below_zero_after_salvo :
    (match game_state_reset salvo_settings demo_rng 0 boot_state with
      | .ok s => some s.player_lives
      | .error _ => none) = some 3 ∧
    (match game_state_reset salvo_settings demo_rng 0 boot_state >>=
        run_frames salvo_settings demo_engine demo_rng (salvo_frames.take 4) with
      | .ok s => some (s.player_lives, s.enemy_bullets.positions.length)
      | .error _ => none) = some (3, 4) ∧
    (match game_state_reset salvo_settings demo_rng 0 boot_state >>=
        run_frames salvo_settings demo_engine demo_rng salvo_frames with
      | .ok s => some (s.player_lives, render_lives_count s)
      | .error _ => none) = some (-1, 4294967295) := by
  refine ⟨?_, ?_, ?_⟩ <;> decide!

/-! ## The targets of the kamikaze enemies -/

/-- C27: evaluation of `game_state_reset` followed by two calls of
`game_state_update` and a second reset.  After the first frame one enemy has
turned kamikaze and one target is stored; in the second frame that enemy hits
the player and is removed while the other enemy turns kamikaze, which leaves one
kamikaze enemy and two targets; the reset empties the pool and keeps both
targets. -/
theorem kamikaze_targets_outgrow_pool :
    (match game_state_reset dive_settings demo_rng 0 boot_state >>=
        run_frames dive_settings demo_engine demo_rng (dive_frames.take 1) with
      | .ok s => some (s.kamikaze_enemies.positions.length, s.kamikaze_targets.length)
      | .error _ => none) = some (1, 1) ∧
    (match game_state_reset dive_settings demo_rng 0 boot_state >>=
        run_frames dive_settings demo_engine demo_rng dive_frames with
      | .ok s => some (s.kamikaze_enemies.positions.length, s.kamikaze_targets.length,
          s.player_lives)
      | .error _ => none) = some (1, 2, 2) ∧
    (match (game_state_reset dive_settings demo_rng 0 boot_state >>=
        run_frames dive_settings demo_engine demo_rng dive_frames) >>=
          game_state_reset dive_settings demo_rng 2 with
      | .ok s => some (s.kamikaze_enemies.positions.length, s.kamikaze_targets.length)
      | .error _ => none) = some (0, 2) := by
  refine ⟨?_, ?_, ?_⟩ <;> decide!

end Invaders
